import Mathlib

/-!
# picoquic socket loop: a shallow embedding of `picoquic/sockloop.c`

The packet loops of `sockloop.c` are embedded as pure functions.  Every call
that leaves the file (the socket layer, the QUIC engine, the user loop
callback, the hash table, the pthread primitives) is represented by

* an *outcome* supplied by the environment (what the call returned), and
* an *event* appended to the trace of the run (the call and its arguments).

Machine integers are `Int`/`Nat`; the two unsigned types whose wrap-around is
visible (`uint16_t` ports, `uint64_t` times) are reduced explicitly.
-/

namespace Picoquic

/-! ## Constants and addresses -/

/-- The value of `INVALID_SOCKET` (line 86 of `sockloop.c`, the non-Windows branch). -/
def INVALID_SOCKET : Int := -1

/-- A `struct sockaddr_storage`.  `sin_port` and `sin6_port` sit at the same
byte offset of the two address layouts, so one `port` field (the raw 16-bit
value) serves both; `host` is the rest of the address. -/
structure SockAddr where
  ss_family : Int
  port : Nat
  host : List Nat
deriving DecidableEq

/-- Constants and pure helpers that `sockloop.c` takes from headers which are
not part of the sources (`sys/socket.h`, `picoquic.h`, `picoquic_packet_loop.h`,
`picosocks.h`).  They are parameters of the embedding. -/
structure Platform where
  AF_UNSPEC : Int
  AF_INET : Int
  AF_INET6 : Int
  PICOQUIC_PACKET_LOOP_SOCKETS_MAX : Int
  PICOQUIC_ERROR_UNEXPECTED_ERROR : Int
  PICOQUIC_NO_ERROR_TERMINATE_PACKET_LOOP : Int
  PICOQUIC_NO_ERROR_SIMULATE_NAT : Int
  PICOQUIC_NO_ERROR_SIMULATE_MIGRATION : Int
  /-- The function `picoquic_socket_error_implies_unreachable`. -/
  socket_error_implies_unreachable : Int → Bool
  /-- The address `picoquic_store_addr` stores for a given address. -/
  picoquic_store_addr : SockAddr → SockAddr
  /-- The text `picoquic_addr_text` renders for a given address. -/
  picoquic_addr_text : SockAddr → String

/-- One choice of the parameters, used for the concrete runs below: the address
families of Linux, four sockets at most, distinct positive codes, and an address
rendering that knows two peers. -/
def linux : Platform where
  AF_UNSPEC := 0
  AF_INET := 2
  AF_INET6 := 10
  PICOQUIC_PACKET_LOOP_SOCKETS_MAX := 4
  PICOQUIC_ERROR_UNEXPECTED_ERROR := 1058
  PICOQUIC_NO_ERROR_TERMINATE_PACKET_LOOP := 1075
  PICOQUIC_NO_ERROR_SIMULATE_NAT := 1076
  PICOQUIC_NO_ERROR_SIMULATE_MIGRATION := 1077
  socket_error_implies_unreachable := fun e => decide (e = 101 ∨ e = 113)
  picoquic_store_addr := fun a => a
  picoquic_addr_text := fun a =>
    if a.ss_family = 2 ∧ a.host = [10, 0, 0, 1] ∧ a.port = 5000 then "10.0.0.1:5000"
    else if a.ss_family = 2 ∧ a.host = [10, 0, 0, 2] ∧ a.port = 6000 then "10.0.0.2:6000"
    else "other"

/-! ## Data model -/

/-- Field `sin_port` of the address read as a `struct sockaddr_in`. -/
def SockAddr.sin_port (a : SockAddr) : Nat := a.port

/-- Field `sin6_port` of the address read as a `struct sockaddr_in6`. -/
def SockAddr.sin6_port (a : SockAddr) : Nat := a.port

/-- The part of a `picoquic_cnx_t` the loop reads: an identity and the two
addresses of `path[0]`. -/
structure Cnx where
  id : Nat
  path0_peer_addr : SockAddr
  path0_local_addr : SockAddr
deriving DecidableEq

/-- The three values of `picoquic_packet_loop_cb_enum` used by the loops. -/
inductive CbMode where
  | picoquic_packet_loop_ready
  | picoquic_packet_loop_after_receive
  | picoquic_packet_loop_after_send
deriving DecidableEq

/-- The contents of the shared datagram descriptor `trans_data_t` that the
master loop writes and the slave loop reads. -/
structure Slot where
  trans_bytes : Int
  trans_received_ecn : Nat
  trans_current_time : Nat
  trans_socket_rank : Int
  trans_if_index_to : Int
  trans_addr_to : SockAddr
  trans_addr_from : SockAddr
  trans_peer_addr : SockAddr
  trans_local_addr : SockAddr
  trans_sock_af : List Int
  trans_s_socket : List Int
  trans_nb_sockets : Nat
  trans_buffer : List Nat
deriving DecidableEq

/-- One call that leaves `sockloop.c`, with its arguments and (last) its result. -/
inductive Event where
  | get_quic_time (t : Nat)
  | socket (af : Int) (fd : Int)
  | set_ecn_options (fd af rc : Int)
  | set_pkt_info (fd af rc : Int)
  | bind_to_port (fd af port rc : Int)
  | close (fd : Int)
  | loop_callback (mode : CbMode) (rc : Int)
  | get_next_wake_delay (current_time : Nat) (delta_t : Int)
  | select_ex (sockets : List Int) (delta_t : Int) (bytes_recv : Int)
  | looped (nb_loops : Int) (loop_delta : Nat)
  | get_local_address (fd : Int) (rc : Int)
  | incoming_packet (buffer : List Nat) (length : Int) (addr_from addr_to : SockAddr)
      (if_index_to : Int) (received_ecn : Nat) (current_time : Nat) (rc : Int)
  | prepare_next_packet (loop_time : Nat) (rc : Int) (send_length : Nat)
  | send_through_socket (fd : Int) (peer_addr local_addr : SockAddr) (if_index : Int)
      (length : Nat) (sock_ret : Int)
  | log_could_not_send (cnx : Option Cnx) (sock_ret sock_err : Int)
  | notify_destination_unreachable (cnx : Cnx) (current_time : Nat)
      (peer_addr local_addr : SockAddr) (if_index : Int) (sock_err : Int)
  | log_could_not_create_socket (cnx : Cnx) (next_port : Nat) (af : Int) (sock_ret : Int)
  | probe_new_path (cnx : Cnx) (peer_addr local_addr : SockAddr) (current_time : Nat) (rc : Int)
  | clear_migration_flag
  | shallow_migrate
  | hashmap_put (key : String)
  | hashmap_get (key : String) (found : Bool)
  | mutex_lock
  | slot_write (slot : Slot)
  | cond_signal
  | mutex_unlock
  | cond_wait
  | migrate
deriving DecidableEq

/-- Write `v` at index `i` of a C array. -/
def setAt (a : Nat → Int) (i : Nat) (v : Int) : Nat → Int :=
  fun j => if j = i then v else a j

/-- What the socket layer answers for one socket: the descriptor returned by
`socket`, and the return codes `picoquic_socket_set_ecn_options`,
`picoquic_socket_set_pkt_info` and `picoquic_bind_to_port` give if they are called. -/
structure SocketOutcome where
  fd : Int
  ecn_rc : Int
  pkt_info_rc : Int
  bind_rc : Int
deriving DecidableEq

/-! ## `picoquic_packet_loop_open_sockets` (lines 102-144) -/

/-- The condition of line 126-129, evaluated left to right with the
short-circuit of `||` and `&&`: `true` when the socket could not be set up,
together with the calls that were made. -/
def open_one_socket (local_port : Int) (af : Int) (o : SocketOutcome) : Bool × List Event :=
  if o.fd = INVALID_SOCKET then
    (true, [Event.socket af o.fd])
  else if o.ecn_rc ≠ 0 then
    (true, [Event.socket af o.fd, Event.set_ecn_options o.fd af o.ecn_rc])
  else if o.pkt_info_rc ≠ 0 then
    (true, [Event.socket af o.fd, Event.set_ecn_options o.fd af o.ecn_rc,
            Event.set_pkt_info o.fd af o.pkt_info_rc])
  else if local_port ≠ 0 then
    (decide (o.bind_rc ≠ 0),
      [Event.socket af o.fd, Event.set_ecn_options o.fd af o.ecn_rc,
       Event.set_pkt_info o.fd af o.pkt_info_rc,
       Event.bind_to_port o.fd af local_port o.bind_rc])
  else
    (false, [Event.socket af o.fd, Event.set_ecn_options o.fd af o.ecn_rc,
             Event.set_pkt_info o.fd af o.pkt_info_rc])

/-- The roll-back loop of lines 132-137, `for (int j = 0; j < i; j++)`, with
`n` passes left.  As in the source the body tests and closes `s_socket[i]`,
the socket that just failed, on every pass. -/
def open_sockets_rollback (i : Nat) : Nat → (Nat → Int) → (Nat → Int) × List Event
  | 0, s => (s, [])
  | n + 1, s =>
    if s i ≠ INVALID_SOCKET then
      let r := open_sockets_rollback i n (setAt s i INVALID_SOCKET)
      (r.1, Event.close (s i) :: r.2)
    else
      open_sockets_rollback i n s

/-- The result of `picoquic_packet_loop_open_sockets`: its return value, the two
arrays as it leaves them, and the calls it made. -/
structure OpenResult where
  nb_sockets : Nat
  s_socket : Nat → Int
  sock_af : Nat → Int
  events : List Event

/-- The loop of lines 122-141, `for (int i = 0; i < nb_sockets; i++)`, at index
`i` with `n = nb_sockets - i` passes left. -/
def open_sockets_loop (local_port : Int) (sock_af : Nat → Int) (outs : Nat → SocketOutcome)
    (nb_sockets : Nat) : Nat → Nat → (Nat → Int) → Nat × (Nat → Int) × List Event
  | 0, _, s => (nb_sockets, s, [])
  | n + 1, i, s =>
    let s1 := setAt s i (outs i).fd
    let r := open_one_socket local_port (sock_af i) (outs i)
    if r.1 then
      let rb := open_sockets_rollback i i s1
      (0, rb.1, r.2 ++ rb.2)
    else
      let rest := open_sockets_loop local_port sock_af outs nb_sockets n (i + 1) s1
      (rest.1, rest.2.1, r.2 ++ rest.2.2)

/-- The function `picoquic_packet_loop_open_sockets`.  `outs i` is what the
socket layer answers for the socket of index `i`. -/
def picoquic_packet_loop_open_sockets (c : Platform) (local_port : Int) (local_af : Int)
    (s_socket : Nat → Int) (sock_af : Nat → Int) (nb_sockets_max : Int)
    (outs : Nat → SocketOutcome) : OpenResult :=
  let nb0 : Nat := if local_af = c.AF_UNSPEC then 2 else 1
  let r : Nat × (Nat → Int) :=
    if (nb0 : Int) > nb_sockets_max then (0, sock_af)
    else if local_af = c.AF_UNSPEC then (nb0, setAt (setAt sock_af 0 c.AF_INET) 1 c.AF_INET6)
    else if local_af = c.AF_INET ∨ local_af = c.AF_INET6 then (nb0, setAt sock_af 0 local_af)
    else (0, sock_af)
  let l := open_sockets_loop local_port r.2 outs r.1 r.1 0 s_socket
  { nb_sockets := l.1, s_socket := l.2.1, sock_af := r.2, events := l.2.2 }

/-! ## `picoquic_packet_loop` (lines 146-406) -/

/-- The local variables of `picoquic_packet_loop` that live across iterations. -/
structure LoopState where
  ret : Int
  current_time : Nat
  loop_count_time : Nat
  nb_loops : Int
  s_socket : Nat → Int
  sock_af : Nat → Int
  nb_sockets : Nat
  socket_port : Nat
  testing_migration : Bool
  next_port : Nat
  last_cnx : Option Cnx

/-- What `picoquic_select_ex` returns and writes through its pointers. -/
structure SelectOutcome where
  bytes_recv : Int
  addr_from : SockAddr
  addr_to : SockAddr
  if_index_to : Int
  received_ecn : Nat
  buffer : List Nat
  socket_rank : Int
  current_time : Nat
deriving DecidableEq

/-- What one pass of the send drain meets: the result of
`picoquic_prepare_next_packet` with the values it writes through its pointers,
and what `picoquic_send_through_socket` answers if the datagram is sent. -/
structure PrepareOutcome where
  rc : Int
  send_length : Nat
  peer_addr : SockAddr
  local_addr : SockAddr
  if_index : Int
  last_cnx : Option Cnx
  sock_ret : Int
  sock_err : Int
deriving DecidableEq

/-- What the environment answers during one iteration of the outer loop; each
field is the answer of one call, used only if the iteration makes that call. -/
structure IterOutcome where
  delta_t : Int
  sel : SelectOutcome
  local_address_rc : Int
  local_address : SockAddr
  incoming_rc : Int
  after_receive_rc : Int
  prepares : List PrepareOutcome
  after_send_rc : Int
  mig : SocketOutcome
  probe_rc : Int

/-- The sockets handed to `picoquic_select_ex`: the first `nb_sockets` entries. -/
def LoopState.sockets (st : LoopState) : List Int :=
  (List.range st.nb_sockets).map st.s_socket

/-- Difference of two `uint64_t` values. -/
def sub_u64 (a b : Nat) : Nat := (a % 2 ^ 64 + 2 ^ 64 - b % 2 ^ 64) % 2 ^ 64

/-- Lines 189-212: ask the engine for the wake delay, wait on the sockets,
count the iteration and emit the diagnostic of every 100th one. -/
def wait_step (st : LoopState) (o : IterOutcome) : LoopState × List Event :=
  let evs := [Event.get_next_wake_delay st.current_time o.delta_t,
              Event.select_ex st.sockets o.delta_t o.sel.bytes_recv]
  let st1 := { st with current_time := o.sel.current_time, nb_loops := st.nb_loops + 1 }
  if st1.nb_loops ≥ 100 then
    ({ st1 with loop_count_time := st1.current_time, nb_loops := 0 },
      evs ++ [Event.looped st1.nb_loops (sub_u64 st1.current_time st1.loop_count_time)])
  else
    (st1, evs)

/-- Lines 223-236: track the local port value if not known yet. -/
def learn_port (c : Platform) (st : LoopState) (o : IterOutcome) : LoopState × List Event :=
  if st.socket_port = 0 ∧ st.nb_sockets = 1 then
    let ev := [Event.get_local_address (st.s_socket 0) o.local_address_rc]
    if o.local_address_rc ≠ 0 then (st, ev)
    else if o.sel.addr_to.ss_family = c.AF_INET6 then
      ({ st with socket_port := o.local_address.sin6_port }, ev)
    else if o.sel.addr_to.ss_family = c.AF_INET then
      ({ st with socket_port := o.local_address.sin_port }, ev)
    else (st, ev)
  else (st, [])

/-- Lines 219 and 235-244: the value of `current_recv_port` once the local
port has been tracked (`st` is the state after `learn_port`). -/
def current_recv_port (st : LoopState) (socket_rank : Int) : Nat :=
  if st.testing_migration then
    if socket_rank = 0 then st.socket_port else st.next_port
  else st.socket_port

/-- Lines 246-251: document the incoming port in `addr_to`. -/
def document_port (c : Platform) (addr_to : SockAddr) (port : Nat) : SockAddr :=
  if addr_to.ss_family = c.AF_INET6 then { addr_to with port := port }
  else if addr_to.ss_family = c.AF_INET then { addr_to with port := port }
  else addr_to

/-- Lines 221-262, the block `if (bytes_recv > 0)`: the result of
`picoquic_incoming_packet` is discarded. -/
def receive_step (c : Platform) (cb : Bool) (st : LoopState) (o : IterOutcome) :
    LoopState × List Event :=
  let l := learn_port c st o
  let st1 := l.1
  let addr_to := document_port c o.sel.addr_to (current_recv_port st1 o.sel.socket_rank)
  let ev := Event.incoming_packet o.sel.buffer o.sel.bytes_recv o.sel.addr_from addr_to
              o.sel.if_index_to o.sel.received_ecn st1.current_time o.incoming_rc
  if cb then
    ({ st1 with ret := o.after_receive_rc },
      l.2 ++ [ev, Event.loop_callback CbMode.picoquic_packet_loop_after_receive o.after_receive_rc])
  else
    (st1, l.2 ++ [ev])

/-- Lines 289-294: the scan `for (int i = 0; i < nb_sockets; i++)` for the
first socket whose family is `family`, over the indices still to visit. -/
def scan_send_socket (s_socket sock_af : Nat → Int) (family : Int) : List Nat → Int
  | [] => INVALID_SOCKET
  | i :: rest =>
    if sock_af i = family then s_socket i else scan_send_socket s_socket sock_af family rest

/-- Lines 301-310: the socket the datagram is sent through once the scan has
found `send_socket`. -/
def migration_send_socket (c : Platform) (st : LoopState) (local_addr : SockAddr)
    (send_socket : Int) : Int :=
  if st.testing_migration then
    let send_port := if local_addr.ss_family = c.AF_INET then local_addr.sin_port
                     else local_addr.sin6_port
    if send_port = st.next_port then st.s_socket (st.nb_sockets - 1) else send_socket
  else send_socket

/-- Lines 317-332: what follows a send result `sock_ret <= 0`. -/
def send_failure_events (c : Platform) (st : LoopState) (p : PrepareOutcome)
    (sock_ret sock_err : Int) : List Event :=
  if sock_ret ≤ 0 then
    match st.last_cnx with
    | none => [Event.log_could_not_send none sock_ret sock_err]
    | some cnx =>
      if c.socket_error_implies_unreachable sock_err then
        [Event.log_could_not_send (some cnx) sock_ret sock_err,
         Event.notify_destination_unreachable cnx st.current_time p.peer_addr p.local_addr
           p.if_index sock_err]
      else [Event.log_could_not_send (some cnx) sock_ret sock_err]
  else []

/-- Lines 286-332: transmit one prepared datagram; gives the calls made. -/
def send_step (c : Platform) (st : LoopState) (p : PrepareOutcome) : List Event :=
  let send_socket := scan_send_socket st.s_socket st.sock_af p.peer_addr.ss_family
                       (List.range st.nb_sockets)
  if send_socket = INVALID_SOCKET then
    send_failure_events c st p (-1) (-1)
  else
    Event.send_through_socket (migration_send_socket c st p.local_addr send_socket)
        p.peer_addr p.local_addr p.if_index p.send_length p.sock_ret
      :: send_failure_events c st p p.sock_ret p.sock_err

/-- Lines 273-275: `picoquic_prepare_next_packet` sets `ret` and `last_cnx`. -/
def after_prepare (st : LoopState) (p : PrepareOutcome) : LoopState :=
  { st with ret := p.rc, last_cnx := p.last_cnx }

/-- Lines 286-287: a prepared datagram resets the loop counters. -/
def reset_loop_count (st : LoopState) : LoopState :=
  { st with loop_count_time := st.current_time, nb_loops := 0 }

/-- Lines 264-337, the send drain `while (ret == 0)`, over the answers the
engine gives to the successive calls of `picoquic_prepare_next_packet`.  The
result is `none` when the answers run out while the drain would go on. -/
def send_drain (c : Platform) (st : LoopState) : List PrepareOutcome → Option LoopState × List Event
  | [] => if st.ret = 0 then (none, []) else (some st, [])
  | p :: ps =>
    if st.ret = 0 then
      let ev := Event.prepare_next_packet st.current_time p.rc p.send_length
      if p.rc = 0 ∧ p.send_length > 0 then
        let st2 := reset_loop_count (after_prepare st p)
        let r := send_drain c st2 ps
        (r.1, ev :: (send_step c st2 p ++ r.2))
      else (some (after_prepare st p), [ev])
    else (some st, [])

/-- Lines 339-341: the callback after the drain. -/
def after_send_step (cb : Bool) (st : LoopState) (o : IterOutcome) : LoopState × List Event :=
  if st.ret = 0 ∧ cb = true then
    ({ st with ret := o.after_send_rc },
      [Event.loop_callback CbMode.picoquic_packet_loop_after_send o.after_send_rc])
  else (st, [])

/-- Lines 344-389: the two pseudo error codes used for testing migration.
`s_mig` starts as `INVALID_SOCKET`; `s_mig_af` is written by the open before
it is read. -/
def simulate_step (c : Platform) (st : LoopState) (o : IterOutcome) : LoopState × List Event :=
  if st.ret = c.PICOQUIC_NO_ERROR_SIMULATE_NAT ∨ st.ret = c.PICOQUIC_NO_ERROR_SIMULATE_MIGRATION then
    let testing_nat : Bool := decide (st.ret = c.PICOQUIC_NO_ERROR_SIMULATE_NAT)
    let next_port : Nat := if testing_nat then 0 else (st.socket_port + 1) % 65536
    let st1 := { st with next_port := next_port }
    let r := picoquic_packet_loop_open_sockets c next_port (st.sock_af 0)
               (fun _ => INVALID_SOCKET) (fun _ => 0) 1 (fun _ => o.mig)
    let s_mig := r.s_socket 0
    if r.nb_sockets ≠ 1 ∨ s_mig = INVALID_SOCKET then
      match st.last_cnx with
      | some cnx =>
        (st1, r.events ++ [Event.log_could_not_create_socket cnx next_port (st.sock_af 0)
                             r.nb_sockets])
      | none => (st1, r.events)
    else if testing_nat then
      ({ st1 with s_socket := setAt st.s_socket 0 s_mig, ret := 0 },
        r.events ++ (if st.s_socket 0 ≠ INVALID_SOCKET then [Event.close (st.s_socket 0)] else []))
    else
      match st.last_cnx with
      | some cnx =>
        if (st.nb_sockets : Int) < c.PICOQUIC_PACKET_LOOP_SOCKETS_MAX then
          let stored := c.picoquic_store_addr cnx.path0_local_addr
          let local_address :=
            if stored.ss_family = c.AF_INET6 then { stored with port := next_port }
            else if stored.ss_family = c.AF_INET then { stored with port := next_port }
            else stored
          ({ st1 with s_socket := setAt st.s_socket st.nb_sockets s_mig,
                      nb_sockets := st.nb_sockets + 1,
                      testing_migration := true,
                      ret := o.probe_rc },
            r.events ++ [Event.probe_new_path cnx cnx.path0_peer_addr local_address
                           st.current_time o.probe_rc])
        else (st1, r.events ++ [Event.close s_mig])
      | none => (st1, r.events ++ [Event.close s_mig])
  else (st, [])

/-- One iteration of the outer loop `while (ret == 0)` (lines 188-390), entered
with `ret = 0`.  The state is `none` when the answers to the send drain ran out. -/
def loop_iteration (c : Platform) (cb : Bool) (st : LoopState) (o : IterOutcome) :
    Option LoopState × List Event :=
  let w := wait_step st o
  if o.sel.bytes_recv < 0 then
    let s := simulate_step c { w.1 with ret := -1 } o
    (some s.1, w.2 ++ s.2)
  else
    let rcv := if o.sel.bytes_recv > 0 then receive_step c cb w.1 o else (w.1, [])
    let d := send_drain c rcv.1 o.prepares
    match d.1 with
    | none => (none, w.2 ++ rcv.2 ++ d.2)
    | some st3 =>
      let a := after_send_step cb st3 o
      let s := simulate_step c a.1 o
      (some s.1, w.2 ++ rcv.2 ++ d.2 ++ a.2 ++ s.2)

/-- The outer loop `while (ret == 0)` over the answers of the successive
iterations.  The state is `none` when the answers run out while the loop
would go on. -/
def packet_loop_run (c : Platform) (cb : Bool) :
    List IterOutcome → LoopState → Option LoopState × List Event
  | [], st => if st.ret = 0 then (none, []) else (some st, [])
  | o :: os, st =>
    if st.ret = 0 then
      let r := loop_iteration c cb st o
      match r.1 with
      | none => (none, r.2)
      | some st1 =>
        let rest := packet_loop_run c cb os st1
        (rest.1, r.2 ++ rest.2)
    else (some st, [])

/-- Lines 398-403: close the sockets, over the indices still to visit. -/
def close_sockets (s_socket : Nat → Int) : List Nat → List Event
  | [] => []
  | i :: rest =>
    if s_socket i ≠ INVALID_SOCKET then Event.close (s_socket i) :: close_sockets s_socket rest
    else close_sockets s_socket rest

/-- Everything outside `picoquic_packet_loop` that a run depends on. -/
structure World where
  /-- Value of `picoquic_get_quic_time(quic)` at entry. -/
  quic_time : Nat
  /-- Contents of the array `s_socket` at entry (it has no initialiser). -/
  s_socket_init : Nat → Int
  /-- Answers of the socket layer to the start-up open. -/
  open_outs : Nat → SocketOutcome
  /-- Return value of the `picoquic_packet_loop_ready` callback. -/
  ready_rc : Int
  /-- Answers met by the successive iterations. -/
  iters : List IterOutcome

/-- The outcome of a run: the calls made, in order, and the value returned
(`none` when the run is still looping once the answers of `World.iters` are used up). -/
structure LoopResult where
  events : List Event
  ret : Option Int

/-- Lines 153-184: the state in which the outer loop is entered, and the calls
made by then.  `loop_callback != NULL` is the flag `cb`. -/
def loop_start (c : Platform) (w : World) (local_port local_af : Int) (cb : Bool) :
    LoopState × List Event :=
  let r := picoquic_packet_loop_open_sockets c local_port local_af w.s_socket_init
             (fun _ => 0) c.PICOQUIC_PACKET_LOOP_SOCKETS_MAX w.open_outs
  let st : LoopState :=
    { ret := 0, current_time := w.quic_time, loop_count_time := w.quic_time, nb_loops := 0,
      s_socket := r.s_socket, sock_af := r.sock_af, nb_sockets := r.nb_sockets,
      socket_port := (local_port % 65536).toNat, testing_migration := false, next_port := 0,
      last_cnx := none }
  if r.nb_sockets = 0 then
    ({ st with ret := c.PICOQUIC_ERROR_UNEXPECTED_ERROR },
      Event.get_quic_time w.quic_time :: r.events)
  else if cb then
    ({ st with ret := w.ready_rc },
      Event.get_quic_time w.quic_time :: r.events ++
        [Event.loop_callback CbMode.picoquic_packet_loop_ready w.ready_rc])
  else (st, Event.get_quic_time w.quic_time :: r.events)

/-- Lines 392-405: normalise the termination code, close the sockets, return. -/
def loop_finish (c : Platform) (st : LoopState) : Int × List Event :=
  (if st.ret = c.PICOQUIC_NO_ERROR_TERMINATE_PACKET_LOOP then 0 else st.ret,
    close_sockets st.s_socket (List.range st.nb_sockets))

/-- The function `picoquic_packet_loop`.  `dest_if` only seeds `if_index`, which
`picoquic_prepare_next_packet` overwrites (`PrepareOutcome.if_index`). -/
def picoquic_packet_loop (c : Platform) (w : World) (local_port local_af : Int) (cb : Bool) :
    LoopResult :=
  let s := loop_start c w local_port local_af cb
  let r := packet_loop_run c cb w.iters s.1
  match r.1 with
  | none => { events := s.2 ++ r.2, ret := none }
  | some st =>
    let f := loop_finish c st
    { events := s.2 ++ r.2 ++ f.2, ret := some f.1 }

/-! ## `picoquic_packet_loop_with_migration_master` (lines 425-803) -/

/-- The two fields of `sample_server_migration_ctx_t` the loops know of. -/
structure MigrationCtx where
  migration_flag : Int
  server_flag : Int
deriving DecidableEq

/-- What the master loop sees through `quic->cnx_list`: the first connection of
the primary engine and its `callback_ctx` (`none` for `NULL`). -/
structure CnxView where
  cnx : Cnx
  callback_ctx : Option MigrationCtx
deriving DecidableEq

/-- Modelled from the spec: the ownership table `cnx_id_table` (`hashmap.h` is
not part of the sources) is a mapping from a peer-endpoint text key to a
sentinel value; only the set of its keys matters.  `hashmap_put` adds a key. -/
def hashmap_put (table : List String) (key : String) : List String :=
  if key ∈ table then table else key :: table

/-- Modelled from the spec: `hashmap_get` finds an element exactly for the keys
of the table (see `hashmap_put`). -/
def hashmap_get (table : List String) (key : String) : Bool :=
  decide (key ∈ table)

/-- The variables of `picoquic_packet_loop_with_migration_master` that live
across iterations: those of `picoquic_packet_loop`, the two addresses
`peer_addr` and `local_addr` (declared at function level here), and what the
pointer arguments point to: the table (`none` for `NULL`), the shared
descriptor and `*trans_flag`. -/
structure MasterState where
  loop : LoopState
  peer_addr : SockAddr
  local_addr : SockAddr
  cnx_id_table : Option (List String)
  slot : Slot
  trans_flag : Int

/-- What the environment answers during one iteration of the master loop.
`key_garbage` is the content of the array `key` of line 564, which is
declared without initialiser inside the receive block: unless the migration
trigger fires in the iteration nothing is written to it before the lookup of
line 611. -/
structure MasterOutcome where
  it : IterOutcome
  cnx_list : Option CnxView
  key_garbage : String

/-- Lines 564-590: the migration trigger.  Gives the state, the content of
`key` afterwards, and the calls made. -/
def migration_trigger (c : Platform) (m : MasterState) (o : MasterOutcome) :
    MasterState × String × List Event :=
  match o.cnx_list with
  | none => (m, o.key_garbage, [])
  | some v =>
    match v.callback_ctx with
    | none => (m, o.key_garbage, [])
    | some ctx =>
      if ctx.migration_flag ≠ 0 then
        let key := c.picoquic_addr_text v.cnx.path0_peer_addr
        match m.cnx_id_table with
        | some t =>
          ({ m with cnx_id_table := some (hashmap_put t key), trans_flag := 1 }, key,
            [Event.clear_migration_flag, Event.shallow_migrate, Event.hashmap_put key])
        | none =>
          ({ m with trans_flag := 1 }, key, [Event.clear_migration_flag, Event.shallow_migrate])
      else (m, o.key_garbage, [])

/-- Lines 615-628: the descriptor written to the shared slot. -/
def handoff_descriptor (c : Platform) (m : MasterState) (o : MasterOutcome) (addr_to : SockAddr) :
    Slot :=
  { trans_bytes := o.it.sel.bytes_recv,
    trans_received_ecn := o.it.sel.received_ecn,
    trans_current_time := m.loop.current_time,
    trans_socket_rank := o.it.sel.socket_rank,
    trans_if_index_to := o.it.sel.if_index_to,
    trans_addr_to := addr_to,
    trans_addr_from := o.it.sel.addr_from,
    trans_peer_addr := m.peer_addr,
    trans_local_addr := m.local_addr,
    trans_sock_af := (List.range c.PICOQUIC_PACKET_LOOP_SOCKETS_MAX.toNat).map m.loop.sock_af,
    trans_s_socket := (List.range c.PICOQUIC_PACKET_LOOP_SOCKETS_MAX.toNat).map m.loop.s_socket,
    trans_nb_sockets := m.loop.nb_sockets,
    trans_buffer := o.it.sel.buffer }

/-- How the receive block of the master loop (lines 528-655) ends. -/
inductive ReceiveEnd where
  /-- The lookup hit: the datagram was handed off and the loop executes `continue`. -/
  | handed_off
  /-- The lookup missed: the datagram went to `picoquic_incoming_packet`. -/
  | submitted
  /-- The table pointer is `NULL` at the lookup of line 611; not described further. -/
  | null_table
deriving DecidableEq

/-- Lines 528-655, the block `if (bytes_recv > 0)` of the master loop. -/
def master_receive_step (c : Platform) (cb : Bool) (m : MasterState) (o : MasterOutcome) :
    MasterState × ReceiveEnd × List Event :=
  let l := learn_port c m.loop o.it
  let addr_to := document_port c o.it.sel.addr_to (current_recv_port l.1 o.it.sel.socket_rank)
  let m1 := { m with loop := l.1 }
  let t := migration_trigger c m1 o
  let m2 := t.1
  let key := t.2.1
  match m2.cnx_id_table with
  | none => (m2, ReceiveEnd.null_table, l.2 ++ t.2.2)
  | some table =>
    if hashmap_get table key then
      let d := handoff_descriptor c m2 o addr_to
      ({ m2 with slot := d }, ReceiveEnd.handed_off,
        l.2 ++ t.2.2 ++ [Event.hashmap_get key true, Event.mutex_lock, Event.slot_write d,
                          Event.cond_signal, Event.mutex_unlock])
    else
      let ev := Event.incoming_packet o.it.sel.buffer o.it.sel.bytes_recv o.it.sel.addr_from
                  addr_to o.it.sel.if_index_to o.it.sel.received_ecn m2.loop.current_time
                  o.it.incoming_rc
      if cb then
        ({ m2 with loop := { m2.loop with ret := o.it.after_receive_rc } }, ReceiveEnd.submitted,
          l.2 ++ t.2.2 ++ [Event.hashmap_get key false, ev,
            Event.loop_callback CbMode.picoquic_packet_loop_after_receive o.it.after_receive_rc])
      else
        ({ m2 with loop := { m2.loop with ret := o.it.incoming_rc } }, ReceiveEnd.submitted,
          l.2 ++ t.2.2 ++ [Event.hashmap_get key false, ev])

/-- The values `peer_addr` and `local_addr` hold after the send drain: those
written by the last call of `picoquic_prepare_next_packet` the drain made. -/
def drain_addrs : Int → SockAddr × SockAddr → List PrepareOutcome → SockAddr × SockAddr
  | _, a, [] => a
  | ret, a, p :: ps =>
    if ret = 0 then
      if p.rc = 0 ∧ p.send_length > 0 then drain_addrs 0 (p.peer_addr, p.local_addr) ps
      else (p.peer_addr, p.local_addr)
    else a

/-- Lines 657-786 of the master loop: the send drain, the callback after it and
the migration-test block, which repeat lines 264-389 of `picoquic_packet_loop`. -/
def master_send_part (c : Platform) (cb : Bool) (m : MasterState) (o : MasterOutcome) :
    Option MasterState × List Event :=
  let d := send_drain c m.loop o.it.prepares
  let a := drain_addrs m.loop.ret (m.peer_addr, m.local_addr) o.it.prepares
  match d.1 with
  | none => (none, d.2)
  | some st3 =>
    let af := after_send_step cb st3 o.it
    let s := simulate_step c af.1 o.it
    (some { m with loop := s.1, peer_addr := a.1, local_addr := a.2 }, d.2 ++ af.2 ++ s.2)

/-- One iteration of the outer loop of the master (lines 494-787), entered with
`ret = 0`.  The state is `none` when the run is not described further: the
answers to the send drain ran out, or the table is `NULL` at line 611. -/
def master_iteration (c : Platform) (cb : Bool) (m : MasterState) (o : MasterOutcome) :
    Option MasterState × List Event :=
  let w := wait_step m.loop o.it
  let m1 := { m with loop := w.1 }
  if o.it.sel.bytes_recv < 0 then
    let s := simulate_step c { w.1 with ret := -1 } o.it
    (some { m1 with loop := s.1 }, w.2 ++ s.2)
  else if o.it.sel.bytes_recv > 0 then
    let r := master_receive_step c cb m1 o
    match r.2.1 with
    | ReceiveEnd.null_table => (none, w.2 ++ r.2.2)
    | ReceiveEnd.handed_off => (some r.1, w.2 ++ r.2.2)
    | ReceiveEnd.submitted =>
      let p := master_send_part c cb r.1 o
      (p.1, w.2 ++ r.2.2 ++ p.2)
  else
    let p := master_send_part c cb m1 o
    (p.1, w.2 ++ p.2)

/-- The outer loop of the master over the answers of the successive iterations. -/
def master_loop_run (c : Platform) (cb : Bool) :
    List MasterOutcome → MasterState → Option MasterState × List Event
  | [], m => if m.loop.ret = 0 then (none, []) else (some m, [])
  | o :: os, m =>
    if m.loop.ret = 0 then
      let r := master_iteration c cb m o
      match r.1 with
      | none => (none, r.2)
      | some m1 =>
        let rest := master_loop_run c cb os m1
        (rest.1, r.2 ++ rest.2)
    else (some m, [])

/-- Everything outside `picoquic_packet_loop_with_migration_master` that a run
depends on: as `World`, with the contents `peer_addr` and `local_addr` have at
entry (they have no initialiser) and the answers met by the iterations. -/
structure MasterWorld where
  quic_time : Nat
  s_socket_init : Nat → Int
  open_outs : Nat → SocketOutcome
  ready_rc : Int
  peer_addr_init : SockAddr
  local_addr_init : SockAddr
  iters : List MasterOutcome

/-- The part of a `MasterWorld` that the start-up (lines 459-490, the same as lines
153-184 of `picoquic_packet_loop`) depends on. -/
def MasterWorld.start (w : MasterWorld) : World :=
  { quic_time := w.quic_time, s_socket_init := w.s_socket_init, open_outs := w.open_outs,
    ready_rc := w.ready_rc, iters := [] }

/-- The function `picoquic_packet_loop_with_migration_master`, called with the
table `cnx_id_table` (`none` for `NULL`), the shared descriptor holding `slot`
and `*trans_flag = trans_flag`. -/
def picoquic_packet_loop_with_migration_master (c : Platform) (w : MasterWorld)
    (cnx_id_table : Option (List String)) (slot : Slot) (trans_flag : Int)
    (local_port local_af : Int) (cb : Bool) : LoopResult :=
  let s := loop_start c w.start local_port local_af cb
  let r := master_loop_run c cb w.iters
    { loop := s.1, peer_addr := w.peer_addr_init, local_addr := w.local_addr_init,
      cnx_id_table := cnx_id_table, slot := slot, trans_flag := trans_flag }
  match r.1 with
  | none => { events := s.2 ++ r.2, ret := none }
  | some m =>
    let f := loop_finish c m.loop
    { events := s.2 ++ r.2 ++ f.2, ret := some f.1 }

/-! ## Reading a trace -/

/-- The descriptors still open after a trace: `socket` adds the descriptor it
returned (unless it failed), `close` removes it. -/
def open_after : List Int → List Event → List Int
  | acc, [] => acc
  | acc, Event.socket _ fd :: es =>
    if fd = INVALID_SOCKET then open_after acc es else open_after (acc ++ [fd]) es
  | acc, Event.close fd :: es => open_after (acc.erase fd) es
  | acc, _ :: es => open_after acc es

/-- Number of sockets successfully created in a trace. -/
def nb_created (t : List Event) : Nat :=
  (t.filter (fun e => match e with
    | Event.socket _ fd => decide (fd ≠ INVALID_SOCKET)
    | _ => false)).length

/-- Number of `SOCKET_CLOSE` calls in a trace. -/
def nb_closed (t : List Event) : Nat :=
  (t.filter (fun e => match e with
    | Event.close _ => true
    | _ => false)).length

/-- The binds attempted in a trace: descriptor and port of each call of
`picoquic_bind_to_port`, in order. -/
def bind_attempts (t : List Event) : List (Int × Int) :=
  t.filterMap (fun e => match e with
    | Event.bind_to_port fd _ port _ => some (fd, port)
    | _ => none)

/-- The value an event makes the loops assign to `ret`, if any: `-1` after a
negative byte count from the waiter, the return code of the loop callback, of
`picoquic_prepare_next_packet` and of `picoquic_probe_new_path`. -/
def Event.assigned_ret : Event → Option Int
  | Event.select_ex _ _ bytes_recv => if bytes_recv < 0 then some (-1) else none
  | Event.loop_callback _ rc => some rc
  | Event.prepare_next_packet _ rc _ => some rc
  | Event.probe_new_path _ _ _ _ rc => some rc
  | _ => none

/-- The last event, of `acc` and then of a trace, that assigned `ret`. -/
def ending_from (acc : Option Event) (t : List Event) : Option Event :=
  t.foldl (fun a e => if e.assigned_ret.isSome then some e else a) acc

/-- The event that ends the loop of a finished run: the last one that
assigned `ret`. -/
def ending_event (t : List Event) : Option Event := ending_from none t

/-- Whether the event is the loop callback called with `picoquic_packet_loop_ready`. -/
def Event.is_ready : Event → Bool
  | Event.loop_callback CbMode.picoquic_packet_loop_ready _ => true
  | _ => false

/-- Whether the event is a wait on the sockets or a call of the QUIC engine
(the interface the loop drives: `next_wake_delay`, `incoming_packet`,
`prepare_next_packet`, `probe_new_path`, `notify_destination_unreachable`). -/
def Event.is_wait_or_engine : Event → Bool
  | Event.select_ex _ _ _ => true
  | Event.get_next_wake_delay _ _ => true
  | Event.incoming_packet _ _ _ _ _ _ _ _ => true
  | Event.prepare_next_packet _ _ _ => true
  | Event.probe_new_path _ _ _ _ _ => true
  | Event.notify_destination_unreachable _ _ _ _ _ _ => true
  | _ => false

/-- Whether the event is a call of `SOCKET_CLOSE`. -/
def Event.is_close : Event → Bool
  | Event.close _ => true
  | _ => false

/-- Whether the event is a call of the socket layer that sets up or closes a socket. -/
def Event.is_socket_setup : Event → Bool
  | Event.socket _ _ => true
  | Event.set_ecn_options _ _ _ => true
  | Event.set_pkt_info _ _ _ => true
  | Event.bind_to_port _ _ _ _ => true
  | Event.close _ => true
  | _ => false

/-- The value of `ret` is accounted for by the trace read so far: it is 0, or it
is what the last event that assigned `ret` gave it. -/
def RetTracked (acc : Option Event) (ret : Int) : Prop :=
  ret = 0 ∨ ∃ e, acc = some e ∧ e.assigned_ret = some ret

/-- The calls of `picoquic_prepare_next_packet` in a trace: return code and
`send_length` of each, in order. -/
def prepare_calls (t : List Event) : List (Int × Nat) :=
  t.filterMap (fun e => match e with
    | Event.prepare_next_packet _ rc n => some (rc, n)
    | _ => none)

/-- Whether the event is a call of `picoquic_send_through_socket`. -/
def Event.is_send : Event → Bool
  | Event.send_through_socket _ _ _ _ _ _ => true
  | _ => false

/-- Whether the event is a call of `picoquic_incoming_packet`. -/
def Event.is_incoming : Event → Bool
  | Event.incoming_packet _ _ _ _ _ _ _ _ => true
  | _ => false

/-- Whether the event writes the shared slot or signals the condition variable. -/
def Event.is_handoff : Event → Bool
  | Event.slot_write _ => true
  | Event.cond_signal => true
  | _ => false

/-- Whether the event belongs to local processing of a datagram: the
engine's `incoming_packet`, the loop callback, or a call of the send drain. -/
def Event.is_local_processing : Event → Bool
  | Event.incoming_packet _ _ _ _ _ _ _ _ => true
  | Event.loop_callback _ _ => true
  | Event.prepare_next_packet _ _ _ => true
  | Event.send_through_socket _ _ _ _ _ _ => true
  | _ => false

/-! ## The migration-test block, read apart -/

/-- Line 354: the value given to `next_port` when `ret` is one of the two pseudo codes. -/
def aux_port (c : Platform) (st : LoopState) : Nat :=
  if st.ret = c.PICOQUIC_NO_ERROR_SIMULATE_NAT then 0 else (st.socket_port + 1) % 65536

/-- Line 355: the open of the auxiliary socket
`picoquic_packet_loop_open_sockets(next_port, sock_af[0], &s_mig, &s_mig_af, 1)`. -/
def aux_open (c : Platform) (st : LoopState) (o : IterOutcome) : OpenResult :=
  picoquic_packet_loop_open_sockets c (aux_port c st) (st.sock_af 0)
    (fun _ => INVALID_SOCKET) (fun _ => 0) 1 (fun _ => o.mig)

/-- Lines 372-378: the local address handed to `picoquic_probe_new_path`: what
`picoquic_store_addr` stores for the local address of path 0, with the port
replaced when the family is `AF_INET6` or `AF_INET`. -/
def probe_local_address (c : Platform) (cnx : Cnx) (next_port : Nat) : SockAddr :=
  if (c.picoquic_store_addr cnx.path0_local_addr).ss_family = c.AF_INET6 then
    { c.picoquic_store_addr cnx.path0_local_addr with port := next_port }
  else if (c.picoquic_store_addr cnx.path0_local_addr).ss_family = c.AF_INET then
    { c.picoquic_store_addr cnx.path0_local_addr with port := next_port }
  else c.picoquic_store_addr cnx.path0_local_addr

/-! ## The receive path, read apart -/

/-- An address with its port field replaced. -/
def with_port (a : SockAddr) (p : Nat) : SockAddr := { a with port := p }

/-- Whether the event belongs to the receive block: the read of the local
address or the submission of the datagram. -/
def Event.is_receive_path : Event → Bool
  | Event.get_local_address _ _ => true
  | Event.incoming_packet _ _ _ _ _ _ _ _ => true
  | _ => false

/-! ## `picoquic_packet_loop_with_migration_slave` (lines 804-1159) -/

/-- What the environment answers during one iteration of the slave loop: the
content of the shared descriptor when `pthread_cond_wait` returns, and the
answers to the calls that follow.  The fields `sel` and `delta_t` of `it` are
not used: the slave does not wait on the sockets. -/
structure SlaveOutcome where
  slot : Slot
  it : IterOutcome

/-- Lines 889-898: the scalars, the two addresses and the payload
copied from the slot, in the shape of what the waiter returns in
`picoquic_packet_loop`. -/
def slot_select (d : Slot) : SelectOutcome :=
  { bytes_recv := d.trans_bytes, addr_from := d.trans_addr_from, addr_to := d.trans_addr_to,
    if_index_to := d.trans_if_index_to, received_ecn := d.trans_received_ecn,
    buffer := d.trans_buffer, socket_rank := d.trans_socket_rank,
    current_time := d.trans_current_time }

/-- The answers met by an iteration of the slave loop, with what was copied
from the slot in the place of the results of the waiter. -/
def SlaveOutcome.answers (o : SlaveOutcome) : IterOutcome :=
  { o.it with sel := slot_select o.slot }

/-- Lines 899-900: `memcpy` of an array of the slot over a local array. -/
def copy_array (l : List Int) (old : Nat → Int) : Nat → Int :=
  fun i => (l.get? i).getD (old i)

/-- Lines 887-917 of the slave loop: wait for the signal of the master, copy the
descriptor out of the slot, count the iteration and emit the diagnostic of
every 100th one. -/
def slave_wake_step (st : LoopState) (d : Slot) : LoopState × List Event :=
  let evs := [Event.mutex_lock, Event.cond_wait, Event.mutex_unlock]
  let st1 := { st with current_time := d.trans_current_time,
                       sock_af := copy_array d.trans_sock_af st.sock_af,
                       s_socket := copy_array d.trans_s_socket st.s_socket,
                       nb_sockets := d.trans_nb_sockets,
                       nb_loops := st.nb_loops + 1 }
  if st1.nb_loops ≥ 100 then
    ({ st1 with loop_count_time := st1.current_time, nb_loops := 0 },
      evs ++ [Event.looped st1.nb_loops (sub_u64 st1.current_time st1.loop_count_time)])
  else
    (st1, evs)

/-- Lines 926-982 of the slave loop, the block `if (bytes_recv > 0)`: as in
`picoquic_packet_loop`, apart from the result of `picoquic_incoming_packet`,
which is assigned to `ret`. -/
def slave_receive_step (c : Platform) (cb : Bool) (st : LoopState) (o : IterOutcome) :
    LoopState × List Event :=
  let l := learn_port c st o
  let st1 := l.1
  let addr_to := document_port c o.sel.addr_to (current_recv_port st1 o.sel.socket_rank)
  let ev := Event.incoming_packet o.sel.buffer o.sel.bytes_recv o.sel.addr_from addr_to
              o.sel.if_index_to o.sel.received_ecn st1.current_time o.incoming_rc
  if cb then
    ({ st1 with ret := o.after_receive_rc },
      l.2 ++ [ev, Event.loop_callback CbMode.picoquic_packet_loop_after_receive o.after_receive_rc])
  else
    ({ st1 with ret := o.incoming_rc }, l.2 ++ [ev])

/-- One iteration of the outer loop of the slave (lines 877-1143), entered with
`ret = 0`; the send drain, the callback after it and the migration-test block
repeat lines 264-389 of `picoquic_packet_loop`.  The state is `none` when the
answers to the send drain ran out. -/
def slave_iteration (c : Platform) (cb : Bool) (st : LoopState) (o : SlaveOutcome) :
    Option LoopState × List Event :=
  let w := slave_wake_step st o.slot
  if o.slot.trans_bytes < 0 then
    let s := simulate_step c { w.1 with ret := -1 } o.answers
    (some s.1, w.2 ++ s.2)
  else
    let rcv := if o.slot.trans_bytes > 0 then slave_receive_step c cb w.1 o.answers
               else (w.1, [])
    let d := send_drain c rcv.1 o.answers.prepares
    match d.1 with
    | none => (none, w.2 ++ rcv.2 ++ d.2)
    | some st3 =>
      let a := after_send_step cb st3 o.answers
      let s := simulate_step c a.1 o.answers
      (some s.1, w.2 ++ rcv.2 ++ d.2 ++ a.2 ++ s.2)

/-- The outer loop of the slave over the answers of the successive iterations. -/
def slave_loop_run (c : Platform) (cb : Bool) :
    List SlaveOutcome → LoopState → Option LoopState × List Event
  | [], st => if st.ret = 0 then (none, []) else (some st, [])
  | o :: os, st =>
    if st.ret = 0 then
      let r := slave_iteration c cb st o
      match r.1 with
      | none => (none, r.2)
      | some st1 =>
        let rest := slave_loop_run c cb os st1
        (rest.1, r.2 ++ rest.2)
    else (some st, [])

/-- Everything outside `picoquic_packet_loop_with_migration_slave` that a run
depends on: the clock at entry, the content of the array `s_socket` (which has
no initialiser) and the answers met by the iterations. -/
structure SlaveWorld where
  quic_time : Nat
  s_socket_init : Nat → Int
  iters : List SlaveOutcome

/-- Lines 839-866: the state in which the outer loop of the slave is entered.  No
socket is opened and the ready callback is not called. -/
def slave_start (w : SlaveWorld) (local_port : Int) : LoopState :=
  { ret := 0, current_time := w.quic_time, loop_count_time := w.quic_time, nb_loops := 0,
    s_socket := w.s_socket_init, sock_af := fun _ => 0, nb_sockets := 0,
    socket_port := (local_port % 65536).toNat, testing_migration := false, next_port := 0,
    last_cnx := none }

/-- The function `picoquic_packet_loop_with_migration_slave`. -/
def picoquic_packet_loop_with_migration_slave (c : Platform) (w : SlaveWorld)
    (local_port : Int) (cb : Bool) : LoopResult :=
  let r := slave_loop_run c cb w.iters (slave_start w local_port)
  match r.1 with
  | none => { events := Event.get_quic_time w.quic_time :: r.2, ret := none }
  | some st =>
    let f := loop_finish c st
    { events := Event.get_quic_time w.quic_time :: r.2 ++ f.2, ret := some f.1 }

/-! ## `picoquic_packet_loop_test_migration` (lines 1447-1707)

The function is `picoquic_packet_loop` with one more variable, `test_count`
(line 1480), and three more lines at the head of the body of the send drain
(lines 1578-1581). -/

/-- The value of an `int` after an arithmetic step, in two's complement.  The C
standard leaves the overflow of `test_count++` undefined; it takes `2 ^ 31`
passes of the drain to reach it. -/
def wrap_int32 (x : Int) : Int := (x + 2 ^ 31) % 2 ^ 32 - 2 ^ 31

/-- Lines 1571-1638, the send drain of `picoquic_packet_loop_test_migration`: every
pass counts itself in `test_count` and the pass that brings it to 100 calls
`picoquic_migrate(quic, quic_new)` before `picoquic_prepare_next_packet`; the
rest is the drain of `picoquic_packet_loop` (`send_drain`). -/
def test_migration_drain (c : Platform) (st : LoopState) (test_count : Int) :
    List PrepareOutcome → Option (LoopState × Int) × List Event
  | [] => if st.ret = 0 then (none, []) else (some (st, test_count), [])
  | p :: ps =>
    if st.ret = 0 then
      let test_count1 := wrap_int32 (test_count + 1)
      let mig := if test_count1 = 100 then [Event.migrate] else []
      let ev := Event.prepare_next_packet st.current_time p.rc p.send_length
      if p.rc = 0 ∧ p.send_length > 0 then
        let st2 := reset_loop_count (after_prepare st p)
        let r := test_migration_drain c st2 test_count1 ps
        (r.1, mig ++ ev :: (send_step c st2 p ++ r.2))
      else (some (after_prepare st p, test_count1), mig ++ [ev])
    else (some (st, test_count), [])

/-- One iteration of the outer loop of `picoquic_packet_loop_test_migration`
(lines 1496-1691), entered with `ret = 0`: that of `picoquic_packet_loop`
(`loop_iteration`) with the counting drain. -/
def test_migration_iteration (c : Platform) (cb : Bool) (st : LoopState) (test_count : Int)
    (o : IterOutcome) : Option (LoopState × Int) × List Event :=
  let w := wait_step st o
  if o.sel.bytes_recv < 0 then
    let s := simulate_step c { w.1 with ret := -1 } o
    (some (s.1, test_count), w.2 ++ s.2)
  else
    let rcv := if o.sel.bytes_recv > 0 then receive_step c cb w.1 o else (w.1, [])
    let d := test_migration_drain c rcv.1 test_count o.prepares
    match d.1 with
    | none => (none, w.2 ++ rcv.2 ++ d.2)
    | some (st3, test_count3) =>
      let a := after_send_step cb st3 o
      let s := simulate_step c a.1 o
      (some (s.1, test_count3), w.2 ++ rcv.2 ++ d.2 ++ a.2 ++ s.2)

/-- The outer loop of `picoquic_packet_loop_test_migration` over the answers of
the successive iterations. -/
def test_migration_run (c : Platform) (cb : Bool) :
    List IterOutcome → LoopState → Int → Option (LoopState × Int) × List Event
  | [], st, test_count => if st.ret = 0 then (none, []) else (some (st, test_count), [])
  | o :: os, st, test_count =>
    if st.ret = 0 then
      let r := test_migration_iteration c cb st test_count o
      match r.1 with
      | none => (none, r.2)
      | some (st1, test_count1) =>
        let rest := test_migration_run c cb os st1 test_count1
        (rest.1, r.2 ++ rest.2)
    else (some (st, test_count), [])

/-- The function `picoquic_packet_loop_test_migration`: the start-up (lines
1455-1492) and the end (lines 1693-1706) are those of `picoquic_packet_loop`,
and `test_count` starts at 0. -/
def picoquic_packet_loop_test_migration (c : Platform) (w : World)
    (local_port local_af : Int) (cb : Bool) : LoopResult :=
  let s := loop_start c w local_port local_af cb
  let r := test_migration_run c cb w.iters s.1 0
  match r.1 with
  | none => { events := s.2 ++ r.2, ret := none }
  | some (st, _) =>
    let f := loop_finish c st
    { events := s.2 ++ r.2 ++ f.2, ret := some f.1 }

/-- Whether the event is a call made at the head of a pass of the send drain of
`picoquic_packet_loop_test_migration`: `picoquic_migrate` or
`picoquic_prepare_next_packet`. -/
def Event.is_drain_head : Event → Bool
  | Event.migrate => true
  | Event.prepare_next_packet _ _ _ => true
  | _ => false

/-- Where `picoquic_migrate` stands in a trace `t` that follows `k` passes of
the drain: nowhere if the passes made by then stay under 100 or were 100
already, and otherwise once, right before the call of
`picoquic_prepare_next_packet` that makes the 100th pass. -/
def MigratePlaced (k : Nat) (t : List Event) : Prop :=
  (k + (prepare_calls t).length < 100 → Event.migrate ∉ t) ∧
  (100 ≤ k → Event.migrate ∉ t) ∧
  (k < 100 → 100 ≤ k + (prepare_calls t).length →
    ∃ pre time rc len rest,
      t = pre ++ Event.migrate :: Event.prepare_next_packet time rc len :: rest ∧
      k + (prepare_calls pre).length = 99 ∧ Event.migrate ∉ pre ∧ Event.migrate ∉ rest)

/-! ## The calls of the steps of an iteration, by kind -/

/-- Whether the event is a call made by the send drain. -/
def Event.is_drain_call : Event → Bool
  | Event.prepare_next_packet _ _ _ => true
  | Event.send_through_socket _ _ _ _ _ _ => true
  | Event.log_could_not_send _ _ _ => true
  | Event.notify_destination_unreachable _ _ _ _ _ _ => true
  | _ => false

/-- Whether the event is a call made by the migration-test block. -/
def Event.is_simulate_call : Event → Bool
  | Event.socket _ _ => true
  | Event.set_ecn_options _ _ _ => true
  | Event.set_pkt_info _ _ _ => true
  | Event.bind_to_port _ _ _ _ => true
  | Event.close _ => true
  | Event.log_could_not_create_socket _ _ _ _ => true
  | Event.probe_new_path _ _ _ _ _ => true
  | _ => false

/-- Whether the event is the diagnostic `Looped %d times in %llu microsec`. -/
def Event.is_looped : Event → Bool
  | Event.looped _ _ => true
  | _ => false

/-- Whether, in the trace, `picoquic_prepare_next_packet` returned 0 with a
datagram to send (`send_length > 0`) at least once. -/
def prepared_in (t : List Event) : Bool :=
  (prepare_calls t).any (fun x => decide (x.1 = 0 ∧ x.2 > 0))

/-- Lines 221-262 as part of an iteration: the receive block if a datagram
arrived, nothing otherwise (`st` is the state at the entry of the iteration). -/
def recv_part (c : Platform) (cb : Bool) (st : LoopState) (o : IterOutcome) :
    LoopState × List Event :=
  if o.sel.bytes_recv > 0 then receive_step c cb (wait_step st o).1 o
  else ((wait_step st o).1, [])

/-- Whether the event is the wait on the sockets, made once per iteration. -/
def Event.is_select : Event → Bool
  | Event.select_ex _ _ _ => true
  | _ => false

/-- The families of the sockets of the set, for a loop that opened `n0` sockets
at start-up and has made the calls of the trace `t`: the set still has at least
`n0` sockets; for every index under `n0` the trace has the call of `socket` with
the family `sock_af[i]` that returned `s_socket[i]`; and for every index from
`n0` on (the sockets appended for `SIMULATE_MIGRATION`) the trace has the call
of `socket` with the family `sock_af[0]` that returned `s_socket[i]`. -/
def SocketFamilies (n0 : Nat) (t : List Event) (st : LoopState) : Prop :=
  n0 ≤ st.nb_sockets ∧
  (∀ i, i < n0 → Event.socket (st.sock_af i) (st.s_socket i) ∈ t) ∧
  (∀ i, n0 ≤ i → i < st.nb_sockets → Event.socket (st.sock_af 0) (st.s_socket i) ∈ t)

/-! ## The migration trigger of the master loop, read apart -/

/-- Whether the event is a call of the migration trigger (lines 566-588): the
write `migration_flag = 0`, `picoquic_shallow_migrate`, `hashmap_put`. -/
def Event.is_trigger_call : Event → Bool
  | Event.clear_migration_flag => true
  | Event.shallow_migrate => true
  | Event.hashmap_put _ => true
  | _ => false

/-- The condition of lines 566-567: `quic->cnx_list` and its `callback_ctx` are
not `NULL` and `migration_flag` is not 0.  Nothing else is tested. -/
def trigger_fires (o : MasterOutcome) : Bool :=
  match o.cnx_list with
  | none => false
  | some v =>
    match v.callback_ctx with
    | none => false
    | some ctx => decide (ctx.migration_flag ≠ 0)

/-- Line 577: the text of the path-0 peer address of `quic->cnx_list`
(the empty string stands for the case in which there is no connection, where
the key is not computed). -/
def trigger_key (c : Platform) (o : MasterOutcome) : String :=
  match o.cnx_list with
  | none => ""
  | some v => c.picoquic_addr_text v.cnx.path0_peer_addr

/-- Line 571: the write `migration_flag = 0` in the callback context. -/
def migration_flag_cleared (ctx : MigrationCtx) : MigrationCtx :=
  { ctx with migration_flag := 0 }

/-- The variables of a loop with the socket set replaced by the copy of the
one held in the slot (lines 899-901): the state in which
`picoquic_packet_loop` is set beside the slave loop. -/
def with_slot_sockets (st : LoopState) (d : Slot) : LoopState :=
  { st with sock_af := copy_array d.trans_sock_af st.sock_af,
            s_socket := copy_array d.trans_s_socket st.s_socket,
            nb_sockets := d.trans_nb_sockets }

/-- Whether the event is the lookup in the ownership table (line 611). -/
def Event.is_table_lookup : Event → Bool
  | Event.hashmap_get _ _ => true
  | _ => false

/-- The content of the array `key` at the lookup of line 611: the text the
trigger wrote to it (line 577) if it fired in the iteration, and what the
array held on entry if it did not. -/
def lookup_key (c : Platform) (o : MasterOutcome) : String :=
  if trigger_fires o = true then trigger_key c o else o.key_garbage

/-- The ownership table at the lookup of line 611, for the table `table` the
iteration was entered with: the key of the trigger was put into it (line 582)
if the trigger fired. -/
def lookup_table (c : Platform) (o : MasterOutcome) (table : List String) : List String :=
  if trigger_fires o = true then hashmap_put table (trigger_key c o) else table

def PICOQUIC_SAMPLE_NO_ERROR : Int := 0
def PICOQUIC_SAMPLE_INTERNAL_ERROR : Int := 0x101
def PICOQUIC_SAMPLE_NAME_TOO_LONG_ERROR : Int := 0x102
def PICOQUIC_SAMPLE_NO_SUCH_FILE_ERROR : Int := 0x103
def PICOQUIC_SAMPLE_FILE_READ_ERROR : Int := 0x104
def PICOQUIC_SAMPLE_FILE_CANCEL_ERROR : Int := 0x105

/-- Two values the sample server takes from declarations that are not part of
the sources: `sizeof(stream_ctx->file_name)` and the first character of
`PICOQUIC_FILE_SEPARATOR`. -/
structure SampleLayout where
  file_name_size : Nat
  PICOQUIC_FILE_SEPARATOR : Nat
deriving DecidableEq

/-- The fields of `sample_server_migration_ctx_t` the callbacks use.  A
`sample_server_ctx_t` has `default_dir` and `default_dir_len` only; the
callback for it neither reads nor writes the three others. -/
structure ServerCtx where
  default_dir : List Nat
  default_dir_len : Nat
  migration_flag : Int
  server_flag : Int
  file_name : List Nat
deriving DecidableEq

/-- The two flags of the context, as the packet loops see them. -/
def ServerCtx.migration_ctx (s : ServerCtx) : MigrationCtx :=
  { migration_flag := s.migration_flag, server_flag := s.server_flag }

/-- The fields of `sample_server_stream_ctx_t` the callbacks use; `F` tells whether
the file pointer is not `NULL`.  The links of the list of stream contexts are
left out. -/
structure StreamCtx where
  stream_id : Nat
  is_name_read : Int
  name_length : Nat
  file_name : List Nat
  F : Bool
  file_length : Nat
  file_sent : Nat
deriving DecidableEq

/-- The calls and array stores of the sample server. -/
inductive AppEvent where
  | malloc_server_ctx (ok : Bool)
  | picoquic_close_memory
  | set_callback (with_ctx : Bool)
  | malloc_stream_ctx (stream_id : Nat) (ok : Bool)
  | free_stream_ctx (stream_id : Nat)
  | reset_stream (stream_id : Nat) (err : Int)
  | copy_to_file_name (offset : Nat) (bytes : List Nat)
  | store_file_name (index : Nat) (byte : Nat)
  | copy_to_file_path (offset : Nat) (bytes : List Nat)
  | store_file_path (index : Nat) (byte : Nat)
  | file_open (path : List Nat) (ok : Bool)
  | ftell (sz : Int)
  | file_close
  | mark_active_stream (stream_id : Nat) (ret : Int)
  | provide_stream_data_buffer (nb_bytes : Nat) (is_fin : Int) (is_still_active : Int)
      (ok : Bool)
  | fread (nb_bytes : Nat) (nb_read : Nat)
  | copy_to_server_file_name (bytes : List Nat)
  | delete_context
deriving DecidableEq

/-- One more than the largest index of `file_path` the event stores to, 0 when it
stores nothing there. -/
def AppEvent.file_path_end : AppEvent → Nat
  | .copy_to_file_path offset bytes => if bytes.length = 0 then 0 else offset + bytes.length
  | .store_file_path index _ => index + 1
  | _ => 0

/-- One more than the largest index of the `file_name` of the stream context the
event stores to, 0 when it stores nothing there. -/
def AppEvent.file_name_end : AppEvent → Nat
  | .copy_to_file_name offset bytes => if bytes.length = 0 then 0 else offset + bytes.length
  | .store_file_name index _ => index + 1
  | _ => 0

/-- Whether the event is the call of `picoquic_provide_stream_data_buffer`. -/
def AppEvent.is_provide : AppEvent → Bool
  | .provide_stream_data_buffer _ _ _ _ => true
  | _ => false

/-- What the environment answers during one invocation of a callback: whether the
two `malloc` succeed, the default callback context of the engine (`none` for
`NULL`), whether `picoquic_file_open` gives a file, the value of `ftell`, the
value of `picoquic_mark_active_stream`, whether
`picoquic_provide_stream_data_buffer` gives a buffer, and the value of
`fread`. -/
structure AppOutcome where
  server_ctx_alloc : Bool
  d_ctx : Option ServerCtx
  stream_ctx_alloc : Bool
  file_open : Bool
  sz : Int
  mark_active : Int
  buffer : Bool
  nb_read : Nat
deriving DecidableEq

/-- The first `n` bytes at a pointer (0 beyond what the model knows of). -/
def read_bytes (l : List Nat) (n : Nat) : List Nat :=
  (List.range n).map (fun i => l.getD i 0)

/-- An array after `memcpy(buf + offset, bytes, ...)`.  Only the entries of the
array itself change. -/
def write_bytes (buf : List Nat) (offset : Nat) (bytes : List Nat) : List Nat :=
  (List.range buf.length).map
    (fun i => if offset ≤ i ∧ i < offset + bytes.length then bytes.getD (i - offset) 0
              else buf.getD i 0)

/-- Lines 66-86 (and 88-108): a new stream context, zeroed, with its stream id;
`none` when `malloc` fails. -/
def sample_server_create_stream_context (sl : SampleLayout) (ok : Bool) (stream_id : Nat) :
    Option StreamCtx :=
  if ok then
    some { stream_id := stream_id, is_name_read := 0, name_length := 0,
           file_name := List.replicate sl.file_name_size 0, F := false,
           file_length := 0, file_sent := 0 }
  else none

/-- Lines 229-253 (and 255-279): close the file if it is open and free the
context. -/
def sample_server_delete_stream_context (stream_ctx : StreamCtx) : List AppEvent :=
  (if stream_ctx.F then [AppEvent.file_close] else []) ++
    [AppEvent.free_stream_ctx stream_ctx.stream_id]

/-- Lines 124-132: the directory part of `file_path`.  Gives `dir_len` afterwards
and the stores made. -/
def format_dir (sl : SampleLayout) (server_ctx : ServerCtx) : Nat × List AppEvent :=
  let dir_len := server_ctx.default_dir_len
  if dir_len > 0 then
    if server_ctx.default_dir.getD (dir_len - 1) 0 ≠ sl.PICOQUIC_FILE_SEPARATOR then
      ((dir_len + 1) % 2 ^ 64,
        [AppEvent.copy_to_file_path 0 (read_bytes server_ctx.default_dir dir_len),
         AppEvent.store_file_path dir_len sl.PICOQUIC_FILE_SEPARATOR])
    else (dir_len, [AppEvent.copy_to_file_path 0 (read_bytes server_ctx.default_dir dir_len)])
  else (dir_len, [])

/-- The bytes put in `file_path` before the terminator. -/
def formatted_path (sl : SampleLayout) (server_ctx : ServerCtx) (stream_ctx : StreamCtx) :
    List Nat :=
  (if server_ctx.default_dir_len > 0 then
      read_bytes server_ctx.default_dir server_ctx.default_dir_len ++
        (if server_ctx.default_dir.getD (server_ctx.default_dir_len - 1) 0 ≠
            sl.PICOQUIC_FILE_SEPARATOR then [sl.PICOQUIC_FILE_SEPARATOR] else [])
    else []) ++ read_bytes stream_ctx.file_name stream_ctx.name_length

/-- Lines 110-161: `sample_server_open_stream`.  Gives the return value, the
stream context afterwards and the calls and stores made.  `file_path` has
1024 entries; the sizes are `size_t` values of 64 bits. -/
def sample_server_open_stream (sl : SampleLayout) (server_ctx : ServerCtx)
    (stream_ctx : StreamCtx) (o : AppOutcome) : Int × StreamCtx × List AppEvent :=
  let s1 := { stream_ctx with is_name_read := 1 }
  if (server_ctx.default_dir_len + s1.name_length + 1) % 2 ^ 64 > 1024 then
    (PICOQUIC_SAMPLE_NAME_TOO_LONG_ERROR, s1, [])
  else
    let d := format_dir sl server_ctx
    let stores := d.2 ++
      [AppEvent.copy_to_file_path d.1 (read_bytes s1.file_name s1.name_length),
       AppEvent.store_file_path ((d.1 + s1.name_length) % 2 ^ 64) 0]
    let path := formatted_path sl server_ctx s1
    if o.file_open = false then
      (PICOQUIC_SAMPLE_NO_SUCH_FILE_ERROR, s1, stores ++ [AppEvent.file_open path false])
    else if o.sz ≤ 0 then
      (PICOQUIC_SAMPLE_FILE_READ_ERROR, { s1 with F := false },
        stores ++ [AppEvent.file_open path true, AppEvent.ftell o.sz, AppEvent.file_close])
    else
      (0, { s1 with F := true, file_length := o.sz.toNat % 2 ^ 64 },
        stores ++ [AppEvent.file_open path true, AppEvent.ftell o.sz])

/-- Lines 163-214: `sample_server_open_stream_for_migration`, the same statements
on the migration context. -/
def sample_server_open_stream_for_migration (sl : SampleLayout) (server_ctx : ServerCtx)
    (stream_ctx : StreamCtx) (o : AppOutcome) : Int × StreamCtx × List AppEvent :=
  sample_server_open_stream sl server_ctx stream_ctx o

/-- The `callback_ctx` argument of a callback: `NULL`, the default callback
context of the engine, or the context of the connection. -/
inductive CallbackCtx where
  | null
  | default_ctx
  | own (ctx : ServerCtx)
deriving DecidableEq

/-- The values of `picoquic_call_back_event_t` named in the switch; `other`
stands for the default case. -/
inductive CallbackEvent where
  | stream_data
  | stream_fin
  | prepare_to_send
  | stream_reset
  | stop_sending
  | stateless_reset
  | close
  | application_close
  | version_negotiation
  | stream_gap
  | almost_ready
  | ready
  | other
deriving DecidableEq

/-- What an invocation of a callback leaves: its return value, the context of the
connection and the stream context (`none` when there is none or it was freed),
and the calls and stores made. -/
structure CallbackResult where
  ret : Int
  server_ctx : Option ServerCtx
  stream_ctx : Option StreamCtx
  events : List AppEvent
deriving DecidableEq

/-- Lines 316-335 (and 499-518): the context of the connection.  At the first
reference a context is allocated and filled from the default one. -/
def connection_context (callback_ctx : CallbackCtx) (o : AppOutcome) :
    Option ServerCtx × List AppEvent :=
  match callback_ctx with
  | .own ctx => (some ctx, [])
  | _ =>
    if o.server_ctx_alloc = false then
      (none, [AppEvent.malloc_server_ctx false, AppEvent.picoquic_close_memory])
    else
      match o.d_ctx with
      | some d => (some d, [AppEvent.malloc_server_ctx true, AppEvent.set_callback true])
      | none =>
        (some { default_dir := [], default_dir_len := 0, migration_flag := 0, server_flag := 0,
                file_name := List.replicate 256 0 },
          [AppEvent.malloc_server_ctx true, AppEvent.set_callback true])

/-- Lines 370-387 (and 554-571): the end of the name.  The terminator is stored,
the name is marked as read and the file is opened.  Gives the return value, the
stream context the callback is left with (`none` when it was freed), the content
of the stream context at the end, and the calls and stores made. -/
def stream_fin_part (sl : SampleLayout) (server_ctx : ServerCtx) (stream_id : Nat)
    (s : StreamCtx) (o : AppOutcome) : Int × Option StreamCtx × StreamCtx × List AppEvent :=
  let s2 := { s with file_name := write_bytes s.file_name (s.name_length + 1) [0],
                     is_name_read := 1 }
  let r := sample_server_open_stream sl server_ctx s2 o
  let evs := AppEvent.store_file_name (s.name_length + 1) 0 :: r.2.2
  if r.1 = 0 then
    (o.mark_active, some r.2.1, r.2.1, evs ++ [AppEvent.mark_active_stream stream_id o.mark_active])
  else
    (0, none, r.2.1, evs ++ sample_server_delete_stream_context r.2.1 ++
      [AppEvent.reset_stream stream_id r.1])

/-- Lines 574-579: the migration request of `sample_server_migration_callback`.
With `server_flag` set, 256 bytes of the name are copied to the context of the
connection and `migration_flag` is set to 1.  The name is read through the
stream pointer also when the fin part has freed the context; `s` is its last
content. -/
def request_migration (migration : Bool) (server_ctx : ServerCtx) (s : StreamCtx) :
    ServerCtx × List AppEvent :=
  if migration = true ∧ server_ctx.server_flag ≠ 0 then
    ({ server_ctx with file_name := read_bytes s.file_name 256, migration_flag := 1 },
      [AppEvent.copy_to_server_file_name (read_bytes s.file_name 256)])
  else (server_ctx, [])

/-- Lines 339-390 (and 522-582): a `stream_data` or `stream_fin` event.  The
migration callback (`migration = true`) has the statements of
`request_migration` after those of the fin. -/
def stream_data_branch (migration : Bool) (sl : SampleLayout) (server_ctx : ServerCtx)
    (stream_id : Nat) (bytes : List Nat) (length : Nat) (fin : Bool)
    (v_stream_ctx : Option StreamCtx) (o : AppOutcome) : CallbackResult :=
  let created : Option StreamCtx × List AppEvent :=
    match v_stream_ctx with
    | some s => (some s, [])
    | none => (sample_server_create_stream_context sl o.stream_ctx_alloc stream_id,
               [AppEvent.malloc_stream_ctx stream_id o.stream_ctx_alloc])
  match created.1 with
  | none =>
    { ret := -1, server_ctx := some server_ctx, stream_ctx := none,
      events := created.2 ++ [AppEvent.reset_stream stream_id PICOQUIC_SAMPLE_INTERNAL_ERROR] }
  | some s =>
    if s.is_name_read ≠ 0 then
      { ret := -1, server_ctx := some server_ctx, stream_ctx := some s, events := created.2 }
    else
      let available := sub_u64 (sub_u64 sl.file_name_size s.name_length) 1
      if length > available then
        { ret := 0, server_ctx := some server_ctx, stream_ctx := none,
          events := created.2 ++ sample_server_delete_stream_context s ++
            [AppEvent.reset_stream stream_id PICOQUIC_SAMPLE_NAME_TOO_LONG_ERROR] }
      else
        let s1 := if length > 0 then
            { s with file_name := write_bytes s.file_name s.name_length (read_bytes bytes length),
                     name_length := (s.name_length + length) % 2 ^ 64 }
          else s
        let copy := if length > 0 then
            [AppEvent.copy_to_file_name s.name_length (read_bytes bytes length)]
          else []
        if fin then
          let f := stream_fin_part sl server_ctx stream_id s1 o
          let m := request_migration migration server_ctx f.2.2.1
          { ret := f.1, server_ctx := some m.1, stream_ctx := f.2.1,
            events := created.2 ++ copy ++ f.2.2.2 ++ m.2 }
        else
          let m := request_migration migration server_ctx s1
          { ret := 0, server_ctx := some m.1, stream_ctx := some s1,
            events := created.2 ++ copy ++ m.2 }

/-- Lines 391-428 (and 583-621): a `prepare_to_send` event, where `length` is the
size offered by the engine. -/
def prepare_to_send_branch (server_ctx : ServerCtx) (stream_id : Nat) (length : Nat)
    (v_stream_ctx : Option StreamCtx) (o : AppOutcome) : CallbackResult :=
  match v_stream_ctx with
  | none => { ret := 0, server_ctx := some server_ctx, stream_ctx := none, events := [] }
  | some s =>
    if s.F = false then
      { ret := 0, server_ctx := some server_ctx, stream_ctx := some s, events := [] }
    else
      let whole := sub_u64 s.file_length s.file_sent
      let available := if whole > length then length else whole
      let is_fin : Int := if whole > length then 0 else 1
      let is_still_active : Int := if is_fin = 0 then 1 else 0
      if o.buffer = true then
        if o.nb_read ≠ available then
          { ret := 0, server_ctx := some server_ctx, stream_ctx := none,
            events := [AppEvent.provide_stream_data_buffer available is_fin is_still_active true,
                       AppEvent.fread available o.nb_read] ++
              sample_server_delete_stream_context s ++
              [AppEvent.reset_stream stream_id PICOQUIC_SAMPLE_FILE_READ_ERROR] }
        else
          { ret := 0, server_ctx := some server_ctx,
            stream_ctx := some { s with file_sent := (s.file_sent + available) % 2 ^ 64 },
            events := [AppEvent.provide_stream_data_buffer available is_fin is_still_active true,
                       AppEvent.fread available o.nb_read] }
      else
        { ret := -1, server_ctx := some server_ctx, stream_ctx := some s,
          events := [AppEvent.provide_stream_data_buffer available is_fin is_still_active
                       false] }

/-- Lines 337-459 (and 520-671): the switch on the event.  The event
`delete_context` stands for the call of `sample_server_delete_context`, which
frees every stream context of the connection and then the context itself. -/
def callback_switch (migration : Bool) (sl : SampleLayout) (server_ctx : ServerCtx)
    (stream_id : Nat) (bytes : List Nat) (length : Nat) (fin_or_event : CallbackEvent)
    (v_stream_ctx : Option StreamCtx) (o : AppOutcome) : CallbackResult :=
  match fin_or_event with
  | .stream_data =>
    stream_data_branch migration sl server_ctx stream_id bytes length false v_stream_ctx o
  | .stream_fin =>
    stream_data_branch migration sl server_ctx stream_id bytes length true v_stream_ctx o
  | .prepare_to_send => prepare_to_send_branch server_ctx stream_id length v_stream_ctx o
  | .stream_reset | .stop_sending =>
    match v_stream_ctx with
    | some s =>
      { ret := 0, server_ctx := some server_ctx, stream_ctx := none,
        events := sample_server_delete_stream_context s ++
          [AppEvent.reset_stream stream_id PICOQUIC_SAMPLE_FILE_CANCEL_ERROR] }
    | none => { ret := 0, server_ctx := some server_ctx, stream_ctx := none, events := [] }
  | .stateless_reset | .close | .application_close =>
    { ret := 0, server_ctx := none, stream_ctx := none,
      events := [AppEvent.delete_context, AppEvent.set_callback false] }
  | _ => { ret := 0, server_ctx := some server_ctx, stream_ctx := v_stream_ctx, events := [] }

/-- The body the two callbacks have in common. -/
def callback_body (migration : Bool) (sl : SampleLayout) (stream_id : Nat) (bytes : List Nat)
    (length : Nat) (fin_or_event : CallbackEvent) (callback_ctx : CallbackCtx)
    (v_stream_ctx : Option StreamCtx) (o : AppOutcome) : CallbackResult :=
  match connection_context callback_ctx o with
  | (none, evs) => { ret := -1, server_ctx := none, stream_ctx := v_stream_ctx, events := evs }
  | (some server_ctx, evs) =>
    let r := callback_switch migration sl server_ctx stream_id bytes length fin_or_event
      v_stream_ctx o
    { r with events := evs ++ r.events }

/-- Lines 304-462: `sample_server_callback`. -/
def sample_server_callback (sl : SampleLayout) (stream_id : Nat) (bytes : List Nat)
    (length : Nat) (fin_or_event : CallbackEvent) (callback_ctx : CallbackCtx)
    (v_stream_ctx : Option StreamCtx) (o : AppOutcome) : CallbackResult :=
  callback_body false sl stream_id bytes length fin_or_event callback_ctx v_stream_ctx o

/-- Lines 485-674: `sample_server_migration_callback`. -/
def sample_server_migration_callback (sl : SampleLayout) (stream_id : Nat) (bytes : List Nat)
    (length : Nat) (fin_or_event : CallbackEvent) (callback_ctx : CallbackCtx)
    (v_stream_ctx : Option StreamCtx) (o : AppOutcome) : CallbackResult :=
  callback_body true sl stream_id bytes length fin_or_event callback_ctx v_stream_ctx o

/-- The stream context with another value of `file_sent`. -/
def with_file_sent (s : StreamCtx) (n : Nat) : StreamCtx :=
  { s with file_sent := n }

/-- Lines 753 and 780-783: the default callback context of the backup engine,
for a server started in the directory `default_dir`. -/
def default_context (default_dir : List Nat) : ServerCtx :=
  { default_dir := default_dir, default_dir_len := default_dir.length, migration_flag := 0,
    server_flag := 0, file_name := List.replicate 256 0 }

/-- Lines 815-820: the default callback context of the primary engine. -/
def default_migration_context (default_dir : List Nat) : ServerCtx :=
  { default_dir := default_dir, default_dir_len := default_dir.length, migration_flag := 0,
    server_flag := 1, file_name := List.replicate 256 0 }

/-- The guard of lines 574-577 read as a property of a callback context:
`migration_flag` is raised only where `server_flag` is set. -/
def MigrationCtx.flag_guarded (x : MigrationCtx) : Prop :=
  x.migration_flag ≠ 0 → x.server_flag ≠ 0

/-! ## The two engines and `picoquic_shallow_migrate`

The engines are not part of the sources.  This section holds the part of
their contract on which a run of the master loop together with
`sample_server_migration_callback` depends: which connections each engine
owns, what `picoquic_shallow_migrate` does to that, and how the callback
contexts of the connections change between two iterations of the loop. -/

/-- Modelled from the spec: a connection as an engine holds it, with the
callback context attached to it (`none` for `NULL`). -/
structure EngineCnx where
  cnx : Cnx
  callback_ctx : Option ServerCtx
deriving DecidableEq

/-- Modelled from the spec: the connections each of the two engines owns, the
first connection of each list first. -/
structure Engines where
  primary : List EngineCnx
  backup : List EngineCnx
deriving DecidableEq

/-- Modelled from the spec: the identities of the connections of a list. -/
def cnx_ids (l : List EngineCnx) : List Nat :=
  l.map (fun x => x.cnx.id)

/-- Line 565: what the master loop sees through `quic->cnx_list`, the first
connection of the primary engine and the two flags of its callback context. -/
def Engines.cnx_list (e : Engines) : Option CnxView :=
  e.primary.head?.map
    (fun x => { cnx := x.cnx, callback_ctx := x.callback_ctx.map ServerCtx.migration_ctx })

/-- Line 571: the write `migration_flag = 0` in the callback context of the first
connection of the primary engine. -/
def clear_first_flag (e : Engines) : Engines :=
  match e.primary with
  | [] => e
  | x :: rest =>
    { e with primary :=
        { x with callback_ctx := x.callback_ctx.map (fun s => { s with migration_flag := 0 }) }
          :: rest }

/-- Modelled from the spec: `picoquic_shallow_migrate(quic, quic_back)` moves the
first connection of the primary engine to the backup engine: after the call
the backup engine owns the connection and the primary does not. -/
def picoquic_shallow_migrate (e : Engines) : Engines :=
  match e.primary with
  | [] => e
  | x :: rest => { primary := rest, backup := x :: e.backup }

/-- Modelled from the spec: what the engines do to the connections between two
looks of the master loop at the list: the primary engine accepts a new
connection, whose callback context is the default context of the primary; or
an engine delivers an event to the callback of the connection `id`, whichever
engine owns it. -/
inductive EngineStep where
  | accept (cnx : Cnx) (default_dir : List Nat)
  | deliver (id : Nat) (stream_id : Nat) (bytes : List Nat) (length : Nat)
      (ev : CallbackEvent) (v : Option StreamCtx) (a : AppOutcome)

/-- Modelled from the spec: the connection after an event was delivered to
`sample_server_migration_callback` with its callback context. -/
def deliver_to (sl : SampleLayout) (id stream_id : Nat) (bytes : List Nat) (length : Nat)
    (ev : CallbackEvent) (v : Option StreamCtx) (a : AppOutcome) (x : EngineCnx) : EngineCnx :=
  if x.cnx.id = id then
    { x with callback_ctx :=
        (sample_server_migration_callback sl stream_id bytes length ev
          (match x.callback_ctx with
            | some s => CallbackCtx.own s
            | none => CallbackCtx.null) v a).server_ctx }
  else x

/-- Modelled from the spec: one step of the engines. -/
def engine_step (sl : SampleLayout) (e : Engines) : EngineStep → Engines
  | EngineStep.accept cnx default_dir =>
    { e with primary :=
        { cnx := cnx, callback_ctx := some (default_migration_context default_dir) }
          :: e.primary }
  | EngineStep.deliver id stream_id bytes length ev v a =>
    { primary := e.primary.map (deliver_to sl id stream_id bytes length ev v a),
      backup := e.backup.map (deliver_to sl id stream_id bytes length ev v a) }

/-- Modelled from the spec: the identities of the connections a list of steps
accepts. -/
def accepted_ids : List EngineStep → List Nat
  | [] => []
  | EngineStep.accept cnx _ :: rest => cnx.id :: accepted_ids rest
  | EngineStep.deliver _ _ _ _ _ _ _ :: rest => accepted_ids rest

/-- Modelled from the spec: what the environment answers during one iteration of
the master loop run together with the engines: the steps of the engines before
the iteration, and the answers of the iteration, of which `cnx_list` is not
used (the loop reads the list of the primary engine). -/
structure DualOutcome where
  steps : List EngineStep
  o : MasterOutcome

/-- Modelled from the spec: the effect on the engines of `n` passes through lines
571-574 (the flag of the first connection of the primary cleared, then
`picoquic_shallow_migrate`), with the identities of the connections moved. -/
def migrate_calls : Nat → Engines → Engines × List Nat
  | 0, e => (e, [])
  | n + 1, e =>
    match e.primary with
    | [] => (e, [])
    | x :: _ =>
      let r := migrate_calls n (picoquic_shallow_migrate (clear_first_flag e))
      (r.1, x.cnx.id :: r.2)

/-- Modelled from the spec: a run of the master loop together with the engines.
Before each iteration the engines make their steps; the iteration is
`master_iteration` on the list of the primary engine as it is then; each call
of `picoquic_shallow_migrate` in it moves the connection that is first on the
primary then.  Gives the calls of the loop, the identities of the connections
for which `picoquic_shallow_migrate` was called, in order, and the engines at
the end. -/
def dual_run (c : Platform) (cb : Bool) (sl : SampleLayout) :
    List DualOutcome → MasterState → Engines → List Event × List Nat × Engines
  | [], _, e => ([], [], e)
  | d :: ds, m, e =>
    if m.loop.ret = 0 then
      let e1 := d.steps.foldl (engine_step sl) e
      let r := master_iteration c cb m { d.o with cnx_list := e1.cnx_list }
      let g := migrate_calls (r.2.count Event.shallow_migrate) e1
      match r.1 with
      | none => (r.2, g.2, g.1)
      | some m1 =>
        let rest := dual_run c cb sl ds m1 g.1
        (r.2 ++ rest.1, g.2 ++ rest.2.1, rest.2.2)
    else ([], [], e)

/-- Modelled from the spec: the identities of the connections accepted in the
course of a run. -/
def run_accepted_ids : List DualOutcome → List Nat
  | [] => []
  | d :: ds => accepted_ids d.steps ++ run_accepted_ids ds

/-! ## Concrete answers used by the runs evaluated below -/

/-- An IPv4 address (`AF_INET` is 2 on Linux). -/
def addr4 (host : List Nat) (port : Nat) : SockAddr :=
  { ss_family := 2, port := port, host := host }

/-- The socket layer answers with descriptor `fd` and every step succeeds. -/
def socket_ok (fd : Int) : SocketOutcome :=
  { fd := fd, ecn_rc := 0, pkt_info_rc := 0, bind_rc := 0 }

/-- Socket 0 is set up as descriptor 3; socket 1 is created as descriptor 4 but
its bind fails. -/
def outs_second_bind_fails : Nat → SocketOutcome := fun i =>
  if i = 0 then socket_ok 3 else { fd := 4, ecn_rc := 0, pkt_info_rc := 0, bind_rc := -1 }

/-- Socket 0 is set up as descriptor 3; the creation of socket 1 fails. -/
def outs_second_socket_fails : Nat → SocketOutcome := fun i =>
  if i = 0 then socket_ok 3 else { fd := -1, ecn_rc := 0, pkt_info_rc := 0, bind_rc := 0 }

/-- A wait on the sockets that times out at time `t`: no datagram. -/
def select_timeout (t : Nat) : SelectOutcome :=
  { bytes_recv := 0, addr_from := addr4 [0, 0, 0, 0] 0, addr_to := addr4 [0, 0, 0, 0] 0,
    if_index_to := 0, received_ecn := 0, buffer := [], socket_rank := -1, current_time := t }

/-- The engine answers `rc` and prepares no datagram. -/
def prepare_returns (rc : Int) : PrepareOutcome :=
  { rc := rc, send_length := 0, peer_addr := addr4 [0, 0, 0, 0] 0,
    local_addr := addr4 [0, 0, 0, 0] 0, if_index := 0, last_cnx := none,
    sock_ret := 0, sock_err := 0 }

/-- The engine prepares a datagram of 1200 bytes for `peer`, and sending it
gives `sock_ret` with error `sock_err`. -/
def prepare_datagram (peer : SockAddr) (sock_ret sock_err : Int) : PrepareOutcome :=
  { rc := 0, send_length := 1200, peer_addr := peer, local_addr := addr4 [192, 168, 0, 1] 4433,
    if_index := 0, last_cnx := none, sock_ret := sock_ret, sock_err := sock_err }

/-- An iteration without datagram at time `t`, in which the engine answers the
drain with `prepares` and the callback after the drain returns `after_send_rc`. -/
def iter_idle (t : Nat) (prepares : List PrepareOutcome) (after_send_rc : Int) : IterOutcome :=
  { delta_t := 1000, sel := select_timeout t, local_address_rc := 0,
    local_address := addr4 [0, 0, 0, 0] 4433, incoming_rc := 0, after_receive_rc := 0,
    prepares := prepares, after_send_rc := after_send_rc, mig := socket_ok 5, probe_rc := 0 }

/-- The sockets open as descriptors 3, 4, ...; the ready callback returns 0; in
the first iteration nothing arrives, the engine has nothing to send, and the
callback after the drain asks for termination (1075 is
`PICOQUIC_NO_ERROR_TERMINATE_PACKET_LOOP`). -/
def world_terminate : World :=
  { quic_time := 0, s_socket_init := fun _ => 0, open_outs := fun i => socket_ok (3 + i),
    ready_rc := 0, iters := [iter_idle 100 [prepare_returns 0] 1075] }

/-- As `world_terminate`, but the ready callback returns 7. -/
def world_ready_refuses : World :=
  { quic_time := 0, s_socket_init := fun _ => 0, open_outs := fun i => socket_ok (3 + i),
    ready_rc := 7, iters := [iter_idle 100 [prepare_returns 0] 1075] }

/-- The start-up open sets socket 0 up as descriptor 3 and fails to create socket 1. -/
def world_open_fails : World :=
  { quic_time := 0, s_socket_init := fun _ => 0, open_outs := outs_second_socket_fails,
    ready_rc := 0, iters := [iter_idle 100 [prepare_returns 0] 0] }

/-- The start-up open succeeds with descriptor 3 on port 4433; in the first
iteration the engine returns `PICOQUIC_NO_ERROR_SIMULATE_MIGRATION` (1077) and the
auxiliary socket is created as descriptor 5 but cannot be bound to port 4434. -/
def world_migration_bind_fails : World :=
  { quic_time := 0, s_socket_init := fun _ => 0, open_outs := fun i => socket_ok (3 + i),
    ready_rc := 0,
    iters := [{ iter_idle 100 [prepare_returns 1077] 0 with
                mig := { fd := 5, ecn_rc := 0, pkt_info_rc := 0, bind_rc := -1 } }] }

/-- The peer `10.0.0.1:5000`. -/
def peer_a : SockAddr := addr4 [10, 0, 0, 1] 5000

/-- A connection of the primary engine whose peer is `10.0.0.1:5000`. -/
def cnx_a : Cnx :=
  { id := 1, path0_peer_addr := peer_a, path0_local_addr := addr4 [192, 168, 0, 1] 4433 }

/-- A datagram of 12 bytes from `from_addr` that arrives on socket 0 at time `t`. -/
def select_datagram (from_addr : SockAddr) (t : Nat) : SelectOutcome :=
  { bytes_recv := 12, addr_from := from_addr, addr_to := addr4 [192, 168, 0, 1] 4433,
    if_index_to := 1, received_ecn := 0, buffer := [1, 2, 3, 4, 5, 6, 7, 8, 9, 10, 11, 12],
    socket_rank := 0, current_time := t }

/-- An iteration of the master loop in which a datagram from `from_addr` arrives
at time `t`, the first connection of the primary engine is `cnx_a` with
`migration_flag = flag`, the array `key` holds `garbage` on entry, and the engine
has nothing to send. -/
def master_iter (from_addr : SockAddr) (t : Nat) (flag : Int) (garbage : String) :
    MasterOutcome :=
  { it := { iter_idle t [prepare_returns 0] 0 with sel := select_datagram from_addr t },
    cnx_list := some { cnx := cnx_a,
                       callback_ctx := some { migration_flag := flag, server_flag := 1 } },
    key_garbage := garbage }

/-- A shared slot that holds nothing yet. -/
def slot_empty : Slot :=
  { trans_bytes := 0, trans_received_ecn := 0, trans_current_time := 0, trans_socket_rank := 0,
    trans_if_index_to := 0, trans_addr_to := addr4 [0, 0, 0, 0] 0,
    trans_addr_from := addr4 [0, 0, 0, 0] 0, trans_peer_addr := addr4 [0, 0, 0, 0] 0,
    trans_local_addr := addr4 [0, 0, 0, 0] 0, trans_sock_af := [], trans_s_socket := [],
    trans_nb_sockets := 0, trans_buffer := [] }

/-- The loop variables after start-up on port 4433 with one IPv4 socket (descriptor 3). -/
def loop_started : LoopState :=
  { ret := 0, current_time := 0, loop_count_time := 0, nb_loops := 0,
    s_socket := fun i => if i = 0 then 3 else -1,
    sock_af := fun i => if i = 0 then 2 else 0,
    nb_sockets := 1, socket_port := 4433, testing_migration := false,
    next_port := 0, last_cnx := none }

/-- The master loop after start-up on port 4433 with one IPv4 socket (descriptor 3),
an empty ownership table and an empty slot. -/
def master_started : MasterState :=
  { loop := loop_started,
    peer_addr := addr4 [0, 0, 0, 0] 0, local_addr := addr4 [0, 0, 0, 0] 0,
    cnx_id_table := some [], slot := slot_empty, trans_flag := 0 }

/-- An IPv6 peer (`AF_INET6` is 10 on Linux). -/
def peer_v6 : SockAddr := { ss_family := 10, port := 7000, host := [0, 0, 0, 0, 0, 0, 0, 1] }

/-- The master loop is started on port 4433 with one IPv4 socket (descriptor 3).  Two
datagrams arrive from `10.0.0.1:5000`: while the first is handled the first
connection of the primary engine has `migration_flag = 1`; while the second is
handled the flag is 0 and the array `key` holds the empty string on entry.  A
third wait fails. -/
def world_master_migrates : MasterWorld :=
  { quic_time := 0, s_socket_init := fun _ => 0, open_outs := fun i => socket_ok (3 + i),
    ready_rc := 0, peer_addr_init := addr4 [0, 0, 0, 0] 0,
    local_addr_init := addr4 [0, 0, 0, 0] 0,
    iters := [master_iter peer_a 100 1 "", master_iter peer_a 200 0 "",
              { master_iter peer_a 300 0 "" with
                it := { iter_idle 300 [] 0 with
                        sel := { select_timeout 300 with bytes_recv := -1 } } }] }

/-- The loop variables after start-up (see `loop_started`) with the value `ret` has
after an iteration whose drain returned `code`. -/
def loop_with_ret (code : Int) : LoopState := { loop_started with ret := code }

/-- A connection whose local address on path 0 is not known yet (family 0). -/
def cnx_no_local : Cnx :=
  { id := 2, path0_peer_addr := peer_a,
    path0_local_addr := { ss_family := 0, port := 0, host := [] } }

/-- The start-up open succeeds with descriptor 3 on port 4433; in the first
iteration the engine returns `PICOQUIC_NO_ERROR_SIMULATE_NAT` (1076) and the
auxiliary socket cannot be created; answers for a second iteration are at hand. -/
def world_nat_socket_fails : World :=
  { quic_time := 0, s_socket_init := fun _ => 0, open_outs := fun i => socket_ok (3 + i),
    ready_rc := 0,
    iters := [{ iter_idle 100 [prepare_returns 1076] 0 with
                mig := { fd := -1, ecn_rc := 0, pkt_info_rc := 0, bind_rc := 0 } },
              iter_idle 200 [prepare_returns 0] 0] }

/-- The loop variables after start-up with `local_port = 0` and one IPv4 socket
(descriptor 3): the local port is not known yet. -/
def loop_unbound : LoopState := { loop_started with socket_port := 0 }

/-- A destination address the waiter could not fill in (family 0). -/
def addr_unspec : SockAddr := { ss_family := 0, port := 0, host := [] }

/-- An iteration in which a datagram of 12 bytes from `10.0.0.1:5000` arrives on
socket 0 at time `t` with destination `dest`; the socket layer reports
`192.168.0.1:bound` as the local address of whichever socket is asked, and the
engine has nothing to send. -/
def iter_datagram (t : Nat) (dest : SockAddr) (bound : Nat) : IterOutcome :=
  { iter_idle t [prepare_returns 0] 0 with
    sel := { select_datagram peer_a t with addr_to := dest },
    local_address := addr4 [192, 168, 0, 1] bound }

/-- An iteration in which the wait on the sockets fails at time `t`. -/
def iter_wait_fails (t : Nat) : IterOutcome :=
  { iter_idle t [] 0 with sel := { select_timeout t with bytes_recv := -1 } }

/-- The loop is started with `local_port = 0` and one IPv4 socket (descriptor 3),
bound by the system to port 50000.  A first datagram arrives whose destination
address has family 0, a second one whose destination is an IPv4 address, then
the wait fails. -/
def world_unknown_family : World :=
  { quic_time := 0, s_socket_init := fun _ => 0, open_outs := fun i => socket_ok (3 + i),
    ready_rc := 0,
    iters := [iter_datagram 100 addr_unspec 50000,
              iter_datagram 200 (addr4 [192, 168, 0, 1] 0) 50000, iter_wait_fails 300] }

/-- The loop is started on port 4433 with one IPv4 socket (descriptor 3).  In the
first iteration the engine returns `PICOQUIC_NO_ERROR_SIMULATE_NAT` (1076) and the
replacement socket is created as descriptor 5, which the system binds to port
50000.  Then a datagram arrives, then the wait fails. -/
def world_nat_then_datagram : World :=
  { quic_time := 0, s_socket_init := fun _ => 0, open_outs := fun i => socket_ok (3 + i),
    ready_rc := 0,
    iters := [iter_idle 100 [prepare_returns 1076] 0,
              iter_datagram 200 (addr4 [192, 168, 0, 1] 0) 50000, iter_wait_fails 300] }

/-- The loop variables while a migration is tested: the first socket
(descriptor 3) on port 4433, the second one (descriptor 5) on port 4434. -/
def loop_migrating : LoopState :=
  { loop_started with
    s_socket := fun i => if i = 0 then 3 else if i = 1 then 5 else -1,
    sock_af := fun i => if i = 0 then 2 else if i = 1 then 2 else 0,
    nb_sockets := 2, testing_migration := true, next_port := 4434 }

/-- An iteration in which a datagram of 12 bytes from `10.0.0.1:5000` arrives at
time `t` on the socket of rank `rank`. -/
def iter_on_rank (t : Nat) (rank : Int) : IterOutcome :=
  { iter_idle t [prepare_returns 0] 0 with
    sel := { select_datagram peer_a t with socket_rank := rank } }

/-- The master loop is started on port 4433 with one IPv4 socket (descriptor 3).  One
datagram arrives from `10.0.0.1:5000` while the first connection of the primary
engine, whose peer is `10.0.0.1:5000`, has `migration_flag = 1`; then the wait
fails. -/
def world_master_trigger : MasterWorld :=
  { quic_time := 0, s_socket_init := fun _ => 0, open_outs := fun i => socket_ok (3 + i),
    ready_rc := 0, peer_addr_init := addr4 [0, 0, 0, 0] 0,
    local_addr_init := addr4 [0, 0, 0, 0] 0,
    iters := [master_iter peer_a 100 1 "",
              { master_iter peer_a 300 0 "" with it := iter_wait_fails 300 }] }

/-- The descriptor the master loop, started on port 4433, writes for a datagram of
12 bytes from `10.0.0.1:5000` that arrived at time 100 (see `master_started`). -/
def slot_a : Slot :=
  { trans_bytes := 12, trans_received_ecn := 0, trans_current_time := 100,
    trans_socket_rank := 0, trans_if_index_to := 1,
    trans_addr_to := addr4 [192, 168, 0, 1] 4433, trans_addr_from := peer_a,
    trans_peer_addr := addr4 [0, 0, 0, 0] 0, trans_local_addr := addr4 [0, 0, 0, 0] 0,
    trans_sock_af := [2, 0, 0, 0], trans_s_socket := [3, -1, -1, -1],
    trans_nb_sockets := 1, trans_buffer := [1, 2, 3, 4, 5, 6, 7, 8, 9, 10, 11, 12] }

/-- An iteration of the slave loop that wakes up with `d` in the slot; its
engine accepts the datagram and has nothing to send. -/
def slave_iter (d : Slot) : SlaveOutcome :=
  { slot := d, it := iter_idle 0 [prepare_returns 0] 0 }

/-- The slave loop wakes up once with `slot_a` in the slot, and a second time
with a negative byte count, which ends it. -/
def world_slave : SlaveWorld :=
  { quic_time := 0, s_socket_init := fun _ => 0,
    iters := [slave_iter slot_a, slave_iter { slot_a with trans_bytes := -1 }] }

/-- Two iterations without datagram.  In the first the engine prepares 60
datagrams for `10.0.0.1:5000`, each sent through socket 0, and then has nothing
more to send (61 passes of the drain); in the second it prepares 50 more and
then asks for the loop to end (51 passes; 1075 is
`PICOQUIC_NO_ERROR_TERMINATE_PACKET_LOOP`). -/
def world_hundred_passes : World :=
  { quic_time := 0, s_socket_init := fun _ => 0, open_outs := fun i => socket_ok (3 + i),
    ready_rc := 0,
    iters := [iter_idle 100 (List.replicate 60 (prepare_datagram peer_a 1200 0) ++
                             [prepare_returns 0]) 0,
              iter_idle 200 (List.replicate 50 (prepare_datagram peer_a 1200 0) ++
                             [prepare_returns 1075]) 0] }

/-- Idle iterations at times `t`, `t + 1`, ..., `t + n - 1`: nothing arrives and
the engine has nothing to send. -/
def idle_iters (t n : Nat) : List IterOutcome :=
  (List.range n).map (fun i => iter_idle (t + i) [prepare_returns 0] 0)

/-- The loop is started on port 4433 with one IPv4 socket (descriptor 3) and makes
100 idle iterations; then the wait fails. -/
def world_hundred_idle : World :=
  { quic_time := 0, s_socket_init := fun _ => 0, open_outs := fun i => socket_ok (3 + i),
    ready_rc := 0, iters := idle_iters 100 100 ++ [iter_wait_fails 300] }

/-- As `world_hundred_idle`, but in the 51st iteration the engine prepares one
datagram for `10.0.0.1:5000` and `picoquic_send_through_socket` fails (it returns -1
with error 101). -/
def world_failed_send : World :=
  { quic_time := 0, s_socket_init := fun _ => 0, open_outs := fun i => socket_ok (3 + i),
    ready_rc := 0,
    iters := idle_iters 100 50 ++
      [iter_idle 150 [prepare_datagram peer_a (-1) 101, prepare_returns 0] 0] ++
      idle_iters 151 49 ++ [iter_wait_fails 300] }

/-- The loop variables of `loop_started` after 99 iterations without diagnostic or
prepared datagram. -/
def loop_at_99 : LoopState := { loop_started with nb_loops := 99 }

/-- The engine returns `PICOQUIC_NO_ERROR_SIMULATE_MIGRATION` (1077) for the
connection `cnx_a`. -/
def prepare_asks_migration : PrepareOutcome :=
  { prepare_returns 1077 with last_cnx := some cnx_a }

/-- As `master_iter`, with both flags of the callback context given. -/
def master_iter_flags (from_addr : SockAddr) (t : Nat) (migration_flag server_flag : Int) :
    MasterOutcome :=
  { master_iter from_addr t migration_flag "" with
    cnx_list := some { cnx := cnx_a,
                       callback_ctx := some { migration_flag := migration_flag,
                                              server_flag := server_flag } } }

/-- An iteration of the slave loop that wakes up with `slot_a` in the slot; its
engine returns 7 from `picoquic_incoming_packet` and has nothing to send. -/
def slave_iter_refused : SlaveOutcome :=
  { slot := slot_a, it := { iter_idle 0 [prepare_returns 0] 0 with incoming_rc := 7 } }

/-- A layout with a `file_name` of 256 characters and `/` as separator. -/
def layout_256 : SampleLayout :=
  { file_name_size := 256, PICOQUIC_FILE_SEPARATOR := 47 }

/-- Answers of an environment in which every allocation succeeds, the default
context is `d`, the file exists and has `sz` bytes, and each read is complete
when it asks for `nb_read` bytes. -/
def app_ok (d : ServerCtx) (sz : Int) (nb_read : Nat) : AppOutcome :=
  { server_ctx_alloc := true, d_ctx := some d, stream_ctx_alloc := true, file_open := true,
    sz := sz, mark_active := 0, buffer := true, nb_read := nb_read }

/-- The context of a connection of a server started in the directory `dir`, with
the two flags given. -/
def server_ctx_in (dir : List Nat) (migration_flag server_flag : Int) : ServerCtx :=
  { default_dir := dir, default_dir_len := dir.length, migration_flag := migration_flag,
    server_flag := server_flag, file_name := List.replicate 256 0 }

/-- A stream context whose file of 1000 bytes is open, 400 of them sent. -/
def stream_sending : StreamCtx :=
  { stream_id := 4, is_name_read := 1, name_length := 1,
    file_name := 97 :: List.replicate 255 0, F := true, file_length := 1000, file_sent := 400 }

/-- A stream context that has read a name of `n` characters `b`, before the name
is opened. -/
def stream_named (n : Nat) : StreamCtx :=
  { stream_id := 4, is_name_read := 1, name_length := n,
    file_name := List.replicate n 98 ++ List.replicate (256 - n) 0, F := false,
    file_length := 0, file_sent := 0 }

/-- Answers of an environment in which every allocation succeeds and the file
asked for does not exist. -/
def app_no_file (d : ServerCtx) : AppOutcome :=
  { app_ok d 0 0 with file_open := false }

/-- The master loop of `master_started` at a time when the table holds the key
`10.0.0.1:5000`. -/
def master_with_key : MasterState :=
  { master_started with cnx_id_table := some ["10.0.0.1:5000"] }

/-- The engines when the primary owns the connection `cnx_a`, with the default
context of a primary started in the current directory, and the backup owns
none. -/
def engines_a : Engines :=
  { primary := [{ cnx := cnx_a, callback_ctx := some (default_migration_context []) }],
    backup := [] }

/-- One character of stream data on a new stream 8 is delivered to the callback of
connection 1. -/
def deliver_data : EngineStep :=
  EngineStep.deliver 1 8 [97] 1 CallbackEvent.stream_data none
    (app_ok (default_migration_context []) 10 0)

/-- Three iterations of the master loop beside the engines.  Before the first, the
callback of connection 1 is given stream data; a datagram from `10.0.0.1:5000`
arrives.  Before the second, the callback of connection 1 is given stream data
again; a second datagram from `10.0.0.1:5000` arrives while the array `key`
still holds the text of that address.  In the third the wait fails. -/
def dual_two_datagrams : List DualOutcome :=
  [{ steps := [deliver_data], o := master_iter peer_a 100 0 "" },
   { steps := [deliver_data], o := master_iter peer_a 200 0 "10.0.0.1:5000" },
   { steps := [], o := { master_iter peer_a 300 0 "" with it := iter_wait_fails 300 } }]

/-! ## Theorems -/

/-! ### `picoquic_packet_loop_open_sockets` -/

theorem open_one_socket_ok (local_port af : Int) (o : SocketOutcome)
    (h1 : o.fd ≠ INVALID_SOCKET) (h2 : o.ecn_rc = 0) (h3 : o.pkt_info_rc = 0)
    (h4 : local_port ≠ 0 → o.bind_rc = 0) :
    (open_one_socket local_port af o).1 = false ∧
    bind_attempts (open_one_socket local_port af o).2
      = if local_port ≠ 0 then [(o.fd, local_port)] else [] := by
  unfold open_one_socket
  by_cases hp : local_port = 0
  · simp [h1, h2, h3, hp, bind_attempts]
  · simp [h1, h2, h3, hp, h4 hp, bind_attempts]

theorem bind_attempts_append (a b : List Event) :
    bind_attempts (a ++ b) = bind_attempts a ++ bind_attempts b := by
  simp [bind_attempts, List.filterMap_append]

/-- C3: when every socket-creation, option-setting and bind step succeeds,
`picoquic_packet_loop_open_sockets` called with `AF_UNSPEC` and room for two
sockets returns 2 with `sock_af[0] = AF_INET` and `sock_af[1] = AF_INET6`;
called with `AF_INET` or `AF_INET6` and room for one socket it returns 1 with
`sock_af[0] = local_af`; and a bind to `local_port` is attempted on each
socket exactly when `local_port != 0`. -/
theorem open_sockets_success (c : Platform) (local_port local_af : Int)
    (s_socket sock_af : Nat → Int) (nb_sockets_max : Int) (outs : Nat → SocketOutcome)
    (h4 : c.AF_INET ≠ c.AF_UNSPEC) (h6 : c.AF_INET6 ≠ c.AF_UNSPEC)
    (hok : ∀ i, (outs i).fd ≠ INVALID_SOCKET ∧ (outs i).ecn_rc = 0 ∧ (outs i).pkt_info_rc = 0 ∧
      (local_port ≠ 0 → (outs i).bind_rc = 0)) :
    (local_af = c.AF_UNSPEC → 2 ≤ nb_sockets_max →
      (picoquic_packet_loop_open_sockets c local_port local_af s_socket sock_af nb_sockets_max
        outs).nb_sockets = 2 ∧
      (picoquic_packet_loop_open_sockets c local_port local_af s_socket sock_af nb_sockets_max
        outs).sock_af 0 = c.AF_INET ∧
      (picoquic_packet_loop_open_sockets c local_port local_af s_socket sock_af nb_sockets_max
        outs).sock_af 1 = c.AF_INET6 ∧
      (picoquic_packet_loop_open_sockets c local_port local_af s_socket sock_af nb_sockets_max
        outs).s_socket 0 = (outs 0).fd ∧
      (picoquic_packet_loop_open_sockets c local_port local_af s_socket sock_af nb_sockets_max
        outs).s_socket 1 = (outs 1).fd ∧
      bind_attempts (picoquic_packet_loop_open_sockets c local_port local_af s_socket sock_af
        nb_sockets_max outs).events
        = if local_port ≠ 0 then [((outs 0).fd, local_port), ((outs 1).fd, local_port)] else []) ∧
    ((local_af = c.AF_INET ∨ local_af = c.AF_INET6) → 1 ≤ nb_sockets_max →
      (picoquic_packet_loop_open_sockets c local_port local_af s_socket sock_af nb_sockets_max
        outs).nb_sockets = 1 ∧
      (picoquic_packet_loop_open_sockets c local_port local_af s_socket sock_af nb_sockets_max
        outs).sock_af 0 = local_af ∧
      (picoquic_packet_loop_open_sockets c local_port local_af s_socket sock_af nb_sockets_max
        outs).s_socket 0 = (outs 0).fd ∧
      bind_attempts (picoquic_packet_loop_open_sockets c local_port local_af s_socket sock_af
        nb_sockets_max outs).events
        = if local_port ≠ 0 then [((outs 0).fd, local_port)] else []) := by
  have o0 := open_one_socket_ok local_port
  constructor
  · intro hu hmax
    have hmax2 : ¬ ((2 : Int) > nb_sockets_max) := by omega
    obtain ⟨a1, a2, a3, a4⟩ := hok 0
    obtain ⟨b1, b2, b3, b4⟩ := hok 1
    have e0 := o0 c.AF_INET (outs 0) a1 a2 a3 a4
    have e1 := o0 c.AF_INET6 (outs 1) b1 b2 b3 b4
    simp only [picoquic_packet_loop_open_sockets, hu, if_true, Nat.cast_ofNat, hmax2, if_false,
      open_sockets_loop, setAt]
    simp only [if_true, Nat.zero_ne_one, if_false, e0.1, e1.1, Nat.zero_add, one_ne_zero,
      Bool.false_eq_true, bind_attempts_append, e0.2, e1.2]
    refine ⟨trivial, trivial, trivial, by simp [setAt], by simp [setAt], ?_⟩
    by_cases hp : local_port = 0 <;> simp [hp, bind_attempts]
  · intro hf hmax
    have hne : local_af ≠ c.AF_UNSPEC := by
      rcases hf with h | h
      · rw [h]; exact h4
      · rw [h]; exact h6
    have hmax1 : ¬ ((1 : Int) > nb_sockets_max) := by omega
    obtain ⟨a1, a2, a3, a4⟩ := hok 0
    have e0 := o0 local_af (outs 0) a1 a2 a3 a4
    simp only [picoquic_packet_loop_open_sockets, hne, if_false, Nat.cast_one, hmax1, hf, if_true,
      open_sockets_loop, setAt]
    simp only [if_true, e0.1, Bool.false_eq_true, if_false, bind_attempts_append, e0.2]
    refine ⟨trivial, trivial, by simp [setAt], ?_⟩
    by_cases hp : local_port = 0 <;> simp [hp, bind_attempts]

/-- Witness of C3: a dual-stack open on port 4433 on Linux with descriptors 3 and 4. -/
theorem open_sockets_success_witness :
    (picoquic_packet_loop_open_sockets linux 4433 0 (fun _ => -1) (fun _ => 0) 4
        (fun i => socket_ok (3 + i))).nb_sockets = 2 ∧
    bind_attempts (picoquic_packet_loop_open_sockets linux 4433 0 (fun _ => -1) (fun _ => 0) 4
        (fun i => socket_ok (3 + i))).events = [(3, 4433), (4, 4433)] := by
  have h := (open_sockets_success linux 4433 0 (fun _ => -1) (fun _ => 0) 4
    (fun i => socket_ok (3 + i)) (by decide) (by decide)
    (by intro i; simp [socket_ok, INVALID_SOCKET]; omega)).1 rfl (by decide)
  exact ⟨h.1, by simpa using h.2.2.2.2.2⟩

/-- C4 (the code departs from the specification): on a dual-stack open where socket 0 is set up as
descriptor 3 and the bind of socket 1 (descriptor 4) fails, the call returns 0
having closed descriptor 4 only: descriptor 3 is left open. -/
theorem open_sockets_rollback_leaves_socket_open :
    (picoquic_packet_loop_open_sockets linux 4433 0 (fun _ => -1) (fun _ => 0) 4
      outs_second_bind_fails).nb_sockets = 0 ∧
    (picoquic_packet_loop_open_sockets linux 4433 0 (fun _ => -1) (fun _ => 0) 4
      outs_second_bind_fails).events =
      [Event.socket 2 3, Event.set_ecn_options 3 2 0, Event.set_pkt_info 3 2 0,
       Event.bind_to_port 3 2 4433 0,
       Event.socket 10 4, Event.set_ecn_options 4 10 0, Event.set_pkt_info 4 10 0,
       Event.bind_to_port 4 10 4433 (-1),
       Event.close 4] ∧
    open_after [] (picoquic_packet_loop_open_sockets linux 4433 0 (fun _ => -1) (fun _ => 0) 4
      outs_second_bind_fails).events = [3] := by
  decide

/-! ### The send drain -/

theorem scan_send_socket_spec (S A : Nat → Int) (fam : Int) (n : Nat) :
    ∀ a, (∃ i, a ≤ i ∧ i < a + n ∧ A i = fam ∧ (∀ j, a ≤ j → j < i → A j ≠ fam) ∧
            scan_send_socket S A fam (List.range' a n) = S i) ∨
         ((∀ i, a ≤ i → i < a + n → A i ≠ fam) ∧
            scan_send_socket S A fam (List.range' a n) = INVALID_SOCKET) := by
  induction n with
  | zero =>
    intro a
    right
    exact ⟨fun i h1 h2 => by omega, by simp [scan_send_socket]⟩
  | succ n ih =>
    intro a
    by_cases h : A a = fam
    · left
      exact ⟨a, le_refl a, by omega, h, fun j h1 h2 => by omega,
        by simp [List.range'_succ, scan_send_socket, h]⟩
    · rcases ih (a + 1) with ⟨i, h1, h2, h3, h4, h5⟩ | ⟨h1, h2⟩
      · left
        refine ⟨i, by omega, by omega, h3, ?_, by simp [List.range'_succ, scan_send_socket, h, h5]⟩
        intro j hj1 hj2
        by_cases hja : j = a
        · rw [hja]; exact h
        · exact h4 j (by omega) hj2
      · right
        refine ⟨?_, by simp [List.range'_succ, scan_send_socket, h, h2]⟩
        intro i hi1 hi2
        by_cases hia : i = a
        · rw [hia]; exact h
        · exact h1 i (by omega) (by omega)

theorem send_failure_events_not_send (c : Platform) (st : LoopState) (p : PrepareOutcome)
    (sr se : Int) (e : Event) (h : e ∈ send_failure_events c st p sr se) :
    e.is_send = false ∧ e.assigned_ret = none ∧ e.is_ready = false := by
  unfold send_failure_events at h
  cases hl : st.last_cnx <;> simp only [hl] at h <;> split_ifs at h <;> simp at h
  all_goals first
    | (subst h; exact ⟨rfl, rfl, rfl⟩)
    | (rcases h with h | h <;> subst h <;> exact ⟨rfl, rfl, rfl⟩)

theorem send_step_sends (c : Platform) (st : LoopState) (p : PrepareOutcome) (e : Event)
    (h : e ∈ send_step c st p) (hs : e.is_send = true) :
    scan_send_socket st.s_socket st.sock_af p.peer_addr.ss_family (List.range st.nb_sockets)
      ≠ INVALID_SOCKET ∧
    e = Event.send_through_socket
          (migration_send_socket c st p.local_addr
            (scan_send_socket st.s_socket st.sock_af p.peer_addr.ss_family
              (List.range st.nb_sockets)))
          p.peer_addr p.local_addr p.if_index p.send_length p.sock_ret := by
  unfold send_step at h
  by_cases hinv : scan_send_socket st.s_socket st.sock_af p.peer_addr.ss_family
      (List.range st.nb_sockets) = INVALID_SOCKET
  · simp only [hinv, if_true] at h
    have := (send_failure_events_not_send c st p _ _ e h).1
    rw [this] at hs
    exact absurd hs (by decide)
  · simp only [hinv, if_false, List.mem_cons] at h
    rcases h with h | h
    · exact ⟨hinv, h⟩
    · have := (send_failure_events_not_send c st p _ _ e h).1
      rw [this] at hs
      exact absurd hs (by decide)

theorem send_step_socket (c : Platform) (st : LoopState) (p : PrepareOutcome)
    (fd : Int) (peer loc : SockAddr) (ifx : Int) (len : Nat) (sr : Int)
    (h : Event.send_through_socket fd peer loc ifx len sr ∈ send_step c st p) :
    peer = p.peer_addr ∧ loc = p.local_addr ∧
    ∃ i, i < st.nb_sockets ∧ st.sock_af i = p.peer_addr.ss_family ∧
      (∀ j, j < i → st.sock_af j ≠ p.peer_addr.ss_family) ∧
      fd = if st.testing_migration = true ∧ p.local_addr.port = st.next_port
           then st.s_socket (st.nb_sockets - 1) else st.s_socket i := by
  have hs := scan_send_socket_spec st.s_socket st.sock_af p.peer_addr.ss_family st.nb_sockets 0
  rw [← List.range_eq_range'] at hs
  obtain ⟨hne, he⟩ := send_step_sends c st p _ h rfl
  injection he with e1 e2 e3 e4 e5 e6
  rcases hs with ⟨i, _, h2, h3, h4, h5⟩ | ⟨_, h2⟩
  · refine ⟨e2, e3, i, by omega, h3, fun j hj => h4 j (Nat.zero_le j) hj, ?_⟩
    rw [e1, h5]
    unfold migration_send_socket
    by_cases htm : st.testing_migration = true
    · by_cases hp : p.local_addr.port = st.next_port
      · simp [htm, hp, SockAddr.sin_port, SockAddr.sin6_port]
      · simp [htm, hp, SockAddr.sin_port, SockAddr.sin6_port]
    · simp [htm]
  · exact absurd h2 hne

theorem send_step_quiet (c : Platform) (st : LoopState) (p : PrepareOutcome) (e : Event)
    (h : e ∈ send_step c st p) : e.assigned_ret = none ∧ e.is_ready = false := by
  simp only [send_step] at h
  split_ifs at h
  · exact (send_failure_events_not_send c st p _ _ e h).2
  · rcases List.mem_cons.1 h with h | h
    · subst h; exact ⟨rfl, rfl⟩
    · exact (send_failure_events_not_send c st p _ _ e h).2

theorem send_drain_cons_go (c : Platform) (st : LoopState) (p : PrepareOutcome)
    (ps : List PrepareOutcome) (h0 : st.ret = 0) (h1 : p.rc = 0) (h2 : p.send_length > 0) :
    send_drain c st (p :: ps) =
      ((send_drain c (reset_loop_count (after_prepare st p)) ps).1,
       Event.prepare_next_packet st.current_time p.rc p.send_length ::
         (send_step c (reset_loop_count (after_prepare st p)) p ++
          (send_drain c (reset_loop_count (after_prepare st p)) ps).2)) := by
  rw [send_drain]
  simp only [h0, if_true, h1, h2, and_self]

theorem send_drain_cons_stop (c : Platform) (st : LoopState) (p : PrepareOutcome)
    (ps : List PrepareOutcome) (h0 : st.ret = 0) (h1 : ¬ (p.rc = 0 ∧ p.send_length > 0)) :
    send_drain c st (p :: ps) =
      (some (after_prepare st p),
       [Event.prepare_next_packet st.current_time p.rc p.send_length]) := by
  rw [send_drain]
  simp only [h0, if_true, h1, if_false]

theorem send_drain_skip (c : Platform) (st : LoopState) (ps : List PrepareOutcome)
    (h0 : st.ret ≠ 0) : send_drain c st ps = (some st, []) := by
  cases ps <;> simp [send_drain, h0]

theorem prepare_calls_append (a b : List Event) :
    prepare_calls (a ++ b) = prepare_calls a ++ prepare_calls b := by
  simp [prepare_calls, List.filterMap_append]

theorem prepare_calls_quiet (t : List Event) (h : ∀ e ∈ t, e.assigned_ret = none) :
    prepare_calls t = [] := by
  induction t with
  | nil => rfl
  | cons e t ih =>
    have he := h e (List.mem_cons_self e t)
    have ht := ih (fun x hx => h x (List.mem_cons_of_mem e hx))
    cases e with
    | prepare_next_packet t rc n => simp [Event.assigned_ret] at he
    | _ => simpa [prepare_calls, List.filterMap_cons] using ht

/-- C7: within one iteration the send drain calls `picoquic_prepare_next_packet`
once for every answer with `rc = 0` and `send_length > 0` and once more for the
first answer with `rc != 0` or `send_length = 0`, where it stops, leaving that
`rc` in `ret`; this holds whatever the sends return and whatever the socket
set is, so a failed or impossible transmission neither stops the drain nor
changes `ret`. -/
theorem send_drain_stops_at_first_decline (c : Platform) (pre : List PrepareOutcome)
    (stop : PrepareOutcome) (rest : List PrepareOutcome)
    (hpre : ∀ p ∈ pre, p.rc = 0 ∧ p.send_length > 0)
    (hstop : stop.rc ≠ 0 ∨ stop.send_length = 0) :
    ∀ st : LoopState, st.ret = 0 →
      ∃ st1, (send_drain c st (pre ++ stop :: rest)).1 = some st1 ∧ st1.ret = stop.rc ∧
        prepare_calls (send_drain c st (pre ++ stop :: rest)).2
          = (pre ++ [stop]).map (fun p => (p.rc, p.send_length)) := by
  induction pre with
  | nil =>
    intro st h0
    have hs : ¬ (stop.rc = 0 ∧ stop.send_length > 0) := by
      rintro ⟨h1, h2⟩
      rcases hstop with h | h
      · exact h h1
      · omega
    rw [List.nil_append, send_drain_cons_stop c st stop rest h0 hs]
    exact ⟨_, rfl, rfl, rfl⟩
  | cons p pre ih =>
    intro st h0
    obtain ⟨hrc, hlen⟩ := hpre p (List.mem_cons_self p pre)
    obtain ⟨st1, h1, h2, h3⟩ := ih (fun q hq => hpre q (List.mem_cons_of_mem p hq))
      (reset_loop_count (after_prepare st p)) hrc
    rw [List.cons_append, send_drain_cons_go c st p _ h0 hrc hlen]
    refine ⟨st1, h1, h2, ?_⟩
    rw [show ∀ (x : Event) (l : List Event), x :: l = [x] ++ l from fun _ _ => rfl,
      prepare_calls_append, prepare_calls_append,
      prepare_calls_quiet _ (fun e he => (send_step_quiet c _ p e he).1), h3]
    simp [prepare_calls, hrc]

theorem send_drain_sends (c : Platform) (S A : Nat → Int) (n : Nat) (tm : Bool) (np : Nat)
    (ps : List PrepareOutcome) :
    ∀ st : LoopState, st.s_socket = S → st.sock_af = A → st.nb_sockets = n →
      st.testing_migration = tm → st.next_port = np →
      ∀ (fd : Int) (peer loc : SockAddr) (ifx : Int) (len : Nat) (sr : Int),
        Event.send_through_socket fd peer loc ifx len sr ∈ (send_drain c st ps).2 →
        ∃ i, i < n ∧ A i = peer.ss_family ∧ (∀ j, j < i → A j ≠ peer.ss_family) ∧
          fd = if tm = true ∧ loc.port = np then S (n - 1) else S i := by
  induction ps with
  | nil =>
    intro st _ _ _ _ _ fd peer loc ifx len sr h
    simp only [send_drain] at h
    split_ifs at h <;> simp at h
  | cons p ps ih =>
    intro st hS hA hn htm hnp fd peer loc ifx len sr h
    by_cases h0 : st.ret = 0
    · by_cases hgo : p.rc = 0 ∧ p.send_length > 0
      · rw [send_drain_cons_go c st p ps h0 hgo.1 hgo.2] at h
        simp only [List.mem_cons, List.mem_append] at h
        rcases h with h | h | h
        · exact absurd h (by simp)
        · obtain ⟨e1, e2, i, hi, h1, h2, h3⟩ := send_step_socket c _ p fd peer loc ifx len sr h
          simp only [reset_loop_count, after_prepare] at hi h1 h2 h3
          rw [hS, hn, htm, hnp] at h3
          rw [hA] at h1 h2
          rw [hn] at hi
          subst e1 e2
          exact ⟨i, hi, h1, h2, h3⟩
        · exact ih (reset_loop_count (after_prepare st p)) hS hA hn htm hnp fd peer loc ifx len sr h
      · rw [send_drain_cons_stop c st p ps h0 hgo] at h
        simp at h
    · rw [send_drain_skip c st _ h0] at h
      simp at h

/-- C8: every datagram the send drain hands to `picoquic_send_through_socket` goes
through the socket of the lowest index whose recorded family equals the family
of the destination address, except that with `testing_migration` set and the
port of the local address equal to `next_port` it goes through the last socket
of the set; and when no entry has the family of the destination, sending the
datagram makes no call of `picoquic_send_through_socket`. -/
theorem send_socket_choice (c : Platform) (st : LoopState) (ps : List PrepareOutcome) :
    (∀ (fd : Int) (peer loc : SockAddr) (ifx : Int) (len : Nat) (sr : Int),
      Event.send_through_socket fd peer loc ifx len sr ∈ (send_drain c st ps).2 →
      ∃ i, i < st.nb_sockets ∧ st.sock_af i = peer.ss_family ∧
        (∀ j, j < i → st.sock_af j ≠ peer.ss_family) ∧
        fd = if st.testing_migration = true ∧ loc.port = st.next_port
             then st.s_socket (st.nb_sockets - 1) else st.s_socket i) ∧
    (∀ p : PrepareOutcome, (∀ i, i < st.nb_sockets → st.sock_af i ≠ p.peer_addr.ss_family) →
      ∀ e ∈ send_step c st p, e.is_send = false) := by
  constructor
  · exact send_drain_sends c st.s_socket st.sock_af st.nb_sockets st.testing_migration
      st.next_port ps st rfl rfl rfl rfl rfl
  · intro p hno e he
    cases hs : e.is_send with
    | false => rfl
    | true =>
      cases e with
      | send_through_socket fd peer loc ifx len sr =>
        obtain ⟨_, _, i, hi, h1, _⟩ := send_step_socket c st p fd peer loc ifx len sr he
        exact absurd h1 (hno i hi)
      | _ => simp [Event.is_send] at hs

/-! ### Reading the trace of a run -/

theorem ending_from_append (a : Option Event) (x y : List Event) :
    ending_from a (x ++ y) = ending_from (ending_from a x) y := by
  simp [ending_from, List.foldl_append]

theorem ending_from_quiet (a : Option Event) (t : List Event)
    (h : ∀ e ∈ t, e.assigned_ret = none) : ending_from a t = a := by
  induction t generalizing a with
  | nil => rfl
  | cons e t ih =>
    have he := h e (List.mem_cons_self e t)
    simp only [ending_from, List.foldl_cons, he, Option.isSome_none, Bool.false_eq_true,
      if_false]
    exact ih a (fun x hx => h x (List.mem_cons_of_mem e hx))

theorem ending_from_cons (a : Option Event) (e : Event) (t : List Event) :
    ending_from a (e :: t) = ending_from (if e.assigned_ret.isSome then some e else a) t := by
  simp [ending_from]

theorem socket_setup_quiet (e : Event) (h : e.is_socket_setup = true) :
    e.assigned_ret = none ∧ e.is_ready = false ∧ e.is_wait_or_engine = false := by
  cases e <;> first | exact ⟨rfl, rfl, rfl⟩ | (simp [Event.is_socket_setup] at h)

theorem open_one_socket_setup (local_port af : Int) (o : SocketOutcome) :
    ∀ e ∈ (open_one_socket local_port af o).2, e.is_socket_setup = true := by
  have h : (open_one_socket local_port af o).2.all Event.is_socket_setup = true := by
    unfold open_one_socket
    split_ifs <;> rfl
  exact fun e he => List.all_eq_true.1 h e he

theorem open_sockets_rollback_setup (i n : Nat) :
    ∀ s, ∀ e ∈ (open_sockets_rollback i n s).2, e.is_socket_setup = true := by
  induction n with
  | zero => intro s e he; simp [open_sockets_rollback] at he
  | succ n ih =>
    intro s e he
    rw [open_sockets_rollback] at he
    split_ifs at he
    · rcases List.mem_cons.1 he with h | h
      · subst h; rfl
      · exact ih _ e h
    · exact ih _ e he

theorem open_sockets_loop_setup (local_port : Int) (sock_af : Nat → Int)
    (outs : Nat → SocketOutcome) (nb : Nat) (n : Nat) :
    ∀ i s, ∀ e ∈ (open_sockets_loop local_port sock_af outs nb n i s).2.2,
      e.is_socket_setup = true := by
  induction n with
  | zero => intro i s e he; simp [open_sockets_loop] at he
  | succ n ih =>
    intro i s e he
    rw [open_sockets_loop] at he
    simp only at he
    split_ifs at he
    · rcases List.mem_append.1 he with h | h
      · exact open_one_socket_setup _ _ _ e h
      · exact open_sockets_rollback_setup _ _ _ e h
    · rcases List.mem_append.1 he with h | h
      · exact open_one_socket_setup _ _ _ e h
      · exact ih _ _ e h

theorem open_sockets_setup (c : Platform) (local_port local_af : Int) (s a : Nat → Int)
    (m : Int) (outs : Nat → SocketOutcome) :
    ∀ e ∈ (picoquic_packet_loop_open_sockets c local_port local_af s a m outs).events,
      e.is_socket_setup = true := by
  intro e he
  exact open_sockets_loop_setup _ _ _ _ _ _ _ e he

theorem close_sockets_close (s : Nat → Int) (l : List Nat) :
    ∀ e ∈ close_sockets s l, ∃ fd, e = Event.close fd := by
  induction l with
  | nil => intro e he; simp [close_sockets] at he
  | cons i l ih =>
    intro e he
    rw [close_sockets] at he
    split_ifs at he
    · rcases List.mem_cons.1 he with h | h
      · exact ⟨_, h⟩
      · exact ih e h
    · exact ih e he

/-! ### The steps of one iteration keep `ret` tracked by the trace -/

theorem wait_step_ret (st : LoopState) (o : IterOutcome) : (wait_step st o).1.ret = st.ret := by
  unfold wait_step
  simp only
  split_ifs <;> rfl

theorem wait_step_ending (st : LoopState) (o : IterOutcome) (acc : Option Event) :
    ending_from acc (wait_step st o).2 =
      if o.sel.bytes_recv < 0 then some (Event.select_ex st.sockets o.delta_t o.sel.bytes_recv)
      else acc := by
  unfold wait_step
  simp only
  split_ifs <;> simp [ending_from, Event.assigned_ret, *]

theorem wait_step_no_ready (st : LoopState) (o : IterOutcome) :
    ∀ e ∈ (wait_step st o).2, e.is_ready = false := by
  have h : (wait_step st o).2.all (fun e => !e.is_ready) = true := by
    unfold wait_step
    simp only
    split_ifs <;> rfl
  intro e he
  simpa using List.all_eq_true.1 h e he

theorem learn_port_ret (c : Platform) (st : LoopState) (o : IterOutcome) :
    (learn_port c st o).1.ret = st.ret := by
  unfold learn_port
  split_ifs <;> rfl

theorem learn_port_quiet (c : Platform) (st : LoopState) (o : IterOutcome) :
    ∀ e ∈ (learn_port c st o).2, e.assigned_ret = none ∧ e.is_ready = false := by
  intro e he
  unfold learn_port at he
  split_ifs at he <;> simp at he <;> subst he <;> exact ⟨rfl, rfl⟩

theorem receive_step_tracks (c : Platform) (cb : Bool) (st : LoopState) (o : IterOutcome)
    (acc : Option Event) (h : RetTracked acc st.ret) :
    RetTracked (ending_from acc (receive_step c cb st o).2) (receive_step c cb st o).1.ret := by
  have hq : ∀ e ∈ (learn_port c st o).2, e.assigned_ret = none :=
    fun e he => (learn_port_quiet c st o e he).1
  unfold receive_step
  simp only
  cases cb with
  | true =>
    simp only [if_true]
    right
    refine ⟨Event.loop_callback CbMode.picoquic_packet_loop_after_receive o.after_receive_rc,
      ?_, rfl⟩
    rw [ending_from_append, ending_from_quiet _ _ hq]
    simp [ending_from, Event.assigned_ret]
  | false =>
    simp only [Bool.false_eq_true, if_false]
    rw [ending_from_append, ending_from_quiet _ _ hq, learn_port_ret]
    simpa [ending_from, Event.assigned_ret] using h

theorem receive_step_no_ready (c : Platform) (cb : Bool) (st : LoopState) (o : IterOutcome) :
    ∀ e ∈ (receive_step c cb st o).2, e.is_ready = false := by
  intro e he
  unfold receive_step at he
  simp only at he
  split_ifs at he <;> simp only [List.mem_append, List.mem_cons, List.mem_singleton,
    List.not_mem_nil, or_false] at he
  · rcases he with h | h | h
    · exact (learn_port_quiet c st o e h).2
    · subst h; rfl
    · subst h; rfl
  · rcases he with h | h
    · exact (learn_port_quiet c st o e h).2
    · subst h; rfl

theorem send_drain_tracks (c : Platform) (ps : List PrepareOutcome) :
    ∀ (st st1 : LoopState) (acc : Option Event), RetTracked acc st.ret →
      (send_drain c st ps).1 = some st1 →
      RetTracked (ending_from acc (send_drain c st ps).2) st1.ret := by
  induction ps with
  | nil =>
    intro st st1 acc h h1
    by_cases h0 : st.ret = 0
    · simp [send_drain, h0] at h1
    · rw [send_drain_skip c st _ h0] at h1 ⊢
      simp only [Option.some.injEq] at h1
      subst h1
      simpa [ending_from] using h
  | cons p ps ih =>
    intro st st1 acc h h1
    by_cases h0 : st.ret = 0
    · by_cases hgo : p.rc = 0 ∧ p.send_length > 0
      · rw [send_drain_cons_go c st p ps h0 hgo.1 hgo.2] at h1 ⊢
        simp only at h1 ⊢
        rw [ending_from_cons, ending_from_append,
          ending_from_quiet _ _ (fun e he => (send_step_quiet c _ p e he).1)]
        exact ih _ st1 _ (Or.inl hgo.1) h1
      · rw [send_drain_cons_stop c st p ps h0 hgo] at h1 ⊢
        simp only [Option.some.injEq] at h1
        subst h1
        right
        exact ⟨Event.prepare_next_packet st.current_time p.rc p.send_length,
          by simp [ending_from, Event.assigned_ret], rfl⟩
    · rw [send_drain_skip c st _ h0] at h1 ⊢
      simp only [Option.some.injEq] at h1
      subst h1
      simpa [ending_from] using h

theorem send_drain_no_ready (c : Platform) (ps : List PrepareOutcome) :
    ∀ (st : LoopState), ∀ e ∈ (send_drain c st ps).2, e.is_ready = false := by
  induction ps with
  | nil =>
    intro st e he
    simp only [send_drain] at he
    split_ifs at he <;> simp at he
  | cons p ps ih =>
    intro st e he
    by_cases h0 : st.ret = 0
    · by_cases hgo : p.rc = 0 ∧ p.send_length > 0
      · rw [send_drain_cons_go c st p ps h0 hgo.1 hgo.2] at he
        simp only [List.mem_cons, List.mem_append] at he
        rcases he with h | h | h
        · subst h; rfl
        · exact (send_step_quiet c _ p e h).2
        · exact ih _ e h
      · rw [send_drain_cons_stop c st p ps h0 hgo] at he
        simp only [List.mem_singleton] at he
        subst he; rfl
    · rw [send_drain_skip c st _ h0] at he
      simp at he

theorem after_send_step_tracks (cb : Bool) (st : LoopState) (o : IterOutcome)
    (acc : Option Event) (h : RetTracked acc st.ret) :
    RetTracked (ending_from acc (after_send_step cb st o).2) (after_send_step cb st o).1.ret := by
  unfold after_send_step
  split_ifs
  · right
    exact ⟨Event.loop_callback CbMode.picoquic_packet_loop_after_send o.after_send_rc,
      by simp [ending_from, Event.assigned_ret], rfl⟩
  · simpa [ending_from] using h

theorem after_send_step_no_ready (cb : Bool) (st : LoopState) (o : IterOutcome) :
    ∀ e ∈ (after_send_step cb st o).2, e.is_ready = false := by
  intro e he
  unfold after_send_step at he
  split_ifs at he <;> simp at he
  subst he; rfl

theorem ending_from_quiet_snoc (a : Option Event) (t : List Event) (e : Event)
    (h : ∀ x ∈ t, x.assigned_ret = none) :
    ending_from a (t ++ [e]) = if e.assigned_ret.isSome then some e else a := by
  rw [ending_from_append, ending_from_quiet a t h]
  rfl

theorem simulate_step_tracks (c : Platform) (st : LoopState) (o : IterOutcome)
    (acc : Option Event) (h : RetTracked acc st.ret) :
    RetTracked (ending_from acc (simulate_step c st o).2) (simulate_step c st o).1.ret := by
  have hq : ∀ (p af : Int) (e : Event),
      e ∈ (picoquic_packet_loop_open_sockets c p af (fun _ => INVALID_SOCKET) (fun _ => 0) 1
            (fun _ => o.mig)).events → e.assigned_ret = none :=
    fun p af e he => (socket_setup_quiet e (open_sockets_setup c _ _ _ _ _ _ e he)).1
  unfold simulate_step
  simp only
  split_ifs
  all_goals try split
  all_goals try split_ifs
  all_goals try rw [ending_from_quiet_snoc _ _ _ (hq _ _)]
  all_goals try rw [ending_from_append, ending_from_quiet _ _ (hq _ _)]
  all_goals try rw [ending_from_quiet _ _ (hq _ _)]
  all_goals first
    | exact h
    | exact Or.inl rfl
    | exact Or.inr ⟨_, rfl, rfl⟩

theorem simulate_step_no_ready (c : Platform) (st : LoopState) (o : IterOutcome) :
    ∀ e ∈ (simulate_step c st o).2, e.is_ready = false := by
  have hq : ∀ (p af : Int) (e : Event),
      e ∈ (picoquic_packet_loop_open_sockets c p af (fun _ => INVALID_SOCKET) (fun _ => 0) 1
            (fun _ => o.mig)).events → e.is_ready = false :=
    fun p af e he => (socket_setup_quiet e (open_sockets_setup c _ _ _ _ _ _ e he)).2.1
  intro e he
  unfold simulate_step at he
  simp only at he
  split_ifs at he
  all_goals try split at he
  all_goals try split_ifs at he
  all_goals simp only [List.mem_append, List.mem_singleton, List.not_mem_nil, or_false] at he
  all_goals first
    | (exact hq _ _ e he)
    | (rcases he with h | h
       · exact hq _ _ e h
       · subst h; rfl)

theorem loop_iteration_tracks (c : Platform) (cb : Bool) (st st1 : LoopState) (o : IterOutcome)
    (acc : Option Event) (h0 : st.ret = 0) (h1 : (loop_iteration c cb st o).1 = some st1) :
    RetTracked (ending_from acc (loop_iteration c cb st o).2) st1.ret := by
  unfold loop_iteration at h1 ⊢
  simp only at h1 ⊢
  by_cases hb : o.sel.bytes_recv < 0
  · simp only [hb, if_true, Option.some.injEq] at h1 ⊢
    subst h1
    rw [ending_from_append, wait_step_ending, if_pos hb]
    apply simulate_step_tracks
    right
    exact ⟨_, rfl, by simp [Event.assigned_ret, hb]⟩
  · simp only [hb, if_false] at h1 ⊢
    have hw : RetTracked (ending_from acc (wait_step st o).2) (wait_step st o).1.ret := by
      left; rw [wait_step_ret]; exact h0
    have hr : RetTracked
        (ending_from (ending_from acc (wait_step st o).2)
          (if o.sel.bytes_recv > 0 then receive_step c cb (wait_step st o).1 o
           else ((wait_step st o).1, [])).2)
        (if o.sel.bytes_recv > 0 then receive_step c cb (wait_step st o).1 o
           else ((wait_step st o).1, [])).1.ret := by
      split_ifs
      · exact receive_step_tracks c cb _ o _ hw
      · simpa [ending_from] using hw
    cases hd : (send_drain c (if o.sel.bytes_recv > 0 then receive_step c cb (wait_step st o).1 o
           else ((wait_step st o).1, [])).1 o.prepares).1 with
    | none => simp [hd] at h1
    | some st3 =>
      simp only [hd, Option.some.injEq] at h1 ⊢
      subst h1
      rw [ending_from_append, ending_from_append, ending_from_append, ending_from_append]
      apply simulate_step_tracks
      apply after_send_step_tracks
      exact send_drain_tracks c _ _ st3 _ hr hd

theorem loop_iteration_no_ready (c : Platform) (cb : Bool) (st : LoopState) (o : IterOutcome) :
    ∀ e ∈ (loop_iteration c cb st o).2, e.is_ready = false := by
  intro e he
  unfold loop_iteration at he
  simp only at he
  have hrcv : ∀ x ∈ (if o.sel.bytes_recv > 0 then receive_step c cb (wait_step st o).1 o
           else ((wait_step st o).1, [])).2, x.is_ready = false := by
    intro x hx
    split_ifs at hx
    · exact receive_step_no_ready c cb _ o x hx
    · simp at hx
  by_cases hb : o.sel.bytes_recv < 0
  · simp only [hb, if_true] at he
    rcases List.mem_append.1 he with h | h
    · exact wait_step_no_ready st o e h
    · exact simulate_step_no_ready c _ o e h
  · simp only [hb, if_false] at he
    generalize (if o.sel.bytes_recv > 0 then receive_step c cb (wait_step st o).1 o
           else ((wait_step st o).1, [])) = rcv at he hrcv
    split at he
    · simp only [List.mem_append] at he
      rcases he with (h | h) | h
      · exact wait_step_no_ready st o e h
      · exact hrcv e h
      · exact send_drain_no_ready c _ _ e h
    · simp only [List.mem_append] at he
      rcases he with (((h | h) | h) | h) | h
      · exact wait_step_no_ready st o e h
      · exact hrcv e h
      · exact send_drain_no_ready c _ _ e h
      · exact after_send_step_no_ready cb _ o e h
      · exact simulate_step_no_ready c _ o e h

theorem packet_loop_run_skip (c : Platform) (cb : Bool) (os : List IterOutcome) (st : LoopState)
    (h : st.ret ≠ 0) : packet_loop_run c cb os st = (some st, []) := by
  cases os <;> simp [packet_loop_run, h]

theorem packet_loop_run_tracks (c : Platform) (cb : Bool) (os : List IterOutcome) :
    ∀ (st stf : LoopState) (acc : Option Event), RetTracked acc st.ret →
      (packet_loop_run c cb os st).1 = some stf →
      RetTracked (ending_from acc (packet_loop_run c cb os st).2) stf.ret ∧ stf.ret ≠ 0 := by
  induction os with
  | nil =>
    intro st stf acc h h1
    by_cases h0 : st.ret = 0
    · simp [packet_loop_run, h0] at h1
    · rw [packet_loop_run_skip c cb _ st h0] at h1 ⊢
      simp only [Option.some.injEq] at h1
      subst h1
      exact ⟨by simpa [ending_from] using h, h0⟩
  | cons o os ih =>
    intro st stf acc h h1
    by_cases h0 : st.ret = 0
    · rw [packet_loop_run] at h1 ⊢
      simp only [h0, if_true] at h1 ⊢
      cases hi : (loop_iteration c cb st o).1 with
      | none => simp [hi] at h1
      | some st1 =>
        simp only [hi] at h1 ⊢
        rw [ending_from_append]
        exact ih st1 stf _ (loop_iteration_tracks c cb st st1 o acc h0 hi) h1
    · rw [packet_loop_run_skip c cb _ st h0] at h1 ⊢
      simp only [Option.some.injEq] at h1
      subst h1
      exact ⟨by simpa [ending_from] using h, h0⟩

theorem packet_loop_run_no_ready (c : Platform) (cb : Bool) (os : List IterOutcome) :
    ∀ (st : LoopState), ∀ e ∈ (packet_loop_run c cb os st).2, e.is_ready = false := by
  induction os with
  | nil =>
    intro st e he
    simp only [packet_loop_run] at he
    split_ifs at he <;> simp at he
  | cons o os ih =>
    intro st e he
    rw [packet_loop_run] at he
    split_ifs at he
    · simp only at he
      split at he
      · exact loop_iteration_no_ready c cb st o e he
      · rcases List.mem_append.1 he with h | h
        · exact loop_iteration_no_ready c cb st o e h
        · exact ih _ e h
    · simp at he

/-! ### `picoquic_packet_loop` -/

theorem loop_start_events (c : Platform) (w : World) (local_port local_af : Int) (cb : Bool) :
    (loop_start c w local_port local_af cb).2 =
      Event.get_quic_time w.quic_time ::
        (picoquic_packet_loop_open_sockets c local_port local_af w.s_socket_init (fun _ => 0)
          c.PICOQUIC_PACKET_LOOP_SOCKETS_MAX w.open_outs).events ++
      (if (picoquic_packet_loop_open_sockets c local_port local_af w.s_socket_init (fun _ => 0)
            c.PICOQUIC_PACKET_LOOP_SOCKETS_MAX w.open_outs).nb_sockets ≠ 0 ∧ cb = true
       then [Event.loop_callback CbMode.picoquic_packet_loop_ready w.ready_rc] else []) := by
  unfold loop_start
  simp only
  split_ifs with h1 h2 h3 h4 h5 <;> simp_all

theorem loop_start_ret (c : Platform) (w : World) (local_port local_af : Int) (cb : Bool) :
    (loop_start c w local_port local_af cb).1.ret =
      if (picoquic_packet_loop_open_sockets c local_port local_af w.s_socket_init (fun _ => 0)
            c.PICOQUIC_PACKET_LOOP_SOCKETS_MAX w.open_outs).nb_sockets = 0
      then c.PICOQUIC_ERROR_UNEXPECTED_ERROR
      else if cb = true then w.ready_rc else 0 := by
  unfold loop_start
  simp only
  split_ifs <;> rfl

theorem loop_start_tracks (c : Platform) (w : World) (local_port local_af : Int) (cb : Bool) :
    RetTracked (ending_from none (loop_start c w local_port local_af cb).2)
        (loop_start c w local_port local_af cb).1.ret ∨
      ((loop_start c w local_port local_af cb).1.ret ≠ 0 ∧
        ∀ e ∈ (loop_start c w local_port local_af cb).2, e.assigned_ret = none) := by
  have hq : ∀ e ∈ (picoquic_packet_loop_open_sockets c local_port local_af w.s_socket_init
      (fun _ => 0) c.PICOQUIC_PACKET_LOOP_SOCKETS_MAX w.open_outs).events,
      e.assigned_ret = none :=
    fun e he => (socket_setup_quiet e (open_sockets_setup c _ _ _ _ _ _ e he)).1
  rw [loop_start_events, loop_start_ret]
  by_cases hn : (picoquic_packet_loop_open_sockets c local_port local_af w.s_socket_init
      (fun _ => 0) c.PICOQUIC_PACKET_LOOP_SOCKETS_MAX w.open_outs).nb_sockets = 0
  · by_cases hu : c.PICOQUIC_ERROR_UNEXPECTED_ERROR = 0
    · left; left; simp [hn, hu]
    · right
      simp only [hn, if_true, ne_eq, not_true_eq_false, false_and, if_false, List.append_nil]
      refine ⟨hu, ?_⟩
      intro e he
      rcases List.mem_cons.1 he with h | h
      · subst h; rfl
      · exact hq e h
  · left
    cases cb with
    | true =>
      right
      refine ⟨Event.loop_callback CbMode.picoquic_packet_loop_ready w.ready_rc, ?_, ?_⟩
      · simp only [ne_eq, hn, not_false_eq_true, and_self, if_true]
        have hq1 : ∀ e ∈ Event.get_quic_time w.quic_time ::
            (picoquic_packet_loop_open_sockets c local_port local_af w.s_socket_init
              (fun _ => 0) c.PICOQUIC_PACKET_LOOP_SOCKETS_MAX w.open_outs).events,
            e.assigned_ret = none := by
          intro e he
          rcases List.mem_cons.1 he with h | h
          · subst h; rfl
          · exact hq e h
        rw [ending_from_quiet_snoc _ _ _ hq1]
        rfl
      · simp [hn, Event.assigned_ret]
    | false =>
      left
      simp [hn]

theorem close_sockets_quiet (s : Nat → Int) (l : List Nat) :
    ∀ e ∈ close_sockets s l, e.assigned_ret = none ∧ e.is_ready = false ∧ e.is_close = true := by
  intro e he
  obtain ⟨fd, h⟩ := close_sockets_close s l e he
  subst h
  exact ⟨rfl, rfl, rfl⟩

theorem loop_finish_quiet (c : Platform) (st : LoopState) :
    ∀ e ∈ (loop_finish c st).2, e.assigned_ret = none ∧ e.is_ready = false ∧ e.is_close = true :=
  fun e he => close_sockets_quiet _ _ e he

/-- The value returned by a finished run, read off its trace: either no event
assigned `ret` (the start-up open failed), or the last event that assigned
`ret` gave it a non-zero code, which is returned once
`PICOQUIC_NO_ERROR_TERMINATE_PACKET_LOOP` is turned into 0. -/
theorem packet_loop_return_core (c : Platform) (w : World) (local_port local_af : Int)
    (cb : Bool) (rv : Int)
    (hret : (picoquic_packet_loop c w local_port local_af cb).ret = some rv) :
    ending_event (picoquic_packet_loop c w local_port local_af cb).events = none ∨
    ∃ e code, ending_event (picoquic_packet_loop c w local_port local_af cb).events = some e ∧
      e.assigned_ret = some code ∧ code ≠ 0 ∧
      rv = if code = c.PICOQUIC_NO_ERROR_TERMINATE_PACKET_LOOP then 0 else code := by
  unfold picoquic_packet_loop at hret ⊢
  simp only at hret ⊢
  rcases loop_start_tracks c w local_port local_af cb with ht | ⟨hne, hq⟩
  · cases hr : (packet_loop_run c cb w.iters (loop_start c w local_port local_af cb).1).1 with
    | none => simp [hr] at hret
    | some stf =>
      simp only [hr, Option.some.injEq] at hret ⊢
      obtain ⟨htr, hnz⟩ := packet_loop_run_tracks c cb w.iters _ stf _ ht hr
      rcases htr with h0 | ⟨e, he, hc⟩
      · exact absurd h0 hnz
      · right
        refine ⟨e, stf.ret, ?_, hc, hnz, ?_⟩
        · unfold ending_event
          rw [ending_from_append, ending_from_append,
            ending_from_quiet _ _ (fun x hx => (loop_finish_quiet c stf x hx).1)]
          exact he
        · rw [← hret]; rfl
  · left
    rw [packet_loop_run_skip c cb _ _ hne]
    simp only [List.append_nil]
    unfold ending_event
    rw [ending_from_append, ending_from_quiet _ _ hq,
      ending_from_quiet _ _ (fun x hx => (loop_finish_quiet c _ x hx).1)]

/-- C1: the value returned by `picoquic_packet_loop` is fixed by the event that
ends its loop (the last one that assigned `ret`), for every sequence of
answers of the waiter, the engine and the callback: after a negative byte
count from `picoquic_select_ex` it is -1; after a return code of the loop
callback or of `picoquic_prepare_next_packet` the code is not 0, and the value
returned is 0 when the code is `PICOQUIC_NO_ERROR_TERMINATE_PACKET_LOOP` and
the code itself otherwise. -/
theorem packet_loop_return_value (c : Platform) (w : World) (local_port local_af : Int)
    (cb : Bool) (rv : Int) (e : Event)
    (hT : c.PICOQUIC_NO_ERROR_TERMINATE_PACKET_LOOP ≠ -1)
    (hret : (picoquic_packet_loop c w local_port local_af cb).ret = some rv)
    (hend : ending_event (picoquic_packet_loop c w local_port local_af cb).events = some e) :
    (∀ sockets delta_t bytes_recv, e = Event.select_ex sockets delta_t bytes_recv →
        bytes_recv < 0 ∧ rv = -1) ∧
    (∀ code, ((∃ mode, e = Event.loop_callback mode code) ∨
              (∃ t n, e = Event.prepare_next_packet t code n)) →
        code ≠ 0 ∧
        (code = c.PICOQUIC_NO_ERROR_TERMINATE_PACKET_LOOP → rv = 0) ∧
        (code ≠ c.PICOQUIC_NO_ERROR_TERMINATE_PACKET_LOOP → rv = code)) := by
  rcases packet_loop_return_core c w local_port local_af cb rv hret with h | ⟨e1, code, h1, h2, h3, h4⟩
  · rw [h] at hend
    exact absurd hend (by simp)
  · rw [h1] at hend
    simp only [Option.some.injEq] at hend
    subst hend
    constructor
    · intro sockets delta_t bytes_recv he
      subst he
      simp only [Event.assigned_ret] at h2
      split_ifs at h2 with hb
      simp only [Option.some.injEq] at h2
      subst h2
      refine ⟨hb, ?_⟩
      rw [h4, if_neg (fun h => hT h.symm)]
    · intro code1 he
      have hc : code1 = code := by
        rcases he with ⟨mode, he⟩ | ⟨t, n, he⟩ <;> subst he <;>
          simpa [Event.assigned_ret] using h2
      subst hc
      refine ⟨h3, ?_, ?_⟩
      · intro hc; rw [h4, if_pos hc]
      · intro hc; rw [h4, if_neg hc]

/-- Witness of C1: on Linux, with one socket, the callback after the first
drain returns `PICOQUIC_NO_ERROR_TERMINATE_PACKET_LOOP` (1075) and the loop returns 0. -/
theorem packet_loop_return_value_witness :
    (picoquic_packet_loop linux world_terminate 4433 2 true).ret = some 0 ∧
    ending_event (picoquic_packet_loop linux world_terminate 4433 2 true).events =
      some (Event.loop_callback CbMode.picoquic_packet_loop_after_send 1075) ∧
    ((1075 : Int) ≠ 0 ∧
      ((1075 : Int) = linux.PICOQUIC_NO_ERROR_TERMINATE_PACKET_LOOP → (0 : Int) = 0) ∧
      ((1075 : Int) ≠ linux.PICOQUIC_NO_ERROR_TERMINATE_PACKET_LOOP → (0 : Int) = 1075)) :=
  ⟨by decide, by decide,
    (packet_loop_return_value linux world_terminate 4433 2 true 0
      (Event.loop_callback CbMode.picoquic_packet_loop_after_send 1075)
      (by decide) (by decide) (by decide)).2 1075 (Or.inl ⟨_, rfl⟩)⟩

/-- A negative byte count from the waiter ends the loop at once: the iteration
makes no further call and leaves -1 in `ret`. -/
theorem negative_wait_ends_loop (c : Platform) (cb : Bool) (st : LoopState) (o : IterOutcome)
    (os : List IterOutcome) (h0 : st.ret = 0) (hb : o.sel.bytes_recv < 0)
    (hN : c.PICOQUIC_NO_ERROR_SIMULATE_NAT ≠ -1)
    (hM : c.PICOQUIC_NO_ERROR_SIMULATE_MIGRATION ≠ -1) :
    ∃ st1, packet_loop_run c cb (o :: os) st = (some st1, (wait_step st o).2) ∧
      st1.ret = -1 := by
  have hs : simulate_step c { (wait_step st o).1 with ret := -1 } o =
      ({ (wait_step st o).1 with ret := -1 }, []) := by
    have h1 : ¬ ((-1 : Int) = c.PICOQUIC_NO_ERROR_SIMULATE_NAT ∨
        (-1 : Int) = c.PICOQUIC_NO_ERROR_SIMULATE_MIGRATION) := by
      rintro (h | h)
      · exact hN h.symm
      · exact hM h.symm
    unfold simulate_step
    simp only [h1, if_false]
  have hi : loop_iteration c cb st o =
      (some { (wait_step st o).1 with ret := -1 }, (wait_step st o).2) := by
    unfold loop_iteration
    simp only [hb, if_true, hs, List.append_nil]
  refine ⟨{ (wait_step st o).1 with ret := -1 }, ?_, rfl⟩
  rw [packet_loop_run]
  simp only [h0, if_true, hi]
  rw [packet_loop_run_skip c cb os _ (by simp)]
  simp

theorem packet_loop_events (c : Platform) (w : World) (local_port local_af : Int) (cb : Bool) :
    ∃ tail, (picoquic_packet_loop c w local_port local_af cb).events =
        (loop_start c w local_port local_af cb).2 ++ tail ∧
      (∀ e ∈ tail, e.is_ready = false) ∧
      ((loop_start c w local_port local_af cb).1.ret ≠ 0 →
        (∀ e ∈ tail, e.is_close = true) ∧
        (picoquic_packet_loop c w local_port local_af cb).ret =
          some (if (loop_start c w local_port local_af cb).1.ret
                    = c.PICOQUIC_NO_ERROR_TERMINATE_PACKET_LOOP then 0
                else (loop_start c w local_port local_af cb).1.ret)) := by
  unfold picoquic_packet_loop
  simp only
  cases hr : (packet_loop_run c cb w.iters (loop_start c w local_port local_af cb).1).1 with
  | none =>
    refine ⟨(packet_loop_run c cb w.iters (loop_start c w local_port local_af cb).1).2, rfl,
      packet_loop_run_no_ready c cb _ _, ?_⟩
    intro hne
    rw [packet_loop_run_skip c cb _ _ hne] at hr
    simp at hr
  | some stf =>
    refine ⟨(packet_loop_run c cb w.iters (loop_start c w local_port local_af cb).1).2 ++
      (loop_finish c stf).2, by simp, ?_, ?_⟩
    · intro e he
      rcases List.mem_append.1 he with h | h
      · exact packet_loop_run_no_ready c cb _ _ e h
      · exact (loop_finish_quiet c stf e h).2.1
    · intro hne
      rw [packet_loop_run_skip c cb _ _ hne] at hr ⊢
      simp only [Option.some.injEq] at hr
      subst hr
      refine ⟨?_, rfl⟩
      intro e he
      simp only [List.nil_append] at he
      exact (loop_finish_quiet c _ e he).2.2

/-- C6: when the sockets open and a loop callback is supplied, the callback gets
the `picoquic_packet_loop_ready` event exactly once in the whole run; before it
come only the clock read of line 154 and the calls that set the sockets up (no
wait on the sockets, no engine call); and when it returns a non-zero code the
rest of the run only closes the sockets and returns that code (0 for
`PICOQUIC_NO_ERROR_TERMINATE_PACKET_LOOP`), so the loop body never runs. -/
theorem ready_callback_once (c : Platform) (w : World) (local_port local_af : Int)
    (hopen : (picoquic_packet_loop_open_sockets c local_port local_af w.s_socket_init
      (fun _ => 0) c.PICOQUIC_PACKET_LOOP_SOCKETS_MAX w.open_outs).nb_sockets ≠ 0) :
    ∃ rest,
      (picoquic_packet_loop c w local_port local_af true).events =
        (Event.get_quic_time w.quic_time ::
          (picoquic_packet_loop_open_sockets c local_port local_af w.s_socket_init
            (fun _ => 0) c.PICOQUIC_PACKET_LOOP_SOCKETS_MAX w.open_outs).events) ++
        Event.loop_callback CbMode.picoquic_packet_loop_ready w.ready_rc :: rest ∧
      (∀ e ∈ Event.get_quic_time w.quic_time ::
          (picoquic_packet_loop_open_sockets c local_port local_af w.s_socket_init
            (fun _ => 0) c.PICOQUIC_PACKET_LOOP_SOCKETS_MAX w.open_outs).events,
        e.is_ready = false ∧ e.is_wait_or_engine = false) ∧
      (∀ e ∈ rest, e.is_ready = false) ∧
      List.countP Event.is_ready (picoquic_packet_loop c w local_port local_af true).events = 1 ∧
      (w.ready_rc ≠ 0 →
        (∀ e ∈ rest, e.is_close = true) ∧
        (picoquic_packet_loop c w local_port local_af true).ret =
          some (if w.ready_rc = c.PICOQUIC_NO_ERROR_TERMINATE_PACKET_LOOP then 0
                else w.ready_rc)) := by
  obtain ⟨tail, h1, h2, h3⟩ := packet_loop_events c w local_port local_af true
  have hs := loop_start_events c w local_port local_af true
  have hr := loop_start_ret c w local_port local_af true
  simp only [ne_eq, hopen, not_false_eq_true, and_self, if_true] at hs
  simp only [hopen, if_false, if_true] at hr
  rw [hs] at h1
  rw [hr] at h3
  have hpre : ∀ e ∈ Event.get_quic_time w.quic_time ::
      (picoquic_packet_loop_open_sockets c local_port local_af w.s_socket_init
        (fun _ => 0) c.PICOQUIC_PACKET_LOOP_SOCKETS_MAX w.open_outs).events,
      e.is_ready = false ∧ e.is_wait_or_engine = false := by
    intro e he
    rcases List.mem_cons.1 he with h | h
    · subst h; exact ⟨rfl, rfl⟩
    · exact (socket_setup_quiet e (open_sockets_setup c _ _ _ _ _ _ e h)).2
  refine ⟨tail, ?_, hpre, h2, ?_, h3⟩
  · rw [h1]; simp
  · rw [h1, List.countP_append, List.countP_append]
    have e1 : List.countP Event.is_ready (Event.get_quic_time w.quic_time ::
      (picoquic_packet_loop_open_sockets c local_port local_af w.s_socket_init
        (fun _ => 0) c.PICOQUIC_PACKET_LOOP_SOCKETS_MAX w.open_outs).events) = 0 := by
      rw [List.countP_eq_zero]
      intro e he
      simp [(hpre e he).1]
    have e2 : List.countP Event.is_ready tail = 0 := by
      rw [List.countP_eq_zero]
      intro e he
      simp [h2 e he]
    rw [e1, e2]
    rfl

/-- Witness of C6: on Linux with one IPv4 socket and a ready callback that returns 7,
the run is the clock read, the set-up of descriptor 3, the ready callback and
the close of descriptor 3, and it returns 7. -/
theorem ready_callback_once_witness :
    (picoquic_packet_loop linux world_ready_refuses 4433 2 true).events =
      [Event.get_quic_time 0, Event.socket 2 3, Event.set_ecn_options 3 2 0,
       Event.set_pkt_info 3 2 0, Event.bind_to_port 3 2 4433 0,
       Event.loop_callback CbMode.picoquic_packet_loop_ready 7, Event.close 3] ∧
    List.countP Event.is_ready (picoquic_packet_loop linux world_ready_refuses 4433 2 true).events
      = 1 := by
  obtain ⟨_, _, _, _, h, _⟩ := ready_callback_once linux world_ready_refuses 4433 2 (by decide)
  exact ⟨by decide, h⟩

/-- When the start-up open returns 0 the run consists of the clock read and the
calls of the open, and returns `PICOQUIC_ERROR_UNEXPECTED_ERROR`: no callback,
no wait, no engine call, and no socket is closed by the loop. -/
theorem open_failure_run (c : Platform) (w : World) (local_port local_af : Int) (cb : Bool)
    (hU0 : c.PICOQUIC_ERROR_UNEXPECTED_ERROR ≠ 0)
    (hUT : c.PICOQUIC_ERROR_UNEXPECTED_ERROR ≠ c.PICOQUIC_NO_ERROR_TERMINATE_PACKET_LOOP)
    (hopen : (picoquic_packet_loop_open_sockets c local_port local_af w.s_socket_init
      (fun _ => 0) c.PICOQUIC_PACKET_LOOP_SOCKETS_MAX w.open_outs).nb_sockets = 0) :
    (picoquic_packet_loop c w local_port local_af cb).ret
      = some c.PICOQUIC_ERROR_UNEXPECTED_ERROR ∧
    (picoquic_packet_loop c w local_port local_af cb).events =
      Event.get_quic_time w.quic_time ::
        (picoquic_packet_loop_open_sockets c local_port local_af w.s_socket_init
          (fun _ => 0) c.PICOQUIC_PACKET_LOOP_SOCKETS_MAX w.open_outs).events := by
  have hs := loop_start_events c w local_port local_af cb
  have hr := loop_start_ret c w local_port local_af cb
  simp only [hopen, ne_eq, not_true_eq_false, false_and, if_false, List.append_nil] at hs
  simp only [hopen, if_true] at hr
  have hne : (loop_start c w local_port local_af cb).1.ret ≠ 0 := by rw [hr]; exact hU0
  have hn : (loop_start c w local_port local_af cb).1.nb_sockets = 0 := by
    unfold loop_start
    simp only [hopen, if_true]
  unfold picoquic_packet_loop
  simp only
  rw [packet_loop_run_skip c cb _ _ hne]
  simp only [List.append_nil, loop_finish, hr, hUT, if_false, hn, List.range_zero, close_sockets,
    hs, and_self]

/-- C2 (the code departs from the last part of the statement): on a dual-stack start-up where
socket 0 is set up as descriptor 3 and the creation of socket 1 fails,
`picoquic_packet_loop` returns `PICOQUIC_ERROR_UNEXPECTED_ERROR` (1058) having
called neither the callback nor the waiter nor the engine, but descriptor 3 is
still open when it returns. -/
theorem open_failure_leaves_socket_open :
    (picoquic_packet_loop linux world_open_fails 4433 0 true).ret = some 1058 ∧
    (picoquic_packet_loop linux world_open_fails 4433 0 true).events =
      [Event.get_quic_time 0, Event.socket 2 3, Event.set_ecn_options 3 2 0,
       Event.set_pkt_info 3 2 0, Event.bind_to_port 3 2 4433 0, Event.socket 10 (-1)] ∧
    open_after [] (picoquic_packet_loop linux world_open_fails 4433 0 true).events = [3] := by
  decide

/-- C5 (the code departs from the specification): the start-up creates descriptor 3;
the engine returns `PICOQUIC_NO_ERROR_SIMULATE_MIGRATION` (1077); the auxiliary
socket is created as descriptor 5 and its bind to port 4434 fails.  The run
returns 1077 having created two sockets and closed one: descriptor 5 is still
open. -/
theorem aux_open_failure_leaks :
    (picoquic_packet_loop linux world_migration_bind_fails 4433 2 false).ret = some 1077 ∧
    (picoquic_packet_loop linux world_migration_bind_fails 4433 2 false).events =
      [Event.get_quic_time 0, Event.socket 2 3, Event.set_ecn_options 3 2 0,
       Event.set_pkt_info 3 2 0, Event.bind_to_port 3 2 4433 0,
       Event.get_next_wake_delay 0 1000, Event.select_ex [3] 1000 0,
       Event.prepare_next_packet 100 1077 0,
       Event.socket 2 5, Event.set_ecn_options 5 2 0, Event.set_pkt_info 5 2 0,
       Event.bind_to_port 5 2 4434 (-1),
       Event.close 3] ∧
    nb_created (picoquic_packet_loop linux world_migration_bind_fails 4433 2 false).events = 2 ∧
    nb_closed (picoquic_packet_loop linux world_migration_bind_fails 4433 2 false).events = 1 ∧
    open_after [] (picoquic_packet_loop linux world_migration_bind_fails 4433 2 false).events
      = [5] := by
  decide

/-! ### `picoquic_packet_loop_with_migration_master` -/

theorem socket_setup_no_handoff (e : Event) (h : e.is_socket_setup = true) :
    e.is_handoff = false := by
  cases e <;> first | rfl | (simp [Event.is_socket_setup] at h)

theorem wait_step_plain (st : LoopState) (o : IterOutcome) :
    ∀ e ∈ (wait_step st o).2, e.is_handoff = false ∧ e.is_local_processing = false := by
  have h : (wait_step st o).2.all (fun e => !e.is_handoff && !e.is_local_processing) = true := by
    unfold wait_step
    simp only
    split_ifs <;> rfl
  intro e he
  simpa using List.all_eq_true.1 h e he

theorem learn_port_plain (c : Platform) (st : LoopState) (o : IterOutcome) :
    ∀ e ∈ (learn_port c st o).2, e.is_handoff = false ∧ e.is_local_processing = false := by
  have h : (learn_port c st o).2.all (fun e => !e.is_handoff && !e.is_local_processing)
      = true := by
    unfold learn_port
    split_ifs <;> rfl
  intro e he
  simpa using List.all_eq_true.1 h e he

theorem migration_trigger_plain (c : Platform) (m : MasterState) (o : MasterOutcome) :
    ∀ e ∈ (migration_trigger c m o).2.2,
      e.is_handoff = false ∧ e.is_local_processing = false := by
  have h : (migration_trigger c m o).2.2.all
      (fun e => !e.is_handoff && !e.is_local_processing) = true := by
    unfold migration_trigger
    split
    · rfl
    · split
      · rfl
      · split_ifs
        · split <;> rfl
        · rfl
  intro e he
  simpa using List.all_eq_true.1 h e he

theorem send_failure_events_no_handoff (c : Platform) (st : LoopState) (p : PrepareOutcome)
    (sr se : Int) : ∀ e ∈ send_failure_events c st p sr se, e.is_handoff = false := by
  have h : (send_failure_events c st p sr se).all (fun e => !e.is_handoff) = true := by
    unfold send_failure_events
    cases st.last_cnx <;> simp only <;> split_ifs <;> rfl
  intro e he
  simpa using List.all_eq_true.1 h e he

theorem send_step_no_handoff (c : Platform) (st : LoopState) (p : PrepareOutcome) :
    ∀ e ∈ send_step c st p, e.is_handoff = false := by
  intro e he
  simp only [send_step] at he
  split_ifs at he
  · exact send_failure_events_no_handoff c st p _ _ e he
  · rcases List.mem_cons.1 he with h | h
    · subst h; rfl
    · exact send_failure_events_no_handoff c st p _ _ e h

theorem send_drain_no_handoff (c : Platform) (ps : List PrepareOutcome) :
    ∀ (st : LoopState), ∀ e ∈ (send_drain c st ps).2, e.is_handoff = false := by
  induction ps with
  | nil =>
    intro st e he
    simp only [send_drain] at he
    split_ifs at he <;> simp at he
  | cons p ps ih =>
    intro st e he
    by_cases h0 : st.ret = 0
    · by_cases hgo : p.rc = 0 ∧ p.send_length > 0
      · rw [send_drain_cons_go c st p ps h0 hgo.1 hgo.2] at he
        simp only [List.mem_cons, List.mem_append] at he
        rcases he with h | h | h
        · subst h; rfl
        · exact send_step_no_handoff c _ p e h
        · exact ih _ e h
      · rw [send_drain_cons_stop c st p ps h0 hgo] at he
        simp only [List.mem_singleton] at he
        subst he; rfl
    · rw [send_drain_skip c st _ h0] at he
      simp at he

theorem after_send_step_no_handoff (cb : Bool) (st : LoopState) (o : IterOutcome) :
    ∀ e ∈ (after_send_step cb st o).2, e.is_handoff = false := by
  intro e he
  unfold after_send_step at he
  split_ifs at he <;> simp at he
  subst he; rfl

theorem simulate_step_no_handoff (c : Platform) (st : LoopState) (o : IterOutcome) :
    ∀ e ∈ (simulate_step c st o).2, e.is_handoff = false := by
  have hq : ∀ (p af : Int) (e : Event),
      e ∈ (picoquic_packet_loop_open_sockets c p af (fun _ => INVALID_SOCKET) (fun _ => 0) 1
            (fun _ => o.mig)).events → e.is_handoff = false :=
    fun p af e he => socket_setup_no_handoff e (open_sockets_setup c _ _ _ _ _ _ e he)
  intro e he
  unfold simulate_step at he
  simp only at he
  split_ifs at he
  all_goals try split at he
  all_goals try split_ifs at he
  all_goals simp only [List.mem_append, List.mem_singleton, List.not_mem_nil, or_false] at he
  all_goals first
    | (exact hq _ _ e he)
    | (rcases he with h | h
       · exact hq _ _ e h
       · subst h; rfl)

theorem master_send_part_no_handoff (c : Platform) (cb : Bool) (m : MasterState)
    (o : MasterOutcome) : ∀ e ∈ (master_send_part c cb m o).2, e.is_handoff = false := by
  intro e he
  unfold master_send_part at he
  simp only at he
  split at he
  · exact send_drain_no_handoff c _ _ e he
  · simp only [List.mem_append] at he
    rcases he with (h | h) | h
    · exact send_drain_no_handoff c _ _ e h
    · exact after_send_step_no_handoff cb _ _ e h
    · exact simulate_step_no_handoff c _ _ e h

theorem master_send_part_slot (c : Platform) (cb : Bool) (m m1 : MasterState)
    (o : MasterOutcome) (h : (master_send_part c cb m o).1 = some m1) :
    m1.slot = m.slot ∧ m1.cnx_id_table = m.cnx_id_table := by
  unfold master_send_part at h
  simp only at h
  split at h
  · simp at h
  · simp only [Option.some.injEq] at h
    subst h
    exact ⟨rfl, rfl⟩

theorem migration_trigger_frame (c : Platform) (m : MasterState) (o : MasterOutcome) :
    (migration_trigger c m o).1.slot = m.slot ∧
    (migration_trigger c m o).1.loop = m.loop ∧
    (∀ t, m.cnx_id_table = some t →
      (migration_trigger c m o).1.cnx_id_table = some t ∨
      (migration_trigger c m o).1.cnx_id_table
        = some (hashmap_put t (migration_trigger c m o).2.1)) := by
  unfold migration_trigger
  split
  · exact ⟨rfl, rfl, fun t ht => Or.inl ht⟩
  · split
    · exact ⟨rfl, rfl, fun t ht => Or.inl ht⟩
    · split_ifs
      · split
        · rename_i t1 ht1
          refine ⟨rfl, rfl, fun t ht => Or.inr ?_⟩
          rw [ht1] at ht
          simp only [Option.some.injEq] at ht
          subst ht
          rfl
        · rename_i ht1
          refine ⟨rfl, rfl, fun t ht => ?_⟩
          rw [ht1] at ht
          simp at ht
      · exact ⟨rfl, rfl, fun t ht => Or.inl ht⟩

theorem wait_step_time (st : LoopState) (o : IterOutcome) :
    (wait_step st o).1.current_time = o.sel.current_time := by
  unfold wait_step
  simp only
  split_ifs <;> rfl

/-- C9 (the code departs from the specification): the master loop starts with an empty table.  While
it handles a first datagram from `10.0.0.1:5000` the migration trigger fires
for the connection whose peer is `10.0.0.1:5000`, and that key is inserted.
A second datagram arrives from `10.0.0.1:5000`; the trigger does not fire, so
the lookup uses what the array `key` happens to hold (here the empty string),
misses, and the datagram is passed to `picoquic_incoming_packet` of the
primary engine without any write to the slot. -/
theorem inserted_peer_still_submitted :
    linux.picoquic_addr_text peer_a = "10.0.0.1:5000" ∧
    (picoquic_packet_loop_with_migration_master linux world_master_migrates (some [])
        slot_empty 0 4433 2 false).ret = some (-1) ∧
    (picoquic_packet_loop_with_migration_master linux world_master_migrates (some [])
        slot_empty 0 4433 2 false).events =
      [Event.get_quic_time 0, Event.socket 2 3, Event.set_ecn_options 3 2 0,
       Event.set_pkt_info 3 2 0, Event.bind_to_port 3 2 4433 0,
       Event.get_next_wake_delay 0 1000, Event.select_ex [3] 1000 12,
       Event.clear_migration_flag, Event.shallow_migrate, Event.hashmap_put "10.0.0.1:5000",
       Event.hashmap_get "10.0.0.1:5000" true, Event.mutex_lock,
       Event.slot_write
         { trans_bytes := 12, trans_received_ecn := 0, trans_current_time := 100,
           trans_socket_rank := 0, trans_if_index_to := 1,
           trans_addr_to := addr4 [192, 168, 0, 1] 4433, trans_addr_from := peer_a,
           trans_peer_addr := addr4 [0, 0, 0, 0] 0, trans_local_addr := addr4 [0, 0, 0, 0] 0,
           trans_sock_af := [2, 0, 0, 0], trans_s_socket := [3, 0, 0, 0],
           trans_nb_sockets := 1, trans_buffer := [1, 2, 3, 4, 5, 6, 7, 8, 9, 10, 11, 12] },
       Event.cond_signal, Event.mutex_unlock,
       Event.get_next_wake_delay 100 1000, Event.select_ex [3] 1000 12,
       Event.hashmap_get "" false,
       Event.incoming_packet [1, 2, 3, 4, 5, 6, 7, 8, 9, 10, 11, 12] 12 peer_a
         (addr4 [192, 168, 0, 1] 4433) 1 0 200 0,
       Event.prepare_next_packet 200 0 0,
       Event.get_next_wake_delay 200 1000, Event.select_ex [3] 1000 (-1),
       Event.close 3] := by
  decide

/-- Witness of C7: with one IPv4 socket the engine prepares a datagram whose send
fails, then one for an IPv6 peer (no socket of that family), then returns 1075:
the drain makes exactly these three calls and leaves 1075 in `ret`. -/
theorem send_drain_stops_at_first_decline_witness :
    ∃ st1,
      (send_drain linux loop_started
        ([prepare_datagram peer_a (-1) 101, prepare_datagram peer_v6 0 0] ++
          prepare_returns 1075 :: [prepare_datagram peer_a 1200 0])).1 = some st1 ∧
      st1.ret = 1075 ∧
      prepare_calls (send_drain linux loop_started
        ([prepare_datagram peer_a (-1) 101, prepare_datagram peer_v6 0 0] ++
          prepare_returns 1075 :: [prepare_datagram peer_a 1200 0])).2
        = [(0, 1200), (0, 1200), (1075, 0)] :=
  send_drain_stops_at_first_decline linux
    [prepare_datagram peer_a (-1) 101, prepare_datagram peer_v6 0 0] (prepare_returns 1075)
    [prepare_datagram peer_a 1200 0] (by decide) (by decide) loop_started rfl

/-- Witness of C8: with one IPv4 socket (descriptor 3) the datagram for the IPv4 peer
goes through descriptor 3 and the one for the IPv6 peer is not sent at all. -/
theorem send_socket_choice_witness :
    (send_drain linux loop_started
      [prepare_datagram peer_a 1200 0, prepare_datagram peer_v6 1200 0, prepare_returns 0]).2 =
      [Event.prepare_next_packet 0 0 1200,
       Event.send_through_socket 3 peer_a (addr4 [192, 168, 0, 1] 4433) 0 1200 1200,
       Event.prepare_next_packet 0 0 1200,
       Event.log_could_not_send none (-1) (-1),
       Event.prepare_next_packet 0 0 0] ∧
    ∃ i, i < loop_started.nb_sockets ∧ loop_started.sock_af i = peer_a.ss_family ∧
      (∀ j, j < i → loop_started.sock_af j ≠ peer_a.ss_family) ∧
      (3 : Int) = if loop_started.testing_migration = true ∧
                      (addr4 [192, 168, 0, 1] 4433).port = loop_started.next_port
                  then loop_started.s_socket (loop_started.nb_sockets - 1)
                  else loop_started.s_socket i :=
  ⟨by decide,
   (send_socket_choice linux loop_started
      [prepare_datagram peer_a 1200 0, prepare_datagram peer_v6 1200 0, prepare_returns 0]).1
      3 peer_a (addr4 [192, 168, 0, 1] 4433) 0 1200 1200 (by decide)⟩

/-! ### The migration-test block of `picoquic_packet_loop` -/

theorem aux_open_success (c : Platform) (st : LoopState) (o : IterOutcome)
    (h : (aux_open c st o).nb_sockets = 1) :
    (aux_open c st o).s_socket 0 = o.mig.fd ∧ o.mig.fd ≠ INVALID_SOCKET ∧
    (aux_open c st o).events = (open_one_socket (aux_port c st) (st.sock_af 0) o.mig).2 ∧
    (open_one_socket (aux_port c st) (st.sock_af 0) o.mig).1 = false := by
  unfold aux_open picoquic_packet_loop_open_sockets at h ⊢
  simp only at h ⊢
  by_cases hu : st.sock_af 0 = c.AF_UNSPEC
  · simp [hu, open_sockets_loop] at h
  · by_cases hf : st.sock_af 0 = c.AF_INET ∨ st.sock_af 0 = c.AF_INET6
    · simp only [hu, if_false, Nat.cast_one, gt_iff_lt, lt_self_iff_false, hf, if_true,
        open_sockets_loop] at h ⊢
      cases hfail : (open_one_socket (↑(aux_port c st)) (setAt (fun _ => 0) 0 (st.sock_af 0) 0)
          o.mig).1 with
      | true => simp [hfail] at h
      | false =>
        have haf : setAt (fun _ => (0 : Int)) 0 (st.sock_af 0) 0 = st.sock_af 0 := by
          simp [setAt]
        rw [haf] at hfail
        simp only [haf, hfail, Bool.false_eq_true, if_false, List.append_nil]
        refine ⟨by simp [setAt], ?_, trivial, trivial⟩
        intro hinv
        unfold open_one_socket at hfail
        simp [hinv] at hfail
    · simp [hu, hf, open_sockets_loop] at h

theorem packet_loop_run_goes_on (c : Platform) (cb : Bool) (st : LoopState) (o : IterOutcome)
    (os : List IterOutcome) (h0 : st.ret = 0) :
    ∃ rest, (packet_loop_run c cb (o :: os) st).2 = (loop_iteration c cb st o).2 ++ rest := by
  rw [packet_loop_run]
  simp only [h0, if_true]
  cases (loop_iteration c cb st o).1 with
  | none => exact ⟨[], by simp⟩
  | some st1 => exact ⟨_, rfl⟩

theorem open_one_socket_events (local_port af : Int) (o : SocketOutcome)
    (h : (open_one_socket local_port af o).1 = false) :
    Event.socket af o.fd ∈ (open_one_socket local_port af o).2 ∧
    bind_attempts (open_one_socket local_port af o).2
      = if local_port ≠ 0 then [(o.fd, local_port)] else [] := by
  unfold open_one_socket at h ⊢
  split_ifs at h ⊢ <;> simp_all [bind_attempts]

/-- C13: in `picoquic_packet_loop`, when `ret` is `PICOQUIC_NO_ERROR_SIMULATE_NAT` and the
auxiliary open (port 0, family `sock_af[0]`, no bind) returns 1, the socket
that was at rank 0 is closed, rank 0 holds the descriptor just created, the
other entries, `sock_af` and `nb_sockets` are unchanged, and `ret` is 0, so
that the loop runs a further iteration. -/
theorem simulate_nat_swap (c : Platform) (st : LoopState) (o : IterOutcome)
    (hret : st.ret = c.PICOQUIC_NO_ERROR_SIMULATE_NAT)
    (hopen : (aux_open c st o).nb_sockets = 1) :
    aux_port c st = 0 ∧
    Event.socket (st.sock_af 0) o.mig.fd ∈ (aux_open c st o).events ∧
    bind_attempts (aux_open c st o).events = [] ∧
    (simulate_step c st o).2 = (aux_open c st o).events ++
      (if st.s_socket 0 ≠ INVALID_SOCKET then [Event.close (st.s_socket 0)] else []) ∧
    (simulate_step c st o).1.s_socket 0 = o.mig.fd ∧ o.mig.fd ≠ INVALID_SOCKET ∧
    (∀ i, i ≠ 0 → (simulate_step c st o).1.s_socket i = st.s_socket i) ∧
    (simulate_step c st o).1.sock_af = st.sock_af ∧
    (simulate_step c st o).1.nb_sockets = st.nb_sockets ∧
    (simulate_step c st o).1.ret = 0 ∧
    (∀ (cb : Bool) (o2 : IterOutcome) (os : List IterOutcome), ∃ rest,
      (packet_loop_run c cb (o2 :: os) (simulate_step c st o).1).2 =
        (loop_iteration c cb (simulate_step c st o).1 o2).2 ++ rest) := by
  obtain ⟨h1, h2, h3, h4⟩ := aux_open_success c st o hopen
  have hp : aux_port c st = 0 := by simp [aux_port, hret]
  have hs : simulate_step c st o =
      ({ st with next_port := 0, s_socket := setAt st.s_socket 0 o.mig.fd, ret := 0 },
        (aux_open c st o).events ++
          (if st.s_socket 0 ≠ INVALID_SOCKET then [Event.close (st.s_socket 0)] else [])) := by
    have hne : ¬ ((aux_open c st o).nb_sockets ≠ 1 ∨
        (aux_open c st o).s_socket 0 = INVALID_SOCKET) := by
      rw [h1]; simp [hopen, h2]
    unfold aux_open aux_port at hne h1
    simp only [hret, if_true] at hne h1
    unfold simulate_step aux_open aux_port
    simp only [hret, true_or, if_true, decide_True, hne, if_false]
    rw [h1]
  have hev := open_one_socket_events (aux_port c st) (st.sock_af 0) o.mig h4
  rw [hp] at hev
  refine ⟨hp, ?_, ?_, ?_, ?_, h2, ?_, ?_, ?_, ?_, ?_⟩
  · rw [h3, hp]; exact hev.1
  · rw [h3, hp, hev.2]; simp
  · rw [hs]
  · rw [hs]; simp [setAt]
  · intro i hi; rw [hs]; simp [setAt, hi]
  · rw [hs]
  · rw [hs]
  · rw [hs]
  · intro cb o2 os
    exact packet_loop_run_goes_on c cb _ o2 os (by rw [hs])

/-- Witness of C13: on Linux, one IPv4 socket (descriptor 3), `ret = 1076`, the auxiliary
socket opens as descriptor 5: descriptor 3 is closed and rank 0 holds 5. -/
theorem simulate_nat_swap_witness :
    (simulate_step linux (loop_with_ret 1076) (iter_idle 100 [] 0)).2 =
      [Event.socket 2 5, Event.set_ecn_options 5 2 0, Event.set_pkt_info 5 2 0,
       Event.close 3] ∧
    (simulate_step linux (loop_with_ret 1076) (iter_idle 100 [] 0)).1.s_socket 0 = 5 ∧
    (simulate_step linux (loop_with_ret 1076) (iter_idle 100 [] 0)).1.ret = 0 := by
  obtain ⟨_, _, _, _, h5, _, _, _, _, h10, _⟩ :=
    simulate_nat_swap linux (loop_with_ret 1076) (iter_idle 100 [] 0) rfl (by decide)
  exact ⟨by decide, h5, h10⟩

/-- C14 (as amended): in `picoquic_packet_loop`, when `ret` is
`PICOQUIC_NO_ERROR_SIMULATE_MIGRATION` the auxiliary socket is opened on port
`(socket_port + 1) mod 65536` (and bound to it unless that is 0).  If the open
returns 1, the set has room and `last_cnx` is not `NULL`, the new descriptor is
stored at index `nb_sockets`, `nb_sockets` grows by one, `testing_migration` is
set, and `picoquic_probe_new_path` is called once with `last_cnx`, its path-0
peer address and the stored copy of its path-0 local address, in which the
port is replaced when the family is `AF_INET` or `AF_INET6`.  If the open
returns 1 but there is no room or no `last_cnx`, the new socket is closed and
the set and `testing_migration` are unchanged. -/
theorem simulate_migration_probe (c : Platform) (st : LoopState) (o : IterOutcome)
    (hret : st.ret = c.PICOQUIC_NO_ERROR_SIMULATE_MIGRATION)
    (hne : c.PICOQUIC_NO_ERROR_SIMULATE_MIGRATION ≠ c.PICOQUIC_NO_ERROR_SIMULATE_NAT)
    (hopen : (aux_open c st o).nb_sockets = 1) :
    aux_port c st = (st.socket_port + 1) % 65536 ∧
    Event.socket (st.sock_af 0) o.mig.fd ∈ (aux_open c st o).events ∧
    bind_attempts (aux_open c st o).events =
      (if (aux_port c st : Int) ≠ 0 then [(o.mig.fd, (aux_port c st : Int))] else []) ∧
    o.mig.fd ≠ INVALID_SOCKET ∧
    (∀ cnx, st.last_cnx = some cnx → (st.nb_sockets : Int) < c.PICOQUIC_PACKET_LOOP_SOCKETS_MAX →
      (simulate_step c st o).2 = (aux_open c st o).events ++
        [Event.probe_new_path cnx cnx.path0_peer_addr
          (probe_local_address c cnx (aux_port c st)) st.current_time o.probe_rc] ∧
      (simulate_step c st o).1.s_socket st.nb_sockets = o.mig.fd ∧
      (∀ i, i ≠ st.nb_sockets → (simulate_step c st o).1.s_socket i = st.s_socket i) ∧
      (simulate_step c st o).1.sock_af = st.sock_af ∧
      (simulate_step c st o).1.nb_sockets = st.nb_sockets + 1 ∧
      (simulate_step c st o).1.testing_migration = true ∧
      (simulate_step c st o).1.next_port = aux_port c st ∧
      (simulate_step c st o).1.ret = o.probe_rc) ∧
    ((st.last_cnx = none ∨ ¬ (st.nb_sockets : Int) < c.PICOQUIC_PACKET_LOOP_SOCKETS_MAX) →
      (simulate_step c st o).2 = (aux_open c st o).events ++ [Event.close o.mig.fd] ∧
      (simulate_step c st o).1.s_socket = st.s_socket ∧
      (simulate_step c st o).1.sock_af = st.sock_af ∧
      (simulate_step c st o).1.nb_sockets = st.nb_sockets ∧
      (simulate_step c st o).1.testing_migration = st.testing_migration) := by
  obtain ⟨h1, h2, h3, h4⟩ := aux_open_success c st o hopen
  have hnat : ¬ st.ret = c.PICOQUIC_NO_ERROR_SIMULATE_NAT := by rw [hret]; exact hne
  have hp : aux_port c st = (st.socket_port + 1) % 65536 := by simp [aux_port, hnat]
  have hev := open_one_socket_events (aux_port c st) (st.sock_af 0) o.mig h4
  have hok : ¬ ((aux_open c st o).nb_sockets ≠ 1 ∨
      (aux_open c st o).s_socket 0 = INVALID_SOCKET) := by
    rw [h1]; simp [hopen, h2]
  unfold aux_open aux_port at hok h1
  simp only [hnat, if_false] at hok h1
  have hcond : st.ret = c.PICOQUIC_NO_ERROR_SIMULATE_NAT ∨
      st.ret = c.PICOQUIC_NO_ERROR_SIMULATE_MIGRATION := Or.inr hret
  have hd : decide (st.ret = c.PICOQUIC_NO_ERROR_SIMULATE_NAT) = false := by simp [hnat]
  refine ⟨hp, ?_, ?_, h2, ?_, ?_⟩
  · rw [h3]; exact hev.1
  · rw [h3]; exact hev.2
  · intro cnx hc hroom
    unfold simulate_step aux_open aux_port probe_local_address
    simp only [hcond, if_true, hd, Bool.false_eq_true, if_false]
    simp only [hnat, if_false, hok, hc, hroom, if_true]
    rw [h1]
    refine ⟨by trivial, by simp [setAt], ?_, by trivial, by trivial, by trivial, by trivial,
      by trivial⟩
    intro i hi
    simp [setAt, hi]
  · intro hno
    unfold simulate_step aux_open aux_port
    simp only [hcond, if_true, hd, Bool.false_eq_true, if_false]
    simp only [hnat, if_false, hok]
    rw [h1]
    rcases hno with hc | hroom
    · simp only [hc]
      exact ⟨by trivial, by trivial, by trivial, by trivial, by trivial⟩
    · cases hl : st.last_cnx with
      | none => exact ⟨by trivial, by trivial, by trivial, by trivial, by trivial⟩
      | some cnx =>
        simp only [hroom, if_false]
        exact ⟨by trivial, by trivial, by trivial, by trivial, by trivial⟩

/-- Witness of C14: on Linux with `socket_port = 4433`, one socket and `last_cnx` known, the
auxiliary socket (descriptor 5) is bound to 4434 and appended, and the probe
carries the local address with port 4434. -/
theorem simulate_migration_probe_witness :
    (simulate_step linux { loop_with_ret 1077 with last_cnx := some cnx_a }
        (iter_idle 100 [] 0)).2 =
      [Event.socket 2 5, Event.set_ecn_options 5 2 0, Event.set_pkt_info 5 2 0,
       Event.bind_to_port 5 2 4434 0,
       Event.probe_new_path cnx_a peer_a (addr4 [192, 168, 0, 1] 4434) 0 0] ∧
    (simulate_step linux { loop_with_ret 1077 with last_cnx := some cnx_a }
        (iter_idle 100 [] 0)).1.nb_sockets = 2 ∧
    (simulate_step linux { loop_with_ret 1077 with last_cnx := some cnx_a }
        (iter_idle 100 [] 0)).1.testing_migration = true := by
  obtain ⟨_, _, _, _, h, _⟩ :=
    simulate_migration_probe linux { loop_with_ret 1077 with last_cnx := some cnx_a }
      (iter_idle 100 [] 0) rfl (by decide) (by decide)
  obtain ⟨_, _, _, _, h5, h6, _⟩ := h cnx_a rfl (by decide)
  exact ⟨by decide, h5, h6⟩

/-- Counterexample to C14 as stated.  With `socket_port = 65535` the port is 0 and no
bind is attempted, so the auxiliary socket is not opened on port 65536.  With
`socket_port = 4433` and a `last_cnx` whose path-0 local address has family 0,
`picoquic_probe_new_path` gets that address with its port 0 unchanged, not 4434. -/
theorem simulate_migration_port_counterexample :
    bind_attempts (simulate_step linux
        { loop_with_ret 1077 with socket_port := 65535, last_cnx := some cnx_a }
        (iter_idle 100 [] 0)).2 = [] ∧
    (simulate_step linux { loop_with_ret 1077 with last_cnx := some cnx_no_local }
        (iter_idle 100 [] 0)).2 =
      [Event.socket 2 5, Event.set_ecn_options 5 2 0, Event.set_pkt_info 5 2 0,
       Event.bind_to_port 5 2 4434 0,
       Event.probe_new_path cnx_no_local peer_a { ss_family := 0, port := 0, host := [] }
         0 0] := by
  decide

theorem loop_finish_ret (c : Platform) (st : LoopState)
    (h : st.ret ≠ c.PICOQUIC_NO_ERROR_TERMINATE_PACKET_LOOP) : (loop_finish c st).1 = st.ret := by
  simp [loop_finish, h]

/-- C15 (as amended): in `picoquic_packet_loop`, when `ret` is one of the two pseudo
codes and the auxiliary open fails, the failure is logged against `last_cnx`
when it is not `NULL`; the socket set, `testing_migration` and `socket_port` are
unchanged; `ret` keeps the pseudo code, so the loop makes no further iteration
and the function returns the pseudo code. -/
theorem simulate_open_failure (c : Platform) (st : LoopState) (o : IterOutcome)
    (hret : st.ret = c.PICOQUIC_NO_ERROR_SIMULATE_NAT ∨
      st.ret = c.PICOQUIC_NO_ERROR_SIMULATE_MIGRATION)
    (hnz : st.ret ≠ 0)
    (hfail : (aux_open c st o).nb_sockets ≠ 1 ∨ (aux_open c st o).s_socket 0 = INVALID_SOCKET) :
    (simulate_step c st o).2 = (aux_open c st o).events ++
      (match st.last_cnx with
       | some cnx => [Event.log_could_not_create_socket cnx (aux_port c st) (st.sock_af 0)
                        (aux_open c st o).nb_sockets]
       | none => []) ∧
    (simulate_step c st o).1.s_socket = st.s_socket ∧
    (simulate_step c st o).1.sock_af = st.sock_af ∧
    (simulate_step c st o).1.nb_sockets = st.nb_sockets ∧
    (simulate_step c st o).1.testing_migration = st.testing_migration ∧
    (simulate_step c st o).1.socket_port = st.socket_port ∧
    (simulate_step c st o).1.ret = st.ret ∧
    (∀ (cb : Bool) (os : List IterOutcome),
      (packet_loop_run c cb os (simulate_step c st o).1).2 = []) ∧
    (st.ret ≠ c.PICOQUIC_NO_ERROR_TERMINATE_PACKET_LOOP →
      (loop_finish c (simulate_step c st o).1).1 = st.ret) := by
  have hs : (simulate_step c st o).2 = (aux_open c st o).events ++
      (match st.last_cnx with
       | some cnx => [Event.log_could_not_create_socket cnx (aux_port c st) (st.sock_af 0)
                        (aux_open c st o).nb_sockets]
       | none => []) ∧
      (simulate_step c st o).1.s_socket = st.s_socket ∧
      (simulate_step c st o).1.sock_af = st.sock_af ∧
      (simulate_step c st o).1.nb_sockets = st.nb_sockets ∧
      (simulate_step c st o).1.testing_migration = st.testing_migration ∧
      (simulate_step c st o).1.socket_port = st.socket_port ∧
      (simulate_step c st o).1.ret = st.ret := by
    unfold aux_open aux_port at hfail ⊢
    unfold simulate_step
    by_cases hnat : st.ret = c.PICOQUIC_NO_ERROR_SIMULATE_NAT
    · have hd : decide (st.ret = c.PICOQUIC_NO_ERROR_SIMULATE_NAT) = true := by simp [hnat]
      simp only [hnat, if_true] at hfail
      simp only [hret, if_true, hd]
      simp only [hnat, if_true, hfail]
      cases st.last_cnx <;> simp
    · have hd : decide (st.ret = c.PICOQUIC_NO_ERROR_SIMULATE_NAT) = false := by simp [hnat]
      simp only [hnat, if_false] at hfail
      simp only [hret, if_true, hd, Bool.false_eq_true, if_false]
      simp only [hnat, if_false, hfail, if_true]
      cases st.last_cnx <;> simp
  obtain ⟨h1, h2, h3, h4, h5, h6, h7⟩ := hs
  refine ⟨h1, h2, h3, h4, h5, h6, h7, ?_, ?_⟩
  · intro cb os
    rw [packet_loop_run_skip c cb os _ (by rw [h7]; exact hnz)]
  · intro hT
    rw [loop_finish_ret c _ (by rw [h7]; exact hT), h7]

/-- Witness of C15: on Linux, `ret = 1076` and the auxiliary socket cannot be created:
nothing changes and `ret` is still 1076. -/
theorem simulate_open_failure_witness :
    (simulate_step linux (loop_with_ret 1076)
        { iter_idle 100 [] 0 with mig := { fd := -1, ecn_rc := 0, pkt_info_rc := 0,
                                           bind_rc := 0 } }).2 = [Event.socket 2 (-1)] ∧
    (simulate_step linux (loop_with_ret 1076)
        { iter_idle 100 [] 0 with mig := { fd := -1, ecn_rc := 0, pkt_info_rc := 0,
                                           bind_rc := 0 } }).1.ret = 1076 := by
  obtain ⟨_, _, _, _, _, _, h7, _⟩ :=
    simulate_open_failure linux (loop_with_ret 1076)
      { iter_idle 100 [] 0 with mig := { fd := -1, ecn_rc := 0, pkt_info_rc := 0,
                                         bind_rc := 0 } }
      (Or.inl rfl) (by decide) (Or.inl (by decide))
  exact ⟨by decide, h7⟩

/-- Counterexample to C15 as stated: the engine returns
`PICOQUIC_NO_ERROR_SIMULATE_NAT` (1076) in the first iteration and the auxiliary
socket cannot be created; although answers for a second iteration are at hand,
the loop ends there, closes descriptor 3 and returns 1076. -/
theorem aux_open_failure_ends_loop :
    (picoquic_packet_loop linux world_nat_socket_fails 4433 2 false).ret = some 1076 ∧
    (picoquic_packet_loop linux world_nat_socket_fails 4433 2 false).events =
      [Event.get_quic_time 0, Event.socket 2 3, Event.set_ecn_options 3 2 0,
       Event.set_pkt_info 3 2 0, Event.bind_to_port 3 2 4433 0,
       Event.get_next_wake_delay 0 1000, Event.select_ex [3] 1000 0,
       Event.prepare_next_packet 100 1076 0,
       Event.socket 2 (-1),
       Event.close 3] := by
  decide

/-! ### The receive path of `picoquic_packet_loop` -/

theorem socket_setup_no_receive (e : Event) (h : e.is_socket_setup = true) :
    e.is_receive_path = false := by
  cases e <;> first | rfl | (simp [Event.is_socket_setup] at h)

theorem wait_step_frame (st : LoopState) (o : IterOutcome) :
    (wait_step st o).1.socket_port = st.socket_port ∧
    (wait_step st o).1.nb_sockets = st.nb_sockets ∧
    (wait_step st o).1.s_socket = st.s_socket ∧
    (wait_step st o).1.sock_af = st.sock_af ∧
    (wait_step st o).1.testing_migration = st.testing_migration ∧
    (wait_step st o).1.next_port = st.next_port := by
  unfold wait_step
  simp only
  split_ifs <;> exact ⟨rfl, rfl, rfl, rfl, rfl, rfl⟩

theorem wait_step_no_receive (st : LoopState) (o : IterOutcome) :
    ∀ e ∈ (wait_step st o).2, e.is_receive_path = false := by
  have h : (wait_step st o).2.all (fun e => !e.is_receive_path) = true := by
    unfold wait_step
    simp only
    split_ifs <;> rfl
  intro e he
  simpa using List.all_eq_true.1 h e he

theorem send_failure_events_no_receive (c : Platform) (st : LoopState) (p : PrepareOutcome)
    (sr se : Int) : ∀ e ∈ send_failure_events c st p sr se, e.is_receive_path = false := by
  have h : (send_failure_events c st p sr se).all (fun e => !e.is_receive_path) = true := by
    unfold send_failure_events
    cases st.last_cnx <;> simp only <;> split_ifs <;> rfl
  intro e he
  simpa using List.all_eq_true.1 h e he

theorem send_step_no_receive (c : Platform) (st : LoopState) (p : PrepareOutcome) :
    ∀ e ∈ send_step c st p, e.is_receive_path = false := by
  intro e he
  simp only [send_step] at he
  split_ifs at he
  · exact send_failure_events_no_receive c st p _ _ e he
  · rcases List.mem_cons.1 he with h | h
    · subst h; rfl
    · exact send_failure_events_no_receive c st p _ _ e h

theorem send_drain_no_receive (c : Platform) (ps : List PrepareOutcome) :
    ∀ (st : LoopState), ∀ e ∈ (send_drain c st ps).2, e.is_receive_path = false := by
  induction ps with
  | nil =>
    intro st e he
    simp only [send_drain] at he
    split_ifs at he <;> simp at he
  | cons p ps ih =>
    intro st e he
    by_cases h0 : st.ret = 0
    · by_cases hgo : p.rc = 0 ∧ p.send_length > 0
      · rw [send_drain_cons_go c st p ps h0 hgo.1 hgo.2] at he
        simp only [List.mem_cons, List.mem_append] at he
        rcases he with h | h | h
        · subst h; rfl
        · exact send_step_no_receive c _ p e h
        · exact ih _ e h
      · rw [send_drain_cons_stop c st p ps h0 hgo] at he
        simp only [List.mem_singleton] at he
        subst he; rfl
    · rw [send_drain_skip c st _ h0] at he
      simp at he

theorem send_drain_frame (c : Platform) (ps : List PrepareOutcome) :
    ∀ (st st1 : LoopState), (send_drain c st ps).1 = some st1 →
      st1.socket_port = st.socket_port ∧ st1.nb_sockets = st.nb_sockets ∧
      st1.s_socket = st.s_socket ∧ st1.sock_af = st.sock_af ∧
      st1.testing_migration = st.testing_migration ∧ st1.next_port = st.next_port := by
  induction ps with
  | nil =>
    intro st st1 h
    by_cases h0 : st.ret = 0
    · simp [send_drain, h0] at h
    · rw [send_drain_skip c st _ h0] at h
      simp only [Option.some.injEq] at h
      subst h
      exact ⟨rfl, rfl, rfl, rfl, rfl, rfl⟩
  | cons p ps ih =>
    intro st st1 h
    by_cases h0 : st.ret = 0
    · by_cases hgo : p.rc = 0 ∧ p.send_length > 0
      · rw [send_drain_cons_go c st p ps h0 hgo.1 hgo.2] at h
        exact ih (reset_loop_count (after_prepare st p)) st1 h
      · rw [send_drain_cons_stop c st p ps h0 hgo] at h
        simp only [Option.some.injEq] at h
        subst h
        exact ⟨rfl, rfl, rfl, rfl, rfl, rfl⟩
    · rw [send_drain_skip c st _ h0] at h
      simp only [Option.some.injEq] at h
      subst h
      exact ⟨rfl, rfl, rfl, rfl, rfl, rfl⟩

theorem after_send_step_frame (cb : Bool) (st : LoopState) (o : IterOutcome) :
    (after_send_step cb st o).1.socket_port = st.socket_port ∧
    (after_send_step cb st o).1.nb_sockets = st.nb_sockets ∧
    (after_send_step cb st o).1.s_socket = st.s_socket ∧
    (after_send_step cb st o).1.sock_af = st.sock_af ∧
    (after_send_step cb st o).1.testing_migration = st.testing_migration ∧
    (after_send_step cb st o).1.next_port = st.next_port := by
  unfold after_send_step
  split_ifs <;> exact ⟨rfl, rfl, rfl, rfl, rfl, rfl⟩

theorem after_send_step_no_receive (cb : Bool) (st : LoopState) (o : IterOutcome) :
    ∀ e ∈ (after_send_step cb st o).2, e.is_receive_path = false := by
  intro e he
  unfold after_send_step at he
  split_ifs at he <;> simp at he
  subst he; rfl

theorem simulate_step_port (c : Platform) (st : LoopState) (o : IterOutcome) :
    (simulate_step c st o).1.socket_port = st.socket_port := by
  unfold simulate_step
  simp only
  split_ifs
  all_goals try split
  all_goals try split_ifs
  all_goals rfl

theorem simulate_step_no_receive (c : Platform) (st : LoopState) (o : IterOutcome) :
    ∀ e ∈ (simulate_step c st o).2, e.is_receive_path = false := by
  have hq : ∀ (p af : Int) (e : Event),
      e ∈ (picoquic_packet_loop_open_sockets c p af (fun _ => INVALID_SOCKET) (fun _ => 0) 1
            (fun _ => o.mig)).events → e.is_receive_path = false :=
    fun p af e he => socket_setup_no_receive e (open_sockets_setup c _ _ _ _ _ _ e he)
  intro e he
  unfold simulate_step at he
  simp only at he
  split_ifs at he
  all_goals try split at he
  all_goals try split_ifs at he
  all_goals simp only [List.mem_append, List.mem_singleton, List.not_mem_nil, or_false] at he
  all_goals first
    | (exact hq _ _ e he)
    | (rcases he with h | h
       · exact hq _ _ e h
       · subst h; rfl)

theorem receive_path_incoming (e : Event) (h : e.is_receive_path = false) :
    e.is_incoming = false := by
  cases e <;> first | rfl | (simp [Event.is_receive_path] at h)

theorem document_port_family (c : Platform) (a : SockAddr) (p : Nat)
    (hf : a.ss_family = c.AF_INET ∨ a.ss_family = c.AF_INET6) :
    document_port c a p = with_port a p := by
  unfold document_port with_port
  rcases hf with h | h
  · by_cases h6 : a.ss_family = c.AF_INET6
    · simp [h6]
    · simp [h6, h]
  · simp [h]

theorem document_port_other (c : Platform) (a : SockAddr) (p : Nat)
    (h4 : a.ss_family ≠ c.AF_INET) (h6 : a.ss_family ≠ c.AF_INET6) :
    document_port c a p = a := by
  unfold document_port
  simp [h4, h6]

theorem learn_port_frame (c : Platform) (st : LoopState) (o : IterOutcome) :
    (learn_port c st o).1.nb_sockets = st.nb_sockets ∧
    (learn_port c st o).1.s_socket = st.s_socket ∧
    (learn_port c st o).1.sock_af = st.sock_af ∧
    (learn_port c st o).1.testing_migration = st.testing_migration ∧
    (learn_port c st o).1.next_port = st.next_port ∧
    (learn_port c st o).1.current_time = st.current_time := by
  unfold learn_port
  simp only
  split_ifs <;> exact ⟨rfl, rfl, rfl, rfl, rfl, rfl⟩

theorem learn_port_events (c : Platform) (st : LoopState) (o : IterOutcome) :
    (learn_port c st o).2 =
      if st.socket_port = 0 ∧ st.nb_sockets = 1 then
        [Event.get_local_address (st.s_socket 0) o.local_address_rc]
      else [] := by
  unfold learn_port
  simp only
  split_ifs <;> rfl

theorem learn_port_known (c : Platform) (st : LoopState) (o : IterOutcome)
    (h : ¬ (st.socket_port = 0 ∧ st.nb_sockets = 1)) :
    learn_port c st o = (st, []) := by
  unfold learn_port
  simp only [h, if_false]

theorem learn_port_family (c : Platform) (st : LoopState) (o : IterOutcome)
    (hf : o.sel.addr_to.ss_family = c.AF_INET ∨ o.sel.addr_to.ss_family = c.AF_INET6) :
    (learn_port c st o).1.socket_port =
      if st.socket_port = 0 ∧ st.nb_sockets = 1 ∧ o.local_address_rc = 0 then
        o.local_address.port
      else st.socket_port := by
  unfold learn_port
  simp only [SockAddr.sin_port, SockAddr.sin6_port]
  split_ifs with h1 h2 h3 h4 h5 h6 h7 h8 <;> first
    | rfl
    | (exfalso; tauto)

theorem learn_port_failed (c : Platform) (st : LoopState) (o : IterOutcome)
    (h : o.local_address_rc ≠ 0) :
    (learn_port c st o).1 = st := by
  unfold learn_port
  simp only
  split_ifs <;> rfl

theorem learn_port_other_family (c : Platform) (st : LoopState) (o : IterOutcome)
    (h4 : o.sel.addr_to.ss_family ≠ c.AF_INET) (h6 : o.sel.addr_to.ss_family ≠ c.AF_INET6) :
    (learn_port c st o).1 = st := by
  unfold learn_port
  simp only
  split_ifs <;> rfl

theorem learn_port_stable (c : Platform) (st : LoopState) (o : IterOutcome)
    (h : st.socket_port ≠ 0) :
    (learn_port c st o).1.socket_port = st.socket_port := by
  rw [learn_port_known c st o (fun hh => h hh.1)]

/-- The calls of the receive block: the read of the local address if the port
is not known, the submission, the callback if there is one. -/
theorem receive_step_events (c : Platform) (cb : Bool) (st : LoopState) (o : IterOutcome) :
    (receive_step c cb st o).2 =
      (learn_port c st o).2 ++
        Event.incoming_packet o.sel.buffer o.sel.bytes_recv o.sel.addr_from
          (document_port c o.sel.addr_to
            (current_recv_port (learn_port c st o).1 o.sel.socket_rank))
          o.sel.if_index_to o.sel.received_ecn st.current_time o.incoming_rc ::
        (if cb then
          [Event.loop_callback CbMode.picoquic_packet_loop_after_receive o.after_receive_rc]
         else []) := by
  unfold receive_step
  simp only [(learn_port_frame c st o).2.2.2.2.2]
  cases cb <;> simp

theorem receive_step_frame (c : Platform) (cb : Bool) (st : LoopState) (o : IterOutcome) :
    (receive_step c cb st o).1.socket_port = (learn_port c st o).1.socket_port ∧
    (receive_step c cb st o).1.nb_sockets = st.nb_sockets ∧
    (receive_step c cb st o).1.s_socket = st.s_socket ∧
    (receive_step c cb st o).1.testing_migration = st.testing_migration ∧
    (receive_step c cb st o).1.next_port = st.next_port ∧
    (receive_step c cb st o).1.ret = (if cb then o.after_receive_rc else st.ret) := by
  obtain ⟨h1, h2, _, h4, h5, _⟩ := learn_port_frame c st o
  unfold receive_step
  cases cb
  · refine ⟨rfl, h1, h2, h4, h5, ?_⟩
    simpa using learn_port_ret c st o
  · exact ⟨rfl, h1, h2, h4, h5, rfl⟩

/-- The calls of an iteration in which a datagram arrived: the wait, the
receive block, then calls none of which reads the local address or submits a
datagram. -/
theorem loop_iteration_receive (c : Platform) (cb : Bool) (st : LoopState) (o : IterOutcome)
    (hb : 0 < o.sel.bytes_recv) :
    ∃ tail, (loop_iteration c cb st o).2 =
        (wait_step st o).2 ++ (receive_step c cb (wait_step st o).1 o).2 ++ tail ∧
      (∀ e ∈ tail, e.is_receive_path = false) ∧
      (∀ st1, (loop_iteration c cb st o).1 = some st1 →
        st1.socket_port = (learn_port c (wait_step st o).1 o).1.socket_port) := by
  have hn : ¬ o.sel.bytes_recv < 0 := by omega
  unfold loop_iteration
  simp only [hn, if_false, gt_iff_lt, hb, if_true]
  cases hd : (send_drain c (receive_step c cb (wait_step st o).1 o).1 o.prepares).1 with
  | none =>
    refine ⟨(send_drain c (receive_step c cb (wait_step st o).1 o).1 o.prepares).2, rfl, ?_, ?_⟩
    · exact send_drain_no_receive c _ _
    · intro st1 h; simp at h
  | some st3 =>
    refine ⟨(send_drain c (receive_step c cb (wait_step st o).1 o).1 o.prepares).2 ++
      (after_send_step cb st3 o).2 ++ (simulate_step c (after_send_step cb st3 o).1 o).2,
      by simp [List.append_assoc], ?_, ?_⟩
    · intro e he
      simp only [List.mem_append] at he
      rcases he with (h | h) | h
      · exact send_drain_no_receive c _ _ e h
      · exact after_send_step_no_receive cb st3 o e h
      · exact simulate_step_no_receive c _ o e h
    · intro st1 h
      simp only [Option.some.injEq] at h
      rw [← h, simulate_step_port, (after_send_step_frame cb st3 o).1,
        (send_drain_frame c o.prepares _ st3 hd).1, (receive_step_frame c cb _ o).1]

theorem filter_receive_nil (l : List Event) (h : ∀ e ∈ l, e.is_receive_path = false) :
    l.filter Event.is_receive_path = [] := by
  induction l with
  | nil => rfl
  | cons a l ih =>
    have ha : a.is_receive_path = false := h a (List.mem_cons_self a l)
    simp only [List.filter, ha]
    exact ih (fun e he => h e (List.mem_cons_of_mem a he))

theorem filter_receive_learn (c : Platform) (st : LoopState) (o : IterOutcome) :
    (learn_port c st o).2.filter Event.is_receive_path = (learn_port c st o).2 := by
  rw [learn_port_events]
  split_ifs <;> rfl

/-- The calls of the receive block made by an iteration in which a datagram
arrived: the read of the local address if there is one, then one submission. -/
theorem loop_iteration_receive_path (c : Platform) (cb : Bool) (st : LoopState)
    (o : IterOutcome) (hb : 0 < o.sel.bytes_recv) :
    (loop_iteration c cb st o).2.filter Event.is_receive_path =
      (learn_port c (wait_step st o).1 o).2 ++
        [Event.incoming_packet o.sel.buffer o.sel.bytes_recv o.sel.addr_from
          (document_port c o.sel.addr_to
            (current_recv_port (learn_port c (wait_step st o).1 o).1 o.sel.socket_rank))
          o.sel.if_index_to o.sel.received_ecn o.sel.current_time o.incoming_rc] := by
  obtain ⟨tail, hev, htail, _⟩ := loop_iteration_receive c cb st o hb
  rw [hev, List.filter_append, List.filter_append,
    filter_receive_nil _ (wait_step_no_receive st o), filter_receive_nil _ htail,
    receive_step_events, List.filter_append, filter_receive_learn, wait_step_time]
  cases cb <;> simp [List.filter, Event.is_receive_path]

/-- An iteration in which no datagram arrived makes no call of the receive
block and leaves `socket_port` alone. -/
theorem loop_iteration_idle (c : Platform) (cb : Bool) (st : LoopState) (o : IterOutcome)
    (hb : ¬ 0 < o.sel.bytes_recv) :
    (∀ e ∈ (loop_iteration c cb st o).2, e.is_receive_path = false) ∧
    (∀ st1, (loop_iteration c cb st o).1 = some st1 → st1.socket_port = st.socket_port) := by
  unfold loop_iteration
  simp only
  by_cases hn : o.sel.bytes_recv < 0
  · simp only [hn, if_true]
    constructor
    · intro e he
      rcases List.mem_append.1 he with h | h
      · exact wait_step_no_receive st o e h
      · exact simulate_step_no_receive c _ o e h
    · intro st1 h
      simp only [Option.some.injEq] at h
      rw [← h, simulate_step_port]
      exact (wait_step_frame st o).1
  · simp only [hn, if_false, gt_iff_lt, hb]
    cases hd : (send_drain c (wait_step st o).1 o.prepares).1 with
    | none =>
      constructor
      · intro e he
        simp only [List.append_nil, List.mem_append] at he
        rcases he with h | h
        · exact wait_step_no_receive st o e h
        · exact send_drain_no_receive c _ _ e h
      · intro st1 h; simp at h
    | some st3 =>
      constructor
      · intro e he
        simp only [List.append_nil, List.mem_append] at he
        rcases he with ((h | h) | h) | h
        · exact wait_step_no_receive st o e h
        · exact send_drain_no_receive c _ _ e h
        · exact after_send_step_no_receive cb st3 o e h
        · exact simulate_step_no_receive c _ o e h
      · intro st1 h
        simp only [Option.some.injEq] at h
        rw [← h, simulate_step_port, (after_send_step_frame cb st3 o).1,
          (send_drain_frame c o.prepares _ st3 hd).1]
        exact (wait_step_frame st o).1

/-- An iteration entered with a known local port keeps it and never reads the
local address. -/
theorem loop_iteration_known_port (c : Platform) (cb : Bool) (st : LoopState) (o : IterOutcome)
    (hp : st.socket_port ≠ 0) :
    (∀ st1, (loop_iteration c cb st o).1 = some st1 → st1.socket_port = st.socket_port) ∧
    (∀ fd rc, Event.get_local_address fd rc ∉ (loop_iteration c cb st o).2) := by
  have hw : (wait_step st o).1.socket_port ≠ 0 := by rw [(wait_step_frame st o).1]; exact hp
  by_cases hb : 0 < o.sel.bytes_recv
  · obtain ⟨tail, hev, htail, hport⟩ := loop_iteration_receive c cb st o hb
    constructor
    · intro st1 h
      rw [hport st1 h, learn_port_stable c _ o hw, (wait_step_frame st o).1]
    · intro fd rc hmem
      have hf := loop_iteration_receive_path c cb st o hb
      rw [learn_port_known c _ o (fun hh => hw hh.1)] at hf
      have hm : Event.get_local_address fd rc ∈
          (loop_iteration c cb st o).2.filter Event.is_receive_path :=
        List.mem_filter.2 ⟨hmem, rfl⟩
      rw [hf] at hm
      simp at hm
  · obtain ⟨h1, h2⟩ := loop_iteration_idle c cb st o hb
    exact ⟨h2, fun fd rc hmem => by simpa [Event.is_receive_path] using h1 _ hmem⟩

theorem packet_loop_run_known_port (c : Platform) (cb : Bool) (os : List IterOutcome) :
    ∀ (st : LoopState), st.socket_port ≠ 0 →
      (∀ stf, (packet_loop_run c cb os st).1 = some stf → stf.socket_port = st.socket_port) ∧
      (∀ fd rc, Event.get_local_address fd rc ∉ (packet_loop_run c cb os st).2) := by
  induction os with
  | nil =>
    intro st _
    constructor
    · intro stf h
      simp only [packet_loop_run] at h
      split_ifs at h
      simp only [Option.some.injEq] at h
      rw [← h]
    · intro fd rc hmem
      simp only [packet_loop_run] at hmem
      split_ifs at hmem <;> simp at hmem
  | cons o os ih =>
    intro st hp
    by_cases h0 : st.ret = 0
    · obtain ⟨hit, hno⟩ := loop_iteration_known_port c cb st o hp
      rw [packet_loop_run]
      simp only [h0, if_true]
      cases hi : (loop_iteration c cb st o).1 with
      | none =>
        exact ⟨fun stf h => by simp at h, fun fd rc hmem => hno fd rc hmem⟩
      | some st1 =>
        have hp1 : st1.socket_port ≠ 0 := by rw [hit st1 hi]; exact hp
        obtain ⟨hr, hnr⟩ := ih st1 hp1
        constructor
        · intro stf h
          rw [hr stf h, hit st1 hi]
        · intro fd rc hmem
          rcases List.mem_append.1 hmem with h | h
          · exact hno fd rc h
          · exact hnr fd rc h
    · rw [packet_loop_run_skip c cb _ st h0]
      exact ⟨fun stf h => by simp only [Option.some.injEq] at h; rw [← h],
        fun fd rc hmem => by simp at hmem⟩

theorem loop_start_port (c : Platform) (w : World) (local_port local_af : Int) (cb : Bool) :
    (loop_start c w local_port local_af cb).1.socket_port = (local_port % 65536).toNat := by
  unfold loop_start
  simp only
  split_ifs <;> rfl

theorem loop_start_no_read (c : Platform) (w : World) (local_port local_af : Int) (cb : Bool) :
    ∀ fd rc, Event.get_local_address fd rc ∉ (loop_start c w local_port local_af cb).2 := by
  intro fd rc hmem
  rw [loop_start_events] at hmem
  simp only [List.cons_append, List.mem_cons, List.mem_append] at hmem
  rcases hmem with h | h | h
  · cases h
  · have := open_sockets_setup c _ _ _ _ _ _ _ h
    simp [Event.is_socket_setup] at this
  · split_ifs at h <;> simp at h

/-- The port documented in `addr_to`, in terms of the variables at the entry of
the iteration. -/
theorem recv_port_value (c : Platform) (st : LoopState) (o : IterOutcome)
    (hf : o.sel.addr_to.ss_family = c.AF_INET ∨ o.sel.addr_to.ss_family = c.AF_INET6) :
    current_recv_port (learn_port c (wait_step st o).1 o).1 o.sel.socket_rank =
      if st.testing_migration = true ∧ o.sel.socket_rank ≠ 0 then st.next_port
      else if st.socket_port = 0 ∧ st.nb_sockets = 1 ∧ o.local_address_rc = 0 then
        o.local_address.port
      else st.socket_port := by
  obtain ⟨w1, w2, _, _, w5, w6⟩ := wait_step_frame st o
  obtain ⟨_, _, _, l4, l5, _⟩ := learn_port_frame c (wait_step st o).1 o
  unfold current_recv_port
  rw [l4, l5, w5, w6, learn_port_family c _ o hf, w1, w2]
  by_cases htm : st.testing_migration = true
  · by_cases hr : o.sel.socket_rank = 0
    · simp [htm, hr]
    · simp [htm, hr]
  · simp [htm]

/-- C17 (as amended): in an iteration of `picoquic_packet_loop` entered with
`socket_port = 0`, one open socket and `testing_migration` clear, in which a
datagram arrives, the local address of socket 0 is read once, before the
submission.  If the read succeeds and the family of `addr_to` is `AF_INET` or
`AF_INET6`, `socket_port` becomes the port read and the `addr_to` submitted for
that datagram carries it.  If the read succeeds and the family is neither,
`socket_port` stays 0 and `addr_to` is submitted as received.  If the read
fails, `socket_port` stays 0, the datagram is still submitted (with port 0
documented) and the failure does not change `ret`. -/
theorem local_port_latch (c : Platform) (cb : Bool) (st : LoopState) (o : IterOutcome)
    (hp : st.socket_port = 0) (hn : st.nb_sockets = 1) (htm : st.testing_migration = false)
    (hb : 0 < o.sel.bytes_recv) :
    (o.local_address_rc = 0 →
      (o.sel.addr_to.ss_family = c.AF_INET ∨ o.sel.addr_to.ss_family = c.AF_INET6) →
      (loop_iteration c cb st o).2.filter Event.is_receive_path =
        [Event.get_local_address (st.s_socket 0) 0,
         Event.incoming_packet o.sel.buffer o.sel.bytes_recv o.sel.addr_from
           (with_port o.sel.addr_to o.local_address.port)
           o.sel.if_index_to o.sel.received_ecn o.sel.current_time o.incoming_rc] ∧
      ∀ st1, (loop_iteration c cb st o).1 = some st1 →
        st1.socket_port = o.local_address.port) ∧
    (o.local_address_rc = 0 →
      o.sel.addr_to.ss_family ≠ c.AF_INET → o.sel.addr_to.ss_family ≠ c.AF_INET6 →
      (loop_iteration c cb st o).2.filter Event.is_receive_path =
        [Event.get_local_address (st.s_socket 0) 0,
         Event.incoming_packet o.sel.buffer o.sel.bytes_recv o.sel.addr_from
           o.sel.addr_to
           o.sel.if_index_to o.sel.received_ecn o.sel.current_time o.incoming_rc] ∧
      ∀ st1, (loop_iteration c cb st o).1 = some st1 → st1.socket_port = 0) ∧
    (o.local_address_rc ≠ 0 →
      (loop_iteration c cb st o).2.filter Event.is_receive_path =
        [Event.get_local_address (st.s_socket 0) o.local_address_rc,
         Event.incoming_packet o.sel.buffer o.sel.bytes_recv o.sel.addr_from
           (document_port c o.sel.addr_to 0)
           o.sel.if_index_to o.sel.received_ecn o.sel.current_time o.incoming_rc] ∧
      (∀ st1, (loop_iteration c cb st o).1 = some st1 → st1.socket_port = 0) ∧
      (receive_step c cb (wait_step st o).1 o).1.ret =
        (if cb then o.after_receive_rc else st.ret)) := by
  obtain ⟨w1, w2, w3, _, w5, _⟩ := wait_step_frame st o
  have hcond : (wait_step st o).1.socket_port = 0 ∧ (wait_step st o).1.nb_sockets = 1 := by
    rw [w1, w2]; exact ⟨hp, hn⟩
  have hev := loop_iteration_receive_path c cb st o hb
  rw [learn_port_events, if_pos hcond, w3] at hev
  obtain ⟨_, _, _, hport⟩ := loop_iteration_receive c cb st o hb
  refine ⟨?_, ?_, ?_⟩
  · intro hrc hf
    have hv := recv_port_value c st o hf
    simp only [htm, Bool.false_eq_true, false_and, if_false, hp, hn, hrc, and_self,
      if_true] at hv
    constructor
    · rw [hev, hv, document_port_family c _ _ hf, hrc]
      rfl
    · intro st1 h
      rw [hport st1 h, learn_port_family c _ o hf, w1, w2]
      simp [hp, hn, hrc]
  · intro hrc h4 h6
    constructor
    · rw [hev, document_port_other c _ _ h4 h6, hrc]
      rfl
    · intro st1 h
      rw [hport st1 h, learn_port_other_family c _ o h4 h6, w1, hp]
  · intro hrc
    have hl := learn_port_failed c (wait_step st o).1 o hrc
    refine ⟨?_, ?_, ?_⟩
    · rw [hev, hl]
      unfold current_recv_port
      rw [w5, w1]
      simp [htm, hp]
    · intro st1 h
      rw [hport st1 h, hl, w1, hp]
    · rw [(receive_step_frame c cb _ o).2.2.2.2.2, wait_step_ret]

/-- Witness of C17: started without a port on Linux, socket 0 (descriptor 3) is bound
to port 50000; the first datagram is submitted with port 50000 in `addr_to`. -/
theorem local_port_latch_witness :
    (loop_iteration linux false loop_unbound
        (iter_datagram 100 (addr4 [192, 168, 0, 1] 0) 50000)).2.filter Event.is_receive_path =
      [Event.get_local_address 3 0,
       Event.incoming_packet [1, 2, 3, 4, 5, 6, 7, 8, 9, 10, 11, 12] 12 peer_a
         (addr4 [192, 168, 0, 1] 50000) 1 0 100 0] :=
  ((local_port_latch linux false loop_unbound
      (iter_datagram 100 (addr4 [192, 168, 0, 1] 0) 50000) rfl rfl rfl (by decide)).1
    rfl (Or.inl rfl)).1

/-- Counterexample to C17 as stated: `picoquic_packet_loop` is started on Linux with
`local_port = 0` and one IPv4 socket (descriptor 3, bound to port 50000).  The
first datagram has a destination address of family 0: the read of the local
address succeeds, yet `addr_to` is submitted without the port and `socket_port`
is still 0, as the second read of the local address, made for the second
datagram, shows. -/
theorem latch_skipped_for_unknown_family :
    (picoquic_packet_loop linux world_unknown_family 0 2 false).events.filter
        Event.is_receive_path =
      [Event.get_local_address 3 0,
       Event.incoming_packet [1, 2, 3, 4, 5, 6, 7, 8, 9, 10, 11, 12] 12 peer_a
         addr_unspec 1 0 100 0,
       Event.get_local_address 3 0,
       Event.incoming_packet [1, 2, 3, 4, 5, 6, 7, 8, 9, 10, 11, 12] 12 peer_a
         (addr4 [192, 168, 0, 1] 50000) 1 0 200 0] ∧
    (picoquic_packet_loop linux world_unknown_family 0 2 false).ret = some (-1) := by
  decide

/-- C18: in an iteration of `picoquic_packet_loop` in which a datagram arrives
(`bytes_recv > 0`) whose `addr_to` has family `AF_INET` or `AF_INET6`,
`picoquic_incoming_packet` is called exactly once; the port of the `addr_to` it
receives is `next_port` when `testing_migration` is set and `socket_rank` is
not 0, and otherwise `socket_port`, latched from the local address of socket 0
if it was 0 with one socket open and the read succeeded; the payload, the
length, `addr_from`, the interface index, the ECN mark, the arrival time and
the other fields of `addr_to` are those the waiter returned. -/
theorem incoming_packet_arguments (c : Platform) (cb : Bool) (st : LoopState) (o : IterOutcome)
    (hb : 0 < o.sel.bytes_recv)
    (hf : o.sel.addr_to.ss_family = c.AF_INET ∨ o.sel.addr_to.ss_family = c.AF_INET6) :
    (loop_iteration c cb st o).2.filter Event.is_incoming =
      [Event.incoming_packet o.sel.buffer o.sel.bytes_recv o.sel.addr_from
        (with_port o.sel.addr_to
          (if st.testing_migration = true ∧ o.sel.socket_rank ≠ 0 then st.next_port
           else if st.socket_port = 0 ∧ st.nb_sockets = 1 ∧ o.local_address_rc = 0 then
             o.local_address.port
           else st.socket_port))
        o.sel.if_index_to o.sel.received_ecn o.sel.current_time o.incoming_rc] := by
  have h : ∀ l : List Event,
      l.filter Event.is_incoming = (l.filter Event.is_receive_path).filter Event.is_incoming := by
    intro l
    rw [List.filter_filter]
    congr 1
    funext e
    cases e <;> rfl
  rw [h, loop_iteration_receive_path c cb st o hb, List.filter_append, learn_port_events,
    recv_port_value c st o hf, document_port_family c _ _ hf]
  split_ifs <;> simp [List.filter, Event.is_incoming]

/-- Witness of C18: on Linux, while a migration is tested with `next_port = 4434`, a
datagram that arrives on the socket of rank 1 is submitted with port 4434. -/
theorem incoming_packet_arguments_witness :
    (loop_iteration linux false loop_migrating
        (iter_on_rank 100 1)).2.filter Event.is_incoming =
      [Event.incoming_packet [1, 2, 3, 4, 5, 6, 7, 8, 9, 10, 11, 12] 12 peer_a
         (addr4 [192, 168, 0, 1] 4434) 1 0 100 0] :=
  incoming_packet_arguments linux false loop_migrating (iter_on_rank 100 1)
    (by decide) (Or.inl rfl)

/-- C19: in `picoquic_packet_loop`, once `socket_port` is not 0 no step changes it:
an iteration of the loop keeps it, and so does the auxiliary-socket handling
of `SIMULATE_NAT` and `SIMULATE_MIGRATION`; a run of any number of iterations
keeps it and never reads the local address of a socket; and a call of the
function with a `local_port` that is not 0 modulo 65536 never reads it. -/
theorem socket_port_stable (c : Platform) (cb : Bool) (st : LoopState)
    (hp : st.socket_port ≠ 0) :
    (∀ o, (simulate_step c st o).1.socket_port = st.socket_port) ∧
    (∀ o st1, (loop_iteration c cb st o).1 = some st1 → st1.socket_port = st.socket_port) ∧
    (∀ os stf, (packet_loop_run c cb os st).1 = some stf → stf.socket_port = st.socket_port) ∧
    (∀ os fd rc, Event.get_local_address fd rc ∉ (packet_loop_run c cb os st).2) ∧
    (∀ w local_port local_af, (local_port % 65536).toNat = st.socket_port →
      ∀ fd rc, Event.get_local_address fd rc ∉
        (picoquic_packet_loop c w local_port local_af cb).events) := by
  refine ⟨fun o => simulate_step_port c st o,
    fun o => (loop_iteration_known_port c cb st o hp).1,
    fun os => (packet_loop_run_known_port c cb os st hp).1,
    fun os => (packet_loop_run_known_port c cb os st hp).2, ?_⟩
  intro w local_port local_af hlp fd rc hmem
  have hs : (loop_start c w local_port local_af cb).1.socket_port ≠ 0 := by
    rw [loop_start_port, hlp]; exact hp
  have hrun := (packet_loop_run_known_port c cb w.iters _ hs).2 fd rc
  have hst := loop_start_no_read c w local_port local_af cb fd rc
  unfold picoquic_packet_loop at hmem
  simp only at hmem
  cases hr : (packet_loop_run c cb w.iters (loop_start c w local_port local_af cb).1).1 with
  | none =>
    rw [hr] at hmem
    simp only [List.mem_append] at hmem
    rcases hmem with h | h
    · exact hst h
    · exact hrun h
  | some stf =>
    rw [hr] at hmem
    simp only [List.mem_append] at hmem
    rcases hmem with (h | h) | h
    · exact hst h
    · exact hrun h
    · obtain ⟨fd2, h2⟩ := close_sockets_close _ _ _ h
      cases h2

/-- Witness of C19: on Linux, started on port 4433, the iteration in which the engine
asks for a simulated migration ends with `socket_port` still 4433. -/
theorem socket_port_stable_witness :
    (loop_iteration linux false loop_started (iter_idle 100 [prepare_returns 1077] 0)).1.map
        (fun s => s.socket_port) = some 4433 := by
  have h := (socket_port_stable linux false loop_started (by decide)).2.1
    (iter_idle 100 [prepare_returns 1077] 0)
  cases hi : (loop_iteration linux false loop_started
      (iter_idle 100 [prepare_returns 1077] 0)).1 with
  | none =>
    have hs : (loop_iteration linux false loop_started
        (iter_idle 100 [prepare_returns 1077] 0)).1.isSome = true := by decide
    rw [hi] at hs
    cases hs
  | some st1 => simp only [Option.map_some']; rw [h st1 hi]; rfl

/-- The loop variables after a `SIMULATE_NAT` swap that succeeded. -/
theorem simulate_nat_state (c : Platform) (st : LoopState) (o : IterOutcome)
    (hret : st.ret = c.PICOQUIC_NO_ERROR_SIMULATE_NAT)
    (hopen : (aux_open c st o).nb_sockets = 1) :
    (simulate_step c st o).1 =
      { st with next_port := 0, s_socket := setAt st.s_socket 0 o.mig.fd, ret := 0 } := by
  obtain ⟨h1, h2, _, _⟩ := aux_open_success c st o hopen
  have hne : ¬ ((aux_open c st o).nb_sockets ≠ 1 ∨
      (aux_open c st o).s_socket 0 = INVALID_SOCKET) := by
    rw [h1]; simp [hopen, h2]
  unfold aux_open aux_port at hne h1
  simp only [hret, if_true] at hne h1
  unfold simulate_step
  simp only [hret, true_or, if_true, decide_True, hne, if_false]
  rw [h1]

/-- C20 (as amended): after a `SIMULATE_NAT` swap that succeeded in
`picoquic_packet_loop`, `socket_port` is what it was before the swap and rank 0
holds the replacement socket.  For the next datagram whose `addr_to` has family
`AF_INET` or `AF_INET6`: if `socket_port` was not 0, the local address of the
replacement socket is not read and the port submitted is the old
`socket_port` (0 on a socket of rank other than 0 while a migration is tested,
since the swap set `next_port` to 0); only if `socket_port` was 0 with one
socket open is the local address of the replacement socket read, and the
port it is bound to submitted when the read succeeds. -/
theorem nat_swap_keeps_port (c : Platform) (cb : Bool) (st : LoopState) (o o2 : IterOutcome)
    (hret : st.ret = c.PICOQUIC_NO_ERROR_SIMULATE_NAT)
    (hopen : (aux_open c st o).nb_sockets = 1)
    (hb : 0 < o2.sel.bytes_recv)
    (hf : o2.sel.addr_to.ss_family = c.AF_INET ∨ o2.sel.addr_to.ss_family = c.AF_INET6) :
    (simulate_step c st o).1.socket_port = st.socket_port ∧
    (simulate_step c st o).1.s_socket 0 = o.mig.fd ∧
    (loop_iteration c cb (simulate_step c st o).1 o2).2.filter Event.is_receive_path =
      (if st.socket_port = 0 ∧ st.nb_sockets = 1 then
        [Event.get_local_address o.mig.fd o2.local_address_rc]
       else []) ++
      [Event.incoming_packet o2.sel.buffer o2.sel.bytes_recv o2.sel.addr_from
        (with_port o2.sel.addr_to
          (if st.testing_migration = true ∧ o2.sel.socket_rank ≠ 0 then 0
           else if st.socket_port = 0 ∧ st.nb_sockets = 1 ∧ o2.local_address_rc = 0 then
             o2.local_address.port
           else st.socket_port))
        o2.sel.if_index_to o2.sel.received_ecn o2.sel.current_time o2.incoming_rc] := by
  have hs := simulate_nat_state c st o hret hopen
  have hp : (simulate_step c st o).1.socket_port = st.socket_port := by rw [hs]
  have hn : (simulate_step c st o).1.nb_sockets = st.nb_sockets := by rw [hs]
  have ht : (simulate_step c st o).1.testing_migration = st.testing_migration := by rw [hs]
  have hx : (simulate_step c st o).1.next_port = 0 := by rw [hs]
  have h0 : (simulate_step c st o).1.s_socket 0 = o.mig.fd := by rw [hs]; simp [setAt]
  obtain ⟨w1, w2, w3, _, _, _⟩ := wait_step_frame (simulate_step c st o).1 o2
  refine ⟨hp, h0, ?_⟩
  rw [loop_iteration_receive_path c cb _ o2 hb, learn_port_events,
    recv_port_value c _ o2 hf, document_port_family c _ _ hf, w1, w2, w3, hp, hn, ht, hx, h0]

/-- Witness of C20: on Linux, started on port 4433, the socket of rank 0 (descriptor 3)
is replaced by descriptor 5; the next datagram is submitted with port 4433 and
the local address of descriptor 5 is not read. -/
theorem nat_swap_keeps_port_witness :
    (loop_iteration linux false
        (simulate_step linux (loop_with_ret 1076) (iter_idle 100 [] 0)).1
        (iter_datagram 200 (addr4 [192, 168, 0, 1] 0) 50000)).2.filter Event.is_receive_path =
      [Event.incoming_packet [1, 2, 3, 4, 5, 6, 7, 8, 9, 10, 11, 12] 12 peer_a
         (addr4 [192, 168, 0, 1] 4433) 1 0 200 0] :=
  (nat_swap_keeps_port linux false (loop_with_ret 1076) (iter_idle 100 [] 0)
    (iter_datagram 200 (addr4 [192, 168, 0, 1] 0) 50000) rfl (by decide) (by decide)
    (Or.inl rfl)).2.2

/-- Counterexample to C20 as stated: `picoquic_packet_loop` is started on Linux on port
4433 with one IPv4 socket (descriptor 3).  The engine asks for a simulated NAT
rebinding: descriptor 5 is created without a bind (the system gives it port
50000) and descriptor 3 is closed.  The next datagram is submitted with port
4433 in `addr_to`, not 50000, and the local address of descriptor 5 is never
read. -/
theorem nat_swap_port_counterexample :
    (picoquic_packet_loop linux world_nat_then_datagram 4433 2 false).events.filter
        Event.is_receive_path =
      [Event.incoming_packet [1, 2, 3, 4, 5, 6, 7, 8, 9, 10, 11, 12] 12 peer_a
         (addr4 [192, 168, 0, 1] 4433) 1 0 200 0] ∧
    (picoquic_packet_loop linux world_nat_then_datagram 4433 2 false).events.filter
        Event.is_socket_setup =
      [Event.socket 2 3, Event.set_ecn_options 3 2 0, Event.set_pkt_info 3 2 0,
       Event.bind_to_port 3 2 4433 0,
       Event.socket 2 5, Event.set_ecn_options 5 2 0, Event.set_pkt_info 5 2 0,
       Event.close 3, Event.close 5] := by
  decide

/-! ### The trigger iteration of the master loop -/

theorem hashmap_get_put (t : List String) (key : String) :
    hashmap_get (hashmap_put t key) key = true := by
  unfold hashmap_get hashmap_put
  split_ifs with h <;> simp [h]

theorem migration_trigger_fires (c : Platform) (m : MasterState) (o : MasterOutcome)
    (t : List String) (v : CnxView) (ctx : MigrationCtx)
    (ht : m.cnx_id_table = some t) (hv : o.cnx_list = some v)
    (hc : v.callback_ctx = some ctx) (hf : ctx.migration_flag ≠ 0) :
    migration_trigger c m o =
      ({ m with cnx_id_table := some (hashmap_put t (c.picoquic_addr_text v.cnx.path0_peer_addr)),
                trans_flag := 1 },
        c.picoquic_addr_text v.cnx.path0_peer_addr,
        [Event.clear_migration_flag, Event.shallow_migrate,
         Event.hashmap_put (c.picoquic_addr_text v.cnx.path0_peer_addr)]) := by
  unfold migration_trigger
  simp only [hv, hc, ht, ne_eq, hf, not_false_eq_true, if_true]

/-- The iteration of the master loop in which the migration trigger fires for a
datagram (`bytes_recv > 0`, table not `NULL`): the calls it makes, the
descriptor it writes and the state it leaves. -/
theorem trigger_iteration_handoff (c : Platform) (cb : Bool) (m : MasterState)
    (o : MasterOutcome) (t : List String) (v : CnxView) (ctx : MigrationCtx)
    (hb : 0 < o.it.sel.bytes_recv)
    (ht : m.cnx_id_table = some t) (hv : o.cnx_list = some v)
    (hc : v.callback_ctx = some ctx) (hf : ctx.migration_flag ≠ 0) :
    ∃ d : Slot,
      (master_iteration c cb m o).2 =
        (wait_step m.loop o.it).2 ++ (learn_port c (wait_step m.loop o.it).1 o.it).2 ++
          [Event.clear_migration_flag, Event.shallow_migrate,
           Event.hashmap_put (c.picoquic_addr_text v.cnx.path0_peer_addr),
           Event.hashmap_get (c.picoquic_addr_text v.cnx.path0_peer_addr) true,
           Event.mutex_lock, Event.slot_write d, Event.cond_signal, Event.mutex_unlock] ∧
      d.trans_bytes = o.it.sel.bytes_recv ∧ d.trans_buffer = o.it.sel.buffer ∧
      d.trans_addr_from = o.it.sel.addr_from ∧ d.trans_current_time = o.it.sel.current_time ∧
      (∀ e ∈ (master_iteration c cb m o).2, e.is_local_processing = false) ∧
      ∃ m1, (master_iteration c cb m o).1 = some m1 ∧ m1.slot = d ∧ m1.trans_flag = 1 ∧
        m1.cnx_id_table =
          some (hashmap_put t (c.picoquic_addr_text v.cnx.path0_peer_addr)) ∧
        m1.loop.ret = m.loop.ret := by
  have hn : ¬ o.it.sel.bytes_recv < 0 := by omega
  have hfire := migration_trigger_fires c
    { m with loop := (learn_port c (wait_step m.loop o.it).1 o.it).1 } o t v ctx ht hv hc hf
  have hrs : master_receive_step c cb { m with loop := (wait_step m.loop o.it).1 } o =
      ({ m with loop := (learn_port c (wait_step m.loop o.it).1 o.it).1,
                cnx_id_table :=
                  some (hashmap_put t (c.picoquic_addr_text v.cnx.path0_peer_addr)),
                trans_flag := 1,
                slot := handoff_descriptor c
                  { m with loop := (learn_port c (wait_step m.loop o.it).1 o.it).1,
                           cnx_id_table :=
                             some (hashmap_put t (c.picoquic_addr_text v.cnx.path0_peer_addr)),
                           trans_flag := 1 } o
                  (document_port c o.it.sel.addr_to
                    (current_recv_port (learn_port c (wait_step m.loop o.it).1 o.it).1
                      o.it.sel.socket_rank)) },
        ReceiveEnd.handed_off,
        (learn_port c (wait_step m.loop o.it).1 o.it).2 ++
          [Event.clear_migration_flag, Event.shallow_migrate,
           Event.hashmap_put (c.picoquic_addr_text v.cnx.path0_peer_addr)] ++
          [Event.hashmap_get (c.picoquic_addr_text v.cnx.path0_peer_addr) true,
           Event.mutex_lock,
           Event.slot_write (handoff_descriptor c
                  { m with loop := (learn_port c (wait_step m.loop o.it).1 o.it).1,
                           cnx_id_table :=
                             some (hashmap_put t (c.picoquic_addr_text v.cnx.path0_peer_addr)),
                           trans_flag := 1 } o
                  (document_port c o.it.sel.addr_to
                    (current_recv_port (learn_port c (wait_step m.loop o.it).1 o.it).1
                      o.it.sel.socket_rank))),
           Event.cond_signal, Event.mutex_unlock]) := by
    unfold master_receive_step
    simp only [hfire, hashmap_get_put, if_true]
  have hit : master_iteration c cb m o =
      (some (master_receive_step c cb { m with loop := (wait_step m.loop o.it).1 } o).1,
        (wait_step m.loop o.it).2 ++
          (master_receive_step c cb { m with loop := (wait_step m.loop o.it).1 } o).2.2) := by
    unfold master_iteration
    simp only [hn, if_false, gt_iff_lt, hb, if_true]
    rw [hrs]
  refine ⟨(master_receive_step c cb { m with loop := (wait_step m.loop o.it).1 } o).1.slot, ?_⟩
  rw [hit, hrs]
  refine ⟨?_, rfl, rfl, rfl, ?_, ?_, ?_⟩
  · simp [List.append_assoc]
  · show (learn_port c (wait_step m.loop o.it).1 o.it).1.current_time = o.it.sel.current_time
    rw [(learn_port_frame c _ o.it).2.2.2.2.2, wait_step_time]
  · intro e he
    simp only [List.mem_append, List.mem_cons, List.mem_singleton, List.not_mem_nil,
      or_false] at he
    rcases he with h | (h | h) | h
    · exact (wait_step_plain m.loop o.it e h).2
    · exact (learn_port_plain c _ o.it e h).2
    · rcases h with h | h | h <;> subst h <;> rfl
    · rcases h with h | h | h | h | h <;> subst h <;> rfl
  · refine ⟨_, rfl, rfl, rfl, rfl, ?_⟩
    show (learn_port c (wait_step m.loop o.it).1 o.it).1.ret = m.loop.ret
    rw [learn_port_ret, wait_step_ret]

/-- C11 (as amended): in `picoquic_packet_loop_with_migration_master`, in the iteration in
which the migration trigger fires (`bytes_recv > 0`, table not `NULL`) while the
datagram being handled comes from the path-0 peer address of the connection
that is migrated, `picoquic_shallow_migrate` is called, the text of that peer
address is inserted as key, and the lookup that follows is made with that key
and hits: the descriptor of the datagram being handled (byte count, payload,
`addr_from`, arrival time) is written to the shared slot and signalled, and the
iteration makes no call of `picoquic_incoming_packet`, of the loop callback or
of the send drain.  Afterwards `*trans_flag` is 1, the table holds the key of
the peer and `ret` is unchanged. -/
theorem trigger_datagram_handed_off (c : Platform) (cb : Bool) (m : MasterState)
    (o : MasterOutcome) (t : List String) (v : CnxView) (ctx : MigrationCtx)
    (hb : 0 < o.it.sel.bytes_recv)
    (ht : m.cnx_id_table = some t) (hv : o.cnx_list = some v)
    (hc : v.callback_ctx = some ctx) (hf : ctx.migration_flag ≠ 0)
    (hfrom : v.cnx.path0_peer_addr = o.it.sel.addr_from) :
    ∃ d : Slot,
      (master_iteration c cb m o).2 =
        (wait_step m.loop o.it).2 ++ (learn_port c (wait_step m.loop o.it).1 o.it).2 ++
          [Event.clear_migration_flag, Event.shallow_migrate,
           Event.hashmap_put (c.picoquic_addr_text o.it.sel.addr_from),
           Event.hashmap_get (c.picoquic_addr_text o.it.sel.addr_from) true,
           Event.mutex_lock, Event.slot_write d, Event.cond_signal, Event.mutex_unlock] ∧
      d.trans_bytes = o.it.sel.bytes_recv ∧ d.trans_buffer = o.it.sel.buffer ∧
      d.trans_addr_from = o.it.sel.addr_from ∧ d.trans_current_time = o.it.sel.current_time ∧
      (∀ e ∈ (master_iteration c cb m o).2, e.is_local_processing = false) ∧
      ∃ m1, (master_iteration c cb m o).1 = some m1 ∧ m1.slot = d ∧ m1.trans_flag = 1 ∧
        m1.cnx_id_table = some (hashmap_put t (c.picoquic_addr_text o.it.sel.addr_from)) ∧
        m1.loop.ret = m.loop.ret := by
  obtain ⟨d, h1, h2, h3, h4, h5, h6, m1, h7, h8, h9, h10, h11⟩ :=
    trigger_iteration_handoff c cb m o t v ctx hb ht hv hc hf
  rw [hfrom] at h1 h10
  exact ⟨d, h1, h2, h3, h4, h5, h6, m1, h7, h8, h9, h10, h11⟩

/-- Witness of C11: on Linux the master loop, started on port 4433 with an empty table,
handles a datagram from `10.0.0.1:5000`, the peer of the first connection,
while `migration_flag` is 1: the key `10.0.0.1:5000` is inserted and looked up,
and the datagram goes to the slot. -/
theorem trigger_datagram_handed_off_witness :
    ∃ d : Slot,
      (master_iteration linux false master_started (master_iter peer_a 100 1 "")).2 =
        [Event.get_next_wake_delay 0 1000, Event.select_ex [3] 1000 12,
         Event.clear_migration_flag, Event.shallow_migrate,
         Event.hashmap_put "10.0.0.1:5000", Event.hashmap_get "10.0.0.1:5000" true,
         Event.mutex_lock, Event.slot_write d, Event.cond_signal, Event.mutex_unlock] ∧
      d.trans_bytes = 12 ∧ d.trans_buffer = [1, 2, 3, 4, 5, 6, 7, 8, 9, 10, 11, 12] := by
  obtain ⟨d, h1, h2, h3, _⟩ :=
    trigger_datagram_handed_off linux false master_started (master_iter peer_a 100 1 "") []
      { cnx := cnx_a, callback_ctx := some { migration_flag := 1, server_flag := 1 } }
      { migration_flag := 1, server_flag := 1 } (by decide) rfl rfl rfl (by decide) rfl
  exact ⟨d, h1, h2, h3⟩

/-- Counterexample to C11 as stated: the master loop is started on Linux on port 4433
with an empty table.  A datagram from `10.0.0.1:5000` arrives while the first
connection of the primary engine, whose peer is `10.0.0.1:5000`, has
`migration_flag = 1`.  The trigger fires, and that very datagram is written to
the slot and signalled; `picoquic_incoming_packet` is not called in the whole
run. -/
theorem trigger_datagram_counterexample :
    (picoquic_packet_loop_with_migration_master linux world_master_trigger (some [])
        slot_empty 0 4433 2 false).events.filter Event.is_incoming = [] ∧
    (picoquic_packet_loop_with_migration_master linux world_master_trigger (some [])
        slot_empty 0 4433 2 false).events.filter
          (fun e => e.is_handoff || decide (e = Event.shallow_migrate)) =
      [Event.shallow_migrate,
       Event.slot_write
         { trans_bytes := 12, trans_received_ecn := 0, trans_current_time := 100,
           trans_socket_rank := 0, trans_if_index_to := 1,
           trans_addr_to := addr4 [192, 168, 0, 1] 4433, trans_addr_from := peer_a,
           trans_peer_addr := addr4 [0, 0, 0, 0] 0, trans_local_addr := addr4 [0, 0, 0, 0] 0,
           trans_sock_af := [2, 0, 0, 0], trans_s_socket := [3, 0, 0, 0],
           trans_nb_sockets := 1, trans_buffer := [1, 2, 3, 4, 5, 6, 7, 8, 9, 10, 11, 12] },
       Event.cond_signal] ∧
    (picoquic_packet_loop_with_migration_master linux world_master_trigger (some [])
        slot_empty 0 4433 2 false).ret = some (-1) := by
  decide

/-! ### The hand-off from the master loop to the slave loop -/

theorem recv_port_learned (c : Platform) (st : LoopState) (o : IterOutcome)
    (hf : o.sel.addr_to.ss_family = c.AF_INET ∨ o.sel.addr_to.ss_family = c.AF_INET6) :
    current_recv_port (learn_port c st o).1 o.sel.socket_rank =
      if st.testing_migration = true ∧ o.sel.socket_rank ≠ 0 then st.next_port
      else if st.socket_port = 0 ∧ st.nb_sockets = 1 ∧ o.local_address_rc = 0 then
        o.local_address.port
      else st.socket_port := by
  obtain ⟨_, _, _, l4, l5, _⟩ := learn_port_frame c st o
  unfold current_recv_port
  rw [l4, l5, learn_port_family c _ o hf]
  by_cases htm : st.testing_migration = true
  · by_cases hr : o.sel.socket_rank = 0
    · simp [htm, hr]
    · simp [htm, hr]
  · simp [htm]

theorem document_port_twice (c : Platform) (a : SockAddr) (p q : Nat) :
    document_port c (document_port c a p) q = document_port c a q := by
  unfold document_port
  by_cases h6 : a.ss_family = c.AF_INET6
  · simp [h6]
  · by_cases h4 : a.ss_family = c.AF_INET
    · simp [h6, h4]
    · simp [h6, h4]

theorem slave_wake_step_frame (st : LoopState) (d : Slot) :
    (slave_wake_step st d).1.socket_port = st.socket_port ∧
    (slave_wake_step st d).1.nb_sockets = d.trans_nb_sockets ∧
    (slave_wake_step st d).1.s_socket = copy_array d.trans_s_socket st.s_socket ∧
    (slave_wake_step st d).1.testing_migration = st.testing_migration ∧
    (slave_wake_step st d).1.next_port = st.next_port ∧
    (slave_wake_step st d).1.current_time = d.trans_current_time := by
  unfold slave_wake_step
  simp only
  split_ifs <;> exact ⟨rfl, rfl, rfl, rfl, rfl, rfl⟩

theorem slave_wake_step_no_receive (st : LoopState) (d : Slot) :
    ∀ e ∈ (slave_wake_step st d).2, e.is_receive_path = false := by
  have h : (slave_wake_step st d).2.all (fun e => !e.is_receive_path) = true := by
    unfold slave_wake_step
    simp only
    split_ifs <;> rfl
  intro e he
  simpa using List.all_eq_true.1 h e he

theorem slave_receive_step_events (c : Platform) (cb : Bool) (st : LoopState)
    (o : IterOutcome) :
    (slave_receive_step c cb st o).2 =
      (learn_port c st o).2 ++
        Event.incoming_packet o.sel.buffer o.sel.bytes_recv o.sel.addr_from
          (document_port c o.sel.addr_to
            (current_recv_port (learn_port c st o).1 o.sel.socket_rank))
          o.sel.if_index_to o.sel.received_ecn st.current_time o.incoming_rc ::
        (if cb then
          [Event.loop_callback CbMode.picoquic_packet_loop_after_receive o.after_receive_rc]
         else []) := by
  unfold slave_receive_step
  simp only [(learn_port_frame c st o).2.2.2.2.2]
  cases cb <;> simp

/-- The calls of the receive block made by an iteration of the slave loop that
woke up with a datagram in the slot. -/
theorem slave_iteration_receive_path (c : Platform) (cb : Bool) (st : LoopState)
    (o : SlaveOutcome) (hb : 0 < o.slot.trans_bytes) :
    (slave_iteration c cb st o).2.filter Event.is_receive_path =
      (learn_port c (slave_wake_step st o.slot).1 o.answers).2 ++
        [Event.incoming_packet o.slot.trans_buffer o.slot.trans_bytes o.slot.trans_addr_from
          (document_port c o.slot.trans_addr_to
            (current_recv_port (learn_port c (slave_wake_step st o.slot).1 o.answers).1
              o.slot.trans_socket_rank))
          o.slot.trans_if_index_to o.slot.trans_received_ecn o.slot.trans_current_time
          o.it.incoming_rc] := by
  have hn : ¬ o.slot.trans_bytes < 0 := by omega
  have hrcv : ((slave_receive_step c cb (slave_wake_step st o.slot).1 o.answers).2).filter
      Event.is_receive_path =
      (learn_port c (slave_wake_step st o.slot).1 o.answers).2 ++
        [Event.incoming_packet o.slot.trans_buffer o.slot.trans_bytes o.slot.trans_addr_from
          (document_port c o.slot.trans_addr_to
            (current_recv_port (learn_port c (slave_wake_step st o.slot).1 o.answers).1
              o.slot.trans_socket_rank))
          o.slot.trans_if_index_to o.slot.trans_received_ecn o.slot.trans_current_time
          o.it.incoming_rc] := by
    rw [slave_receive_step_events, List.filter_append, filter_receive_learn,
      (slave_wake_step_frame st o.slot).2.2.2.2.2]
    cases cb <;> simp [List.filter, Event.is_receive_path, SlaveOutcome.answers, slot_select]
  unfold slave_iteration
  simp only [hn, if_false, gt_iff_lt, hb, if_true]
  cases hd : (send_drain c (slave_receive_step c cb (slave_wake_step st o.slot).1 o.answers).1
      o.answers.prepares).1 with
  | none =>
    simp only
    rw [List.filter_append, List.filter_append,
      filter_receive_nil _ (slave_wake_step_no_receive st o.slot),
      filter_receive_nil _ (send_drain_no_receive c _ _), hrcv]
    simp
  | some st3 =>
    simp only
    rw [List.filter_append, List.filter_append, List.filter_append, List.filter_append,
      filter_receive_nil _ (slave_wake_step_no_receive st o.slot),
      filter_receive_nil _ (send_drain_no_receive c _ _),
      filter_receive_nil _ (after_send_step_no_receive cb st3 _),
      filter_receive_nil _ (simulate_step_no_receive c _ _), hrcv]
    simp

theorem filter_incoming_receive (l : List Event) :
    l.filter Event.is_incoming = (l.filter Event.is_receive_path).filter Event.is_incoming := by
  rw [List.filter_filter]
  congr 1
  funext e
  cases e <;> rfl

theorem filter_incoming_learn (c : Platform) (st : LoopState) (o : IterOutcome) :
    (learn_port c st o).2.filter Event.is_incoming = [] := by
  rw [learn_port_events]
  split_ifs <;> rfl

/-- The only write to the slot an iteration of the master loop can make is that
of the descriptor of the datagram it received. -/
theorem master_receive_step_slot_write (c : Platform) (cb : Bool) (m : MasterState)
    (o : MasterOutcome) (d : Slot)
    (h : Event.slot_write d ∈ (master_receive_step c cb m o).2.2) :
    ∃ m2 : MasterState, m2.loop = (learn_port c m.loop o.it).1 ∧
      d = handoff_descriptor c m2 o
        (document_port c o.it.sel.addr_to
          (current_recv_port (learn_port c m.loop o.it).1 o.it.sel.socket_rank)) := by
  have hlp := learn_port_plain c m.loop o.it
  have htp := migration_trigger_plain c { m with loop := (learn_port c m.loop o.it).1 } o
  obtain ⟨_, hloop, _⟩ :=
    migration_trigger_frame c { m with loop := (learn_port c m.loop o.it).1 } o
  generalize hT : migration_trigger c { m with loop := (learn_port c m.loop o.it).1 } o = T
    at htp hloop
  obtain ⟨m2, key, tev⟩ := T
  simp only at htp hloop
  have hno : ∀ e, e ∈ (learn_port c m.loop o.it).2 ∨ e ∈ tev → e ≠ Event.slot_write d := by
    intro e he heq
    subst heq
    rcases he with h1 | h1
    · have := (hlp _ h1).1
      simp [Event.is_handoff] at this
    · have := (htp _ h1).1
      simp [Event.is_handoff] at this
  unfold master_receive_step at h
  simp only [hT] at h
  cases htab : m2.cnx_id_table with
  | none =>
    simp only [htab, List.mem_append] at h
    exact absurd rfl (hno _ h)
  | some table =>
    simp only [htab] at h
    cases hg : hashmap_get table key with
    | true =>
      simp only [hg, if_true, List.mem_append, List.mem_cons, List.mem_singleton,
        List.not_mem_nil, or_false] at h
      rcases h with h1 | h1
      · exact absurd rfl (hno _ h1)
      · rcases h1 with h2 | h2 | h2 | h2 | h2
        · cases h2
        · cases h2
        · simp only [Event.slot_write.injEq] at h2
          exact ⟨m2, hloop, h2⟩
        · cases h2
        · cases h2
    | false =>
      simp only [hg, Bool.false_eq_true, if_false] at h
      cases cb with
      | true =>
        simp only [if_true, List.mem_append, List.mem_cons, List.mem_singleton,
          List.not_mem_nil, or_false] at h
        rcases h with h1 | h1
        · exact absurd rfl (hno _ h1)
        · rcases h1 with h2 | h2 | h2 <;> cases h2
      | false =>
        simp only [Bool.false_eq_true, if_false, List.mem_append, List.mem_cons,
          List.mem_singleton, List.not_mem_nil, or_false] at h
        rcases h with h1 | h1
        · exact absurd rfl (hno _ h1)
        · rcases h1 with h2 | h2 <;> cases h2

theorem master_iteration_slot_write (c : Platform) (cb : Bool) (m : MasterState)
    (o : MasterOutcome) (d : Slot)
    (h : Event.slot_write d ∈ (master_iteration c cb m o).2) :
    0 < o.it.sel.bytes_recv ∧
    ∃ m2 : MasterState,
      m2.loop = (learn_port c (wait_step m.loop o.it).1 o.it).1 ∧
      d = handoff_descriptor c m2 o
        (document_port c o.it.sel.addr_to
          (current_recv_port (learn_port c (wait_step m.loop o.it).1 o.it).1
            o.it.sel.socket_rank)) := by
  have hw : ∀ e ∈ (wait_step m.loop o.it).2, e ≠ Event.slot_write d := by
    intro e he heq
    subst heq
    have := (wait_step_plain m.loop o.it _ he).1
    simp [Event.is_handoff] at this
  have hsim : ∀ st, ∀ e ∈ (simulate_step c st o.it).2, e ≠ Event.slot_write d := by
    intro st e he heq
    subst heq
    have := simulate_step_no_handoff c st o.it _ he
    simp [Event.is_handoff] at this
  have hsend : ∀ mm, ∀ e ∈ (master_send_part c cb mm o).2, e ≠ Event.slot_write d := by
    intro mm e he heq
    subst heq
    have := master_send_part_no_handoff c cb mm o _ he
    simp [Event.is_handoff] at this
  unfold master_iteration at h
  simp only at h
  by_cases hn : o.it.sel.bytes_recv < 0
  · simp only [hn, if_true, List.mem_append] at h
    rcases h with h1 | h1
    · exact absurd rfl (hw _ h1)
    · exact absurd rfl (hsim _ _ h1)
  · by_cases hb : o.it.sel.bytes_recv > 0
    · simp only [hn, if_false, hb, if_true] at h
      refine ⟨hb, ?_⟩
      have key : Event.slot_write d ∈
          (master_receive_step c cb { m with loop := (wait_step m.loop o.it).1 } o).2.2 := by
        cases hr : (master_receive_step c cb
            { m with loop := (wait_step m.loop o.it).1 } o).2.1 with
        | null_table =>
          simp only [hr, List.mem_append] at h
          rcases h with h1 | h1
          · exact absurd rfl (hw _ h1)
          · exact h1
        | handed_off =>
          simp only [hr, List.mem_append] at h
          rcases h with h1 | h1
          · exact absurd rfl (hw _ h1)
          · exact h1
        | submitted =>
          simp only [hr, List.mem_append] at h
          rcases h with (h1 | h1) | h1
          · exact absurd rfl (hw _ h1)
          · exact h1
          · exact absurd rfl (hsend _ _ h1)
      exact master_receive_step_slot_write c cb _ o d key
    · simp only [hn, if_false, hb, List.mem_append] at h
      rcases h with h1 | h1
      · exact absurd rfl (hw _ h1)
      · exact absurd rfl (hsend _ _ h1)

/-- C12 (as amended): hand-off round trip.  When an iteration of the master loop writes a
descriptor to the shared slot and the slave loop wakes up with that descriptor
in the slot, the slave calls `picoquic_incoming_packet` of its engine exactly
once, with the payload, the length, `addr_from`, the interface index, the ECN
mark and the arrival time the master received.  The `addr_to` it passes is
the one the master received with the port documented again by the slave from
its own variables (`next_port` when it tests a migration and the rank is not
0, otherwise its `socket_port`, latched from socket 0 of the copied set if it
was 0): it is the `addr_to` the master wrote exactly when that port is the port
the master documented. -/
theorem handoff_round_trip (c : Platform) (cb cbs : Bool) (m : MasterState)
    (o : MasterOutcome) (st : LoopState) (so : SlaveOutcome)
    (hw : Event.slot_write so.slot ∈ (master_iteration c cb m o).2) :
    so.slot.trans_addr_to =
      document_port c o.it.sel.addr_to
        (current_recv_port (learn_port c (wait_step m.loop o.it).1 o.it).1
          o.it.sel.socket_rank) ∧
    (slave_iteration c cbs st so).2.filter Event.is_incoming =
      [Event.incoming_packet o.it.sel.buffer o.it.sel.bytes_recv o.it.sel.addr_from
        (document_port c o.it.sel.addr_to
          (current_recv_port (learn_port c (slave_wake_step st so.slot).1 so.answers).1
            o.it.sel.socket_rank))
        o.it.sel.if_index_to o.it.sel.received_ecn o.it.sel.current_time
        so.it.incoming_rc] ∧
    ((o.it.sel.addr_to.ss_family = c.AF_INET ∨ o.it.sel.addr_to.ss_family = c.AF_INET6) →
      current_recv_port (learn_port c (slave_wake_step st so.slot).1 so.answers).1
          o.it.sel.socket_rank =
        if st.testing_migration = true ∧ o.it.sel.socket_rank ≠ 0 then st.next_port
        else if st.socket_port = 0 ∧ m.loop.nb_sockets = 1 ∧ so.it.local_address_rc = 0 then
          so.it.local_address.port
        else st.socket_port) ∧
    (current_recv_port (learn_port c (slave_wake_step st so.slot).1 so.answers).1
        o.it.sel.socket_rank =
      current_recv_port (learn_port c (wait_step m.loop o.it).1 o.it).1
        o.it.sel.socket_rank →
      (slave_iteration c cbs st so).2.filter Event.is_incoming =
        [Event.incoming_packet so.slot.trans_buffer so.slot.trans_bytes
          so.slot.trans_addr_from so.slot.trans_addr_to so.slot.trans_if_index_to
          so.slot.trans_received_ecn so.slot.trans_current_time so.it.incoming_rc]) := by
  obtain ⟨hb, m2, hloop, hd⟩ := master_iteration_slot_write c cb m o so.slot hw
  have f1 : so.slot.trans_bytes = o.it.sel.bytes_recv := by rw [hd]; rfl
  have f2 : so.slot.trans_buffer = o.it.sel.buffer := by rw [hd]; rfl
  have f3 : so.slot.trans_addr_from = o.it.sel.addr_from := by rw [hd]; rfl
  have f4 : so.slot.trans_addr_to =
      document_port c o.it.sel.addr_to
        (current_recv_port (learn_port c (wait_step m.loop o.it).1 o.it).1
          o.it.sel.socket_rank) := by rw [hd]; rfl
  have f5 : so.slot.trans_if_index_to = o.it.sel.if_index_to := by rw [hd]; rfl
  have f6 : so.slot.trans_received_ecn = o.it.sel.received_ecn := by rw [hd]; rfl
  have f7 : so.slot.trans_socket_rank = o.it.sel.socket_rank := by rw [hd]; rfl
  have f8 : so.slot.trans_current_time = o.it.sel.current_time := by
    have : so.slot.trans_current_time = m2.loop.current_time := by rw [hd]; rfl
    rw [this, hloop, (learn_port_frame c _ o.it).2.2.2.2.2, wait_step_time]
  have f9 : so.slot.trans_nb_sockets = m.loop.nb_sockets := by
    have : so.slot.trans_nb_sockets = m2.loop.nb_sockets := by rw [hd]; rfl
    rw [this, hloop, (learn_port_frame c _ o.it).1, (wait_step_frame m.loop o.it).2.1]
  have hbs : 0 < so.slot.trans_bytes := by rw [f1]; exact hb
  have hev : (slave_iteration c cbs st so).2.filter Event.is_incoming =
      [Event.incoming_packet so.slot.trans_buffer so.slot.trans_bytes so.slot.trans_addr_from
        (document_port c so.slot.trans_addr_to
          (current_recv_port (learn_port c (slave_wake_step st so.slot).1 so.answers).1
            so.slot.trans_socket_rank))
        so.slot.trans_if_index_to so.slot.trans_received_ecn so.slot.trans_current_time
        so.it.incoming_rc] := by
    rw [filter_incoming_receive, slave_iteration_receive_path c cbs st so hbs,
      List.filter_append, filter_incoming_learn]
    rfl
  refine ⟨f4, ?_, ?_, ?_⟩
  · rw [hev, f4, document_port_twice, f1, f2, f3, f5, f6, f7, f8]
  · intro hf
    have hfs : so.answers.sel.addr_to.ss_family = c.AF_INET ∨
        so.answers.sel.addr_to.ss_family = c.AF_INET6 := by
      show so.slot.trans_addr_to.ss_family = c.AF_INET ∨
        so.slot.trans_addr_to.ss_family = c.AF_INET6
      rw [f4, document_port_family c _ _ hf]
      exact hf
    have h := recv_port_learned c (slave_wake_step st so.slot).1 so.answers hfs
    obtain ⟨w1, w2, _, w4, w5, _⟩ := slave_wake_step_frame st so.slot
    rw [w1, w2, w4, w5, f9] at h
    have hr : so.answers.sel.socket_rank = o.it.sel.socket_rank := f7
    have hl1 : so.answers.local_address_rc = so.it.local_address_rc := rfl
    have hl2 : so.answers.local_address = so.it.local_address := rfl
    rw [hr, hl1, hl2] at h
    exact h
  · intro heq
    rw [hev, f7, heq]
    have hfix : document_port c so.slot.trans_addr_to
        (current_recv_port (learn_port c (wait_step m.loop o.it).1 o.it).1
          o.it.sel.socket_rank) = so.slot.trans_addr_to := by
      rw [f4, document_port_twice]
    rw [hfix]

/-- Witness of C12: on Linux the master loop, started on port 4433, hands off a datagram
from `10.0.0.1:5000`; a slave loop started on port 4433 as well submits it to
its engine with the arguments the master wrote. -/
theorem handoff_round_trip_witness :
    (slave_iteration linux false (slave_start world_slave 4433) (slave_iter slot_a)).2.filter
        Event.is_incoming =
      [Event.incoming_packet [1, 2, 3, 4, 5, 6, 7, 8, 9, 10, 11, 12] 12 peer_a
         (addr4 [192, 168, 0, 1] 4433) 1 0 100 0] :=
  (handoff_round_trip linux false false master_started (master_iter peer_a 100 1 "")
    (slave_start world_slave 4433) (slave_iter slot_a) (by decide)).2.1

/-- Counterexample to C12 as stated: on Linux the master loop, started on port 4433, writes
the descriptor `slot_a`, whose `addr_to` has port 4433.  The slave loop,
started with `local_port = 4434`, wakes up with that descriptor and passes to
its engine an `addr_to` with port 4434. -/
theorem handoff_port_counterexample :
    Event.slot_write slot_a ∈
      (master_iteration linux false master_started (master_iter peer_a 100 1 "")).2 ∧
    slot_a.trans_addr_to = addr4 [192, 168, 0, 1] 4433 ∧
    (picoquic_packet_loop_with_migration_slave linux world_slave 4434 false).events.filter
        Event.is_incoming =
      [Event.incoming_packet [1, 2, 3, 4, 5, 6, 7, 8, 9, 10, 11, 12] 12 peer_a
         (addr4 [192, 168, 0, 1] 4434) 1 0 100 0] := by
  decide

/-! ### The call of `picoquic_migrate` in `picoquic_packet_loop_test_migration` -/

theorem drain_head_quiet (t : List Event) (h : ∀ e ∈ t, e.is_drain_head = false) :
    prepare_calls t = [] ∧ Event.migrate ∉ t := by
  constructor
  · induction t with
    | nil => rfl
    | cons e t ih =>
      have he := h e (List.mem_cons_self e t)
      have ht := ih (fun x hx => h x (List.mem_cons_of_mem e hx))
      cases e with
      | prepare_next_packet t rc n => simp [Event.is_drain_head] at he
      | _ => simpa [prepare_calls, List.filterMap_cons] using ht
  · intro hm
    have := h _ hm
    simp [Event.is_drain_head] at this

theorem socket_setup_no_drain_head (e : Event) (h : e.is_socket_setup = true) :
    e.is_drain_head = false := by
  cases e <;> first | rfl | (simp [Event.is_socket_setup] at h)

theorem receive_path_no_drain_head (e : Event) (h : e.is_receive_path = true) :
    e.is_drain_head = false := by
  cases e <;> first | rfl | (simp [Event.is_receive_path] at h)

theorem wait_step_no_drain_head (st : LoopState) (o : IterOutcome) :
    ∀ e ∈ (wait_step st o).2, e.is_drain_head = false := by
  have h : (wait_step st o).2.all (fun e => !e.is_drain_head) = true := by
    unfold wait_step
    simp only
    split_ifs <;> rfl
  intro e he
  simpa using List.all_eq_true.1 h e he

theorem receive_step_no_drain_head (c : Platform) (cb : Bool) (st : LoopState)
    (o : IterOutcome) : ∀ e ∈ (receive_step c cb st o).2, e.is_drain_head = false := by
  intro e he
  rw [receive_step_events, learn_port_events] at he
  simp only [List.mem_append, List.mem_cons] at he
  rcases he with h | h | h
  · split_ifs at h <;> simp at h
    subst h; rfl
  · subst h; rfl
  · split_ifs at h <;> simp at h
    subst h; rfl

theorem send_failure_events_no_drain_head (c : Platform) (st : LoopState) (p : PrepareOutcome)
    (sr se : Int) : ∀ e ∈ send_failure_events c st p sr se, e.is_drain_head = false := by
  have h : (send_failure_events c st p sr se).all (fun e => !e.is_drain_head) = true := by
    unfold send_failure_events
    cases st.last_cnx <;> simp only <;> split_ifs <;> rfl
  intro e he
  simpa using List.all_eq_true.1 h e he

theorem send_step_no_drain_head (c : Platform) (st : LoopState) (p : PrepareOutcome) :
    ∀ e ∈ send_step c st p, e.is_drain_head = false := by
  intro e he
  simp only [send_step] at he
  split_ifs at he
  · exact send_failure_events_no_drain_head c st p _ _ e he
  · rcases List.mem_cons.1 he with h | h
    · subst h; rfl
    · exact send_failure_events_no_drain_head c st p _ _ e h

theorem after_send_step_no_drain_head (cb : Bool) (st : LoopState) (o : IterOutcome) :
    ∀ e ∈ (after_send_step cb st o).2, e.is_drain_head = false := by
  intro e he
  unfold after_send_step at he
  split_ifs at he <;> simp at he
  subst he; rfl

theorem simulate_step_no_drain_head (c : Platform) (st : LoopState) (o : IterOutcome) :
    ∀ e ∈ (simulate_step c st o).2, e.is_drain_head = false := by
  have hq : ∀ (p af : Int) (e : Event),
      e ∈ (picoquic_packet_loop_open_sockets c p af (fun _ => INVALID_SOCKET) (fun _ => 0) 1
            (fun _ => o.mig)).events → e.is_drain_head = false :=
    fun p af e he => socket_setup_no_drain_head e (open_sockets_setup c _ _ _ _ _ _ e he)
  intro e he
  unfold simulate_step at he
  simp only at he
  split_ifs at he
  all_goals try split at he
  all_goals try split_ifs at he
  all_goals simp only [List.mem_append, List.mem_singleton, List.not_mem_nil, or_false] at he
  all_goals first
    | (exact hq _ _ e he)
    | (rcases he with h | h
       · exact hq _ _ e h
       · subst h; rfl)

theorem loop_start_no_drain_head (c : Platform) (w : World) (local_port local_af : Int)
    (cb : Bool) : ∀ e ∈ (loop_start c w local_port local_af cb).2, e.is_drain_head = false := by
  intro e he
  rw [loop_start_events] at he
  simp only [List.cons_append, List.mem_cons, List.mem_append] at he
  rcases he with h | h | h
  · subst h; rfl
  · exact socket_setup_no_drain_head e (open_sockets_setup c _ _ _ _ _ _ e h)
  · split_ifs at h <;> simp at h
    subst h; rfl

theorem loop_finish_no_drain_head (c : Platform) (st : LoopState) :
    ∀ e ∈ (loop_finish c st).2, e.is_drain_head = false := by
  intro e he
  obtain ⟨fd, h⟩ := close_sockets_close _ _ e he
  subst h; rfl

theorem migrate_placed_quiet (k : Nat) (t : List Event)
    (h : ∀ e ∈ t, e.is_drain_head = false) : MigratePlaced k t := by
  obtain ⟨hp, hm⟩ := drain_head_quiet t h
  refine ⟨fun _ => hm, fun _ => hm, fun h1 h2 => ?_⟩
  rw [hp] at h2
  simp only [List.length_nil, Nat.add_zero] at h2
  omega

theorem migrate_placed_append (k : Nat) (a b : List Event)
    (ha : MigratePlaced k a) (hb : MigratePlaced (k + (prepare_calls a).length) b) :
    MigratePlaced k (a ++ b) := by
  obtain ⟨a1, a2, a3⟩ := ha
  obtain ⟨b1, b2, b3⟩ := hb
  have hlen : (prepare_calls (a ++ b)).length =
      (prepare_calls a).length + (prepare_calls b).length := by
    rw [prepare_calls_append, List.length_append]
  refine ⟨?_, ?_, ?_⟩
  · intro h hm
    rw [hlen] at h
    rcases List.mem_append.1 hm with h1 | h1
    · exact a1 (by omega) h1
    · exact b1 (by omega) h1
  · intro h hm
    rcases List.mem_append.1 hm with h1 | h1
    · exact a2 h h1
    · exact b2 (by omega) h1
  · intro hk h
    rw [hlen] at h
    by_cases hc : 100 ≤ k + (prepare_calls a).length
    · obtain ⟨pre, time, rc, len, rest, e1, e2, e3, e4⟩ := a3 hk hc
      refine ⟨pre, time, rc, len, rest ++ b, ?_, e2, e3, ?_⟩
      · rw [e1]; simp
      · intro hm
        rcases List.mem_append.1 hm with h1 | h1
        · exact e4 h1
        · exact b2 hc h1
    · have hna : Event.migrate ∉ a := a1 (by omega)
      obtain ⟨pre, time, rc, len, rest, e1, e2, e3, e4⟩ := b3 (by omega) (by omega)
      refine ⟨a ++ pre, time, rc, len, rest, ?_, ?_, ?_, e4⟩
      · rw [e1]; simp
      · rw [prepare_calls_append, List.length_append]; omega
      · intro hm
        rcases List.mem_append.1 hm with h1 | h1
        · exact hna h1
        · exact e3 h1

theorem wrap_int32_small (k : Nat) (h : k + 1 < 2 ^ 31) :
    wrap_int32 ((k : Int) + 1) = ((k + 1 : Nat) : Int) := by
  unfold wrap_int32
  push_cast
  omega

/-- The head of a pass of the drain: the call of `picoquic_migrate` if the
pass is the 100th, and the call of `picoquic_prepare_next_packet`. -/
theorem migrate_placed_head (k : Nat) (h : k + 1 < 2 ^ 31) (time : Nat) (rc : Int) (len : Nat) :
    MigratePlaced k ((if wrap_int32 ((k : Int) + 1) = 100 then [Event.migrate] else []) ++
      [Event.prepare_next_packet time rc len]) ∧
    (prepare_calls ((if wrap_int32 ((k : Int) + 1) = 100 then [Event.migrate] else []) ++
      [Event.prepare_next_packet time rc len])).length = 1 := by
  rw [wrap_int32_small k h]
  by_cases hk : k + 1 = 100
  · have hc : ((k + 1 : Nat) : Int) = 100 := by exact_mod_cast hk
    simp only [hc, if_true]
    refine ⟨⟨?_, ?_, ?_⟩, by simp [prepare_calls]⟩
    · intro h1
      simp [prepare_calls] at h1
      omega
    · intro h1; omega
    · intro _ _
      exact ⟨[], time, rc, len, [], rfl, by simp [prepare_calls]; omega, by simp, by simp⟩
  · have hc : ¬ ((k + 1 : Nat) : Int) = 100 := by
      intro hh
      exact hk (by exact_mod_cast hh)
    simp only [hc, if_false, List.nil_append]
    refine ⟨⟨fun _ => by simp, fun _ => by simp, ?_⟩, by simp [prepare_calls]⟩
    intro h1 h2
    simp [prepare_calls] at h2
    omega

theorem prepare_calls_migrate (b : Prop) [Decidable b] :
    prepare_calls (if b then [Event.migrate] else []) = [] := by
  split_ifs <;> rfl

theorem migrate_placed_quiet_left (k : Nat) (a b : List Event)
    (ha : ∀ e ∈ a, e.is_drain_head = false) (hb : MigratePlaced k b) :
    MigratePlaced k (a ++ b) ∧ (prepare_calls (a ++ b)).length = (prepare_calls b).length := by
  have hp := (drain_head_quiet a ha).1
  constructor
  · apply migrate_placed_append k a b (migrate_placed_quiet k a ha)
    rw [hp]
    exact hb
  · rw [prepare_calls_append, hp]
    rfl

theorem migrate_placed_quiet_right (k : Nat) (a b : List Event)
    (ha : MigratePlaced k a) (hb : ∀ e ∈ b, e.is_drain_head = false) :
    MigratePlaced k (a ++ b) ∧ (prepare_calls (a ++ b)).length = (prepare_calls a).length := by
  have hp := (drain_head_quiet b hb).1
  constructor
  · exact migrate_placed_append k a b ha (migrate_placed_quiet _ b hb)
  · rw [prepare_calls_append, hp, List.append_nil]

theorem test_migration_drain_skip (c : Platform) (st : LoopState) (tc : Int)
    (ps : List PrepareOutcome) (h0 : st.ret ≠ 0) :
    test_migration_drain c st tc ps = (some (st, tc), []) := by
  cases ps <;> simp [test_migration_drain, h0]

theorem test_migration_drain_go (c : Platform) (st : LoopState) (tc : Int) (p : PrepareOutcome)
    (ps : List PrepareOutcome) (h0 : st.ret = 0) (h1 : p.rc = 0) (h2 : p.send_length > 0) :
    test_migration_drain c st tc (p :: ps) =
      ((test_migration_drain c (reset_loop_count (after_prepare st p))
          (wrap_int32 (tc + 1)) ps).1,
        ((if wrap_int32 (tc + 1) = 100 then [Event.migrate] else []) ++
          [Event.prepare_next_packet st.current_time p.rc p.send_length]) ++
        (send_step c (reset_loop_count (after_prepare st p)) p ++
          (test_migration_drain c (reset_loop_count (after_prepare st p))
            (wrap_int32 (tc + 1)) ps).2)) := by
  rw [test_migration_drain]
  simp only [h0, if_true, h1, h2, gt_iff_lt, and_self, List.append_assoc, List.singleton_append]

theorem test_migration_drain_stop (c : Platform) (st : LoopState) (tc : Int)
    (p : PrepareOutcome) (ps : List PrepareOutcome) (h0 : st.ret = 0)
    (h1 : ¬ (p.rc = 0 ∧ p.send_length > 0)) :
    test_migration_drain c st tc (p :: ps) =
      (some (after_prepare st p, wrap_int32 (tc + 1)),
        (if wrap_int32 (tc + 1) = 100 then [Event.migrate] else []) ++
          [Event.prepare_next_packet st.current_time p.rc p.send_length]) := by
  rw [test_migration_drain]
  simp only [h0, if_true, h1, if_false]

/-- The drain of `picoquic_packet_loop_test_migration`, entered after `k` passes:
where `picoquic_migrate` stands among its calls, and the value of `test_count`
when it is left. -/
theorem test_migration_drain_placed (c : Platform) (ps : List PrepareOutcome) :
    ∀ (st : LoopState) (k : Nat),
      k + (prepare_calls (test_migration_drain c st (k : Int) ps).2).length < 2 ^ 31 →
      MigratePlaced k (test_migration_drain c st (k : Int) ps).2 ∧
      ∀ st1 k1, (test_migration_drain c st (k : Int) ps).1 = some (st1, k1) →
        k1 = ((k + (prepare_calls (test_migration_drain c st (k : Int) ps).2).length : Nat)
              : Int) := by
  induction ps with
  | nil =>
    intro st k _
    by_cases h0 : st.ret = 0
    · simp only [test_migration_drain, h0, if_true]
      exact ⟨migrate_placed_quiet k [] (by simp), fun st1 k1 h => by simp at h⟩
    · rw [test_migration_drain_skip c st _ _ h0]
      refine ⟨migrate_placed_quiet k [] (by simp), fun st1 k1 h => ?_⟩
      simp only [Option.some.injEq, Prod.mk.injEq] at h
      simp [prepare_calls, ← h.2]
  | cons p ps ih =>
    intro st k hr
    by_cases h0 : st.ret = 0
    · by_cases hgo : p.rc = 0 ∧ p.send_length > 0
      · rw [test_migration_drain_go c st _ p ps h0 hgo.1 hgo.2] at hr ⊢
        simp only [prepare_calls_append, List.length_append, prepare_calls_migrate,
          List.length_nil, Nat.zero_add] at hr ⊢
        have hone : (prepare_calls
            [Event.prepare_next_packet st.current_time p.rc p.send_length]).length = 1 := rfl
        have hq := (drain_head_quiet _
          (send_step_no_drain_head c (reset_loop_count (after_prepare st p)) p)).1
        rw [hone, hq, List.length_nil, Nat.zero_add] at hr ⊢
        have hk1 : k + 1 < 2 ^ 31 := by omega
        have hh := migrate_placed_head k hk1 st.current_time p.rc p.send_length
        have hw := wrap_int32_small k hk1
        rw [hw] at hr ⊢
        obtain ⟨ih1, ih2⟩ := ih (reset_loop_count (after_prepare st p)) (k + 1) (by omega)
        constructor
        · apply migrate_placed_append k _ _ (by rw [hw] at hh; exact hh.1)
          have hlen : (prepare_calls ((if ((k + 1 : Nat) : Int) = 100 then [Event.migrate]
              else []) ++ [Event.prepare_next_packet st.current_time p.rc p.send_length])).length
              = 1 := by
            rw [prepare_calls_append, prepare_calls_migrate]; rfl
          rw [hlen]
          exact (migrate_placed_quiet_left (k + 1) _ _
            (send_step_no_drain_head c (reset_loop_count (after_prepare st p)) p) ih1).1
        · intro st1 k1 h
          rw [ih2 st1 k1 h]
          push_cast
          omega
      · rw [test_migration_drain_stop c st _ p ps h0 hgo] at hr ⊢
        have hlen : (prepare_calls ((if wrap_int32 ((k : Int) + 1) = 100 then [Event.migrate]
            else []) ++ [Event.prepare_next_packet st.current_time p.rc p.send_length])).length
            = 1 := by
          rw [prepare_calls_append, prepare_calls_migrate]; rfl
        rw [hlen] at hr ⊢
        have hh := migrate_placed_head k hr st.current_time p.rc p.send_length
        refine ⟨hh.1, fun st1 k1 h => ?_⟩
        simp only [Option.some.injEq, Prod.mk.injEq] at h
        rw [← h.2, wrap_int32_small k hr]
    · rw [test_migration_drain_skip c st _ _ h0]
      refine ⟨migrate_placed_quiet k [] (by simp), fun st1 k1 h => ?_⟩
      simp only [Option.some.injEq, Prod.mk.injEq] at h
      simp [prepare_calls, ← h.2]

/-- The calls of an iteration of `picoquic_packet_loop_test_migration`: calls none
of which is `picoquic_migrate` or `picoquic_prepare_next_packet`, around those
of the drain. -/
theorem test_migration_iteration_shape (c : Platform) (cb : Bool) (st : LoopState) (tc : Int)
    (o : IterOutcome) :
    (∀ e ∈ (test_migration_iteration c cb st tc o).2, e.is_drain_head = false) ∧
      (∀ st1 k1, (test_migration_iteration c cb st tc o).1 = some (st1, k1) → k1 = tc) ∨
    ∃ (a b : List Event) (st0 : LoopState),
      (∀ e ∈ a, e.is_drain_head = false) ∧ (∀ e ∈ b, e.is_drain_head = false) ∧
      (test_migration_iteration c cb st tc o).2 =
        a ++ ((test_migration_drain c st0 tc o.prepares).2 ++ b) ∧
      ∀ st1 k1, (test_migration_iteration c cb st tc o).1 = some (st1, k1) →
        ∃ st3, (test_migration_drain c st0 tc o.prepares).1 = some (st3, k1) := by
  by_cases hn : o.sel.bytes_recv < 0
  · left
    unfold test_migration_iteration
    simp only [hn, if_true]
    constructor
    · intro e he
      rcases List.mem_append.1 he with h | h
      · exact wait_step_no_drain_head st o e h
      · exact simulate_step_no_drain_head c _ o e h
    · intro st1 k1 h
      simp only [Option.some.injEq, Prod.mk.injEq] at h
      exact h.2.symm
  · right
    have hR : ∀ e ∈ (if o.sel.bytes_recv > 0 then receive_step c cb (wait_step st o).1 o
        else ((wait_step st o).1, [])).2, e.is_drain_head = false := by
      intro e he
      split_ifs at he
      · exact receive_step_no_drain_head c cb _ o e he
      · simp at he
    have ha : ∀ e ∈ (wait_step st o).2 ++
        (if o.sel.bytes_recv > 0 then receive_step c cb (wait_step st o).1 o
          else ((wait_step st o).1, [])).2, e.is_drain_head = false := by
      intro e he
      rcases List.mem_append.1 he with h | h
      · exact wait_step_no_drain_head st o e h
      · exact hR e h
    unfold test_migration_iteration
    simp only [hn, if_false]
    generalize (if o.sel.bytes_recv > 0 then receive_step c cb (wait_step st o).1 o
        else ((wait_step st o).1, [])) = R at ha
    cases hd : (test_migration_drain c R.1 tc o.prepares).1 with
    | none =>
      refine ⟨(wait_step st o).2 ++ R.2, [], R.1, ha, by simp, by simp, ?_⟩
      intro st1 k1 h
      simp at h
    | some v =>
      obtain ⟨st3, k3⟩ := v
      refine ⟨(wait_step st o).2 ++ R.2,
        (after_send_step cb st3 o).2 ++ (simulate_step c (after_send_step cb st3 o).1 o).2,
        R.1, ha, ?_, by simp [List.append_assoc], ?_⟩
      · intro e he
        rcases List.mem_append.1 he with h | h
        · exact after_send_step_no_drain_head cb st3 o e h
        · exact simulate_step_no_drain_head c _ o e h
      · intro st1 k1 h
        simp only [Option.some.injEq, Prod.mk.injEq] at h
        exact ⟨st3, by rw [hd, h.2]⟩

theorem test_migration_iteration_placed (c : Platform) (cb : Bool) (st : LoopState) (k : Nat)
    (o : IterOutcome)
    (hr : k + (prepare_calls (test_migration_iteration c cb st (k : Int) o).2).length
            < 2 ^ 31) :
    MigratePlaced k (test_migration_iteration c cb st (k : Int) o).2 ∧
    ∀ st1 k1, (test_migration_iteration c cb st (k : Int) o).1 = some (st1, k1) →
      k1 = ((k + (prepare_calls (test_migration_iteration c cb st (k : Int) o).2).length : Nat)
            : Int) := by
  rcases test_migration_iteration_shape c cb st (k : Int) o with
    ⟨hq, hk⟩ | ⟨a, b, st0, ha, hb, hev, hres⟩
  · refine ⟨migrate_placed_quiet k _ hq, fun st1 k1 h => ?_⟩
    rw [hk st1 k1 h, (drain_head_quiet _ hq).1]
    rfl
  · have hlen : (prepare_calls (test_migration_iteration c cb st (k : Int) o).2).length =
        (prepare_calls (test_migration_drain c st0 (k : Int) o.prepares).2).length := by
      rw [hev, prepare_calls_append, prepare_calls_append, (drain_head_quiet a ha).1,
        (drain_head_quiet b hb).1]
      simp
    rw [hlen] at hr ⊢
    obtain ⟨hd1, hd2⟩ := test_migration_drain_placed c o.prepares st0 k hr
    constructor
    · rw [hev]
      exact (migrate_placed_quiet_left k a _ ha
        (migrate_placed_quiet_right k _ b hd1 hb).1).1
    · intro st1 k1 h
      obtain ⟨st3, h3⟩ := hres st1 k1 h
      exact hd2 st3 k1 h3

theorem test_migration_run_skip (c : Platform) (cb : Bool) (os : List IterOutcome)
    (st : LoopState) (tc : Int) (h : st.ret ≠ 0) :
    test_migration_run c cb os st tc = (some (st, tc), []) := by
  cases os <;> simp [test_migration_run, h]

theorem test_migration_run_placed (c : Platform) (cb : Bool) (os : List IterOutcome) :
    ∀ (st : LoopState) (k : Nat),
      k + (prepare_calls (test_migration_run c cb os st (k : Int)).2).length < 2 ^ 31 →
      MigratePlaced k (test_migration_run c cb os st (k : Int)).2 := by
  induction os with
  | nil =>
    intro st k _
    simp only [test_migration_run]
    split_ifs <;> exact migrate_placed_quiet k [] (by simp)
  | cons o os ih =>
    intro st k hr
    by_cases h0 : st.ret = 0
    · rw [test_migration_run] at hr ⊢
      simp only [h0, if_true] at hr ⊢
      cases hi : (test_migration_iteration c cb st (k : Int) o).1 with
      | none =>
        simp only [hi] at hr ⊢
        exact (test_migration_iteration_placed c cb st k o hr).1
      | some v =>
        obtain ⟨st1, k1⟩ := v
        simp only [hi] at hr ⊢
        rw [prepare_calls_append, List.length_append] at hr
        obtain ⟨h1, h2⟩ := test_migration_iteration_placed c cb st k o (by omega)
        have hk1 := h2 st1 k1 hi
        rw [hk1] at hr ⊢
        exact migrate_placed_append k _ _ h1 (ih st1 _ (by omega))
    · rw [test_migration_run_skip c cb _ st _ h0]
      exact migrate_placed_quiet k [] (by simp)

/-- C16: in a run of `picoquic_packet_loop_test_migration` (of fewer than `2 ^ 31` passes
of the send drain, beyond which the `int` counter overflows),
`picoquic_migrate` is not called if the drain makes fewer than 100 passes over
the whole run, and otherwise it is called exactly once, immediately before
the 100th call of `picoquic_prepare_next_packet`. -/
theorem migrate_once_at_hundredth_pass (c : Platform) (w : World) (local_port local_af : Int)
    (cb : Bool)
    (hr : (prepare_calls
            (picoquic_packet_loop_test_migration c w local_port local_af cb).events).length
          < 2 ^ 31) :
    ((prepare_calls
        (picoquic_packet_loop_test_migration c w local_port local_af cb).events).length < 100 →
      Event.migrate ∉ (picoquic_packet_loop_test_migration c w local_port local_af cb).events) ∧
    (100 ≤ (prepare_calls
        (picoquic_packet_loop_test_migration c w local_port local_af cb).events).length →
      ∃ pre time rc len rest,
        (picoquic_packet_loop_test_migration c w local_port local_af cb).events =
          pre ++ Event.migrate :: Event.prepare_next_packet time rc len :: rest ∧
        (prepare_calls pre).length = 99 ∧ Event.migrate ∉ pre ∧ Event.migrate ∉ rest) := by
  have hs := loop_start_no_drain_head c w local_port local_af cb
  have key : MigratePlaced 0
      (picoquic_packet_loop_test_migration c w local_port local_af cb).events := by
    unfold picoquic_packet_loop_test_migration at hr ⊢
    simp only at hr ⊢
    cases hrun : (test_migration_run c cb w.iters
        (loop_start c w local_port local_af cb).1 0).1 with
    | none =>
      simp only [hrun] at hr ⊢
      have hr2 : 0 + (prepare_calls (test_migration_run c cb w.iters
          (loop_start c w local_port local_af cb).1 ((0 : Nat) : Int)).2).length < 2 ^ 31 := by
        rw [prepare_calls_append, (drain_head_quiet _ hs).1] at hr
        simpa using hr
      exact (migrate_placed_quiet_left 0 _ _ hs
        (test_migration_run_placed c cb w.iters _ 0 hr2)).1
    | some v =>
      obtain ⟨stf, kf⟩ := v
      simp only [hrun] at hr ⊢
      have hf := loop_finish_no_drain_head c stf
      rw [List.append_assoc] at hr ⊢
      have hr2 : 0 + (prepare_calls (test_migration_run c cb w.iters
          (loop_start c w local_port local_af cb).1 ((0 : Nat) : Int)).2).length < 2 ^ 31 := by
        rw [prepare_calls_append, prepare_calls_append, (drain_head_quiet _ hs).1,
          (drain_head_quiet _ hf).1] at hr
        simpa using hr
      exact (migrate_placed_quiet_left 0 _ _ hs
        (migrate_placed_quiet_right 0 _ _
          (test_migration_run_placed c cb w.iters _ 0 hr2) hf).1).1
  obtain ⟨k1, _, k3⟩ := key
  refine ⟨fun h => k1 (by omega), fun h => ?_⟩
  obtain ⟨pre, time, rc, len, rest, e1, e2, e3, e4⟩ := k3 (by omega) (by omega)
  exact ⟨pre, time, rc, len, rest, e1, by omega, e3, e4⟩

/-- Witness of C16: on Linux, in a run of two iterations that make 61 and 51 passes of
the drain, `picoquic_migrate` is called once, right before the 100th call of
`picoquic_prepare_next_packet`, which is the 39th of the second iteration. -/
theorem migrate_once_at_hundredth_pass_witness :
    (prepare_calls
      (picoquic_packet_loop_test_migration linux world_hundred_passes 4433 2 false).events).length
      = 112 ∧
    ∃ pre time rc len rest,
      (picoquic_packet_loop_test_migration linux world_hundred_passes 4433 2 false).events =
        pre ++ Event.migrate :: Event.prepare_next_packet time rc len :: rest ∧
      (prepare_calls pre).length = 99 ∧ Event.migrate ∉ pre ∧ Event.migrate ∉ rest :=
  ⟨by decide,
    (migrate_once_at_hundredth_pass linux world_hundred_passes 4433 2 false (by decide)).2
      (by decide)⟩

/-! ### The five courses of the migration-test block -/

/-- The loop variables after the migration-test block (lines 344-389), course by
course: the block is skipped; the auxiliary open failed; the NAT swap; the
migration socket is appended; the migration socket is discarded. -/
theorem simulate_step_cases (c : Platform) (st : LoopState) (o : IterOutcome) :
    (¬ (st.ret = c.PICOQUIC_NO_ERROR_SIMULATE_NAT ∨
          st.ret = c.PICOQUIC_NO_ERROR_SIMULATE_MIGRATION) ∧
      simulate_step c st o = (st, [])) ∨
    ((st.ret = c.PICOQUIC_NO_ERROR_SIMULATE_NAT ∨
          st.ret = c.PICOQUIC_NO_ERROR_SIMULATE_MIGRATION) ∧
      ((aux_open c st o).nb_sockets ≠ 1 ∨ (aux_open c st o).s_socket 0 = INVALID_SOCKET) ∧
      (simulate_step c st o).1 = { st with next_port := aux_port c st }) ∨
    (st.ret = c.PICOQUIC_NO_ERROR_SIMULATE_NAT ∧
      (aux_open c st o).nb_sockets = 1 ∧ (aux_open c st o).s_socket 0 ≠ INVALID_SOCKET ∧
      (simulate_step c st o).1 =
        { st with next_port := aux_port c st,
                  s_socket := setAt st.s_socket 0 ((aux_open c st o).s_socket 0),
                  ret := 0 }) ∨
    (st.ret ≠ c.PICOQUIC_NO_ERROR_SIMULATE_NAT ∧
      st.ret = c.PICOQUIC_NO_ERROR_SIMULATE_MIGRATION ∧
      (aux_open c st o).nb_sockets = 1 ∧ (aux_open c st o).s_socket 0 ≠ INVALID_SOCKET ∧
      st.last_cnx ≠ none ∧ (st.nb_sockets : Int) < c.PICOQUIC_PACKET_LOOP_SOCKETS_MAX ∧
      (simulate_step c st o).1 =
        { st with next_port := aux_port c st,
                  s_socket := setAt st.s_socket st.nb_sockets ((aux_open c st o).s_socket 0),
                  nb_sockets := st.nb_sockets + 1,
                  testing_migration := true,
                  ret := o.probe_rc }) ∨
    (st.ret ≠ c.PICOQUIC_NO_ERROR_SIMULATE_NAT ∧
      st.ret = c.PICOQUIC_NO_ERROR_SIMULATE_MIGRATION ∧
      (aux_open c st o).nb_sockets = 1 ∧ (aux_open c st o).s_socket 0 ≠ INVALID_SOCKET ∧
      (st.last_cnx = none ∨ ¬ (st.nb_sockets : Int) < c.PICOQUIC_PACKET_LOOP_SOCKETS_MAX) ∧
      (simulate_step c st o).1 = { st with next_port := aux_port c st }) := by
  by_cases hcond : st.ret = c.PICOQUIC_NO_ERROR_SIMULATE_NAT ∨
      st.ret = c.PICOQUIC_NO_ERROR_SIMULATE_MIGRATION
  · right
    by_cases hfail : (aux_open c st o).nb_sockets ≠ 1 ∨
        (aux_open c st o).s_socket 0 = INVALID_SOCKET
    · left
      refine ⟨hcond, hfail, ?_⟩
      by_cases hnat : st.ret = c.PICOQUIC_NO_ERROR_SIMULATE_NAT
      · unfold aux_open aux_port at hfail
        simp only [hnat, if_true] at hfail
        unfold simulate_step aux_port
        simp only [hnat, true_or, if_true, decide_True, hfail]
        cases st.last_cnx <;> rfl
      · have hd : decide (st.ret = c.PICOQUIC_NO_ERROR_SIMULATE_NAT) = false := by simp [hnat]
        unfold aux_open aux_port at hfail
        simp only [hnat, if_false] at hfail
        unfold simulate_step aux_port
        simp only [hcond, if_true, hd, Bool.false_eq_true, if_false]
        simp only [hnat, if_false, hfail, if_true]
        cases st.last_cnx <;> rfl
    · right
      have hn1 : (aux_open c st o).nb_sockets = 1 := by
        by_contra h; exact hfail (Or.inl h)
      have hv : (aux_open c st o).s_socket 0 ≠ INVALID_SOCKET :=
        fun h => hfail (Or.inr h)
      by_cases hnat : st.ret = c.PICOQUIC_NO_ERROR_SIMULATE_NAT
      · left
        refine ⟨hnat, hn1, hv, ?_⟩
        unfold aux_open aux_port at hfail ⊢
        simp only [hnat, if_true] at hfail ⊢
        unfold simulate_step
        simp only [hnat, true_or, if_true, decide_True, hfail, if_false]
      · right
        have hmig : st.ret = c.PICOQUIC_NO_ERROR_SIMULATE_MIGRATION := by
          rcases hcond with h | h
          · exact absurd h hnat
          · exact h
        have hd : decide (st.ret = c.PICOQUIC_NO_ERROR_SIMULATE_NAT) = false := by simp [hnat]
        cases hl : st.last_cnx with
        | none =>
          right
          refine ⟨hnat, hmig, hn1, hv, Or.inl rfl, ?_⟩
          unfold aux_open aux_port at hfail
          simp only [hnat, if_false] at hfail
          unfold simulate_step aux_port
          simp only [hcond, if_true, hd, Bool.false_eq_true, if_false]
          simp only [hnat, if_false, hfail, hl]
        | some cnx =>
          by_cases hroom : (st.nb_sockets : Int) < c.PICOQUIC_PACKET_LOOP_SOCKETS_MAX
          · left
            refine ⟨hnat, hmig, hn1, hv, by simp, hroom, ?_⟩
            unfold aux_open aux_port at hfail ⊢
            simp only [hnat, if_false] at hfail ⊢
            unfold simulate_step
            simp only [hcond, if_true, hd, Bool.false_eq_true, if_false]
            simp only [hnat, if_false, hfail, hl, hroom, if_true]
          · right
            refine ⟨hnat, hmig, hn1, hv, Or.inr hroom, ?_⟩
            unfold aux_open aux_port at hfail
            simp only [hnat, if_false] at hfail
            unfold simulate_step aux_port
            simp only [hcond, if_true, hd, Bool.false_eq_true, if_false]
            simp only [hnat, if_false, hfail, hl, hroom]
  · left
    refine ⟨hcond, ?_⟩
    unfold simulate_step
    simp only [hcond, if_false]

theorem send_drain_quiet_setup (c : Platform) (ps : List PrepareOutcome) :
    ∀ (st : LoopState), ∀ e ∈ (send_drain c st ps).2, e.is_socket_setup = false := by
  induction ps with
  | nil =>
    intro st e he
    simp only [send_drain] at he
    split_ifs at he <;> simp at he
  | cons p ps ih =>
    intro st e he
    by_cases h0 : st.ret = 0
    · by_cases hgo : p.rc = 0 ∧ p.send_length > 0
      · rw [send_drain_cons_go c st p ps h0 hgo.1 hgo.2] at he
        simp only [List.mem_cons, List.mem_append] at he
        rcases he with h | h | h
        · subst h; rfl
        · simp only [send_step] at h
          have hf : ∀ sr se, ∀ x ∈ send_failure_events c
              (reset_loop_count (after_prepare st p)) p sr se, x.is_socket_setup = false := by
            intro sr se x hx
            have hall : (send_failure_events c (reset_loop_count (after_prepare st p))
                p sr se).all (fun e => !e.is_socket_setup) = true := by
              unfold send_failure_events
              cases (reset_loop_count (after_prepare st p)).last_cnx <;> simp only <;>
                split_ifs <;> rfl
            simpa using List.all_eq_true.1 hall x hx
          split_ifs at h
          · exact hf _ _ e h
          · rcases List.mem_cons.1 h with h1 | h1
            · subst h1; rfl
            · exact hf _ _ e h1
        · exact ih _ e h
      · rw [send_drain_cons_stop c st p ps h0 hgo] at he
        simp only [List.mem_singleton] at he
        subst he; rfl
    · rw [send_drain_skip c st _ h0] at he
      simp at he

/-- Every iteration ends with the migration-test block, entered with the socket
set and the flag `testing_migration` the iteration was entered with. -/
theorem loop_iteration_before_simulate (c : Platform) (cb : Bool) (st : LoopState)
    (o : IterOutcome) (st1 : LoopState) (h : (loop_iteration c cb st o).1 = some st1) :
    ∃ sa : LoopState, st1 = (simulate_step c sa o).1 ∧
      sa.testing_migration = st.testing_migration ∧ sa.nb_sockets = st.nb_sockets ∧
      sa.s_socket = st.s_socket ∧ sa.sock_af = st.sock_af ∧
      (∀ e ∈ (simulate_step c sa o).2, e ∈ (loop_iteration c cb st o).2) ∧
      (∀ e ∈ (loop_iteration c cb st o).2, e.is_socket_setup = true →
        e ∈ (simulate_step c sa o).2) := by
  obtain ⟨_, w2, w3, w4, w5, _⟩ := wait_step_frame st o
  have hwq : ∀ e ∈ (wait_step st o).2, e.is_socket_setup = false := by
    intro e he
    have h1 : (wait_step st o).2.all (fun e => !e.is_socket_setup) = true := by
      unfold wait_step
      simp only
      split_ifs <;> rfl
    simpa using List.all_eq_true.1 h1 e he
  unfold loop_iteration at h ⊢
  simp only at h ⊢
  by_cases hn : o.sel.bytes_recv < 0
  · simp only [hn, if_true, Option.some.injEq] at h ⊢
    refine ⟨{ (wait_step st o).1 with ret := -1 }, h.symm, w5, w2, w3, w4, ?_, ?_⟩
    · intro e he
      exact List.mem_append_right _ he
    · intro e he hs
      rcases List.mem_append.1 he with h1 | h1
      · rw [hwq e h1] at hs; cases hs
      · exact h1
  · simp only [hn, if_false] at h ⊢
    have hR : ∀ R : LoopState × List Event,
        R = (if o.sel.bytes_recv > 0 then receive_step c cb (wait_step st o).1 o
              else ((wait_step st o).1, [])) →
        R.1.testing_migration = st.testing_migration ∧ R.1.nb_sockets = st.nb_sockets ∧
        R.1.s_socket = st.s_socket ∧ R.1.sock_af = st.sock_af ∧
        ∀ e ∈ R.2, e.is_socket_setup = false := by
      intro R hRdef
      by_cases hb : o.sel.bytes_recv > 0
      · simp only [hb, if_true] at hRdef
        subst hRdef
        obtain ⟨_, r2, r3, r4, _, _⟩ := receive_step_frame c cb (wait_step st o).1 o
        refine ⟨by rw [r4, w5], by rw [r2, w2], by rw [r3, w3], ?_, ?_⟩
        · have : (receive_step c cb (wait_step st o).1 o).1.sock_af =
              (learn_port c (wait_step st o).1 o).1.sock_af := by
            unfold receive_step
            cases cb <;> rfl
          rw [this, (learn_port_frame c _ o).2.2.1, w4]
        · intro e he
          rw [receive_step_events, learn_port_events] at he
          simp only [List.mem_append, List.mem_cons] at he
          rcases he with h1 | h1 | h1
          · split_ifs at h1 <;> simp at h1
            subst h1; rfl
          · subst h1; rfl
          · split_ifs at h1 <;> simp at h1
            subst h1; rfl
      · simp only [hb, if_false] at hRdef
        subst hRdef
        exact ⟨w5, w2, w3, w4, by simp⟩
    generalize hRg : (if o.sel.bytes_recv > 0 then receive_step c cb (wait_step st o).1 o
        else ((wait_step st o).1, [])) = R at h ⊢
    obtain ⟨q1, q2, q3, q4, q5⟩ := hR R hRg.symm
    cases hd : (send_drain c R.1 o.prepares).1 with
    | none => simp [hd] at h
    | some st3 =>
      simp only [hd, Option.some.injEq] at h ⊢
      obtain ⟨_, d2, d3, d4, d5, _⟩ := send_drain_frame c o.prepares R.1 st3 hd
      obtain ⟨_, a2, a3, a4, a5, _⟩ := after_send_step_frame cb st3 o
      refine ⟨(after_send_step cb st3 o).1, h.symm, by rw [a5, d5, q1], by rw [a2, d2, q2],
        by rw [a3, d3, q3], by rw [a4, d4, q4], ?_, ?_⟩
      · intro e he
        exact List.mem_append_right _ he
      · intro e he hs
        simp only [List.mem_append] at he
        rcases he with (((h1 | h1) | h1) | h1) | h1
        · rw [hwq e h1] at hs; cases hs
        · rw [q5 e h1] at hs; cases hs
        · have := send_drain_quiet_setup c o.prepares R.1 e h1
          rw [this] at hs; cases hs
        · unfold after_send_step at h1
          split_ifs at h1 <;> simp at h1
          subst h1; cases hs
        · exact h1

theorem simulate_step_keeps_testing (c : Platform) (st : LoopState) (o : IterOutcome)
    (h : st.testing_migration = true) : (simulate_step c st o).1.testing_migration = true := by
  rcases simulate_step_cases c st o with ⟨_, e⟩ | ⟨_, _, e⟩ | ⟨_, _, _, e⟩ |
    ⟨_, _, _, _, _, _, e⟩ | ⟨_, _, _, _, _, e⟩
  · rw [e]; exact h
  · rw [e]; exact h
  · rw [e]; exact h
  · rw [e]
  · rw [e]; exact h

theorem loop_iteration_keeps_testing (c : Platform) (cb : Bool) (st : LoopState)
    (o : IterOutcome) (st1 : LoopState) (h : (loop_iteration c cb st o).1 = some st1)
    (ht : st.testing_migration = true) : st1.testing_migration = true := by
  obtain ⟨sa, e, hs, _⟩ := loop_iteration_before_simulate c cb st o st1 h
  rw [e]
  exact simulate_step_keeps_testing c sa o (by rw [hs]; exact ht)

theorem packet_loop_run_keeps_testing (c : Platform) (cb : Bool) (os : List IterOutcome) :
    ∀ (st stf : LoopState), (packet_loop_run c cb os st).1 = some stf →
      st.testing_migration = true → stf.testing_migration = true := by
  induction os with
  | nil =>
    intro st stf h ht
    simp only [packet_loop_run] at h
    split_ifs at h
    simp only [Option.some.injEq] at h
    rw [← h]; exact ht
  | cons o os ih =>
    intro st stf h ht
    by_cases h0 : st.ret = 0
    · rw [packet_loop_run] at h
      simp only [h0, if_true] at h
      cases hi : (loop_iteration c cb st o).1 with
      | none => simp [hi] at h
      | some st1 =>
        simp only [hi] at h
        exact ih st1 stf h (loop_iteration_keeps_testing c cb st o st1 hi ht)
    · rw [packet_loop_run_skip c cb _ st h0] at h
      simp only [Option.some.injEq] at h
      rw [← h]; exact ht

/-- C21: in `picoquic_packet_loop`, `testing_migration` is false when the loop is
entered; an iteration entered with it false leaves it true only when its
migration-test block runs with `ret = PICOQUIC_NO_ERROR_SIMULATE_MIGRATION`, an
auxiliary open that returned 1 with a valid descriptor, room in the socket set
and `last_cnx` not `NULL`; and an iteration, or a run of iterations, entered
with it true ends with it true. -/
theorem testing_migration_latch (c : Platform) (cb : Bool) :
    (∀ w local_port local_af,
      (loop_start c w local_port local_af cb).1.testing_migration = false) ∧
    (∀ st o st1, (loop_iteration c cb st o).1 = some st1 →
      st.testing_migration = false → st1.testing_migration = true →
      ∃ sa : LoopState, st1 = (simulate_step c sa o).1 ∧
        sa.nb_sockets = st.nb_sockets ∧
        sa.ret = c.PICOQUIC_NO_ERROR_SIMULATE_MIGRATION ∧
        (aux_open c sa o).nb_sockets = 1 ∧ (aux_open c sa o).s_socket 0 ≠ INVALID_SOCKET ∧
        (sa.nb_sockets : Int) < c.PICOQUIC_PACKET_LOOP_SOCKETS_MAX ∧ sa.last_cnx ≠ none ∧
        (∃ cnx peer loc t rc,
          Event.probe_new_path cnx peer loc t rc ∈ (loop_iteration c cb st o).2)) ∧
    (∀ st o st1, (loop_iteration c cb st o).1 = some st1 →
      st.testing_migration = true → st1.testing_migration = true) ∧
    (∀ os st stf, (packet_loop_run c cb os st).1 = some stf →
      st.testing_migration = true → stf.testing_migration = true) := by
  refine ⟨?_, ?_, fun st o st1 h ht => loop_iteration_keeps_testing c cb st o st1 h ht,
    fun os st stf h ht => packet_loop_run_keeps_testing c cb os st stf h ht⟩
  · intro w local_port local_af
    unfold loop_start
    simp only
    split_ifs <;> rfl
  · intro st o st1 h hf ht
    obtain ⟨sa, e, hs, hn, _, _, hev, _⟩ := loop_iteration_before_simulate c cb st o st1 h
    have hsaf : sa.testing_migration = false := by rw [hs]; exact hf
    rw [e] at ht
    rcases simulate_step_cases c sa o with ⟨_, e1⟩ | ⟨_, _, e1⟩ | ⟨_, _, _, e1⟩ |
      ⟨hnat, hmig, h1, h2, h3, h4, e1⟩ | ⟨_, _, _, _, _, e1⟩
    · rw [e1, hsaf] at ht; cases ht
    · rw [e1] at ht
      simp only [hsaf] at ht
      cases ht
    · rw [e1] at ht
      simp only [hsaf] at ht
      cases ht
    · refine ⟨sa, e, hn, hmig, h1, h2, h4, h3, ?_⟩
      cases hl : sa.last_cnx with
      | none => exact absurd hl h3
      | some cnx =>
        refine ⟨cnx, cnx.path0_peer_addr, probe_local_address c cnx (aux_port c sa),
          sa.current_time, o.probe_rc, hev _ ?_⟩
        have hfail : ¬ ((aux_open c sa o).nb_sockets ≠ 1 ∨
            (aux_open c sa o).s_socket 0 = INVALID_SOCKET) := by
          simp [h1, h2]
        have hcond : sa.ret = c.PICOQUIC_NO_ERROR_SIMULATE_NAT ∨
            sa.ret = c.PICOQUIC_NO_ERROR_SIMULATE_MIGRATION := Or.inr hmig
        have hd : decide (sa.ret = c.PICOQUIC_NO_ERROR_SIMULATE_NAT) = false := by
          simp [hnat]
        unfold aux_open aux_port at hfail
        simp only [hnat, if_false] at hfail
        unfold simulate_step aux_port probe_local_address
        simp only [hcond, if_true, hd, Bool.false_eq_true, if_false]
        simp only [hnat, if_false, hfail, hl, h4, if_true]
        simp
    · rw [e1] at ht
      simp only [hsaf] at ht
      cases ht

/-! ### The calls of the drain and of the migration-test block -/

theorem send_drain_calls (c : Platform) (ps : List PrepareOutcome) :
    ∀ (st : LoopState), ∀ e ∈ (send_drain c st ps).2, e.is_drain_call = true := by
  induction ps with
  | nil =>
    intro st e he
    simp only [send_drain] at he
    split_ifs at he <;> simp at he
  | cons p ps ih =>
    intro st e he
    by_cases h0 : st.ret = 0
    · by_cases hgo : p.rc = 0 ∧ p.send_length > 0
      · rw [send_drain_cons_go c st p ps h0 hgo.1 hgo.2] at he
        simp only [List.mem_cons, List.mem_append] at he
        rcases he with h | h | h
        · subst h; rfl
        · simp only [send_step] at h
          have hf : ∀ sr se, ∀ x ∈ send_failure_events c
              (reset_loop_count (after_prepare st p)) p sr se, x.is_drain_call = true := by
            intro sr se x hx
            have hall : (send_failure_events c (reset_loop_count (after_prepare st p))
                p sr se).all (fun e => e.is_drain_call) = true := by
              unfold send_failure_events
              cases (reset_loop_count (after_prepare st p)).last_cnx <;> simp only <;>
                split_ifs <;> rfl
            exact List.all_eq_true.1 hall x hx
          split_ifs at h
          · exact hf _ _ e h
          · rcases List.mem_cons.1 h with h1 | h1
            · subst h1; rfl
            · exact hf _ _ e h1
        · exact ih _ e h
      · rw [send_drain_cons_stop c st p ps h0 hgo] at he
        simp only [List.mem_singleton] at he
        subst he; rfl
    · rw [send_drain_skip c st _ h0] at he
      simp at he

theorem socket_setup_simulate_call (e : Event) (h : e.is_socket_setup = true) :
    e.is_simulate_call = true := by
  cases e <;> first | rfl | (simp [Event.is_socket_setup] at h)

theorem simulate_step_calls (c : Platform) (st : LoopState) (o : IterOutcome) :
    ∀ e ∈ (simulate_step c st o).2, e.is_simulate_call = true := by
  have hq : ∀ (p af : Int) (e : Event),
      e ∈ (picoquic_packet_loop_open_sockets c p af (fun _ => INVALID_SOCKET) (fun _ => 0) 1
            (fun _ => o.mig)).events → e.is_simulate_call = true :=
    fun p af e he => socket_setup_simulate_call e (open_sockets_setup c _ _ _ _ _ _ e he)
  intro e he
  unfold simulate_step at he
  simp only at he
  split_ifs at he
  all_goals try split at he
  all_goals try split_ifs at he
  all_goals simp only [List.mem_append, List.mem_singleton, List.not_mem_nil, or_false] at he
  all_goals first
    | (exact hq _ _ e he)
    | (rcases he with h | h
       · exact hq _ _ e h
       · subst h; rfl)

theorem drain_call_not_looped (e : Event) (h : e.is_drain_call = true) :
    e.is_looped = false := by
  cases e <;> first | rfl | (simp [Event.is_drain_call] at h)

theorem simulate_call_not_looped (e : Event) (h : e.is_simulate_call = true) :
    e.is_looped = false := by
  cases e <;> first | rfl | (simp [Event.is_simulate_call] at h)

theorem filter_looped_nil (l : List Event) (h : ∀ e ∈ l, e.is_looped = false) :
    l.filter Event.is_looped = [] := by
  induction l with
  | nil => rfl
  | cons a l ih =>
    have ha : a.is_looped = false := h a (List.mem_cons_self a l)
    simp only [List.filter, ha]
    exact ih (fun e he => h e (List.mem_cons_of_mem a he))

theorem receive_step_not_looped (c : Platform) (cb : Bool) (st : LoopState) (o : IterOutcome) :
    ∀ e ∈ (receive_step c cb st o).2, e.is_looped = false := by
  intro e he
  rw [receive_step_events, learn_port_events] at he
  simp only [List.mem_append, List.mem_cons] at he
  rcases he with h | h | h
  · split_ifs at h <;> simp at h
    subst h; rfl
  · subst h; rfl
  · split_ifs at h <;> simp at h
    subst h; rfl

theorem after_send_step_not_looped (cb : Bool) (st : LoopState) (o : IterOutcome) :
    ∀ e ∈ (after_send_step cb st o).2, e.is_looped = false := by
  intro e he
  unfold after_send_step at he
  split_ifs at he <;> simp at he
  subst he; rfl

/-- The wait, the count of the iteration and the diagnostic (lines 189-212),
for a counter that has not reached 100. -/
theorem wait_step_count (st : LoopState) (o : IterOutcome) (h0 : 0 ≤ st.nb_loops)
    (hn : st.nb_loops < 100) :
    (wait_step st o).2.filter Event.is_looped =
      (if st.nb_loops = 99 then
        [Event.looped 100 (sub_u64 o.sel.current_time st.loop_count_time)] else []) ∧
    (wait_step st o).1.nb_loops = (if st.nb_loops = 99 then 0 else st.nb_loops + 1) ∧
    (wait_step st o).1.loop_count_time =
      (if st.nb_loops = 99 then o.sel.current_time else st.loop_count_time) ∧
    (wait_step st o).1.current_time = o.sel.current_time := by
  unfold wait_step
  simp only
  by_cases h : st.nb_loops = 99
  · have hge : st.nb_loops + 1 ≥ 100 := by omega
    simp only [hge, if_true, h]
    refine ⟨?_, by trivial, by trivial, by trivial⟩
    simp [List.filter, Event.is_looped]
  · have hge : ¬ st.nb_loops + 1 ≥ 100 := by omega
    simp only [hge, if_false, h]
    refine ⟨?_, ?_, ?_, ?_⟩ <;> first | rfl | trivial

theorem prepared_in_append (a b : List Event) :
    prepared_in (a ++ b) = (prepared_in a || prepared_in b) := by
  simp [prepared_in, prepare_calls_append, List.any_append]

theorem prepared_in_quiet (t : List Event) (h : ∀ e ∈ t, e.is_drain_head = false) :
    prepared_in t = false := by
  unfold prepared_in
  rw [(drain_head_quiet t h).1]
  rfl

/-- The counters after the send drain: a pass in which a datagram was
prepared resets them, whatever the transmission gives. -/
theorem send_drain_count (c : Platform) (ps : List PrepareOutcome) :
    ∀ (st st1 : LoopState), (send_drain c st ps).1 = some st1 →
      st1.nb_loops = (if prepared_in (send_drain c st ps).2 = true then 0 else st.nb_loops) ∧
      st1.loop_count_time =
        (if prepared_in (send_drain c st ps).2 = true then st.current_time
         else st.loop_count_time) ∧
      st1.current_time = st.current_time := by
  induction ps with
  | nil =>
    intro st st1 h
    by_cases h0 : st.ret = 0
    · simp [send_drain, h0] at h
    · rw [send_drain_skip c st _ h0] at h ⊢
      simp only [Option.some.injEq] at h
      subst h
      exact ⟨rfl, rfl, rfl⟩
  | cons p ps ih =>
    intro st st1 h
    by_cases h0 : st.ret = 0
    · by_cases hgo : p.rc = 0 ∧ p.send_length > 0
      · rw [send_drain_cons_go c st p ps h0 hgo.1 hgo.2] at h ⊢
        obtain ⟨i1, i2, i3⟩ := ih (reset_loop_count (after_prepare st p)) st1 h
        have hp : prepared_in
            (Event.prepare_next_packet st.current_time p.rc p.send_length ::
              (send_step c (reset_loop_count (after_prepare st p)) p ++
                (send_drain c (reset_loop_count (after_prepare st p)) ps).2)) = true := by
          simp [prepared_in, prepare_calls, hgo.1, hgo.2]
        simp only [hp, if_true]
        refine ⟨?_, ?_, ?_⟩
        · rw [i1]; split_ifs <;> rfl
        · rw [i2]; split_ifs <;> rfl
        · rw [i3]; rfl
      · rw [send_drain_cons_stop c st p ps h0 hgo] at h ⊢
        simp only [Option.some.injEq] at h
        subst h
        have hp : prepared_in
            [Event.prepare_next_packet st.current_time p.rc p.send_length] = false := by
          simp only [prepared_in, prepare_calls, List.filterMap_cons, List.filterMap_nil,
            List.any_cons, List.any_nil, Bool.or_false, decide_eq_false_iff_not]
          exact hgo
        simp only [hp, Bool.false_eq_true, if_false]
        exact ⟨rfl, rfl, rfl⟩
    · rw [send_drain_skip c st _ h0] at h ⊢
      simp only [Option.some.injEq] at h
      subst h
      exact ⟨rfl, rfl, rfl⟩

theorem loop_iteration_failed_wait (c : Platform) (cb : Bool) (st : LoopState) (o : IterOutcome)
    (h : o.sel.bytes_recv < 0) :
    loop_iteration c cb st o =
      (some (simulate_step c { (wait_step st o).1 with ret := -1 } o).1,
        (wait_step st o).2 ++ (simulate_step c { (wait_step st o).1 with ret := -1 } o).2) := by
  unfold loop_iteration
  simp only [h, if_true]

theorem loop_iteration_unfinished (c : Platform) (cb : Bool) (st : LoopState) (o : IterOutcome)
    (h : ¬ o.sel.bytes_recv < 0)
    (hd : (send_drain c (recv_part c cb st o).1 o.prepares).1 = none) :
    loop_iteration c cb st o =
      (none, (wait_step st o).2 ++ (recv_part c cb st o).2 ++
        (send_drain c (recv_part c cb st o).1 o.prepares).2) := by
  unfold recv_part at hd ⊢
  unfold loop_iteration
  simp only [h, if_false, hd]

theorem loop_iteration_finished (c : Platform) (cb : Bool) (st : LoopState) (o : IterOutcome)
    (st3 : LoopState) (h : ¬ o.sel.bytes_recv < 0)
    (hd : (send_drain c (recv_part c cb st o).1 o.prepares).1 = some st3) :
    loop_iteration c cb st o =
      (some (simulate_step c (after_send_step cb st3 o).1 o).1,
        (wait_step st o).2 ++ (recv_part c cb st o).2 ++
          (send_drain c (recv_part c cb st o).1 o.prepares).2 ++
          (after_send_step cb st3 o).2 ++
          (simulate_step c (after_send_step cb st3 o).1 o).2) := by
  unfold recv_part at hd ⊢
  unfold loop_iteration
  simp only [h, if_false, hd]

theorem recv_part_count (c : Platform) (cb : Bool) (st : LoopState) (o : IterOutcome) :
    (recv_part c cb st o).1.nb_loops = (wait_step st o).1.nb_loops ∧
    (recv_part c cb st o).1.loop_count_time = (wait_step st o).1.loop_count_time ∧
    (recv_part c cb st o).1.current_time = (wait_step st o).1.current_time ∧
    (∀ e ∈ (recv_part c cb st o).2, e.is_looped = false) ∧
    (∀ e ∈ (recv_part c cb st o).2, e.is_drain_head = false) := by
  unfold recv_part
  by_cases hb : o.sel.bytes_recv > 0
  · simp only [hb, if_true]
    refine ⟨?_, ?_, ?_, receive_step_not_looped c cb _ o, receive_step_no_drain_head c cb _ o⟩
    all_goals
      unfold receive_step learn_port
      simp only
      cases cb <;> simp only [Bool.false_eq_true, if_false, if_true] <;> split_ifs <;> rfl
  · simp only [hb, if_false]
    refine ⟨?_, ?_, ?_, by simp, by simp⟩ <;> trivial

theorem simulate_step_count (c : Platform) (st : LoopState) (o : IterOutcome) :
    (simulate_step c st o).1.nb_loops = st.nb_loops ∧
    (simulate_step c st o).1.loop_count_time = st.loop_count_time ∧
    (simulate_step c st o).1.current_time = st.current_time := by
  rcases simulate_step_cases c st o with ⟨_, e⟩ | ⟨_, _, e⟩ | ⟨_, _, _, e⟩ |
    ⟨_, _, _, _, _, _, e⟩ | ⟨_, _, _, _, _, e⟩ <;> rw [e] <;> exact ⟨rfl, rfl, rfl⟩

theorem after_send_step_count (cb : Bool) (st : LoopState) (o : IterOutcome) :
    (after_send_step cb st o).1.nb_loops = st.nb_loops ∧
    (after_send_step cb st o).1.loop_count_time = st.loop_count_time ∧
    (after_send_step cb st o).1.current_time = st.current_time := by
  unfold after_send_step
  split_ifs <;> exact ⟨rfl, rfl, rfl⟩

/-- C22 (as amended): in `picoquic_packet_loop`, `nb_loops` counts the iterations since
the latest of the loop start, the last diagnostic and the last pass of the send
drain in which a datagram was prepared (`picoquic_prepare_next_packet`
returned 0 with `send_length > 0`), whether or not that datagram could be
sent.  An iteration entered with `0 <= nb_loops < 100` emits the diagnostic,
once, exactly when it is the 100th (`nb_loops = 99` at its entry), with the
time elapsed since `loop_count_time`; it ends with `nb_loops = 0` and
`loop_count_time` set to the current time if it emitted the diagnostic or
prepared a datagram, and with `nb_loops` one higher and `loop_count_time`
unchanged otherwise. -/
theorem looped_diagnostic (c : Platform) (cb : Bool) (st : LoopState) (o : IterOutcome)
    (h0 : 0 ≤ st.nb_loops) (hn : st.nb_loops < 100) :
    (loop_iteration c cb st o).2.filter Event.is_looped =
      (if st.nb_loops = 99 then
        [Event.looped 100 (sub_u64 o.sel.current_time st.loop_count_time)] else []) ∧
    ∀ st1, (loop_iteration c cb st o).1 = some st1 →
      st1.nb_loops =
        (if prepared_in (loop_iteration c cb st o).2 = true ∨ st.nb_loops = 99 then 0
         else st.nb_loops + 1) ∧
      st1.loop_count_time =
        (if prepared_in (loop_iteration c cb st o).2 = true ∨ st.nb_loops = 99 then
          o.sel.current_time
         else st.loop_count_time) ∧
      0 ≤ st1.nb_loops ∧ st1.nb_loops < 100 := by
  obtain ⟨w1, w2, w3, w4⟩ := wait_step_count st o h0 hn
  have hwq := prepared_in_quiet _ (wait_step_no_drain_head st o)
  by_cases hneg : o.sel.bytes_recv < 0
  · rw [loop_iteration_failed_wait c cb st o hneg]
    have hs := simulate_step_calls c { (wait_step st o).1 with ret := -1 } o
    have hsq := prepared_in_quiet _
      (simulate_step_no_drain_head c { (wait_step st o).1 with ret := -1 } o)
    obtain ⟨s1, s2, _⟩ := simulate_step_count c { (wait_step st o).1 with ret := -1 } o
    constructor
    · rw [List.filter_append, w1,
        filter_looped_nil _ (fun e he => simulate_call_not_looped e (hs e he)),
        List.append_nil]
    · intro st1 h
      simp only [Option.some.injEq] at h
      rw [prepared_in_append, hwq, hsq, ← h, s1, s2]
      simp only [Bool.or_self, Bool.false_eq_true, false_or]
      refine ⟨w2, w3, ?_, ?_⟩
      · show 0 ≤ (wait_step st o).1.nb_loops
        rw [w2]; split_ifs <;> omega
      · show (wait_step st o).1.nb_loops < 100
        rw [w2]; split_ifs <;> omega
  · obtain ⟨r1, r2, r3, r4, r5⟩ := recv_part_count c cb st o
    have hrq := prepared_in_quiet _ r5
    have hdl : ∀ e ∈ (send_drain c (recv_part c cb st o).1 o.prepares).2,
        e.is_looped = false :=
      fun e he => drain_call_not_looped e (send_drain_calls c _ _ e he)
    cases hd : (send_drain c (recv_part c cb st o).1 o.prepares).1 with
    | none =>
      rw [loop_iteration_unfinished c cb st o hneg hd]
      constructor
      · rw [List.filter_append, List.filter_append, w1, filter_looped_nil _ r4,
          filter_looped_nil _ hdl, List.append_nil, List.append_nil]
      · intro st1 h
        simp at h
    | some st3 =>
      rw [loop_iteration_finished c cb st o st3 hneg hd]
      obtain ⟨d1, d2, d3⟩ := send_drain_count c o.prepares _ st3 hd
      obtain ⟨a1, a2, _⟩ := after_send_step_count cb st3 o
      obtain ⟨s1, s2, _⟩ := simulate_step_count c (after_send_step cb st3 o).1 o
      have hs := simulate_step_calls c (after_send_step cb st3 o).1 o
      have haq := prepared_in_quiet _ (after_send_step_no_drain_head cb st3 o)
      have hsq := prepared_in_quiet _
        (simulate_step_no_drain_head c (after_send_step cb st3 o).1 o)
      constructor
      · rw [List.filter_append, List.filter_append, List.filter_append, List.filter_append, w1,
          filter_looped_nil _ r4, filter_looped_nil _ hdl,
          filter_looped_nil _ (after_send_step_not_looped cb st3 o),
          filter_looped_nil _ (fun e he => simulate_call_not_looped e (hs e he))]
        simp
      · intro st1 h
        simp only [Option.some.injEq] at h
        rw [prepared_in_append, prepared_in_append, prepared_in_append, prepared_in_append,
          hwq, hrq, haq, hsq, ← h, s1, s2, a1, a2, d1, d2, r1, r2, r3, w2, w3, w4]
        simp only [Bool.false_or, Bool.or_false]
        by_cases hp : prepared_in (send_drain c (recv_part c cb st o).1 o.prepares).2 = true <;>
          by_cases h99 : st.nb_loops = 99 <;> (simp [hp, h99]; try omega)

/-- Witness of C22: on Linux, an idle iteration at time 100 entered with `nb_loops = 99`
and `loop_count_time = 0` emits the diagnostic for 100 loops in 100 microseconds. -/
theorem looped_diagnostic_witness :
    (loop_iteration linux false loop_at_99 (iter_idle 100 [prepare_returns 0] 0)).2.filter
        Event.is_looped = [Event.looped 100 100] :=
  (looped_diagnostic linux false loop_at_99 (iter_idle 100 [prepare_returns 0] 0)
    (by decide) (by decide)).1

set_option maxRecDepth 200000 in
/-- Counterexample to C22 as stated: a run of 100 idle iterations emits the diagnostic at
the 100th.  The same run in which the 51st iteration prepares a datagram whose
transmission fails emits no diagnostic at all in its 101 iterations: the
failed attempt restarted the count. -/
theorem failed_send_restarts_count :
    (picoquic_packet_loop linux world_hundred_idle 4433 2 false).events.filter
        Event.is_looped = [Event.looped 100 199] ∧
    ((picoquic_packet_loop linux world_failed_send 4433 2 false).events.filter
        Event.is_select).length = 101 ∧
    (picoquic_packet_loop linux world_failed_send 4433 2 false).events.filter
        Event.is_send =
      [Event.send_through_socket 3 peer_a (addr4 [192, 168, 0, 1] 4433) 0 1200 (-1)] ∧
    (picoquic_packet_loop linux world_failed_send 4433 2 false).events.filter
        Event.is_looped = [] := by
  decide

/-! ### The families recorded for the sockets of the set -/

theorem open_one_socket_creates (local_port af : Int) (o : SocketOutcome) :
    Event.socket af o.fd ∈ (open_one_socket local_port af o).2 := by
  unfold open_one_socket
  split_ifs <;> simp

theorem open_sockets_loop_result (local_port : Int) (sock_af : Nat → Int)
    (outs : Nat → SocketOutcome) (nb : Nat) :
    ∀ (n i : Nat) (s : Nat → Int),
      (open_sockets_loop local_port sock_af outs nb n i s).1 = 0 ∨
      ((open_sockets_loop local_port sock_af outs nb n i s).1 = nb ∧
        (∀ j, j < i → (open_sockets_loop local_port sock_af outs nb n i s).2.1 j = s j) ∧
        ∀ j, i ≤ j → j < i + n →
          Event.socket (sock_af j) ((open_sockets_loop local_port sock_af outs nb n i s).2.1 j)
            ∈ (open_sockets_loop local_port sock_af outs nb n i s).2.2) := by
  intro n
  induction n with
  | zero =>
    intro i s
    right
    simp only [open_sockets_loop]
    exact ⟨by trivial, fun j _ => by trivial, fun j h1 h2 => by omega⟩
  | succ n ih =>
    intro i s
    rw [open_sockets_loop]
    simp only
    cases hr : (open_one_socket local_port (sock_af i) (outs i)).1 with
    | true =>
      left
      simp only [if_true]
    | false =>
      simp only [Bool.false_eq_true, if_false]
      rcases ih (i + 1) (setAt s i (outs i).fd) with h | ⟨h1, h2, h3⟩
      · left; exact h
      · right
        refine ⟨h1, ?_, ?_⟩
        · intro j hj
          rw [h2 j (by omega)]
          simp [setAt, Nat.ne_of_lt hj]
        · intro j hj1 hj2
          by_cases hji : j = i
          · subst hji
            rw [h2 j (by omega)]
            simp only [setAt, if_true]
            exact List.mem_append_left _ (open_one_socket_creates local_port _ _)
          · exact List.mem_append_right _ (h3 j (by omega) (by omega))

/-- What `picoquic_packet_loop_open_sockets` returns is 0 or is within
`nb_sockets_max`, and every socket it reports was created with the family it
recorded for it. -/
theorem open_sockets_recorded (c : Platform) (local_port local_af : Int)
    (s_socket sock_af : Nat → Int) (nb_sockets_max : Int) (outs : Nat → SocketOutcome) :
    ((picoquic_packet_loop_open_sockets c local_port local_af s_socket sock_af nb_sockets_max
        outs).nb_sockets = 0 ∨
      ((picoquic_packet_loop_open_sockets c local_port local_af s_socket sock_af nb_sockets_max
        outs).nb_sockets : Int) ≤ nb_sockets_max) ∧
    ∀ i, i < (picoquic_packet_loop_open_sockets c local_port local_af s_socket sock_af
        nb_sockets_max outs).nb_sockets →
      Event.socket
        ((picoquic_packet_loop_open_sockets c local_port local_af s_socket sock_af
          nb_sockets_max outs).sock_af i)
        ((picoquic_packet_loop_open_sockets c local_port local_af s_socket sock_af
          nb_sockets_max outs).s_socket i)
      ∈ (picoquic_packet_loop_open_sockets c local_port local_af s_socket sock_af
          nb_sockets_max outs).events := by
  unfold picoquic_packet_loop_open_sockets
  simp only
  generalize hr : (if ((if local_af = c.AF_UNSPEC then 2 else 1 : Nat) : Int) > nb_sockets_max
      then ((0 : Nat), sock_af)
      else if local_af = c.AF_UNSPEC then
        ((if local_af = c.AF_UNSPEC then 2 else 1 : Nat),
          setAt (setAt sock_af 0 c.AF_INET) 1 c.AF_INET6)
      else if local_af = c.AF_INET ∨ local_af = c.AF_INET6 then
        ((if local_af = c.AF_UNSPEC then 2 else 1 : Nat), setAt sock_af 0 local_af)
      else (0, sock_af)) = r
  have hmax : r.1 = 0 ∨ (r.1 : Int) ≤ nb_sockets_max := by
    rw [← hr]
    split_ifs with h1 h2 h3 h4 <;> first
      | (left; rfl)
      | (right; simp only; omega)
  rcases open_sockets_loop_result local_port r.2 outs r.1 r.1 0 s_socket with h | ⟨h1, _, h3⟩
  · exact ⟨Or.inl h, fun i hi => by rw [h] at hi; omega⟩
  · refine ⟨?_, fun i hi => ?_⟩
    · rw [h1]
      exact hmax
    · rw [h1] at hi
      exact h3 i (Nat.zero_le i) (by omega)

/-- Whenever the migration-test block runs, the calls of its auxiliary open are
among its calls. -/
theorem aux_events_in_simulate (c : Platform) (st : LoopState) (o : IterOutcome)
    (h : st.ret = c.PICOQUIC_NO_ERROR_SIMULATE_NAT ∨
        st.ret = c.PICOQUIC_NO_ERROR_SIMULATE_MIGRATION) :
    ∀ e ∈ (aux_open c st o).events, e ∈ (simulate_step c st o).2 := by
  intro e he
  by_cases hnat : st.ret = c.PICOQUIC_NO_ERROR_SIMULATE_NAT
  · unfold aux_open aux_port at he
    simp only [hnat, if_true] at he
    unfold simulate_step
    simp only [hnat, true_or, if_true, decide_True]
    split_ifs
    all_goals try split
    all_goals simp only [List.mem_append]
    all_goals first
      | exact he
      | exact Or.inl he
  · have hd : decide (st.ret = c.PICOQUIC_NO_ERROR_SIMULATE_NAT) = false := by simp [hnat]
    unfold aux_open aux_port at he
    simp only [hnat, if_false] at he
    unfold simulate_step
    simp only [h, if_true, hd, Bool.false_eq_true, if_false]
    split_ifs
    all_goals try split
    all_goals try split_ifs
    all_goals simp only [List.mem_append]
    all_goals first
      | exact he
      | exact Or.inl he

theorem aux_open_creates (c : Platform) (st : LoopState) (o : IterOutcome)
    (h : (aux_open c st o).nb_sockets = 1) :
    Event.socket (st.sock_af 0) ((aux_open c st o).s_socket 0) ∈ (aux_open c st o).events := by
  obtain ⟨h1, _, h3, _⟩ := aux_open_success c st o h
  rw [h1, h3]
  exact open_one_socket_creates _ _ _

theorem loop_iteration_families (c : Platform) (cb : Bool) (n0 : Nat) (t : List Event)
    (st : LoopState) (o : IterOutcome) (st1 : LoopState)
    (h : (loop_iteration c cb st o).1 = some st1) (hinv : SocketFamilies n0 t st)
    (hb : (st.nb_sockets : Int) ≤ c.PICOQUIC_PACKET_LOOP_SOCKETS_MAX) :
    SocketFamilies n0 (t ++ (loop_iteration c cb st o).2) st1 ∧
    (st1.nb_sockets : Int) ≤ c.PICOQUIC_PACKET_LOOP_SOCKETS_MAX ∧
    st1.sock_af = st.sock_af := by
  obtain ⟨hn0, hlow, hhigh⟩ := hinv
  obtain ⟨sa, e, _, hn, hs, ha, hev, _⟩ := loop_iteration_before_simulate c cb st o st1 h
  have hlow1 : ∀ i, i < n0 →
      Event.socket (sa.sock_af i) (sa.s_socket i) ∈ t ++ (loop_iteration c cb st o).2 := by
    intro i hi
    rw [ha, hs]
    exact List.mem_append_left _ (hlow i hi)
  have hhigh1 : ∀ i, n0 ≤ i → i < sa.nb_sockets →
      Event.socket (sa.sock_af 0) (sa.s_socket i) ∈ t ++ (loop_iteration c cb st o).2 := by
    intro i hi1 hi2
    rw [ha, hs]
    rw [hn] at hi2
    exact List.mem_append_left _ (hhigh i hi1 hi2)
  have hn0a : n0 ≤ sa.nb_sockets := by rw [hn]; exact hn0
  have hba : (sa.nb_sockets : Int) ≤ c.PICOQUIC_PACKET_LOOP_SOCKETS_MAX := by rw [hn]; exact hb
  have haux : (sa.ret = c.PICOQUIC_NO_ERROR_SIMULATE_NAT ∨
        sa.ret = c.PICOQUIC_NO_ERROR_SIMULATE_MIGRATION) →
      (aux_open c sa o).nb_sockets = 1 →
      Event.socket (sa.sock_af 0) ((aux_open c sa o).s_socket 0)
        ∈ t ++ (loop_iteration c cb st o).2 := by
    intro hr h1
    exact List.mem_append_right _
      (hev _ (aux_events_in_simulate c sa o hr _ (aux_open_creates c sa o h1)))
  rw [e]
  rcases simulate_step_cases c sa o with ⟨_, e1⟩ | ⟨_, _, e1⟩ | ⟨hnat, h1, _, e1⟩ |
    ⟨_, hmig, h1, _, _, hroom, e1⟩ | ⟨_, _, _, _, _, e1⟩
  · rw [e1]
    exact ⟨⟨hn0a, hlow1, hhigh1⟩, hba, ha⟩
  · rw [e1]
    exact ⟨⟨hn0a, hlow1, hhigh1⟩, hba, ha⟩
  · rw [e1]
    refine ⟨⟨hn0a, ?_, ?_⟩, hba, ha⟩
    · intro i hi
      by_cases h0 : i = 0
      · subst h0
        simp only [setAt, if_true]
        exact haux (Or.inl hnat) h1
      · have := hlow1 i hi
        simp only [setAt, h0, if_false]
        exact this
    · intro i hi1 hi2
      by_cases h0 : i = 0
      · subst h0
        simp only [setAt, if_true]
        exact haux (Or.inl hnat) h1
      · have := hhigh1 i hi1 hi2
        simp only [setAt, h0, if_false]
        exact this
  · rw [e1]
    refine ⟨⟨?_, ?_, ?_⟩, ?_, ha⟩
    · show n0 ≤ sa.nb_sockets + 1
      omega
    · intro i hi
      have hne : i ≠ sa.nb_sockets := by omega
      have := hlow1 i hi
      simp only [setAt, hne, if_false]
      exact this
    · intro i hi1 hi2
      have hi3 : i < sa.nb_sockets + 1 := hi2
      by_cases hl : i = sa.nb_sockets
      · simp only [setAt, hl, if_true]
        exact haux (Or.inr hmig) h1
      · have := hhigh1 i hi1 (by omega)
        simp only [setAt, hl, if_false]
        exact this
    · show ((sa.nb_sockets + 1 : Nat) : Int) ≤ c.PICOQUIC_PACKET_LOOP_SOCKETS_MAX
      push_cast
      omega
  · rw [e1]
    exact ⟨⟨hn0a, hlow1, hhigh1⟩, hba, ha⟩

theorem packet_loop_run_families (c : Platform) (cb : Bool) (n0 : Nat)
    (os : List IterOutcome) :
    ∀ (t : List Event) (st stf : LoopState), (packet_loop_run c cb os st).1 = some stf →
      SocketFamilies n0 t st →
      (st.nb_sockets : Int) ≤ c.PICOQUIC_PACKET_LOOP_SOCKETS_MAX →
      SocketFamilies n0 (t ++ (packet_loop_run c cb os st).2) stf ∧
      (stf.nb_sockets : Int) ≤ c.PICOQUIC_PACKET_LOOP_SOCKETS_MAX ∧
      stf.sock_af = st.sock_af := by
  induction os with
  | nil =>
    intro t st stf h hinv hb
    simp only [packet_loop_run] at h ⊢
    split_ifs at h ⊢
    simp only [Option.some.injEq] at h
    rw [← h, List.append_nil]
    exact ⟨hinv, hb, rfl⟩
  | cons o os ih =>
    intro t st stf h hinv hb
    by_cases h0 : st.ret = 0
    · rw [packet_loop_run] at h ⊢
      simp only [h0, if_true] at h ⊢
      cases hi : (loop_iteration c cb st o).1 with
      | none => simp [hi] at h
      | some st1 =>
        simp only [hi] at h ⊢
        obtain ⟨i1, i2, i3⟩ := loop_iteration_families c cb n0 t st o st1 hi hinv hb
        obtain ⟨r1, r2, r3⟩ := ih (t ++ (loop_iteration c cb st o).2) st1 stf h i1 i2
        rw [List.append_assoc] at r1
        exact ⟨r1, r2, by rw [r3, i3]⟩
    · rw [packet_loop_run_skip c cb _ st h0] at h ⊢
      simp only [Option.some.injEq] at h
      rw [← h, List.append_nil]
      exact ⟨hinv, hb, rfl⟩

/-- C27 (as amended): socket set of `picoquic_packet_loop`, with `n0` the number of
sockets opened at start-up.  At the end of start-up, after every iteration and
at the end of every run of iterations, `nb_sockets <=
PICOQUIC_PACKET_LOOP_SOCKETS_MAX`, `sock_af` is as start-up left it, and
`SocketFamilies n0` holds: every socket at an index under `n0` (also the one put
at rank 0 for `SIMULATE_NAT`) was created with the family recorded for it in
`sock_af`, and every socket at an index from `n0` on, appended for
`SIMULATE_MIGRATION`, was created with the family `sock_af[0]`, which is not
recorded at its index. -/
theorem socket_set_families (c : Platform) (cb : Bool)
    (hmax : 0 ≤ c.PICOQUIC_PACKET_LOOP_SOCKETS_MAX) :
    (∀ w local_port local_af,
      SocketFamilies (loop_start c w local_port local_af cb).1.nb_sockets
        (loop_start c w local_port local_af cb).2
        (loop_start c w local_port local_af cb).1 ∧
      ((loop_start c w local_port local_af cb).1.nb_sockets : Int)
        ≤ c.PICOQUIC_PACKET_LOOP_SOCKETS_MAX) ∧
    (∀ n0 t st o st1, (loop_iteration c cb st o).1 = some st1 →
      SocketFamilies n0 t st →
      (st.nb_sockets : Int) ≤ c.PICOQUIC_PACKET_LOOP_SOCKETS_MAX →
      SocketFamilies n0 (t ++ (loop_iteration c cb st o).2) st1 ∧
      (st1.nb_sockets : Int) ≤ c.PICOQUIC_PACKET_LOOP_SOCKETS_MAX ∧
      st1.sock_af = st.sock_af) ∧
    (∀ n0 t os st stf, (packet_loop_run c cb os st).1 = some stf →
      SocketFamilies n0 t st →
      (st.nb_sockets : Int) ≤ c.PICOQUIC_PACKET_LOOP_SOCKETS_MAX →
      SocketFamilies n0 (t ++ (packet_loop_run c cb os st).2) stf ∧
      (stf.nb_sockets : Int) ≤ c.PICOQUIC_PACKET_LOOP_SOCKETS_MAX ∧
      stf.sock_af = st.sock_af) := by
  refine ⟨?_, fun n0 t st o st1 h hinv hb => loop_iteration_families c cb n0 t st o st1 h hinv hb,
    fun n0 t os st stf h hinv hb => packet_loop_run_families c cb n0 os t st stf h hinv hb⟩
  intro w local_port local_af
  obtain ⟨hb, hrec⟩ := open_sockets_recorded c local_port local_af w.s_socket_init
    (fun _ => 0) c.PICOQUIC_PACKET_LOOP_SOCKETS_MAX w.open_outs
  have hst : (loop_start c w local_port local_af cb).1.nb_sockets =
        (picoquic_packet_loop_open_sockets c local_port local_af w.s_socket_init
          (fun _ => 0) c.PICOQUIC_PACKET_LOOP_SOCKETS_MAX w.open_outs).nb_sockets ∧
      (loop_start c w local_port local_af cb).1.s_socket =
        (picoquic_packet_loop_open_sockets c local_port local_af w.s_socket_init
          (fun _ => 0) c.PICOQUIC_PACKET_LOOP_SOCKETS_MAX w.open_outs).s_socket ∧
      (loop_start c w local_port local_af cb).1.sock_af =
        (picoquic_packet_loop_open_sockets c local_port local_af w.s_socket_init
          (fun _ => 0) c.PICOQUIC_PACKET_LOOP_SOCKETS_MAX w.open_outs).sock_af := by
    unfold loop_start
    simp only
    split_ifs <;> exact ⟨rfl, rfl, rfl⟩
  obtain ⟨e1, e2, e3⟩ := hst
  refine ⟨⟨le_refl _, ?_, ?_⟩, ?_⟩
  · intro i hi
    rw [e1] at hi
    rw [e2, e3, loop_start_events]
    simp only [List.cons_append, List.mem_cons, List.mem_append]
    exact Or.inr (Or.inl (hrec i hi))
  · intro i hi1 hi2
    omega
  · rw [e1]
    rcases hb with h | h
    · rw [h]; exact_mod_cast hmax
    · exact h

/-- Witness of C27: on Linux (`PICOQUIC_PACKET_LOOP_SOCKETS_MAX` taken as 4), started on
port 4433 with one `AF_INET` socket, the loop is asked for a simulated
migration in its first iteration.  The set then has 2 sockets, and the
families are kept in the sense of `SocketFamilies 1`. -/
theorem socket_set_families_witness :
    (loop_iteration linux false loop_started
        (iter_idle 100 [prepare_asks_migration] 0)).1.map (fun s => s.nb_sockets) = some 2 ∧
    ∀ st1, (loop_iteration linux false loop_started
        (iter_idle 100 [prepare_asks_migration] 0)).1 = some st1 →
      SocketFamilies 1
        ([Event.socket 2 3] ++ (loop_iteration linux false loop_started
          (iter_idle 100 [prepare_asks_migration] 0)).2) st1 :=
  ⟨by decide, fun st1 h =>
    ((socket_set_families linux false (by decide)).2.1 1 [Event.socket 2 3] loop_started
      (iter_idle 100 [prepare_asks_migration] 0) st1 h
      ⟨by decide, fun i hi => by
          have : i = 0 := by omega
          subst this
          decide,
        fun i h1 h2 => absurd h2 (by
          show ¬ i < 1
          omega)⟩
      (by decide)).1⟩

/-- Counterexample to C27 as stated: on Linux, started on port 4433 with one `AF_INET`
socket (descriptor 3), the engine asks for a simulated migration for a known
connection.  After the iteration `nb_sockets` is 2 and `s_socket[1]` is
descriptor 5, created with family 2 (`AF_INET`), while `sock_af[1]` is 0. -/
theorem migration_socket_family_counterexample :
    (loop_iteration linux false loop_started
        (iter_idle 100 [prepare_asks_migration] 0)).1.map
      (fun s => (s.nb_sockets, s.s_socket 1, s.sock_af 1)) = some (2, 5, 0) ∧
    (loop_iteration linux false loop_started
        (iter_idle 100 [prepare_asks_migration] 0)).2.filter Event.is_socket_setup =
      [Event.socket 2 5, Event.set_ecn_options 5 2 0, Event.set_pkt_info 5 2 0,
       Event.bind_to_port 5 2 4434 0] := by
  decide

/-! ### The migration trigger of the master loop -/

theorem filter_trigger_nil (l : List Event) (h : ∀ e ∈ l, e.is_trigger_call = false) :
    l.filter Event.is_trigger_call = [] := by
  induction l with
  | nil => rfl
  | cons a l ih =>
    have ha : a.is_trigger_call = false := h a (List.mem_cons_self a l)
    simp only [List.filter, ha]
    exact ih (fun e he => h e (List.mem_cons_of_mem a he))

theorem drain_call_not_trigger (e : Event) (h : e.is_drain_call = true) :
    e.is_trigger_call = false := by
  cases e <;> first | rfl | (simp [Event.is_drain_call] at h)

theorem simulate_call_not_trigger (e : Event) (h : e.is_simulate_call = true) :
    e.is_trigger_call = false := by
  cases e <;> first | rfl | (simp [Event.is_simulate_call] at h)

theorem wait_step_not_trigger (st : LoopState) (o : IterOutcome) :
    ∀ e ∈ (wait_step st o).2, e.is_trigger_call = false := by
  have h : (wait_step st o).2.all (fun e => !e.is_trigger_call) = true := by
    unfold wait_step
    simp only
    split_ifs <;> rfl
  intro e he
  simpa using List.all_eq_true.1 h e he

theorem learn_port_not_trigger (c : Platform) (st : LoopState) (o : IterOutcome) :
    ∀ e ∈ (learn_port c st o).2, e.is_trigger_call = false := by
  intro e he
  rw [learn_port_events] at he
  split_ifs at he <;> simp at he
  subst he; rfl

theorem master_send_part_not_trigger (c : Platform) (cb : Bool) (m : MasterState)
    (o : MasterOutcome) : ∀ e ∈ (master_send_part c cb m o).2, e.is_trigger_call = false := by
  intro e he
  unfold master_send_part at he
  simp only at he
  have hd : ∀ x ∈ (send_drain c m.loop o.it.prepares).2, x.is_trigger_call = false :=
    fun x hx => drain_call_not_trigger x (send_drain_calls c _ _ x hx)
  split at he
  · exact hd e he
  · simp only [List.mem_append] at he
    rcases he with (h | h) | h
    · exact hd e h
    · unfold after_send_step at h
      split_ifs at h <;> simp at h
      subst h; rfl
    · exact simulate_call_not_trigger e (simulate_step_calls c _ _ e h)

/-- The calls of the migration trigger: none unless it fires; the write
`migration_flag = 0`, `picoquic_shallow_migrate` and, if the table is not
`NULL`, `hashmap_put` of the key when it does. -/
theorem migration_trigger_calls (c : Platform) (m : MasterState) (o : MasterOutcome) :
    (migration_trigger c m o).2.2 =
      (if trigger_fires o = true then
        Event.clear_migration_flag :: Event.shallow_migrate ::
          (match m.cnx_id_table with
            | some _ => [Event.hashmap_put (trigger_key c o)]
            | none => [])
       else []) := by
  unfold migration_trigger trigger_fires trigger_key
  cases h1 : o.cnx_list with
  | none => simp
  | some v =>
    cases h2 : v.callback_ctx with
    | none => simp [h2]
    | some ctx =>
      by_cases h3 : ctx.migration_flag = 0
      · simp [h2, h3]
      · cases h4 : m.cnx_id_table <;> simp [h2, h3, h4]

theorem master_receive_step_trigger_calls (c : Platform) (cb : Bool) (m : MasterState)
    (o : MasterOutcome) :
    (master_receive_step c cb m o).2.2.filter Event.is_trigger_call =
      (migration_trigger c { m with loop := (learn_port c m.loop o.it).1 } o).2.2 := by
  have hl := filter_trigger_nil _ (learn_port_not_trigger c m.loop o.it)
  have ht : (migration_trigger c { m with loop := (learn_port c m.loop o.it).1 } o).2.2.filter
      Event.is_trigger_call =
      (migration_trigger c { m with loop := (learn_port c m.loop o.it).1 } o).2.2 := by
    rw [migration_trigger_calls]
    split_ifs
    · cases m.cnx_id_table <;> rfl
    · rfl
  unfold master_receive_step
  simp only
  cases (migration_trigger c { m with loop := (learn_port c m.loop o.it).1 } o).1.cnx_id_table with
  | none =>
    simp only
    rw [List.filter_append, hl, ht, List.nil_append]
  | some table =>
    simp only
    split_ifs
    all_goals
      simp only [List.filter_append, hl, ht, List.nil_append]
      simp [List.filter, Event.is_trigger_call]

theorem trigger_fires_iff (o : MasterOutcome) :
    trigger_fires o = true ↔
      ∃ v ctx, o.cnx_list = some v ∧ v.callback_ctx = some ctx ∧ ctx.migration_flag ≠ 0 := by
  unfold trigger_fires
  cases h1 : o.cnx_list with
  | none => simp
  | some v =>
    cases h2 : v.callback_ctx with
    | none => simp [h2]
    | some ctx => simp [h2]

theorem master_iteration_trigger_calls (c : Platform) (cb : Bool) (m : MasterState)
    (o : MasterOutcome) :
    (master_iteration c cb m o).2.filter Event.is_trigger_call =
      (if 0 < o.it.sel.bytes_recv ∧ trigger_fires o = true then
        Event.clear_migration_flag :: Event.shallow_migrate ::
          (match m.cnx_id_table with
            | some _ => [Event.hashmap_put (trigger_key c o)]
            | none => [])
       else []) := by
  have hw := filter_trigger_nil _ (wait_step_not_trigger m.loop o.it)
  unfold master_iteration
  simp only
  by_cases hn : o.it.sel.bytes_recv < 0
  · have hb : ¬ 0 < o.it.sel.bytes_recv := by omega
    simp only [hn, if_true, hb, false_and, if_false]
    rw [List.filter_append, hw, filter_trigger_nil _
      (fun e he => simulate_call_not_trigger e (simulate_step_calls c _ _ e he))]
    rfl
  · by_cases hb : o.it.sel.bytes_recv > 0
    · have hb2 : 0 < o.it.sel.bytes_recv := hb
      simp only [hn, if_false, hb, if_true, hb2, true_and]
      have hr := master_receive_step_trigger_calls c cb
        { m with loop := (wait_step m.loop o.it).1 } o
      rw [migration_trigger_calls] at hr
      cases (master_receive_step c cb { m with loop := (wait_step m.loop o.it).1 } o).2.1 with
      | null_table =>
        simp only
        rw [List.filter_append, hw, hr, List.nil_append]
      | handed_off =>
        simp only
        rw [List.filter_append, hw, hr, List.nil_append]
      | submitted =>
        simp only
        rw [List.filter_append, List.filter_append, hw, hr,
          filter_trigger_nil _ (master_send_part_not_trigger c cb _ o), List.nil_append,
          List.append_nil]
    · have hb2 : ¬ 0 < o.it.sel.bytes_recv := hb
      simp only [hn, if_false, hb, hb2, false_and]
      rw [List.filter_append, hw,
        filter_trigger_nil _ (master_send_part_not_trigger c cb _ o)]
      rfl

/-- What the loop itself tests before it calls `picoquic_shallow_migrate`: a
datagram was received, the first connection of the primary engine exists, its
callback context is not `NULL` and `migration_flag` in it is not 0. -/
theorem shallow_migrate_iff_flag (c : Platform) (cb : Bool) (m : MasterState)
    (o : MasterOutcome) :
    Event.shallow_migrate ∈ (master_iteration c cb m o).2 ↔
      0 < o.it.sel.bytes_recv ∧
      ∃ v ctx, o.cnx_list = some v ∧ v.callback_ctx = some ctx ∧ ctx.migration_flag ≠ 0 := by
  have hf := master_iteration_trigger_calls c cb m o
  rw [← trigger_fires_iff]
  have hmem : Event.shallow_migrate ∈ (master_iteration c cb m o).2 ↔
      Event.shallow_migrate ∈ (master_iteration c cb m o).2.filter Event.is_trigger_call := by
    rw [List.mem_filter]
    exact ⟨fun h => ⟨h, rfl⟩, fun h => h.1⟩
  rw [hmem, hf]
  by_cases hc : 0 < o.it.sel.bytes_recv ∧ trigger_fires o = true
  · simp only [hc, and_self, if_true, List.mem_cons, true_or, or_true]
  · simp only [hc, if_false, List.not_mem_nil]

/-! ### The sockets used by the slave loop -/

theorem slave_wake_as_wait (ss : LoopState) (so : SlaveOutcome) :
    (wait_step (with_slot_sockets ss so.slot) so.answers).1 = (slave_wake_step ss so.slot).1 ∧
    (wait_step (with_slot_sockets ss so.slot) so.answers).2.drop 2 =
      (slave_wake_step ss so.slot).2.drop 3 ∧
    (wait_step (with_slot_sockets ss so.slot) so.answers).2.length ≥ 2 ∧
    (slave_wake_step ss so.slot).2.length ≥ 3 := by
  unfold wait_step slave_wake_step with_slot_sockets SlaveOutcome.answers slot_select
  simp only
  split_ifs <;> exact ⟨rfl, rfl, by simp, by simp⟩

theorem slave_receive_as_receive (c : Platform) (cb : Bool) (st : LoopState) (o : IterOutcome)
    (h0 : st.ret = 0) (h : cb = true ∨ o.incoming_rc = 0) :
    slave_receive_step c cb st o = receive_step c cb st o := by
  unfold slave_receive_step receive_step
  simp only
  cases cb with
  | true => rfl
  | false =>
    have hrc : o.incoming_rc = 0 := by
      rcases h with h | h
      · cases h
      · exact h
    have hl : (learn_port c st o).1.ret = 0 := by rw [learn_port_ret]; exact h0
    simp only [Bool.false_eq_true, if_false, hrc]
    have hst : ({ (learn_port c st o).1 with ret := 0 } : LoopState) = (learn_port c st o).1 := by
      generalize (learn_port c st o).1 = s at hl
      cases s
      simp only at hl
      simp [hl]
    rw [hst]

theorem drop_append_of_le (n : Nat) (a b : List Event) (h : n ≤ a.length) :
    (a ++ b).drop n = a.drop n ++ b := by
  rw [List.drop_append_eq_append_drop]
  have : n - a.length = 0 := by omega
  rw [this, List.drop_zero]

/-- C26 (as amended): given the same datagram descriptor and the same outcomes of every
engine, callback and socket operation, and entered with `ret = 0` and the same
variables (the socket set of `picoquic_packet_loop` being the one the slave
copies from the slot), one iteration of
`picoquic_packet_loop_with_migration_slave` makes, after its wake-up, the same
calls as one iteration of `picoquic_packet_loop` after its wait on the sockets,
and ends with the same variables (`ret` among them), provided the loop callback
is not `NULL`, or `picoquic_incoming_packet` returns 0, or the slot holds no
datagram. -/
theorem slave_iteration_as_packet_loop (c : Platform) (cb : Bool) (ss : LoopState)
    (so : SlaveOutcome) (h0 : ss.ret = 0)
    (h : cb = true ∨ so.it.incoming_rc = 0 ∨ so.slot.trans_bytes ≤ 0) :
    (slave_iteration c cb ss so).1 =
      (loop_iteration c cb (with_slot_sockets ss so.slot) so.answers).1 ∧
    (slave_iteration c cb ss so).2.drop 3 =
      (loop_iteration c cb (with_slot_sockets ss so.slot) so.answers).2.drop 2 := by
  obtain ⟨hst, hev, hl2, hl3⟩ := slave_wake_as_wait ss so
  have hbytes : so.answers.sel.bytes_recv = so.slot.trans_bytes := rfl
  have hret : (slave_wake_step ss so.slot).1.ret = 0 := by
    rw [← hst, wait_step_ret]
    exact h0
  have hrecv : (if so.slot.trans_bytes > 0 then
        slave_receive_step c cb (slave_wake_step ss so.slot).1 so.answers
      else ((slave_wake_step ss so.slot).1, [])) =
      (if so.slot.trans_bytes > 0 then
        receive_step c cb (slave_wake_step ss so.slot).1 so.answers
      else ((slave_wake_step ss so.slot).1, [])) := by
    by_cases hb : so.slot.trans_bytes > 0
    · simp only [hb, if_true]
      apply slave_receive_as_receive c cb _ _ hret
      rcases h with h | h | h
      · exact Or.inl h
      · exact Or.inr h
      · omega
    · simp only [hb, if_false]
  unfold slave_iteration loop_iteration
  simp only [hbytes, hst, hrecv]
  by_cases hn : so.slot.trans_bytes < 0
  · simp only [hn, if_true]
    refine ⟨by trivial, ?_⟩
    rw [drop_append_of_le 3 _ _ hl3, drop_append_of_le 2 _ _ hl2, hev]
  · simp only [hn, if_false]
    cases (send_drain c (if so.slot.trans_bytes > 0 then
        receive_step c cb (slave_wake_step ss so.slot).1 so.answers
      else ((slave_wake_step ss so.slot).1, [])).1 so.answers.prepares).1 with
    | none =>
      simp only
      refine ⟨by trivial, ?_⟩
      rw [List.append_assoc, List.append_assoc,
        drop_append_of_le 3 _ _ hl3, drop_append_of_le 2 _ _ hl2, hev]
    | some st3 =>
      simp only
      refine ⟨by trivial, ?_⟩
      simp only [List.append_assoc]
      rw [drop_append_of_le 3 _ _ hl3, drop_append_of_le 2 _ _ hl2, hev]

/-- Witness of C26: on Linux, a slave iteration that wakes up with `slot_a` and whose
engine accepts the datagram makes, after the three calls of the wake-up, the
calls `picoquic_packet_loop` makes after its two calls of the wait. -/
theorem slave_iteration_as_packet_loop_witness :
    (slave_iteration linux false (slave_start world_slave 4433) (slave_iter slot_a)).2.drop 3 =
      (loop_iteration linux false (with_slot_sockets (slave_start world_slave 4433) slot_a)
        (slave_iter slot_a).answers).2.drop 2 ∧
    (slave_iteration linux false (slave_start world_slave 4433) (slave_iter slot_a)).2.drop 3 =
      [Event.incoming_packet [1, 2, 3, 4, 5, 6, 7, 8, 9, 10, 11, 12] 12 peer_a
         (addr4 [192, 168, 0, 1] 4433) 1 0 100 0,
       Event.prepare_next_packet 100 0 0] :=
  ⟨(slave_iteration_as_packet_loop linux false (slave_start world_slave 4433)
      (slave_iter slot_a) rfl (Or.inr (Or.inl rfl))).2, by decide⟩

/-- Counterexample to C26 as stated: on Linux, with no loop callback, the engine returns 7
from `picoquic_incoming_packet`.  The slave iteration assigns it to `ret`,
skips the send drain and ends with `ret = 7`; the iteration of
`picoquic_packet_loop` on the same descriptor and answers discards it, runs
the drain and ends with `ret = 0`. -/
theorem incoming_result_counterexample :
    (slave_iteration linux false (slave_start world_slave 4433) slave_iter_refused).1.map
        (fun s => s.ret) = some 7 ∧
    (slave_iteration linux false (slave_start world_slave 4433) slave_iter_refused).2.filter
        Event.is_drain_call = [] ∧
    (loop_iteration linux false (with_slot_sockets (slave_start world_slave 4433) slot_a)
        slave_iter_refused.answers).1.map (fun s => s.ret) = some 0 ∧
    (loop_iteration linux false (with_slot_sockets (slave_start world_slave 4433) slot_a)
        slave_iter_refused.answers).2.filter Event.is_drain_call =
      [Event.prepare_next_packet 100 0 0] := by
  decide

/-! ### The sample server: sending the file -/

theorem sub_u64_of_le (a b : Nat) (h : b ≤ a) (ha : a < 2 ^ 64) : sub_u64 a b = a - b := by
  unfold sub_u64
  have hb : b < 2 ^ 64 := by omega
  rw [Nat.mod_eq_of_lt ha, Nat.mod_eq_of_lt hb]
  have e : a + 2 ^ 64 - b = (a - b) + 2 ^ 64 := by omega
  rw [e, Nat.add_mod_right, Nat.mod_eq_of_lt]
  omega

theorem connection_context_no_provide (callback_ctx : CallbackCtx) (o : AppOutcome) :
    (connection_context callback_ctx o).2.filter AppEvent.is_provide = [] := by
  unfold connection_context
  cases callback_ctx with
  | own ctx => rfl
  | null => cases o.server_ctx_alloc <;> cases o.d_ctx <;> rfl
  | default_ctx => cases o.server_ctx_alloc <;> cases o.d_ctx <;> rfl

theorem callback_body_of_context (migration : Bool) (sl : SampleLayout) (stream_id : Nat)
    (bytes : List Nat) (length : Nat) (ev : CallbackEvent) (callback_ctx : CallbackCtx)
    (v : Option StreamCtx) (o : AppOutcome)
    (hc : (connection_context callback_ctx o).1.isSome = true) :
    ∃ sc, (connection_context callback_ctx o).1 = some sc ∧
      (callback_body migration sl stream_id bytes length ev callback_ctx v o).ret =
        (callback_switch migration sl sc stream_id bytes length ev v o).ret ∧
      (callback_body migration sl stream_id bytes length ev callback_ctx v o).server_ctx =
        (callback_switch migration sl sc stream_id bytes length ev v o).server_ctx ∧
      (callback_body migration sl stream_id bytes length ev callback_ctx v o).stream_ctx =
        (callback_switch migration sl sc stream_id bytes length ev v o).stream_ctx ∧
      (callback_body migration sl stream_id bytes length ev callback_ctx v o).events =
        (connection_context callback_ctx o).2 ++
          (callback_switch migration sl sc stream_id bytes length ev v o).events := by
  unfold callback_body
  rcases hcc : connection_context callback_ctx o with ⟨x, evs⟩
  rw [hcc] at hc
  cases x with
  | none => simp at hc
  | some sc => exact ⟨sc, rfl, rfl, rfl, rfl, rfl⟩

theorem prepare_to_send_branch_chunk (server_ctx : ServerCtx) (stream_id length : Nat)
    (s : StreamCtx) (o : AppOutcome) (hF : s.F = true) (hle : s.file_sent ≤ s.file_length)
    (hfl : s.file_length < 2 ^ 64) :
    (prepare_to_send_branch server_ctx stream_id length (some s) o).events.filter
        AppEvent.is_provide =
      [AppEvent.provide_stream_data_buffer (min (s.file_length - s.file_sent) length)
        (if s.file_length - s.file_sent ≤ length then 1 else 0)
        (if s.file_length - s.file_sent ≤ length then 0 else 1) o.buffer] ∧
    (o.buffer = true → o.nb_read = min (s.file_length - s.file_sent) length →
      (prepare_to_send_branch server_ctx stream_id length (some s) o).stream_ctx =
        some (with_file_sent s (s.file_sent + min (s.file_length - s.file_sent) length))) := by
  unfold prepare_to_send_branch
  simp only [hF, Bool.true_eq_false, if_false]
  rw [sub_u64_of_le _ _ hle hfl]
  have hdel : (sample_server_delete_stream_context s).filter AppEvent.is_provide = [] := by
    unfold sample_server_delete_stream_context
    simp only [hF, if_true]
    rfl
  by_cases hw : s.file_length - s.file_sent > length
  · have hmin : min (s.file_length - s.file_sent) length = length := by
      rw [Nat.min_def]; split_ifs <;> omega
    have hnle : ¬ s.file_length - s.file_sent ≤ length := by omega
    simp only [hw, if_true, hnle, if_false, hmin]
    cases hb : o.buffer with
    | false =>
      simp only [Bool.false_eq_true, if_false]
      refine ⟨rfl, ?_⟩
      intro h; cases h
    | true =>
      simp only [if_true]
      by_cases hr : o.nb_read = length
      · simp only [hr, ne_eq, not_true_eq_false, if_false]
        refine ⟨rfl, ?_⟩
        intro _ _
        have : (s.file_sent + length) % 2 ^ 64 = s.file_sent + length := by
          apply Nat.mod_eq_of_lt; omega
        rw [this]; simp [with_file_sent, hF]
      · simp only [ne_eq, hr, not_false_eq_true, if_true]
        refine ⟨?_, ?_⟩
        · simp only [List.filter_append, hdel]
          rfl
        · intro _ h; exact False.elim h
  · have hmin : min (s.file_length - s.file_sent) length = s.file_length - s.file_sent := by
      rw [Nat.min_def]; split_ifs <;> omega
    have hle2 : s.file_length - s.file_sent ≤ length := by omega
    simp only [hw, if_false, hle2, if_true, hmin]
    cases hb : o.buffer with
    | false =>
      simp only [Bool.false_eq_true, if_false]
      refine ⟨rfl, ?_⟩
      intro h; cases h
    | true =>
      simp only [if_true]
      by_cases hr : o.nb_read = s.file_length - s.file_sent
      · simp only [hr, ne_eq, not_true_eq_false, if_false]
        refine ⟨rfl, ?_⟩
        intro _ _
        have : (s.file_sent + (s.file_length - s.file_sent)) % 2 ^ 64 =
            s.file_sent + (s.file_length - s.file_sent) := by
          apply Nat.mod_eq_of_lt; omega
        rw [this]; simp [with_file_sent, hF]
      · simp only [ne_eq, hr, not_false_eq_true, if_true]
        refine ⟨?_, ?_⟩
        · simp only [List.filter_append, hdel]
          rfl
        · intro _ h; exact False.elim h

theorem callback_body_prepare_chunk (migration : Bool) (sl : SampleLayout) (stream_id : Nat)
    (bytes : List Nat) (length : Nat) (callback_ctx : CallbackCtx) (s : StreamCtx)
    (o : AppOutcome) (hc : (connection_context callback_ctx o).1.isSome = true)
    (hF : s.F = true) (hle : s.file_sent ≤ s.file_length) (hfl : s.file_length < 2 ^ 64) :
    (callback_body migration sl stream_id bytes length CallbackEvent.prepare_to_send
        callback_ctx (some s) o).events.filter AppEvent.is_provide =
      [AppEvent.provide_stream_data_buffer (min (s.file_length - s.file_sent) length)
        (if s.file_length - s.file_sent ≤ length then 1 else 0)
        (if s.file_length - s.file_sent ≤ length then 0 else 1) o.buffer] ∧
    (o.buffer = true → o.nb_read = min (s.file_length - s.file_sent) length →
      (callback_body migration sl stream_id bytes length CallbackEvent.prepare_to_send
          callback_ctx (some s) o).stream_ctx =
        some (with_file_sent s (s.file_sent + min (s.file_length - s.file_sent) length))) := by
  obtain ⟨sc, _, _, _, hs, he⟩ := callback_body_of_context migration sl stream_id bytes length
    CallbackEvent.prepare_to_send callback_ctx (some s) o hc
  have hb := prepare_to_send_branch_chunk sc stream_id length s o hF hle hfl
  have hsw : callback_switch migration sl sc stream_id bytes length
      CallbackEvent.prepare_to_send (some s) o =
      prepare_to_send_branch sc stream_id length (some s) o := rfl
  rw [hs, he, hsw, List.filter_append, connection_context_no_provide, List.nil_append]
  exact hb

/-- C30: in the `prepare_to_send` branch of `sample_server_callback` (and of
`sample_server_migration_callback`), for every stream context with an open file
and `file_sent ≤ file_length` and every offered length, the chunk asked of
`picoquic_provide_stream_data_buffer` is `min (file_length - file_sent) length`
and fin is signalled exactly when `file_length - file_sent ≤ length`; after a
complete read `file_sent` has grown by the chunk and nothing else in the stream
context has changed, `file_sent ≤ file_length` still holds, and
`file_sent = file_length` holds exactly when fin was signalled. -/
theorem prepare_to_send_chunk (sl : SampleLayout) (stream_id : Nat) (bytes : List Nat)
    (length : Nat) (callback_ctx : CallbackCtx) (s : StreamCtx) (o : AppOutcome)
    (hc : (connection_context callback_ctx o).1.isSome = true)
    (hF : s.F = true) (hle : s.file_sent ≤ s.file_length) (hfl : s.file_length < 2 ^ 64) :
    ∀ r, (r = sample_server_callback sl stream_id bytes length CallbackEvent.prepare_to_send
              callback_ctx (some s) o ∨
          r = sample_server_migration_callback sl stream_id bytes length
              CallbackEvent.prepare_to_send callback_ctx (some s) o) →
      r.events.filter AppEvent.is_provide =
        [AppEvent.provide_stream_data_buffer (min (s.file_length - s.file_sent) length)
          (if s.file_length - s.file_sent ≤ length then 1 else 0)
          (if s.file_length - s.file_sent ≤ length then 0 else 1) o.buffer] ∧
      (o.buffer = true → o.nb_read = min (s.file_length - s.file_sent) length →
        ∃ s1, r.stream_ctx = some s1 ∧
          s1 = with_file_sent s (s.file_sent + min (s.file_length - s.file_sent) length) ∧
          s1.file_sent ≤ s1.file_length ∧
          (s1.file_sent = s1.file_length ↔ s.file_length - s.file_sent ≤ length)) := by
  intro r hr
  have key : ∀ migration, r = callback_body migration sl stream_id bytes length
      CallbackEvent.prepare_to_send callback_ctx (some s) o →
      r.events.filter AppEvent.is_provide =
        [AppEvent.provide_stream_data_buffer (min (s.file_length - s.file_sent) length)
          (if s.file_length - s.file_sent ≤ length then 1 else 0)
          (if s.file_length - s.file_sent ≤ length then 0 else 1) o.buffer] ∧
      (o.buffer = true → o.nb_read = min (s.file_length - s.file_sent) length →
        ∃ s1, r.stream_ctx = some s1 ∧
          s1 = with_file_sent s (s.file_sent + min (s.file_length - s.file_sent) length) ∧
          s1.file_sent ≤ s1.file_length ∧
          (s1.file_sent = s1.file_length ↔ s.file_length - s.file_sent ≤ length)) := by
    intro migration e
    obtain ⟨h1, h2⟩ := callback_body_prepare_chunk migration sl stream_id bytes length
      callback_ctx s o hc hF hle hfl
    rw [e]
    refine ⟨h1, ?_⟩
    intro hb hn
    refine ⟨_, h2 hb hn, rfl, ?_, ?_⟩
    · show s.file_sent + min (s.file_length - s.file_sent) length ≤ s.file_length
      rw [Nat.min_def]; split_ifs <;> omega
    · show s.file_sent + min (s.file_length - s.file_sent) length = s.file_length ↔ _
      rw [Nat.min_def]; split_ifs <;> omega
  rcases hr with h | h
  · exact key false h
  · exact key true h

/-- Witness of C30: a stream with 400 of 1000 bytes sent is offered 256 bytes: 256
bytes are asked for without fin, and after the read 656 bytes are sent. -/
theorem prepare_to_send_chunk_witness :
    (sample_server_callback layout_256 4 [] 256 CallbackEvent.prepare_to_send
        (CallbackCtx.own (server_ctx_in [] 0 0)) (some stream_sending)
        (app_ok (server_ctx_in [] 0 0) 0 256)).events.filter AppEvent.is_provide =
      [AppEvent.provide_stream_data_buffer 256 0 1 true] ∧
    (sample_server_callback layout_256 4 [] 256 CallbackEvent.prepare_to_send
        (CallbackCtx.own (server_ctx_in [] 0 0)) (some stream_sending)
        (app_ok (server_ctx_in [] 0 0) 0 256)).stream_ctx.map (fun s => s.file_sent) =
      some 656 :=
  ⟨(prepare_to_send_chunk layout_256 4 [] 256 (CallbackCtx.own (server_ctx_in [] 0 0))
      stream_sending (app_ok (server_ctx_in [] 0 0) 0 256) rfl rfl (by decide) (by decide) _
      (Or.inl rfl)).1, by decide⟩

/-! ### The sample server: the two character arrays -/

theorem open_stream_rejected (sl : SampleLayout) (server_ctx : ServerCtx)
    (stream_ctx : StreamCtx) (o : AppOutcome)
    (h : (server_ctx.default_dir_len + stream_ctx.name_length + 1) % 2 ^ 64 > 1024) :
    (sample_server_open_stream sl server_ctx stream_ctx o).1 =
      PICOQUIC_SAMPLE_NAME_TOO_LONG_ERROR ∧
    (sample_server_open_stream sl server_ctx stream_ctx o).2.2 = [] := by
  unfold sample_server_open_stream
  simp only [h, if_true]
  exact ⟨by trivial, by trivial⟩

set_option maxRecDepth 200000 in
/-- C28 at the failing input: the server is started in a directory whose name has 1000
characters and does not end with the separator, and a file name of 23
characters is asked for.  The length check passes (1000 + 23 + 1 = 1024), the
function goes on to open the file, and the terminator is stored in
`file_path[1024]`, one entry after the end of the array; the same holds of
`sample_server_open_stream_for_migration`. -/
theorem open_stream_terminator_outside :
    (sample_server_open_stream layout_256 (server_ctx_in (List.replicate 1000 97) 0 0)
        (stream_named 23) (app_no_file (server_ctx_in [] 0 0))).1 =
      PICOQUIC_SAMPLE_NO_SUCH_FILE_ERROR ∧
    (sample_server_open_stream layout_256 (server_ctx_in (List.replicate 1000 97) 0 0)
        (stream_named 23) (app_no_file (server_ctx_in [] 0 0))).2.2.filter
        (fun e => decide (1024 < e.file_path_end)) = [AppEvent.store_file_path 1024 0] ∧
    (sample_server_open_stream_for_migration layout_256
        (server_ctx_in (List.replicate 1000 97) 0 1) (stream_named 23)
        (app_no_file (server_ctx_in [] 0 0))).2.2.filter
        (fun e => decide (1024 < e.file_path_end)) = [AppEvent.store_file_path 1024 0] := by
  decide

theorem stream_data_name_length (migration : Bool) (sl : SampleLayout) (server_ctx : ServerCtx)
    (stream_id : Nat) (bytes : List Nat) (length : Nat) (fin : Bool) (s : StreamCtx)
    (o : AppOutcome) (hsize : sl.file_name_size < 2 ^ 64)
    (hn : s.name_length + 1 ≤ sl.file_name_size) :
    ∀ s1, (stream_data_branch migration sl server_ctx stream_id bytes length fin (some s)
        o).stream_ctx = some s1 → s1.name_length + 1 ≤ sl.file_name_size := by
  intro s1
  have hav : sub_u64 (sub_u64 sl.file_name_size s.name_length) 1 =
      sl.file_name_size - s.name_length - 1 := by
    rw [sub_u64_of_le _ _ (by omega) hsize, sub_u64_of_le _ _ (by omega) (by omega)]
  unfold stream_data_branch
  simp only [hav]
  by_cases h1 : s.is_name_read ≠ 0
  · rw [if_pos h1]
    intro h
    have := Option.some.inj h
    rw [← this]; exact hn
  · rw [if_neg h1]
    by_cases h2 : length > sl.file_name_size - s.name_length - 1
    · rw [if_pos h2]
      intro h; cases h
    · rw [if_neg h2]
      have hmod : (s.name_length + length) % 2 ^ 64 = s.name_length + length := by
        apply Nat.mod_eq_of_lt; omega
      cases fin with
      | false =>
        simp only [Bool.false_eq_true, if_false]
        intro h
        have := Option.some.inj h
        rw [← this]
        split_ifs
        · show (s.name_length + length) % 2 ^ 64 + 1 ≤ sl.file_name_size
          rw [hmod]; omega
        · exact hn
      | true =>
        simp only [if_true]
        unfold stream_fin_part
        simp only
        split_ifs with h3 h4
        · intro h
          have := Option.some.inj h
          rw [← this]
          unfold sample_server_open_stream
          simp only
          split_ifs <;>
            first
            | (show (s.name_length + length) % 2 ^ 64 + 1 ≤ sl.file_name_size
               rw [hmod]; omega)
        · intro h; cases h
        · intro h
          have := Option.some.inj h
          rw [← this]
          unfold sample_server_open_stream
          simp only
          split_ifs <;> exact hn
        · intro h; cases h

set_option maxRecDepth 200000 in
/-- C29 at the failing input: `file_name` has 256 entries and a name of 255 characters
arrives in one `stream_fin` event on a new stream.  The chunk is accepted
(255 ≤ 256 - 0 - 1), `name_length` becomes 255, and the terminator is stored in
`file_name[256]`, one entry after the end of the array; the same holds of
`sample_server_migration_callback`. -/
theorem name_terminator_outside :
    (sample_server_callback layout_256 4 (List.replicate 255 98) 255 CallbackEvent.stream_fin
        (CallbackCtx.own (server_ctx_in [] 0 0)) none
        (app_ok (server_ctx_in [] 0 0) 10 0)).stream_ctx.map (fun s => s.name_length) =
      some 255 ∧
    (sample_server_callback layout_256 4 (List.replicate 255 98) 255 CallbackEvent.stream_fin
        (CallbackCtx.own (server_ctx_in [] 0 0)) none
        (app_ok (server_ctx_in [] 0 0) 10 0)).events.filter
        (fun e => decide (256 < e.file_name_end)) = [AppEvent.store_file_name 256 0] ∧
    (sample_server_migration_callback layout_256 4 (List.replicate 255 98) 255
        CallbackEvent.stream_fin (CallbackCtx.own (server_ctx_in [] 0 1)) none
        (app_ok (server_ctx_in [] 0 1) 10 0)).events.filter
        (fun e => decide (256 < e.file_name_end)) = [AppEvent.store_file_name 256 0] := by
  decide

/-! ### The migration request of the callback and the trigger of the master loop -/

theorem request_migration_flags (migration : Bool) (sc : ServerCtx) (s : StreamCtx) :
    (request_migration migration sc s).1.server_flag = sc.server_flag ∧
    ((request_migration migration sc s).1.migration_flag = sc.migration_flag ∨
      ((request_migration migration sc s).1.migration_flag = 1 ∧ sc.server_flag ≠ 0)) ∧
    (migration = true → sc.server_flag ≠ 0 →
      (request_migration migration sc s).1.migration_flag = 1) := by
  unfold request_migration
  by_cases h : migration = true ∧ sc.server_flag ≠ 0
  · rw [if_pos h]
    exact ⟨rfl, Or.inr ⟨rfl, h.2⟩, fun _ _ => rfl⟩
  · rw [if_neg h]
    exact ⟨rfl, Or.inl rfl, fun h1 h2 => absurd ⟨h1, h2⟩ h⟩

theorem stream_data_branch_flags (migration : Bool) (sl : SampleLayout) (sc : ServerCtx)
    (stream_id : Nat) (bytes : List Nat) (length : Nat) (fin : Bool) (v : Option StreamCtx)
    (o : AppOutcome) :
    ∀ c1, (stream_data_branch migration sl sc stream_id bytes length fin v o).server_ctx =
        some c1 →
      c1.server_flag = sc.server_flag ∧
      (c1.migration_flag = sc.migration_flag ∨ (c1.migration_flag = 1 ∧ sc.server_flag ≠ 0)) := by
  intro c1
  unfold stream_data_branch
  simp only
  split
  · intro h
    have := Option.some.inj h
    rw [← this]
    exact ⟨rfl, Or.inl rfl⟩
  · split_ifs <;> intro h <;> have e := Option.some.inj h <;> rw [← e] <;>
      first
      | exact ⟨rfl, Or.inl rfl⟩
      | exact ⟨(request_migration_flags _ _ _).1, (request_migration_flags _ _ _).2.1⟩

theorem stream_data_branch_raises (sl : SampleLayout) (sc : ServerCtx)
    (stream_id : Nat) (bytes : List Nat) (length : Nat) (fin : Bool) (s : StreamCtx)
    (o : AppOutcome) (h1 : s.is_name_read = 0)
    (h2 : length ≤ sub_u64 (sub_u64 sl.file_name_size s.name_length) 1)
    (h3 : sc.server_flag ≠ 0) :
    (stream_data_branch true sl sc stream_id bytes length fin (some s) o).server_ctx.map
      (fun c => c.migration_flag) = some 1 := by
  unfold stream_data_branch
  simp only
  have h1n : ¬ s.is_name_read ≠ 0 := by simp [h1]
  have h2n : ¬ length > sub_u64 (sub_u64 sl.file_name_size s.name_length) 1 := by omega
  rw [if_neg h1n, if_neg h2n]
  cases fin with
  | false =>
    simp only [Bool.false_eq_true, if_false, Option.map_some']
    rw [(request_migration_flags true sc _).2.2 rfl h3]
  | true =>
    simp only [if_true, Option.map_some']
    rw [(request_migration_flags true sc _).2.2 rfl h3]

theorem callback_switch_flags (migration : Bool) (sl : SampleLayout) (sc : ServerCtx)
    (stream_id : Nat) (bytes : List Nat) (length : Nat) (ev : CallbackEvent)
    (v : Option StreamCtx) (o : AppOutcome) :
    ∀ c1, (callback_switch migration sl sc stream_id bytes length ev v o).server_ctx = some c1 →
      c1.server_flag = sc.server_flag ∧
      (c1.migration_flag = sc.migration_flag ∨
        (c1.migration_flag = 1 ∧ sc.server_flag ≠ 0 ∧
          (ev = CallbackEvent.stream_data ∨ ev = CallbackEvent.stream_fin))) := by
  intro c1 h
  cases ev with
  | stream_data =>
    obtain ⟨a, b⟩ := stream_data_branch_flags migration sl sc stream_id bytes length false v o c1 h
    refine ⟨a, ?_⟩
    rcases b with b | b
    · exact Or.inl b
    · exact Or.inr ⟨b.1, b.2, Or.inl rfl⟩
  | stream_fin =>
    obtain ⟨a, b⟩ := stream_data_branch_flags migration sl sc stream_id bytes length true v o c1 h
    refine ⟨a, ?_⟩
    rcases b with b | b
    · exact Or.inl b
    · exact Or.inr ⟨b.1, b.2, Or.inr rfl⟩
  | prepare_to_send =>
    have hp : callback_switch migration sl sc stream_id bytes length
        CallbackEvent.prepare_to_send v o = prepare_to_send_branch sc stream_id length v o := rfl
    rw [hp] at h
    unfold prepare_to_send_branch at h
    cases v with
    | none =>
      have e := Option.some.inj h
      rw [← e]; exact ⟨rfl, Or.inl rfl⟩
    | some s =>
      simp only at h
      split_ifs at h <;> (have e := Option.some.inj h; rw [← e]; exact ⟨rfl, Or.inl rfl⟩)
  | stream_reset =>
    cases v with
    | none => have e := Option.some.inj h; rw [← e]; exact ⟨rfl, Or.inl rfl⟩
    | some s => have e := Option.some.inj h; rw [← e]; exact ⟨rfl, Or.inl rfl⟩
  | stop_sending =>
    cases v with
    | none => have e := Option.some.inj h; rw [← e]; exact ⟨rfl, Or.inl rfl⟩
    | some s => have e := Option.some.inj h; rw [← e]; exact ⟨rfl, Or.inl rfl⟩
  | stateless_reset => cases h
  | close => cases h
  | application_close => cases h
  | version_negotiation => have e := Option.some.inj h; rw [← e]; exact ⟨rfl, Or.inl rfl⟩
  | stream_gap => have e := Option.some.inj h; rw [← e]; exact ⟨rfl, Or.inl rfl⟩
  | almost_ready => have e := Option.some.inj h; rw [← e]; exact ⟨rfl, Or.inl rfl⟩
  | ready => have e := Option.some.inj h; rw [← e]; exact ⟨rfl, Or.inl rfl⟩
  | other => have e := Option.some.inj h; rw [← e]; exact ⟨rfl, Or.inl rfl⟩

theorem master_iteration_migrate_count (c : Platform) (cb : Bool) (m : MasterState)
    (o : MasterOutcome) :
    (master_iteration c cb m o).2.count Event.shallow_migrate =
      (if 0 < o.it.sel.bytes_recv ∧ trigger_fires o = true then 1 else 0) := by
  have hf := master_iteration_trigger_calls c cb m o
  have hc : (master_iteration c cb m o).2.count Event.shallow_migrate =
      ((master_iteration c cb m o).2.filter Event.is_trigger_call).count Event.shallow_migrate := by
    rw [List.count_filter]
    rfl
  rw [hc, hf]
  by_cases h : 0 < o.it.sel.bytes_recv ∧ trigger_fires o = true
  · rw [if_pos h, if_pos h]
    cases m.cnx_id_table <;> simp [List.count_cons]
  · rw [if_neg h, if_neg h]
    rfl

/-! ### The lookup in the ownership table -/

theorem filter_lookup_nil (l : List Event) (h : ∀ e ∈ l, e.is_table_lookup = false) :
    l.filter Event.is_table_lookup = [] := by
  induction l with
  | nil => rfl
  | cons a l ih =>
    have ha : a.is_table_lookup = false := h a (List.mem_cons_self a l)
    simp only [List.filter, ha]
    exact ih (fun e he => h e (List.mem_cons_of_mem a he))

theorem wait_step_no_lookup (st : LoopState) (o : IterOutcome) :
    ∀ e ∈ (wait_step st o).2, e.is_table_lookup = false := by
  have h : (wait_step st o).2.all (fun e => !e.is_table_lookup) = true := by
    unfold wait_step
    simp only
    split_ifs <;> rfl
  intro e he
  simpa using List.all_eq_true.1 h e he

theorem learn_port_no_lookup (c : Platform) (st : LoopState) (o : IterOutcome) :
    ∀ e ∈ (learn_port c st o).2, e.is_table_lookup = false := by
  have h : (learn_port c st o).2.all (fun e => !e.is_table_lookup) = true := by
    unfold learn_port
    split_ifs <;> rfl
  intro e he
  simpa using List.all_eq_true.1 h e he

theorem migration_trigger_no_lookup (c : Platform) (m : MasterState) (o : MasterOutcome) :
    ∀ e ∈ (migration_trigger c m o).2.2, e.is_table_lookup = false := by
  intro e he
  rw [migration_trigger_calls] at he
  split_ifs at he
  · cases hm : m.cnx_id_table with
    | none =>
      rw [hm] at he
      simp at he
      rcases he with h | h <;> subst h <;> rfl
    | some t =>
      rw [hm] at he
      simp at he
      rcases he with h | h | h <;> subst h <;> rfl
  · simp at he

theorem master_send_part_no_lookup (c : Platform) (cb : Bool) (m : MasterState)
    (o : MasterOutcome) : ∀ e ∈ (master_send_part c cb m o).2, e.is_table_lookup = false := by
  intro e he
  unfold master_send_part at he
  simp only at he
  have hd : ∀ x ∈ (send_drain c m.loop o.it.prepares).2, x.is_table_lookup = false := by
    intro x hx
    have := send_drain_calls c _ _ x hx
    cases x <;> first | rfl | (simp [Event.is_drain_call] at this)
  split at he
  · exact hd e he
  · simp only [List.mem_append] at he
    rcases he with (h | h) | h
    · exact hd e h
    · unfold after_send_step at h
      split_ifs at h <;> simp at h
      subst h; rfl
    · have := simulate_step_calls c _ _ e h
      cases e <;> first | rfl | (simp [Event.is_simulate_call] at this)

/-- The key and the table the lookup of line 611 is made with. -/
theorem migration_trigger_lookup (c : Platform) (m : MasterState) (o : MasterOutcome)
    (table : List String) (ht : m.cnx_id_table = some table) :
    (migration_trigger c m o).2.1 = lookup_key c o ∧
    (migration_trigger c m o).1.cnx_id_table = some (lookup_table c o table) := by
  unfold migration_trigger lookup_key lookup_table trigger_fires trigger_key
  cases h1 : o.cnx_list with
  | none => simp [ht]
  | some v =>
    cases h2 : v.callback_ctx with
    | none => simp [h2, ht]
    | some ctx =>
      by_cases h3 : ctx.migration_flag = 0
      · simp [h2, h3, ht]
      · simp [h2, h3, ht]

theorem master_receive_step_routing (c : Platform) (cb : Bool) (m : MasterState)
    (o : MasterOutcome) (table : List String) (ht : m.cnx_id_table = some table) :
    (master_receive_step c cb m o).2.2.filter Event.is_table_lookup =
      [Event.hashmap_get (lookup_key c o)
        (hashmap_get (lookup_table c o table) (lookup_key c o))] ∧
    (hashmap_get (lookup_table c o table) (lookup_key c o) = true →
      (master_receive_step c cb m o).2.1 = ReceiveEnd.handed_off ∧
      (master_receive_step c cb m o).1.loop.ret = m.loop.ret ∧
      (master_receive_step c cb m o).1.slot.trans_bytes = o.it.sel.bytes_recv ∧
      (master_receive_step c cb m o).1.slot.trans_buffer = o.it.sel.buffer ∧
      (master_receive_step c cb m o).1.slot.trans_addr_from = o.it.sel.addr_from ∧
      (master_receive_step c cb m o).1.slot.trans_if_index_to = o.it.sel.if_index_to ∧
      (master_receive_step c cb m o).1.slot.trans_received_ecn = o.it.sel.received_ecn ∧
      (master_receive_step c cb m o).1.slot.trans_socket_rank = o.it.sel.socket_rank ∧
      (master_receive_step c cb m o).1.slot.trans_current_time = m.loop.current_time ∧
      Event.slot_write (master_receive_step c cb m o).1.slot
        ∈ (master_receive_step c cb m o).2.2 ∧
      Event.cond_signal ∈ (master_receive_step c cb m o).2.2 ∧
      ∀ e ∈ (master_receive_step c cb m o).2.2, e.is_local_processing = false) ∧
    (hashmap_get (lookup_table c o table) (lookup_key c o) = false →
      (master_receive_step c cb m o).2.1 = ReceiveEnd.submitted ∧
      (master_receive_step c cb m o).1.slot = m.slot ∧
      (∀ e ∈ (master_receive_step c cb m o).2.2, e.is_handoff = false) ∧
      ∃ addr_to rc, Event.incoming_packet o.it.sel.buffer o.it.sel.bytes_recv
        o.it.sel.addr_from addr_to o.it.sel.if_index_to o.it.sel.received_ecn
        m.loop.current_time rc ∈ (master_receive_step c cb m o).2.2) := by
  have hlp := learn_port_plain c m.loop o.it
  have hlr := learn_port_ret c m.loop o.it
  have hlq := filter_lookup_nil _ (learn_port_no_lookup c m.loop o.it)
  have hlt : (learn_port c m.loop o.it).1.current_time = m.loop.current_time := by
    unfold learn_port
    split_ifs <;> rfl
  have htp := migration_trigger_plain c { m with loop := (learn_port c m.loop o.it).1 } o
  have htq := filter_lookup_nil _
    (migration_trigger_no_lookup c { m with loop := (learn_port c m.loop o.it).1 } o)
  have hk := migration_trigger_lookup c { m with loop := (learn_port c m.loop o.it).1 } o
    table ht
  obtain ⟨hslot, hloop, _⟩ :=
    migration_trigger_frame c { m with loop := (learn_port c m.loop o.it).1 } o
  generalize hT : migration_trigger c { m with loop := (learn_port c m.loop o.it).1 } o = T
    at htp htq hk hslot hloop
  obtain ⟨m2, key, tev⟩ := T
  simp only at htp htq hk hslot hloop
  obtain ⟨hk1, ht1⟩ := hk
  subst hk1
  unfold master_receive_step
  simp only [hT, ht1]
  cases hg : hashmap_get (lookup_table c o table) (lookup_key c o) with
  | true =>
    simp only [if_true]
    refine ⟨?_, fun _ => ⟨by trivial, ?_, by trivial, by trivial, by trivial, by trivial,
      by trivial, by trivial, ?_, by simp, by simp, ?_⟩, fun h => by simp at h⟩
    · simp only [List.filter_append, hlq, htq, List.nil_append]
      rfl
    · show m2.loop.ret = m.loop.ret
      rw [hloop]; exact hlr
    · show m2.loop.current_time = m.loop.current_time
      rw [hloop]; exact hlt
    · intro e he
      simp only [List.mem_append, List.mem_cons, List.mem_singleton, List.not_mem_nil,
        or_false] at he
      rcases he with (h | h) | h | h | h | h | h
      · exact (hlp e h).2
      · exact (htp e h).2
      all_goals subst h; rfl
  | false =>
    simp only [Bool.false_eq_true, if_false]
    have hct : m2.loop.current_time = m.loop.current_time := by rw [hloop]; exact hlt
    cases cb with
    | true =>
      simp only [if_true]
      refine ⟨?_, fun h => by simp at h, fun _ => ⟨by trivial, hslot, ?_,
        document_port c o.it.sel.addr_to
          (current_recv_port (learn_port c m.loop o.it).1 o.it.sel.socket_rank),
        o.it.incoming_rc, ?_⟩⟩
      · simp only [List.filter_append, hlq, htq, List.nil_append]
        rfl
      · intro e he
        simp only [List.mem_append, List.mem_cons, List.mem_singleton, List.not_mem_nil,
          or_false] at he
        rcases he with (h | h) | h | h | h
        · exact (hlp e h).1
        · exact (htp e h).1
        all_goals subst h; rfl
      · rw [← hct]; simp
    | false =>
      simp only [Bool.false_eq_true, if_false]
      refine ⟨?_, fun h => by simp at h, fun _ => ⟨by trivial, hslot, ?_,
        document_port c o.it.sel.addr_to
          (current_recv_port (learn_port c m.loop o.it).1 o.it.sel.socket_rank),
        o.it.incoming_rc, ?_⟩⟩
      · simp only [List.filter_append, hlq, htq, List.nil_append]
        rfl
      · intro e he
        simp only [List.mem_append, List.mem_cons, List.mem_singleton, List.not_mem_nil,
          or_false] at he
        rcases he with (h | h) | h | h
        · exact (hlp e h).1
        · exact (htp e h).1
        all_goals subst h; rfl
      · rw [← hct]; simp

/-- C10: in the master loop every received datagram (`bytes_recv > 0`, table not
`NULL`) meets exactly one lookup in the ownership table, made with the content
of `key` (`lookup_key`) in the table as it is then (`lookup_table`), and the
result of that lookup decides between two courses.  On a hit the descriptor of
the datagram is written to the shared slot and the condition variable is
signalled, the iteration ends there with `ret` unchanged, and neither
`picoquic_incoming_packet` nor the loop callback nor the send drain is called
in it.  On a miss the slot is not written, no signal is sent, and the datagram
is passed to `picoquic_incoming_packet`. -/
theorem master_datagram_routing (c : Platform) (cb : Bool) (m : MasterState)
    (o : MasterOutcome) (table : List String)
    (hb : 0 < o.it.sel.bytes_recv) (ht : m.cnx_id_table = some table) :
    (master_iteration c cb m o).2.filter Event.is_table_lookup =
      [Event.hashmap_get (lookup_key c o)
        (hashmap_get (lookup_table c o table) (lookup_key c o))] ∧
    (hashmap_get (lookup_table c o table) (lookup_key c o) = true →
      (∃ m1, (master_iteration c cb m o).1 = some m1 ∧
        m1.loop.ret = m.loop.ret ∧
        m1.slot.trans_bytes = o.it.sel.bytes_recv ∧
        m1.slot.trans_buffer = o.it.sel.buffer ∧
        m1.slot.trans_addr_from = o.it.sel.addr_from ∧
        m1.slot.trans_if_index_to = o.it.sel.if_index_to ∧
        m1.slot.trans_received_ecn = o.it.sel.received_ecn ∧
        m1.slot.trans_socket_rank = o.it.sel.socket_rank ∧
        m1.slot.trans_current_time = o.it.sel.current_time ∧
        Event.slot_write m1.slot ∈ (master_iteration c cb m o).2) ∧
      Event.cond_signal ∈ (master_iteration c cb m o).2 ∧
      ∀ e ∈ (master_iteration c cb m o).2, e.is_local_processing = false) ∧
    (hashmap_get (lookup_table c o table) (lookup_key c o) = false →
      (∀ e ∈ (master_iteration c cb m o).2, e.is_handoff = false) ∧
      (∃ addr_to rc, Event.incoming_packet o.it.sel.buffer o.it.sel.bytes_recv
        o.it.sel.addr_from addr_to o.it.sel.if_index_to o.it.sel.received_ecn
        o.it.sel.current_time rc ∈ (master_iteration c cb m o).2) ∧
      ∀ m1, (master_iteration c cb m o).1 = some m1 → m1.slot = m.slot) := by
  have hnb : ¬ o.it.sel.bytes_recv < 0 := by omega
  have hwp := wait_step_plain m.loop o.it
  have hwq := filter_lookup_nil _ (wait_step_no_lookup m.loop o.it)
  have hwr := wait_step_ret m.loop o.it
  have hwt := wait_step_time m.loop o.it
  obtain ⟨hmem, hhit, hmiss⟩ :=
    master_receive_step_routing c cb { m with loop := (wait_step m.loop o.it).1 } o table ht
  refine ⟨?_, ?_, ?_⟩
  · unfold master_iteration
    simp only [hnb, if_false, hb, gt_iff_lt, if_true]
    split
    · simp only [List.filter_append, hwq, hmem, List.nil_append]
    · simp only [List.filter_append, hwq, hmem, List.nil_append]
    · simp only [List.filter_append, hwq, hmem, List.nil_append,
        filter_lookup_nil _ (master_send_part_no_lookup c cb _ o), List.append_nil]
  · intro hfound
    obtain ⟨h1, h2, h3, h4, h5, h6, h7, h8, h9, h10, h11, h12⟩ := hhit hfound
    unfold master_iteration
    simp only [hnb, if_false, hb, gt_iff_lt, if_true, h1]
    refine ⟨⟨_, rfl, ?_, h3, h4, h5, h6, h7, h8, ?_, ?_⟩, ?_, ?_⟩
    · rw [h2]; exact hwr
    · rw [h9]; exact hwt
    · exact List.mem_append_right _ h10
    · exact List.mem_append_right _ h11
    · intro e he
      rcases List.mem_append.1 he with h | h
      · exact (hwp e h).2
      · exact h12 e h
  · intro hfound
    obtain ⟨h1, h2, h3, addr_to, rc, h4⟩ := hmiss hfound
    unfold master_iteration
    simp only [hnb, if_false, hb, gt_iff_lt, if_true, h1]
    refine ⟨?_, ⟨addr_to, rc, ?_⟩, ?_⟩
    · intro e he
      simp only [List.mem_append] at he
      rcases he with (h | h) | h
      · exact (hwp e h).1
      · exact h3 e h
      · exact master_send_part_no_handoff c cb _ o e h
    · rw [← hwt]
      exact List.mem_append_left _ (List.mem_append_right _ h4)
    · intro m1 hm1
      rw [(master_send_part_slot c cb _ m1 o hm1).1, h2]

/-- Witness of C10, a miss and a hit.  With an empty table the datagram from
`10.0.0.1:5000` is looked up under the content of `key`, is not found and is
passed to `picoquic_incoming_packet`, and nothing is handed off.  With the key
`10.0.0.1:5000` in the table and in the array `key`, the lookup hits: the
datagram is written to the slot and signalled, and nothing is processed
locally. -/
theorem master_datagram_routing_witness :
    ((master_iteration linux false master_started (master_iter peer_a 100 0 "")).2.filter
        Event.is_table_lookup = [Event.hashmap_get "" false] ∧
      (∀ e ∈ (master_iteration linux false master_started (master_iter peer_a 100 0 "")).2,
        e.is_handoff = false) ∧
      ∃ addr_to rc, Event.incoming_packet [1, 2, 3, 4, 5, 6, 7, 8, 9, 10, 11, 12] 12 peer_a
        addr_to 1 0 100 rc
        ∈ (master_iteration linux false master_started (master_iter peer_a 100 0 "")).2) ∧
    ((master_iteration linux false master_with_key
        (master_iter peer_a 100 0 "10.0.0.1:5000")).2.filter Event.is_table_lookup =
        [Event.hashmap_get "10.0.0.1:5000" true] ∧
      Event.cond_signal ∈ (master_iteration linux false master_with_key
        (master_iter peer_a 100 0 "10.0.0.1:5000")).2 ∧
      ∀ e ∈ (master_iteration linux false master_with_key
          (master_iter peer_a 100 0 "10.0.0.1:5000")).2, e.is_local_processing = false) :=
  ⟨⟨(master_datagram_routing linux false master_started (master_iter peer_a 100 0 "") []
        (by decide) rfl).1,
      ((master_datagram_routing linux false master_started (master_iter peer_a 100 0 "") []
        (by decide) rfl).2.2 (by decide)).1,
      ((master_datagram_routing linux false master_started (master_iter peer_a 100 0 "") []
        (by decide) rfl).2.2 (by decide)).2.1⟩,
   ⟨(master_datagram_routing linux false master_with_key
        (master_iter peer_a 100 0 "10.0.0.1:5000") ["10.0.0.1:5000"] (by decide) rfl).1,
      ((master_datagram_routing linux false master_with_key
        (master_iter peer_a 100 0 "10.0.0.1:5000") ["10.0.0.1:5000"] (by decide) rfl).2.1
        (by decide)).2.1,
      ((master_datagram_routing linux false master_with_key
        (master_iter peer_a 100 0 "10.0.0.1:5000") ["10.0.0.1:5000"] (by decide) rfl).2.1
        (by decide)).2.2⟩⟩

/-! ### The trigger on the callback contexts the program makes -/

theorem callback_keeps_guard (migration : Bool) (sl : SampleLayout) (stream_id : Nat)
    (bytes : List Nat) (length : Nat) (ev : CallbackEvent) (callback_ctx : CallbackCtx)
    (v : Option StreamCtx) (a : AppOutcome)
    (hg : ∀ sc, (connection_context callback_ctx a).1 = some sc →
      sc.migration_ctx.flag_guarded) :
    ∀ c1, (callback_body migration sl stream_id bytes length ev callback_ctx v a).server_ctx =
        some c1 → c1.migration_ctx.flag_guarded := by
  intro c1 h
  cases hc : (connection_context callback_ctx a).1 with
  | none =>
    unfold callback_body at h
    rcases hcc : connection_context callback_ctx a with ⟨x, evs⟩
    rw [hcc] at hc h
    simp only at hc
    subst hc
    simp at h
  | some sc0 =>
    obtain ⟨sc, e1, _, e3, _, _⟩ := callback_body_of_context migration sl stream_id bytes length
      ev callback_ctx v a (by rw [hc]; rfl)
    rw [e3] at h
    obtain ⟨f1, f2⟩ := callback_switch_flags migration sl sc stream_id bytes length ev v a c1 h
    have hsc := hg sc e1
    intro hm
    show c1.server_flag ≠ 0
    rcases f2 with f | ⟨_, f, _⟩
    · rw [f1]
      apply hsc
      show sc.migration_flag ≠ 0
      rw [← f]
      exact hm
    · rw [f1]; exact f

/-- C23: in `picoquic_packet_loop_with_migration_master`, on a callback context as the
program makes them (`migration_flag` raised only where `server_flag` is set)
and with the ownership table it is given, `picoquic_shallow_migrate` is called
in an iteration if and only if a datagram was received, the first connection
of the primary engine exists, its callback context is not `NULL`, and that
context has `migration_flag` raised with `server_flag` set.  When it is called,
the calls of the trigger are the write `migration_flag = 0`, then
`picoquic_shallow_migrate`, then `hashmap_put` of the text of the path-0 peer
address of that connection, and the iteration ends with that key in the
table.  The contexts the program makes do have the property assumed: both
default contexts have it, the write of line 571 keeps it, and so does every
invocation of `sample_server_migration_callback`. -/
theorem shallow_migrate_trigger (c : Platform) (cb : Bool) (m : MasterState)
    (o : MasterOutcome) (t : List String) (ht : m.cnx_id_table = some t)
    (hg : ∀ v ctx, o.cnx_list = some v → v.callback_ctx = some ctx → ctx.flag_guarded) :
    (Event.shallow_migrate ∈ (master_iteration c cb m o).2 ↔
      0 < o.it.sel.bytes_recv ∧
      ∃ v ctx, o.cnx_list = some v ∧ v.callback_ctx = some ctx ∧
        ctx.migration_flag ≠ 0 ∧ ctx.server_flag ≠ 0) ∧
    (Event.shallow_migrate ∈ (master_iteration c cb m o).2 →
      ∃ v, o.cnx_list = some v ∧
        (master_iteration c cb m o).2.filter Event.is_trigger_call =
          [Event.clear_migration_flag, Event.shallow_migrate,
           Event.hashmap_put (c.picoquic_addr_text v.cnx.path0_peer_addr)] ∧
        ∃ m1, (master_iteration c cb m o).1 = some m1 ∧
          m1.cnx_id_table =
            some (hashmap_put t (c.picoquic_addr_text v.cnx.path0_peer_addr))) ∧
    (Event.shallow_migrate ∉ (master_iteration c cb m o).2 →
      (master_iteration c cb m o).2.filter Event.is_trigger_call = []) ∧
    (∀ dir, (default_context dir).migration_ctx.flag_guarded ∧
      (default_migration_context dir).migration_ctx.flag_guarded) ∧
    (∀ x : MigrationCtx, (migration_flag_cleared x).flag_guarded) ∧
    (∀ sl stream_id bytes length ev callback_ctx v a,
      (∀ sc, (connection_context callback_ctx a).1 = some sc → sc.migration_ctx.flag_guarded) →
      ∀ c1, (sample_server_migration_callback sl stream_id bytes length ev callback_ctx
          v a).server_ctx = some c1 → c1.migration_ctx.flag_guarded) := by
  have hiff := shallow_migrate_iff_flag c cb m o
  have hf := master_iteration_trigger_calls c cb m o
  refine ⟨?_, ?_, ?_, ?_, ?_, ?_⟩
  · rw [hiff]
    constructor
    · rintro ⟨hb, v, ctx, hv, hc, hm⟩
      exact ⟨hb, v, ctx, hv, hc, hm, hg v ctx hv hc hm⟩
    · rintro ⟨hb, v, ctx, hv, hc, hm, _⟩
      exact ⟨hb, v, ctx, hv, hc, hm⟩
  · intro h
    obtain ⟨hb, v, ctx, hv, hc, hm⟩ := hiff.1 h
    have hfire : trigger_fires o = true := (trigger_fires_iff o).2 ⟨v, ctx, hv, hc, hm⟩
    refine ⟨v, hv, ?_, ?_⟩
    · rw [hf, if_pos ⟨hb, hfire⟩, ht]
      simp only [trigger_key, hv]
    · obtain ⟨d, _, _, _, _, _, _, m1, h7, _, _, h10, _⟩ :=
        trigger_iteration_handoff c cb m o t v ctx hb ht hv hc hm
      exact ⟨m1, h7, h10⟩
  · intro h
    rw [hf]
    by_cases hc : 0 < o.it.sel.bytes_recv ∧ trigger_fires o = true
    · exfalso
      apply h
      obtain ⟨v, ctx, hv, hcc, hm⟩ := (trigger_fires_iff o).1 hc.2
      exact hiff.2 ⟨hc.1, v, ctx, hv, hcc, hm⟩
    · rw [if_neg hc]
  · intro dir
    exact ⟨fun h => absurd rfl h, fun _ => by show (1 : Int) ≠ 0; decide⟩
  · intro x h
    exact absurd rfl h
  · intro sl stream_id bytes length ev callback_ctx v a hsc c1 h
    exact callback_keeps_guard true sl stream_id bytes length ev callback_ctx v a hsc c1 h

/-- Witness of C23: on Linux the master loop, started on port 4433 with an empty table,
receives a datagram while the context of the first connection has both flags
set: the flag is cleared, `picoquic_shallow_migrate` is called and the key
`10.0.0.1:5000` is inserted. -/
theorem shallow_migrate_trigger_witness :
    Event.shallow_migrate ∈
      (master_iteration linux false master_started (master_iter peer_a 100 1 "")).2 ∧
    ∃ v, (master_iter peer_a 100 1 "").cnx_list = some v ∧
      (master_iteration linux false master_started
          (master_iter peer_a 100 1 "")).2.filter Event.is_trigger_call =
        [Event.clear_migration_flag, Event.shallow_migrate,
         Event.hashmap_put (linux.picoquic_addr_text v.cnx.path0_peer_addr)] ∧
      ∃ m1, (master_iteration linux false master_started
          (master_iter peer_a 100 1 "")).1 = some m1 ∧
        m1.cnx_id_table =
          some (hashmap_put [] (linux.picoquic_addr_text v.cnx.path0_peer_addr)) :=
  ⟨by decide,
   (shallow_migrate_trigger linux false master_started (master_iter peer_a 100 1 "") [] rfl
      (fun v ctx hv hc _ => by
        simp only [master_iter, Option.some.injEq] at hv
        subst hv
        simp only [Option.some.injEq] at hc
        subst hc
        decide)).2.1 (by decide)⟩

/-! ### `picoquic_shallow_migrate` is called once for a connection -/

theorem cnx_ids_deliver (sl : SampleLayout) (id stream_id : Nat) (bytes : List Nat)
    (length : Nat) (ev : CallbackEvent) (v : Option StreamCtx) (a : AppOutcome)
    (l : List EngineCnx) :
    cnx_ids (l.map (deliver_to sl id stream_id bytes length ev v a)) = cnx_ids l := by
  unfold cnx_ids
  rw [List.map_map]
  apply List.map_congr_left
  intro x _
  simp only [Function.comp, deliver_to]
  split_ifs <;> rfl

theorem cnx_ids_steps (sl : SampleLayout) (steps : List EngineStep) :
    ∀ e : Engines, (cnx_ids (steps.foldl (engine_step sl) e).primary).Perm
      (accepted_ids steps ++ cnx_ids e.primary) := by
  induction steps with
  | nil => intro e; exact List.Perm.refl _
  | cons s steps ih =>
    intro e
    rw [List.foldl_cons]
    cases s with
    | accept cnx dir =>
      refine (ih _).trans ?_
      show (accepted_ids steps ++ (cnx.id :: cnx_ids e.primary)).Perm
        (cnx.id :: accepted_ids steps ++ cnx_ids e.primary)
      exact List.perm_middle
    | deliver id stream_id bytes length ev v a =>
      refine (ih _).trans ?_
      show (accepted_ids steps ++
        cnx_ids (e.primary.map (deliver_to sl id stream_id bytes length ev v a))).Perm
        (accepted_ids steps ++ cnx_ids e.primary)
      rw [cnx_ids_deliver]

theorem cnx_ids_clear (e : Engines) :
    cnx_ids (clear_first_flag e).primary = cnx_ids e.primary := by
  cases hp : e.primary with
  | nil => simp [clear_first_flag, hp, cnx_ids]
  | cons x rest => simp [clear_first_flag, hp, cnx_ids]

theorem migrate_calls_ids (n : Nat) :
    ∀ e : Engines, ∃ k, (migrate_calls n e).2 = (cnx_ids e.primary).take k ∧
      cnx_ids (migrate_calls n e).1.primary = (cnx_ids e.primary).drop k := by
  induction n with
  | zero => intro e; exact ⟨0, rfl, rfl⟩
  | succ n ih =>
    intro e
    cases hp : e.primary with
    | nil =>
      refine ⟨0, ?_, ?_⟩
      · simp [migrate_calls, hp]
      · simp [migrate_calls, hp]
    | cons x rest =>
      have hstep : (picoquic_shallow_migrate (clear_first_flag e)).primary = rest := by
        simp [picoquic_shallow_migrate, clear_first_flag, hp]
      obtain ⟨k, h1, h2⟩ := ih (picoquic_shallow_migrate (clear_first_flag e))
      rw [hstep] at h1 h2
      refine ⟨k + 1, ?_, ?_⟩
      · simp only [migrate_calls, hp]
        rw [h1]
        rfl
      · simp only [migrate_calls, hp]
        rw [h2]
        rfl

theorem migrate_calls_length (c : Platform) (cb : Bool) (m : MasterState) (o : MasterOutcome)
    (e : Engines) :
    (migrate_calls ((master_iteration c cb m { o with cnx_list := e.cnx_list }).2.count
      Event.shallow_migrate) e).2.length =
      (master_iteration c cb m { o with cnx_list := e.cnx_list }).2.count
        Event.shallow_migrate := by
  rw [master_iteration_migrate_count]
  split_ifs with h
  · have hf := (trigger_fires_iff _).1 h.2
    obtain ⟨v, _, hv, _, _⟩ := hf
    cases hp : e.primary with
    | nil => simp [Engines.cnx_list, hp] at hv
    | cons x rest => simp [migrate_calls, hp]
  · rfl

theorem dual_run_once (c : Platform) (cb : Bool) (sl : SampleLayout) (ds : List DualOutcome) :
    ∀ (m : MasterState) (e : Engines),
      (cnx_ids e.primary ++ run_accepted_ids ds).Nodup →
      (dual_run c cb sl ds m e).2.1.Nodup ∧
      (∀ x ∈ (dual_run c cb sl ds m e).2.1, x ∈ cnx_ids e.primary ++ run_accepted_ids ds) ∧
      (dual_run c cb sl ds m e).2.1.length =
        (dual_run c cb sl ds m e).1.count Event.shallow_migrate := by
  induction ds with
  | nil =>
    intro m e _
    exact ⟨List.nodup_nil, fun x hx => by simp [dual_run] at hx, rfl⟩
  | cons d ds ih =>
    intro m e hnd
    by_cases h0 : m.loop.ret = 0
    · have hperm := cnx_ids_steps sl d.steps e
      have hnd1 : (cnx_ids (d.steps.foldl (engine_step sl) e).primary ++
          run_accepted_ids ds).Nodup := by
        have hp : (cnx_ids (d.steps.foldl (engine_step sl) e).primary ++
            run_accepted_ids ds).Perm
            (cnx_ids e.primary ++ accepted_ids d.steps ++ run_accepted_ids ds) :=
          (hperm.trans List.perm_append_comm).append_right _
        have hnd2 : (cnx_ids e.primary ++ accepted_ids d.steps ++ run_accepted_ids ds).Nodup := by
          rw [List.append_assoc]
          exact hnd
        exact hp.nodup_iff.2 hnd2
      have hlen := migrate_calls_length c cb m d.o (d.steps.foldl (engine_step sl) e)
      obtain ⟨k, g1, g2⟩ := migrate_calls_ids
        ((master_iteration c cb m
          { d.o with cnx_list := (d.steps.foldl (engine_step sl) e).cnx_list }).2.count
            Event.shallow_migrate) (d.steps.foldl (engine_step sl) e)
      have hsplit : cnx_ids (d.steps.foldl (engine_step sl) e).primary =
          (cnx_ids (d.steps.foldl (engine_step sl) e).primary).take k ++
            (cnx_ids (d.steps.foldl (engine_step sl) e).primary).drop k :=
        (List.take_append_drop k _).symm
      rw [hsplit, ← g1, ← g2, List.append_assoc] at hnd1
      have hmem1 : ∀ x, x ∈ cnx_ids (d.steps.foldl (engine_step sl) e).primary →
          x ∈ cnx_ids e.primary ++ run_accepted_ids (d :: ds) := by
        intro x hx
        have := hperm.subset hx
        show x ∈ cnx_ids e.primary ++ (accepted_ids d.steps ++ run_accepted_ids ds)
        simp only [List.mem_append] at this ⊢
        rcases this with h | h
        · exact Or.inr (Or.inl h)
        · exact Or.inl h
      have hg2 : ∀ x ∈ (migrate_calls ((master_iteration c cb m
          { d.o with cnx_list := (d.steps.foldl (engine_step sl) e).cnx_list }).2.count
            Event.shallow_migrate) (d.steps.foldl (engine_step sl) e)).2,
          x ∈ cnx_ids e.primary ++ run_accepted_ids (d :: ds) := by
        intro x hx
        rw [g1] at hx
        exact hmem1 x (List.mem_of_mem_take hx)
      rw [dual_run]
      simp only [h0, if_true]
      cases hr : (master_iteration c cb m
          { d.o with cnx_list := (d.steps.foldl (engine_step sl) e).cnx_list }).1 with
      | none =>
        simp only
        exact ⟨(List.nodup_append.1 hnd1).1, hg2, hlen⟩
      | some m1 =>
        simp only
        obtain ⟨i1, i2, i3⟩ := ih m1 _ (List.nodup_append.1 hnd1).2.1
        refine ⟨?_, ?_, ?_⟩
        · rw [List.nodup_append]
          refine ⟨(List.nodup_append.1 hnd1).1, i1, ?_⟩
          intro x hx1 hx2
          exact (List.nodup_append.1 hnd1).2.2 hx1 (i2 x hx2)
        · intro x hx
          rcases List.mem_append.1 hx with h | h
          · exact hg2 x h
          · have := i2 x h
            rw [g2] at this
            show x ∈ cnx_ids e.primary ++ (accepted_ids d.steps ++ run_accepted_ids ds)
            rcases List.mem_append.1 this with h1 | h1
            · have := hmem1 x (List.mem_of_mem_drop h1)
              exact this
            · simp only [List.mem_append]
              exact Or.inr (Or.inr h1)
        · rw [List.length_append, List.count_append, hlen, i3]
    · rw [dual_run]
      simp only [h0, if_false]
      exact ⟨List.nodup_nil, fun x hx => by simp at hx, rfl⟩

/-- C24: over any run of the master loop together with the engines and
`sample_server_migration_callback`, in which the connections have distinct
identities (`hfresh`) and stream data and other events are delivered to the
callbacks of the connections in any number and order, before and after their
migration: every call of `picoquic_shallow_migrate` the loop makes is made for
one connection, the first of the primary engine at that time, and no
connection has it made for it twice. -/
theorem shallow_migrate_once (c : Platform) (cb : Bool) (sl : SampleLayout)
    (ds : List DualOutcome) (m : MasterState) (e : Engines)
    (hfresh : (cnx_ids e.primary ++ run_accepted_ids ds).Nodup) :
    (dual_run c cb sl ds m e).2.1.Nodup ∧
    (dual_run c cb sl ds m e).2.1.length =
      (dual_run c cb sl ds m e).1.count Event.shallow_migrate :=
  ⟨(dual_run_once c cb sl ds m e hfresh).1, (dual_run_once c cb sl ds m e hfresh).2.2⟩

/-- Witness of C24: on Linux the primary engine owns connection 1.  Its callback is given
stream data, which raises `migration_flag`; at the next datagram the loop
clears the flag and calls `picoquic_shallow_migrate`, and the backup owns the
connection.  The callback of connection 1 is given stream data again, which
raises the flag again (it is 1 at the end); at the next datagram the loop
makes no second call. -/
theorem shallow_migrate_once_witness :
    (dual_run linux false layout_256 dual_two_datagrams master_started engines_a).2.1 = [1] ∧
    (dual_run linux false layout_256 dual_two_datagrams master_started engines_a).1.count
      Event.shallow_migrate = 1 ∧
    (dual_run linux false layout_256 dual_two_datagrams master_started engines_a).2.2.backup.map
      (fun x => (x.cnx.id, x.callback_ctx.map (fun s => s.migration_flag))) = [(1, some 1)] ∧
    (dual_run linux false layout_256 dual_two_datagrams master_started
      engines_a).2.2.primary.length = 0 ∧
    (dual_run linux false layout_256 dual_two_datagrams master_started engines_a).2.1.Nodup :=
  ⟨by decide, by decide, by decide, by decide,
    (shallow_migrate_once linux false layout_256 dual_two_datagrams master_started engines_a
      (by decide)).1⟩

end Picoquic
